import Mathlib

/-!
# dwarf-viewer: a verification development of the DWARF decoders

Shallow embedding of the decoders of `src/dwarf.cpp` (with the helpers of
`src/binutil.h` and the string-table readers of `src/elf_parser.cpp`) and theorems about
them.

Conventions of the embedding.

* The ELF image `bin` is a list of byte values.  A read of `bin[i]` is `byteAt bin i`;
  the C++ code never checks a read against the image size, a read outside the list
  yields `0` in the model.
* A pointer `&bin[off]` is the pair of the image and the offset `off`.
* Machine integers are natural numbers reduced modulo `2 ^ w` by `u8`, `u16`, `u32`,
  `u64` wherever the C++ type truncates.
* A shift whose count reaches the width of the shifted type is undefined in C++; the
  model takes the behaviour of the x86-64 and AArch64 shift instructions, which use
  the count modulo the operand width (`shl64`, `shl32`).
* `std::string` is a list of byte values, `std::vector` a list, `std::map` a
  key-sorted association list (`StdMap`).  `v[i]` outside a vector yields the default
  element in the model.
* The members `Addr` and `Size` of the local `dwarfFuncInfo` of `ReadDebugInfo` have
  no initializer, and the registration of a DIE tests `Addr`: their values are
  indeterminate.  The model takes them from the run (`InfoEnv.uninit`, one pair for
  every DIE), so that a theorem about every run holds whatever they are.  The other
  plain members left without initializer by the C++ code start at zero in the model.
* `assert(false)` and a division by zero end the run with a `DwarfError`.
* Loops whose termination depends on the input take a `fuel` bound on the number of
  iterations; running out of it is the error `DwarfError.outOfFuel`.
-/

/-! ## Machine arithmetic and memory -/

/-- Truncation to `uint8_t`. -/
def u8 (n : Nat) : Nat := n % 2 ^ 8

/-- Truncation to `uint16_t`. -/
def u16 (n : Nat) : Nat := n % 2 ^ 16

/-- Truncation to `uint32_t`. -/
def u32 (n : Nat) : Nat := n % 2 ^ 32

/-- Truncation to `uint64_t`. -/
def u64 (n : Nat) : Nat := n % 2 ^ 64

/-- Subtraction of two `uint64_t` values, wrapping around. -/
def sub64 (a b : Nat) : Nat := u64 (a + (2 ^ 64 - b % 2 ^ 64))

/-- The byte `bin[i]` of the image, `0` outside it. -/
def byteAt (bin : List Nat) (i : Nat) : Nat := bin.getD i 0 % 256

/-- Left shift of a `uint64_t`; the count is taken modulo 64 as the hardware does. -/
def shl64 (x n : Nat) : Nat := (x * 2 ^ (n % 64)) % 2 ^ 64

/-- Left shift of the bit pattern of a 32-bit `int`; the count is taken modulo 32 as
the hardware does. -/
def shl32 (x n : Nat) : Nat := (x * 2 ^ (n % 32)) % 2 ^ 32

/-- Conversion of the bit pattern of a 32-bit `int` to the bit pattern of the
`int64_t` of the same value (sign extension). -/
def sext32to64 (x : Nat) : Nat := if x < 2 ^ 31 then x else x + (2 ^ 64 - 2 ^ 32)

/-- The value of a 64-bit two's complement bit pattern. -/
def toInt64 (x : Nat) : Int := if x < 2 ^ 63 then (x : Int) else (x : Int) - 2 ^ 64

/-- The bit pattern of an integer as a `uint64_t` (conversion of `int64_t` to
`uint64_t`). -/
def ofInt64 (x : Int) : Nat := (x % 2 ^ 64).toNat

/-- The value of a byte read as `int8_t`. -/
def toInt8 (x : Nat) : Int := if x % 256 < 128 then ((x % 256 : Nat) : Int) else ((x % 256 : Nat) : Int) - 256

/-- Ways in which a run of a decoder ends without a result. -/
inductive DwarfError where
  | arangeNotFound
  | unitTypeNotImplemented
  | notName
  | unexpectedAttr
  | opNotDecoded
  | unknownForm
  | unexpectedEntryFormat
  | unexpectedExtendedOpcode
  | endSequenceNotFound
  | divideByZero
  | outOfFuel
  deriving DecidableEq, Repr

/-! ## `std::map` with `uint64_t` keys -/

/-- A `std::map<uint64_t, V>`: an association list kept in key order. -/
abbrev StdMap (V : Type) := List (Nat × V)

namespace StdMap

/-- The lookup `m.find(k)`: the value stored under `k`, if any. -/
def find {V : Type} : StdMap V → Nat → Option V
  | [], _ => none
  | (k', v) :: m, k => if k' = k then some v else find m k

/-- The assignment `m[k] = v`. -/
def assign {V : Type} : StdMap V → Nat → V → StdMap V
  | [], k, v => [(k, v)]
  | (k', v') :: m, k, v =>
    if k = k' then (k, v) :: m
    else if k < k' then (k, v) :: (k', v') :: m
    else (k', v') :: assign m k v

/-- The read `m[k]`, which yields a value-initialized `V` for an absent key. -/
def getD {V : Type} [Inhabited V] (m : StdMap V) (k : Nat) : V := (find m k).getD default

end StdMap

/-- The bytes `xs` stand in the image from offset `off` on. -/
def bytesAt (bin : List Nat) : Nat → List Nat → Prop
  | _, [] => True
  | off, x :: xs => byteAt bin off = x ∧ bytesAt bin (off + 1) xs

/-! ## `binutil.h` -/

namespace BinUtil

/-- `BinUtil::FromLeToUInt16(&bin[off])`. -/
def FromLeToUInt16 (bin : List Nat) (off : Nat) : Nat :=
  u16 (byteAt bin (off + 1) * 2 ^ 8 + byteAt bin off)

/-- `BinUtil::FromLeToUInt32(&bin[off])`. -/
def FromLeToUInt32 (bin : List Nat) (off : Nat) : Nat :=
  u32 (byteAt bin (off + 3) * 2 ^ 24 + byteAt bin (off + 2) * 2 ^ 16
    + byteAt bin (off + 1) * 2 ^ 8 + byteAt bin off)

/-- `BinUtil::FromLeToUInt64(&bin[off])`. -/
def FromLeToUInt64 (bin : List Nat) (off : Nat) : Nat :=
  u64 (byteAt bin (off + 7) * 2 ^ 56 + byteAt bin (off + 6) * 2 ^ 48
    + byteAt bin (off + 5) * 2 ^ 40 + byteAt bin (off + 4) * 2 ^ 32
    + byteAt bin (off + 3) * 2 ^ 24 + byteAt bin (off + 2) * 2 ^ 16
    + byteAt bin (off + 1) * 2 ^ 8 + byteAt bin off)

/-- The loop of `BinUtil::GetString`: `rem` is `size - pos`, the number of bytes left
before the bound; the bytes are appended to `s` up to the first zero byte. -/
def GetString.loop (buf : List Nat) (base : Nat) : Nat → Nat → List Nat → List Nat
  | 0, _, s => s
  | rem + 1, pos, s =>
    if byteAt buf (base + pos) = 0 then s
    else GetString.loop buf base rem (pos + 1) (s ++ [byteAt buf (base + pos)])

/-- `BinUtil::GetString(&bin[base], size, pos)`. -/
def GetString (buf : List Nat) (base size pos : Nat) : List Nat :=
  GetString.loop buf base (size - pos) pos []

end BinUtil

namespace Dwarf

/-! ## LEB128 readers -/

/-- The loop of `Dwarf::ReaduLEB128`: `rem` is `size - pos`, the number of iterations
the condition `pos < size` still admits; the result is the final `(pos, val)`. -/
def ReaduLEB128.loop (bin : List Nat) (off : Nat) : Nat → Nat → Nat → Nat × Nat
  | 0, pos, val => (pos, val)
  | rem + 1, pos, val =>
    let tmp := byteAt bin (off + pos) &&& 0x7F
    let tmp := shl64 tmp (7 * pos)
    let val := u64 (val + tmp)
    if byteAt bin (off + pos) &&& 0x80 = 0 then (pos, val)
    else ReaduLEB128.loop bin off rem (pos + 1) val

/-- `Dwarf::ReaduLEB128(&bin[off], size, len)`: the pair of the returned value and of
the value left in `len`. -/
def ReaduLEB128 (bin : List Nat) (off size : Nat) : Nat × Nat :=
  let r := ReaduLEB128.loop bin off size 0 0
  (r.2, u32 (r.1 + 1))

/-- The loop of `Dwarf::ReadsLEB128`, on the bit pattern of `val`.  The mask
`~0 << (7 * (pos+1))` is computed in type `int` (32 bits) and then converted to
`int64_t`.  (`pos` is a `uint32_t`; the model follows the loop for the at most `size`
iterations it makes while `pos` does not wrap.) -/
def ReadsLEB128.loop (bin : List Nat) (off : Nat) : Nat → Nat → Nat → Nat × Nat
  | 0, pos, val => (pos, val)
  | rem + 1, pos, val =>
    let tmp := byteAt bin (off + pos) &&& 0x7F
    let tmp := shl64 tmp (u32 (7 * pos))
    let val := u64 (val + tmp)
    if byteAt bin (off + pos) &&& 0x80 = 0 then
      if byteAt bin (off + pos) &&& 0x40 ≠ 0 then
        (pos, val ||| sext32to64 (shl32 0xFFFFFFFF (u32 (7 * (pos + 1)))))
      else (pos, val)
    else ReadsLEB128.loop bin off rem (pos + 1) val

/-- `Dwarf::ReadsLEB128(&bin[off], size, len)`: the pair of the returned value and of
the value left in `len`. -/
def ReadsLEB128 (bin : List Nat) (off size : Nat) : Int × Nat :=
  let r := ReadsLEB128.loop bin off size 0 0
  (toInt64 r.2, u32 (r.1 + 1))

/-! ## Constants of `dwarf.h` -/

/-- `DWARF_32BIT_FORMAT`. -/
def DWARF_32BIT_FORMAT : Nat := 0x01

/-- `DWARF_64BIT_FORMAT`. -/
def DWARF_64BIT_FORMAT : Nat := 0x02

/-- `DW_UT_compile`. -/
def DW_UT_compile : Nat := 0x01
/-- `DW_UT_type`. -/
def DW_UT_type : Nat := 0x02
/-- `DW_UT_partial`. -/
def DW_UT_partial : Nat := 0x03
/-- `DW_UT_skeleton`. -/
def DW_UT_skeleton : Nat := 0x04
/-- `DW_UT_split_compile`. -/
def DW_UT_split_compile : Nat := 0x05
/-- `DW_UT_split_type`. -/
def DW_UT_split_type : Nat := 0x06

/-- `DW_CHILDREN_yes`. -/
def DW_CHILDREN_yes : Nat := 0x01

/-- `DW_TAG_compile_unit`. -/
def DW_TAG_compile_unit : Nat := 0x11
/-- `DW_TAG_subprogram`. -/
def DW_TAG_subprogram : Nat := 0x2e

/-- `DW_AT_sibling`. -/
def DW_AT_sibling : Nat := 0x01
/-- `DW_AT_location`. -/
def DW_AT_location : Nat := 0x02
/-- `DW_AT_name`. -/
def DW_AT_name : Nat := 0x03
/-- `DW_AT_stmt_list`. -/
def DW_AT_stmt_list : Nat := 0x10
/-- `DW_AT_low_pc`. -/
def DW_AT_low_pc : Nat := 0x11
/-- `DW_AT_high_pc`. -/
def DW_AT_high_pc : Nat := 0x12
/-- `DW_AT_language`. -/
def DW_AT_language : Nat := 0x13
/-- `DW_AT_comp_dir`. -/
def DW_AT_comp_dir : Nat := 0x1b
/-- `DW_AT_producer`. -/
def DW_AT_producer : Nat := 0x25
/-- `DW_AT_decl_file`. -/
def DW_AT_decl_file : Nat := 0x3a
/-- `DW_AT_specification`. -/
def DW_AT_specification : Nat := 0x47
/-- `DW_AT_type`. -/
def DW_AT_type : Nat := 0x49
/-- `DW_AT_ranges`. -/
def DW_AT_ranges : Nat := 0x55
/-- `DW_AT_linkage_name`. -/
def DW_AT_linkage_name : Nat := 0x6e
/-- `DW_AT_MIPS_linkage_name`. -/
def DW_AT_MIPS_linkage_name : Nat := 0x2007
/-- `GNU_locviews`. -/
def GNU_locviews : Nat := 0x2137

/-- `DW_FORM_addr`. -/
def DW_FORM_addr : Nat := 0x01
/-- `DW_FORM_block2`. -/
def DW_FORM_block2 : Nat := 0x03
/-- `DW_FORM_block4`. -/
def DW_FORM_block4 : Nat := 0x04
/-- `DW_FORM_data2`. -/
def DW_FORM_data2 : Nat := 0x05
/-- `DW_FORM_data4`. -/
def DW_FORM_data4 : Nat := 0x06
/-- `DW_FORM_data8`. -/
def DW_FORM_data8 : Nat := 0x07
/-- `DW_FORM_string`. -/
def DW_FORM_string : Nat := 0x08
/-- `DW_FORM_block`. -/
def DW_FORM_block : Nat := 0x09
/-- `DW_FORM_block1`. -/
def DW_FORM_block1 : Nat := 0x0a
/-- `DW_FORM_data1`. -/
def DW_FORM_data1 : Nat := 0x0b
/-- `DW_FORM_flag`. -/
def DW_FORM_flag : Nat := 0x0c
/-- `DW_FORM_sdata`. -/
def DW_FORM_sdata : Nat := 0x0d
/-- `DW_FORM_strp`. -/
def DW_FORM_strp : Nat := 0x0e
/-- `DW_FORM_udata`. -/
def DW_FORM_udata : Nat := 0x0f
/-- `DW_FORM_ref1`. -/
def DW_FORM_ref1 : Nat := 0x11
/-- `DW_FORM_ref2`. -/
def DW_FORM_ref2 : Nat := 0x12
/-- `DW_FORM_ref4`. -/
def DW_FORM_ref4 : Nat := 0x13
/-- `DW_FORM_sec_offset`. -/
def DW_FORM_sec_offset : Nat := 0x17
/-- `DW_FORM_exprloc`. -/
def DW_FORM_exprloc : Nat := 0x18
/-- `DW_FORM_flag_present`. -/
def DW_FORM_flag_present : Nat := 0x19
/-- `DW_FORM_line_strp`. -/
def DW_FORM_line_strp : Nat := 0x1f
/-- `DW_FORM_implicit_const`. -/
def DW_FORM_implicit_const : Nat := 0x21

/-! ## Data model of `dwarf.h` -/

/-- The fields of `Elf64_Shdr` the decoders use. -/
structure Elf64_Shdr where
  sh_offset : Nat
  sh_size : Nat
  deriving DecidableEq, Repr, Inhabited

/-- `DwarfArangeInfoHdr`. -/
structure DwarfArangeInfoHdr where
  UnitLength : Nat := 0
  DwarfFormat : Nat := 0
  Version : Nat := 0
  DebugInfoOffset : Nat := 0
  AddressSize : Nat := 0
  SegmentSize : Nat := 0
  deriving DecidableEq, Repr, Inhabited

/-- `DwarfSegmentInfo`. -/
structure DwarfSegmentInfo where
  Address : Nat
  Length : Nat
  deriving DecidableEq, Repr, Inhabited

/-- `DwarfArangeInfo`. -/
structure DwarfArangeInfo where
  Header : DwarfArangeInfoHdr := {}
  Segments : List DwarfSegmentInfo := []
  deriving DecidableEq, Repr, Inhabited

/-- `AbbrevAttr`. -/
structure AbbrevAttr where
  Attr : Nat
  Form : Nat
  Const : Nat
  deriving DecidableEq, Repr, Inhabited

/-- `Abbrev`. -/
structure Abbrev where
  Id : Nat := 0
  Tag : Nat := 0
  HasChildren : Bool := false
  Attrs : List AbbrevAttr := []
  deriving DecidableEq, Repr, Inhabited

/-- `DwarfCuHdr`. -/
structure DwarfCuHdr where
  UnitLength : Nat := 0
  DwarfFormat : Nat := 0
  Version : Nat := 0
  UnitType : Nat := 0
  DebugAbbrevOffset : Nat := 0
  AddressSize : Nat := 0
  UnitID : Nat := 0
  TypeSignature : Nat := 0
  TypeOffset : Nat := 0
  deriving DecidableEq, Repr, Inhabited

/-! ## `Dwarf::ReadAranges` -/

/-- The header part of one iteration of `Dwarf::ReadAranges` (lines 17-67): decodes the
header that starts at `headerTop` and yields the header, the cursor after the padding
(where the segments are read from) and `nextHdrTop`. -/
def ReadAranges.header (bin : List Nat) (headerTop : Nat) :
    Except DwarfError (DwarfArangeInfoHdr × Nat × Nat) :=
  let offset := headerTop
  let hdrSize := 0
  let tmp := BinUtil.FromLeToUInt32 bin offset
  let offset := u64 (offset + 4)
  let hdrSize := u64 (hdrSize + 4)
  let unitLength := if tmp < 0xFFFFFF00 then tmp else BinUtil.FromLeToUInt64 bin offset
  let dwarfFormat := if tmp < 0xFFFFFF00 then DWARF_32BIT_FORMAT else DWARF_64BIT_FORMAT
  let hdrSize := if tmp < 0xFFFFFF00 then hdrSize else u64 (hdrSize + 8)
  let offset := if tmp < 0xFFFFFF00 then offset else u64 (offset + 8)
  let nextHdrTop := u64 (headerTop + hdrSize + unitLength)
  let version := BinUtil.FromLeToUInt16 bin offset
  let offset := u64 (offset + 2)
  let debugInfoOffset := BinUtil.FromLeToUInt32 bin offset
  let offset := u64 (offset + 4)
  let addressSize := byteAt bin offset
  let offset := u64 (offset + 1)
  let segmentSize := byteAt bin offset
  let offset := u64 (offset + 1)
  let alighnmentSize := addressSize
  if alighnmentSize = 0 then .error .divideByZero
  else
    let paddingSize := sub64 alighnmentSize (sub64 offset headerTop % alighnmentSize)
    let offset := u64 (offset + paddingSize)
    .ok ({ UnitLength := unitLength, DwarfFormat := dwarfFormat, Version := version,
           DebugInfoOffset := debugInfoOffset, AddressSize := addressSize,
           SegmentSize := segmentSize }, offset, nextHdrTop)

/-- The segment loop of `Dwarf::ReadAranges` (lines 74-110): reads (address, length)
pairs from `offset` on until the pair of zeros; yields the segments and the cursor
after the pair of zeros. -/
def ReadAranges.segments (bin : List Nat) (addressSize : Nat) :
    Nat → Nat → List DwarfSegmentInfo → Except DwarfError (List DwarfSegmentInfo × Nat)
  | 0, _, _ => .error .outOfFuel
  | fuel + 1, offset, segs =>
    if addressSize = 8 then
      let address := BinUtil.FromLeToUInt64 bin offset
      let offset := u64 (offset + 8)
      let length := BinUtil.FromLeToUInt64 bin offset
      let offset := u64 (offset + 8)
      if address = 0 ∧ length = 0 then .ok (segs, offset)
      else ReadAranges.segments bin addressSize fuel offset
        (segs ++ [{ Address := address, Length := length }])
    else
      let address := BinUtil.FromLeToUInt32 bin offset
      let offset := u64 (offset + 4)
      let length := BinUtil.FromLeToUInt32 bin offset
      let offset := u64 (offset + 4)
      if address = 0 ∧ length = 0 then .ok (segs, offset)
      else ReadAranges.segments bin addressSize fuel offset
        (segs ++ [{ Address := address, Length := length }])

/-- The outer loop of `Dwarf::ReadAranges`; `inner` is the fuel of each segment loop. -/
def ReadAranges.loop (bin : List Nat) (sectionEnd inner : Nat) :
    Nat → Nat → StdMap DwarfArangeInfo → Except DwarfError (StdMap DwarfArangeInfo)
  | 0, _, _ => .error .outOfFuel
  | fuel + 1, offset, arrangesMap =>
    if offset < sectionEnd then
      match ReadAranges.header bin offset with
      | .error e => .error e
      | .ok (arangeInfoHdr, offset, nextHdrTop) =>
        match ReadAranges.segments bin arangeInfoHdr.AddressSize inner offset [] with
        | .error e => .error e
        | .ok (segments, offset) =>
          let offset := if nextHdrTop ≠ offset then u64 (offset + sub64 nextHdrTop offset)
            else offset
          ReadAranges.loop bin sectionEnd inner fuel offset
            (arrangesMap.assign arangeInfoHdr.DebugInfoOffset
              { Header := arangeInfoHdr, Segments := segments })
    else .ok arrangesMap

/-- `Dwarf::ReadAranges(bin, size, arrangesShdr)`. -/
def ReadAranges (fuel : Nat) (bin : List Nat) (arrangesShdr : Elf64_Shdr) :
    Except DwarfError (StdMap DwarfArangeInfo) :=
  ReadAranges.loop bin (u64 (arrangesShdr.sh_offset + arrangesShdr.sh_size)) fuel fuel
    arrangesShdr.sh_offset []

/-! ## `Dwarf::ReadAbbrevTbl` -/

/-- The attribute loop of `Dwarf::ReadAbbrevTbl` (lines 150-176); yields the attribute
descriptors and the cursor after the closing pair. -/
def ReadAbbrevTbl.attrs (bin : List Nat) (secEndPos : Nat) :
    Nat → Nat → List AbbrevAttr → Except DwarfError (List AbbrevAttr × Nat)
  | 0, _, _ => .error .outOfFuel
  | fuel + 1, offset, attrs =>
    let r := ReaduLEB128 bin offset (sub64 secEndPos offset)
    let attrCode := r.1
    let offset := u64 (offset + r.2)
    let r := ReaduLEB128 bin offset (sub64 secEndPos offset)
    let formCode := r.1
    let offset := u64 (offset + r.2)
    if attrCode = 0 ∧ formCode = 0 then .ok (attrs, offset)
    else
      let r := ReaduLEB128 bin offset (sub64 secEndPos offset)
      let Const := if formCode = DW_FORM_implicit_const then r.1 else 0
      let offset := if formCode = DW_FORM_implicit_const then u64 (offset + r.2) else offset
      ReadAbbrevTbl.attrs bin secEndPos fuel offset
        (attrs ++ [{ Attr := attrCode, Form := formCode, Const := Const }])

/-- The outer loop of `Dwarf::ReadAbbrevTbl`; yields the table and the final cursor;
`inner` is the fuel of each attribute loop. -/
def ReadAbbrevTbl.loop (bin : List Nat) (secEndPos inner : Nat) :
    Nat → Nat → List Abbrev → Except DwarfError (List Abbrev × Nat)
  | 0, _, _ => .error .outOfFuel
  | fuel + 1, offset, abbrevTbl =>
    if offset < secEndPos then
      let r := ReaduLEB128 bin offset (sub64 secEndPos offset)
      let id := r.1
      let offset := u64 (offset + r.2)
      if id = 0 then .ok (abbrevTbl, offset)
      else
        let r := ReaduLEB128 bin offset (sub64 secEndPos offset)
        let tag := r.1
        let offset := u64 (offset + r.2)
        let hasChildren := byteAt bin offset
        let offset := u64 (offset + 1)
        match ReadAbbrevTbl.attrs bin secEndPos inner offset [] with
        | .error e => .error e
        | .ok (attrs, offset) =>
          ReadAbbrevTbl.loop bin secEndPos inner fuel offset
            (abbrevTbl ++ [{ Id := id, Tag := tag,
                             HasChildren := decide (hasChildren = DW_CHILDREN_yes),
                             Attrs := attrs }])
    else .ok (abbrevTbl, offset)

/-- `Dwarf::ReadAbbrevTbl(bin, size, dbgAbbrevShdr, dbgAbbrevOffset)`. -/
def ReadAbbrevTbl (fuel : Nat) (bin : List Nat) (dbgAbbrevShdr : Elf64_Shdr)
    (dbgAbbrevOffset : Nat) : Except DwarfError (List Abbrev) :=
  (ReadAbbrevTbl.loop bin (u64 (dbgAbbrevShdr.sh_offset + dbgAbbrevShdr.sh_size)) fuel fuel
    dbgAbbrevOffset []).map Prod.fst

/-! ## `Dwarf::readCompilationUnitHeader` -/

/-- The body of `Dwarf::readCompilationUnitHeader`: the header decoded at `offset`,
together with the final value of the local cursor. -/
def readCompilationUnitHeader.go (bin : List Nat) (offset : Nat) :
    Except DwarfError (DwarfCuHdr × Nat) :=
  let tmp := BinUtil.FromLeToUInt32 bin offset
  let offset := u64 (offset + 4)
  let unitLength := if tmp < 0xFFFFFF00 then tmp else BinUtil.FromLeToUInt64 bin offset
  let dwarfFormat := if tmp < 0xFFFFFF00 then DWARF_32BIT_FORMAT else DWARF_64BIT_FORMAT
  let offset := if tmp < 0xFFFFFF00 then offset else u64 (offset + 8)
  let version := BinUtil.FromLeToUInt16 bin offset
  let offset := u64 (offset + 2)
  let cuh : DwarfCuHdr :=
    { UnitLength := unitLength, DwarfFormat := dwarfFormat, Version := version }
  if version < 5 then
    let debugAbbrevOffset := BinUtil.FromLeToUInt32 bin offset
    let offset := u64 (offset + 4)
    let addressSize := byteAt bin offset
    let offset := u64 (offset + 1)
    .ok ({ cuh with DebugAbbrevOffset := debugAbbrevOffset, AddressSize := addressSize },
      offset)
  else
    let unitType := byteAt bin offset
    let offset := u64 (offset + 1)
    let addressSize := byteAt bin offset
    let offset := u64 (offset + 1)
    let debugAbbrevOffset := BinUtil.FromLeToUInt32 bin offset
    let offset := u64 (offset + 4)
    let cuh : DwarfCuHdr :=
      { cuh with UnitType := unitType, AddressSize := addressSize,
                 DebugAbbrevOffset := debugAbbrevOffset }
    if unitType = DW_UT_compile ∨ unitType = DW_UT_partial ∨ unitType = DW_UT_skeleton
        ∨ unitType = DW_UT_split_compile then
      .ok ({ cuh with UnitID := BinUtil.FromLeToUInt64 bin offset }, u64 (offset + 8))
    else if unitType = DW_UT_type ∨ unitType = DW_UT_split_type then
      let offset := u64 (offset + 8)
      let cuh := { cuh with TypeSignature := BinUtil.FromLeToUInt64 bin offset }
      if dwarfFormat = DWARF_32BIT_FORMAT then
        .ok ({ cuh with TypeOffset := BinUtil.FromLeToUInt32 bin offset }, u64 (offset + 8))
      else
        .ok ({ cuh with TypeOffset := BinUtil.FromLeToUInt64 bin offset }, offset)
    else .error .unitTypeNotImplemented

/-- `Dwarf::readCompilationUnitHeader(bin, size, offset)`. -/
def readCompilationUnitHeader (bin : List Nat) (offset : Nat) : Except DwarfError DwarfCuHdr :=
  (readCompilationUnitHeader.go bin offset).map Prod.fst

/-! ## `Dwarf::ReadDebugInfo` -/

/-- `DwarfFuncInfo` (`dwarf.h`, lines 586-593).  The C++ struct gives `Addr` and `Size`
no initializer; the defaults `0` of the two fields serve the record notation only, the
DIE loop starts its record with `InfoEnv.freshFuncInfo`. -/
structure DwarfFuncInfo where
  SrcFilePath : List Nat := []
  Name : List Nat := []
  LinkageName : List Nat := []
  Addr : Nat := 0
  Size : Nat := 0
  deriving DecidableEq, Repr, Inhabited

/-- `DwarfCuDebugInfo`. -/
structure DwarfCuDebugInfo where
  FileName : List Nat := []
  Producer : List Nat := []
  Language : List Nat := []
  CompileDir : List Nat := []
  Funcs : StdMap DwarfFuncInfo := []
  deriving DecidableEq, Repr, Inhabited

/-- `DwarfCuDebugInfo::IsRust()`: `Language == "Rust"`. -/
def DwarfCuDebugInfo.IsRust (cu : DwarfCuDebugInfo) : Bool :=
  decide (cu.Language = [0x52, 0x75, 0x73, 0x74])

/-- The Rust file-name rule of `ReadDebugInfo`: `str.substr(0, str.find_last_of("@"))`
when the string holds a `'@'` (byte `0x40`), the string itself otherwise. -/
def stripAfterLastAt (str : List Nat) : List Nat :=
  match (List.range str.length).reverse.find? (fun i => str.getD i 0 == 0x40) with
  | some idx => str.take idx
  | none => str

/-- The arguments of `Dwarf::ReadDebugInfo` that stay fixed during a run, and the
indeterminate values of the run: `uninit off` is the pair of the values that the
members `Addr` and `Size` of the local `dwarfFuncInfo`, declared without initializer
(line 253), hold when the DIE at the cursor `off` is decoded. -/
structure InfoEnv where
  bin : List Nat
  size : Nat
  dbgInfoShdr : Elf64_Shdr
  dbgStrShdr : Elf64_Shdr
  dbgLineStrShdr : Elf64_Shdr
  dbgAbbrevShdr : Elf64_Shdr
  offsetArangeMap : StdMap DwarfArangeInfo
  uninit : Nat → Nat × Nat

/-- `dbgInfoEnd`, the end of `.debug_info`. -/
def InfoEnv.dbgInfoEnd (env : InfoEnv) : Nat :=
  u64 (env.dbgInfoShdr.sh_offset + env.dbgInfoShdr.sh_size)

/-- The local `DwarfFuncInfo dwarfFuncInfo;` of the DIE loop (line 253) as its
declaration leaves it for the DIE at the cursor `offset`: the three strings are empty,
`Addr` (a `uint64_t`) and `Size` (a `uint32_t`) hold the indeterminate values
`env.uninit offset`. -/
def InfoEnv.freshFuncInfo (env : InfoEnv) (offset : Nat) : DwarfFuncInfo :=
  { SrcFilePath := [], Name := [], LinkageName := [],
    Addr := u64 (env.uninit offset).1, Size := u32 (env.uninit offset).2 }

/-- The variables an attribute of a DIE may change. -/
structure AttrState where
  offset : Nat
  dwarfFuncInfo : DwarfFuncInfo
  cuDbgInfo : DwarfCuDebugInfo
  cuLineInfoOffset : Nat
  deriving DecidableEq, Repr, Inhabited

/-- The DWARF expression opcodes that `ReadDebugInfo` accepts without operand. -/
def exprlocNoOperand (ins : Nat) : Bool :=
  ins == 0x06 || ins == 0x13 || ins == 0x14 || ins == 0x16
    || (0x19 ≤ ins && ins ≤ 0x22) || (0x24 ≤ ins && ins ≤ 0x27)
    || (0x29 ≤ ins && ins ≤ 0x2e) || ins == 0x9c
    || (0x30 ≤ ins && ins ≤ 0x6f) || ins == 0x9f

/-- The `for (uint32_t i = 0; i < length; i++)` loop of the `DW_FORM_exprloc` case
(lines 642-977); `addressSize` is `curArrangeInfo.Header.AddressSize`; yields the final
cursor. -/
def exprlocLoop (env : InfoEnv) (addressSize length : Nat) :
    Nat → Nat → Nat → Except DwarfError Nat
  | 0, _, _ => .error .outOfFuel
  | fuel + 1, i, offset =>
    if i < length then
      let ins := byteAt env.bin offset
      let i := u32 (i + 1)
      let offset := u64 (offset + 1)
      if 0xe0 ≤ ins ∧ ins ≤ 0xff then
        let offset := u64 (offset + sub64 length i)
        let i := u32 (i + sub64 length i)
        exprlocLoop env addressSize length fuel (u32 (i + 1)) offset
      else if ins = 0x03 then
        exprlocLoop env addressSize length fuel (u32 (u32 (i + addressSize) + 1))
          (u64 (offset + addressSize))
      else if exprlocNoOperand ins then
        exprlocLoop env addressSize length fuel (u32 (i + 1)) offset
      else if ins = 0x08 ∨ ins = 0x09 ∨ ins = 0x94 then
        exprlocLoop env addressSize length fuel (u32 (u32 (i + 1) + 1)) (u64 (offset + 1))
      else if ins = 0x0a ∨ ins = 0x0b ∨ ins = 0x2f ∨ ins = 0x28 then
        exprlocLoop env addressSize length fuel (u32 (u32 (i + 2) + 1)) (u64 (offset + 2))
      else if ins = 0x0c ∨ ins = 0x0d then
        exprlocLoop env addressSize length fuel (u32 (u32 (i + 4) + 1)) (u64 (offset + 4))
      else if ins = 0x0e ∨ ins = 0x0f then
        exprlocLoop env addressSize length fuel (u32 (u32 (i + 8) + 1)) (u64 (offset + 8))
      else if ins = 0x10 ∨ ins = 0x11 ∨ ins = 0x91 ∨ (0x70 ≤ ins ∧ ins ≤ 0x8f) then
        let len := (ReadsLEB128 env.bin offset (sub64 env.dbgInfoEnd offset)).2
        exprlocLoop env addressSize length fuel (u32 (u32 (i + len) + 1)) (u64 (offset + len))
      else if ins = 0x23 then
        let len := (ReaduLEB128 env.bin offset (sub64 env.dbgInfoEnd offset)).2
        exprlocLoop env addressSize length fuel (u32 (u32 (i + len) + 1)) (u64 (offset + len))
      else if ins = 0x9e then
        let r := ReaduLEB128 env.bin offset (sub64 env.dbgInfoEnd offset)
        let offset := u64 (offset + r.2)
        let offset := u64 (offset + r.1)
        let i := u32 (i + env.size)
        let i := u32 (i + r.1)
        exprlocLoop env addressSize length fuel (u32 (i + 1)) offset
      else .error .opNotDecoded
    else .ok offset

/-- The body of the `switch (attr.Form)` of `Dwarf::ReadDebugInfo` (lines 259-1051):
decodes one attribute of a DIE of abbreviation `abbrev` in the CU that starts at
`cuTop`. -/
def decodeAttr (env : InfoEnv) (fuel : Nat) (cuh : DwarfCuHdr) (cuTop : Nat)
    (curArrangeInfo : DwarfArangeInfo) (cppTmpFuncMap : StdMap DwarfFuncInfo)
    (abbrv : Abbrev) (attr : AbbrevAttr) (st : AttrState) : Except DwarfError AttrState :=
  let bin := env.bin
  let offset := st.offset
  let dwarfFuncInfo := st.dwarfFuncInfo
  let cuDbgInfo := st.cuDbgInfo
  if attr.Form = DW_FORM_addr then
    let funcaddr :=
      if cuh.AddressSize = 2 then BinUtil.FromLeToUInt16 bin offset
      else if cuh.AddressSize = 4 then BinUtil.FromLeToUInt32 bin offset
      else if cuh.AddressSize = 8 then BinUtil.FromLeToUInt64 bin offset
      else 0
    let dwarfFuncInfo :=
      if attr.Attr = DW_AT_low_pc then { dwarfFuncInfo with Addr := funcaddr } else dwarfFuncInfo
    .ok { st with offset := u64 (offset + cuh.AddressSize), dwarfFuncInfo := dwarfFuncInfo }
  else if attr.Form = DW_FORM_block2 then
    let blk2 := BinUtil.FromLeToUInt16 bin offset
    .ok { st with offset := u64 (u64 (offset + 2) + blk2) }
  else if attr.Form = DW_FORM_block4 then
    let blk4 := BinUtil.FromLeToUInt32 bin offset
    .ok { st with offset := u64 (u64 (offset + 4) + blk4) }
  else if attr.Form = DW_FORM_strp then
    let dbgStrOffset := BinUtil.FromLeToUInt32 bin offset
    let offset := u64 (offset + 4)
    let str := BinUtil.GetString bin env.dbgStrShdr.sh_offset env.dbgStrShdr.sh_size dbgStrOffset
    let cuPart : Except DwarfError DwarfCuDebugInfo :=
      if abbrv.Tag = DW_TAG_compile_unit then
        if attr.Attr = DW_AT_name then
          .ok { cuDbgInfo with
                FileName := if cuDbgInfo.IsRust then stripAfterLastAt str else str }
        else if attr.Attr = DW_AT_comp_dir then .ok { cuDbgInfo with CompileDir := str }
        else if attr.Attr = DW_AT_producer then .ok { cuDbgInfo with Producer := str }
        else .error .notName
      else .ok cuDbgInfo
    match cuPart with
    | .error e => .error e
    | .ok cuDbgInfo =>
      if abbrv.Tag = DW_TAG_subprogram then
        if attr.Attr = DW_AT_name then
          .ok { st with offset := offset, cuDbgInfo := cuDbgInfo,
                        dwarfFuncInfo := { dwarfFuncInfo with Name := str } }
        else if attr.Attr = DW_AT_linkage_name then
          .ok { st with offset := offset, cuDbgInfo := cuDbgInfo,
                        dwarfFuncInfo := { dwarfFuncInfo with LinkageName := str } }
        else if attr.Attr = DW_AT_MIPS_linkage_name then
          .ok { st with offset := offset, cuDbgInfo := cuDbgInfo,
                        dwarfFuncInfo := { dwarfFuncInfo with Name := str } }
        else .error .notName
      else .ok { st with offset := offset, cuDbgInfo := cuDbgInfo }
  else if attr.Form = DW_FORM_data1 then
    .ok { st with offset := u64 (offset + 1) }
  else if attr.Form = DW_FORM_data2 then
    let val := BinUtil.FromLeToUInt16 bin offset
    let dwarfFuncInfo :=
      if attr.Attr = DW_AT_high_pc then { dwarfFuncInfo with Size := val } else dwarfFuncInfo
    .ok { st with offset := u64 (offset + 2), dwarfFuncInfo := dwarfFuncInfo }
  else if attr.Form = DW_FORM_data4 then
    let val := BinUtil.FromLeToUInt32 bin offset
    let dwarfFuncInfo :=
      if attr.Attr = DW_AT_high_pc then { dwarfFuncInfo with Size := val } else dwarfFuncInfo
    .ok { st with offset := u64 (offset + 4), dwarfFuncInfo := dwarfFuncInfo }
  else if attr.Form = DW_FORM_data8 then
    let val := u32 (BinUtil.FromLeToUInt64 bin offset)
    let dwarfFuncInfo :=
      if attr.Attr = DW_AT_high_pc then { dwarfFuncInfo with Size := val } else dwarfFuncInfo
    .ok { st with offset := u64 (offset + 8), dwarfFuncInfo := dwarfFuncInfo }
  else if attr.Form = DW_FORM_string then
    let str := BinUtil.GetString bin 0 env.dbgInfoEnd offset
    let offset := u64 (offset + u64 (str.length + 1))
    if abbrv.Tag = DW_TAG_subprogram then
      if attr.Attr = DW_AT_name then
        .ok { st with offset := offset, dwarfFuncInfo := { dwarfFuncInfo with Name := str } }
      else if attr.Attr = DW_AT_linkage_name then
        .ok { st with offset := offset,
                      dwarfFuncInfo := { dwarfFuncInfo with LinkageName := str } }
      else .error .notName
    else .ok { st with offset := offset }
  else if attr.Form = DW_FORM_block then
    let len := (ReaduLEB128 bin offset (sub64 env.dbgInfoEnd offset)).2
    .ok { st with offset := u64 (offset + len) }
  else if attr.Form = DW_FORM_block1 then
    let blockLen := byteAt bin offset
    .ok { st with offset := u64 (u64 (offset + 1) + blockLen) }
  else if attr.Form = DW_FORM_flag then
    .ok { st with offset := u64 (offset + 1) }
  else if attr.Form = DW_FORM_sdata ∨ attr.Form = DW_FORM_udata then
    let len := (ReaduLEB128 bin offset (sub64 env.dbgInfoEnd offset)).2
    .ok { st with offset := u64 (offset + len) }
  else if attr.Form = DW_FORM_ref1 then
    .ok { st with offset := u64 (offset + 1) }
  else if attr.Form = DW_FORM_ref2 then
    .ok { st with offset := u64 (offset + 2) }
  else if attr.Form = DW_FORM_ref4 then
    let val := BinUtil.FromLeToUInt32 bin offset
    let refval := u64 (cuTop + val)
    let funcOffset := sub64 refval env.dbgInfoShdr.sh_offset
    let dwarfFuncInfo :=
      if attr.Attr = DW_AT_specification then
        match cppTmpFuncMap.find funcOffset with
        | some f => f
        | none => dwarfFuncInfo
      else dwarfFuncInfo
    .ok { st with offset := u64 (offset + 4), dwarfFuncInfo := dwarfFuncInfo }
  else if attr.Form = DW_FORM_sec_offset then
    if attr.Attr = DW_AT_stmt_list then
      .ok { st with offset := u64 (offset + 4),
                    cuLineInfoOffset := BinUtil.FromLeToUInt32 bin offset }
    else if attr.Attr = DW_AT_ranges ∨ attr.Attr = DW_AT_location ∨ attr.Attr = GNU_locviews then
      if cuh.DwarfFormat = DWARF_32BIT_FORMAT then .ok { st with offset := u64 (offset + 4) }
      else .ok { st with offset := u64 (offset + 8) }
    else .error .unexpectedAttr
  else if attr.Form = DW_FORM_exprloc then
    let r := ReaduLEB128 bin offset (sub64 env.dbgInfoEnd offset)
    let length := r.1
    let offset := u64 (offset + r.2)
    match exprlocLoop env curArrangeInfo.Header.AddressSize length fuel 0 offset with
    | .error e => .error e
    | .ok offset => .ok { st with offset := offset }
  else if attr.Form = DW_FORM_flag_present then
    .ok st
  else if attr.Form = DW_FORM_line_strp then
    let strOffset :=
      if cuh.DwarfFormat = DWARF_32BIT_FORMAT then BinUtil.FromLeToUInt32 bin offset
      else BinUtil.FromLeToUInt64 bin offset
    let offset :=
      if cuh.DwarfFormat = DWARF_32BIT_FORMAT then u64 (offset + 4) else u64 (offset + 8)
    let name :=
      BinUtil.GetString bin env.dbgLineStrShdr.sh_offset env.dbgLineStrShdr.sh_size strOffset
    if abbrv.Tag = DW_TAG_compile_unit then
      if attr.Attr = DW_AT_name then
        .ok { st with offset := offset,
                      cuDbgInfo := { cuDbgInfo with
                        FileName := if cuDbgInfo.IsRust then stripAfterLastAt name else name } }
      else if attr.Attr = DW_AT_comp_dir then
        .ok { st with offset := offset, cuDbgInfo := { cuDbgInfo with CompileDir := name } }
      else .error .notName
    else .ok { st with offset := offset }
  else if attr.Form = DW_FORM_implicit_const then
    .ok st
  else .error .unknownForm

/-- The loop over `abbrev.Attrs` of `Dwarf::ReadDebugInfo` (line 254). -/
def decodeAttrs (env : InfoEnv) (fuel : Nat) (cuh : DwarfCuHdr) (cuTop : Nat)
    (curArrangeInfo : DwarfArangeInfo) (cppTmpFuncMap : StdMap DwarfFuncInfo)
    (abbrv : Abbrev) : List AbbrevAttr → AttrState → Except DwarfError AttrState
  | [], st => .ok st
  | attr :: attrs, st =>
    match decodeAttr env fuel cuh cuTop curArrangeInfo cppTmpFuncMap abbrv attr st with
    | .error e => .error e
    | .ok st => decodeAttrs env fuel cuh cuTop curArrangeInfo cppTmpFuncMap abbrv attrs st

/-- The variables of `Dwarf::ReadDebugInfo` that live across DIEs and CUs. -/
structure InfoState where
  offset : Nat
  cuDbgInfo : DwarfCuDebugInfo
  cuLineInfoOffset : Nat
  cppTmpFuncMap : StdMap DwarfFuncInfo
  deriving DecidableEq, Repr, Inhabited

/-- The registration of a finished DIE (lines 1053-1084): a subprogram goes to
`cuDbgInfo.Funcs` under its address or to the pending declarations `cppTmpFuncMap`
under the offset of its DIE. -/
def registerDie (abbrv : Abbrev) (entryOffset : Nat) (dwarfFuncInfo : DwarfFuncInfo)
    (cuDbgInfo : DwarfCuDebugInfo) (cppTmpFuncMap : StdMap DwarfFuncInfo) :
    DwarfCuDebugInfo × StdMap DwarfFuncInfo :=
  if abbrv.Tag = DW_TAG_subprogram then
    if dwarfFuncInfo.Name = [] ∧ cuDbgInfo.Funcs.find dwarfFuncInfo.Addr = none then
      (cuDbgInfo, cppTmpFuncMap.assign entryOffset dwarfFuncInfo)
    else if dwarfFuncInfo.Addr ≠ 0 then
      ({ cuDbgInfo with Funcs := cuDbgInfo.Funcs.assign dwarfFuncInfo.Addr dwarfFuncInfo },
        cppTmpFuncMap)
    else (cuDbgInfo, cppTmpFuncMap.assign entryOffset dwarfFuncInfo)
  else (cuDbgInfo, cppTmpFuncMap)

/-- The computation of `cuEnd` (lines 232-237); `offset` and `cuTop` are the locals of
those names. -/
def cuEndOf (cuh : DwarfCuHdr) (offset cuTop : Nat) : Nat :=
  let cuEnd := u64 (cuh.UnitLength + 4)
  let cuEnd :=
    if cuh.DwarfFormat = DWARF_64BIT_FORMAT then u64 (offset + u64 (cuh.UnitLength + 8))
    else cuEnd
  u64 (cuEnd + cuTop)

/-- The DIE loop `while (offset < cuEnd)` of `Dwarf::ReadDebugInfo` (lines 241-1086).
`abbrevMap[id]` is read with `StdMap.getD`: for an absent code the C++ map inserts and
yields a value-initialized `Abbrev`.  The record `dwarfFuncInfo` of a DIE starts as
`env.freshFuncInfo`, with indeterminate `Addr` and `Size`. -/
def dieLoop (env : InfoEnv) (inner : Nat) (cuh : DwarfCuHdr) (cuTop cuEnd : Nat)
    (curArrangeInfo : DwarfArangeInfo) (abbrevMap : StdMap Abbrev) :
    Nat → InfoState → Except DwarfError InfoState
  | 0, _ => .error .outOfFuel
  | fuel + 1, st =>
    if st.offset < cuEnd then
      let offset := st.offset
      let entryOffset := sub64 offset env.dbgInfoShdr.sh_offset
      let r := ReaduLEB128 env.bin offset (sub64 env.dbgInfoEnd offset)
      let id := r.1
      if id = 0 then
        dieLoop env inner cuh cuTop cuEnd curArrangeInfo abbrevMap fuel
          { st with offset := u64 (offset + 1) }
      else
        let abbrv := abbrevMap.getD id
        let offset := u64 (offset + r.2)
        match decodeAttrs env inner cuh cuTop curArrangeInfo st.cppTmpFuncMap abbrv
            abbrv.Attrs
            { offset := offset, dwarfFuncInfo := env.freshFuncInfo st.offset,
              cuDbgInfo := st.cuDbgInfo, cuLineInfoOffset := st.cuLineInfoOffset } with
        | .error e => .error e
        | .ok a =>
          let reg := registerDie abbrv entryOffset a.dwarfFuncInfo a.cuDbgInfo st.cppTmpFuncMap
          dieLoop env inner cuh cuTop cuEnd curArrangeInfo abbrevMap fuel
            { offset := a.offset, cuDbgInfo := reg.1,
              cuLineInfoOffset := a.cuLineInfoOffset, cppTmpFuncMap := reg.2 }
    else .ok st

/-- The CU loop `while (offset < dbgInfoEnd)` of `Dwarf::ReadDebugInfo`; the state is
the cursor, `cuLineInfoOffset` and `cppTmpFuncMap` (declared outside the loop) and the
list `dbgInfos` built so far. -/
def cuLoop (env : InfoEnv) (inner : Nat) :
    Nat → Nat → Nat → StdMap DwarfFuncInfo → List DwarfCuDebugInfo →
    Except DwarfError (List DwarfCuDebugInfo)
  | 0, _, _, _, _ => .error .outOfFuel
  | fuel + 1, offset, cuLineInfoOffset, cppTmpFuncMap, dbgInfos =>
    if offset < env.dbgInfoEnd then
      let cuTop := offset
      let dbgInfoOffset := sub64 offset env.dbgInfoShdr.sh_offset
      match env.offsetArangeMap.find dbgInfoOffset with
      | none => .error .arangeNotFound
      | some curArrangeInfo =>
        match readCompilationUnitHeader env.bin offset with
        | .error e => .error e
        | .ok cuh =>
          let dbgAbbrevOffset := u64 (cuh.DebugAbbrevOffset + env.dbgAbbrevShdr.sh_offset)
          match ReadAbbrevTbl inner env.bin env.dbgAbbrevShdr dbgAbbrevOffset with
          | .error e => .error e
          | .ok abbrevTbl =>
            let abbrevMap : StdMap Abbrev :=
              abbrevTbl.foldl (fun m a => m.assign a.Id a) []
            let cuEnd := cuEndOf cuh offset cuTop
            let offset := u64 (offset + 11)
            match dieLoop env inner cuh cuTop cuEnd curArrangeInfo abbrevMap inner
                { offset := offset, cuDbgInfo := {}, cuLineInfoOffset := cuLineInfoOffset,
                  cppTmpFuncMap := cppTmpFuncMap } with
            | .error e => .error e
            | .ok st =>
              cuLoop env inner fuel st.offset st.cuLineInfoOffset st.cppTmpFuncMap
                (dbgInfos ++ [st.cuDbgInfo])
    else .ok dbgInfos

/-- `Dwarf::ReadDebugInfo(bin, size, dbgInfoShdr, dbgStrShdr, dbgLineStrShdr,
dbgAbbrevShdr, offsetArangeMap, offsetLineInfoMap)`.  The argument `offsetLineInfoMap`
is left out: the function reads it for log messages only.  The last argument `uninit`
gives the indeterminate values of the run (`InfoEnv.uninit`). -/
def ReadDebugInfo (fuel : Nat) (bin : List Nat) (size : Nat)
    (dbgInfoShdr dbgStrShdr dbgLineStrShdr dbgAbbrevShdr : Elf64_Shdr)
    (offsetArangeMap : StdMap DwarfArangeInfo) (uninit : Nat → Nat × Nat) :
    Except DwarfError (List DwarfCuDebugInfo) :=
  cuLoop { bin := bin, size := size, dbgInfoShdr := dbgInfoShdr, dbgStrShdr := dbgStrShdr,
           dbgLineStrShdr := dbgLineStrShdr, dbgAbbrevShdr := dbgAbbrevShdr,
           offsetArangeMap := offsetArangeMap, uninit := uninit }
    fuel fuel dbgInfoShdr.sh_offset 0 [] []

/-! ## The line number program: `Dwarf::readLineNumberProgram` -/

/-- `FileNameInfo`. -/
structure FileNameInfo where
  Name : List Nat := []
  DirIdx : Nat := 0
  LastModified : Nat := 0
  Size : Nat := 0
  deriving DecidableEq, Repr, Inhabited

/-- `EntryFormat`. -/
structure EntryFormat where
  TypeCode : Nat
  FormCode : Nat
  deriving DecidableEq, Repr, Inhabited

/-- `DwarfLineInfoHdr`; `LineBase` is the value of the `int8_t` field. -/
structure DwarfLineInfoHdr where
  UnitLength : Nat := 0
  DwarfFormat : Nat := 0
  Version : Nat := 0
  HeaderLength : Nat := 0
  AddressSize : Nat := 0
  SegmentSelectorSize : Nat := 0
  MinInstLength : Nat := 0
  MaxInstLength : Nat := 0
  DefaultIsStmt : Nat := 0
  LineBase : Int := 0
  LineRange : Nat := 0
  OpcodeBase : Nat := 0
  StdOpcodeLengths : List Nat := []
  DirectoryEntryFormatCount : Nat := 0
  DirectoryEntryFormats : List EntryFormat := []
  DirectoriesCount : Nat := 0
  Directories : List (List Nat) := []
  FileNameEntryFormatCount : Nat := 0
  FileNameEntryFormats : List EntryFormat := []
  FileNamesCount : Nat := 0
  IncludeDirs : List (List Nat) := []
  Files : List FileNameInfo := []
  deriving DecidableEq, Repr, Inhabited

/-- `LineNumberStateMachine`. -/
structure LineNumberStateMachine where
  Address : Nat
  OpIndex : Nat
  File : Nat
  Line : Nat
  Column : Nat
  IsStmt : Bool
  BasicBlock : Bool
  EndSequence : Bool
  PrologueEnd : Bool
  EpilogueBegin : Bool
  Isa : Nat
  Discriminator : Nat
  deriving DecidableEq, Repr, Inhabited

/-- The constructor `LineNumberStateMachine(defaultIsStmt)`.  (`EpilogueBegin` and
`Discriminator` are not in its initializer list.) -/
def LineNumberStateMachine.init (defaultIsStmt : Nat) : LineNumberStateMachine :=
  { Address := 0, OpIndex := 0, File := 1, Line := 1, Column := 0,
    IsStmt := decide (defaultIsStmt = 1), BasicBlock := false, EndSequence := false,
    PrologueEnd := false, EpilogueBegin := false, Isa := 0, Discriminator := 0 }

/-- `LineAddrInfo` (`elf_parser.h`). -/
structure LineAddrInfo where
  Line : Nat := 0
  Addr : Nat := 0
  IsStmt : Bool := false
  SrcDirName : List Nat := []
  SrcFileName : List Nat := []
  deriving DecidableEq, Repr, Inhabited

/-- `ElfFunctionInfo` (`elf_parser.h`). -/
structure ElfFunctionInfo where
  Name : List Nat := []
  SrcDirName : List Nat := []
  SrcFileName : List Nat := []
  Addr : Nat := 0
  Size : Nat := 0
  SecName : List Nat := []
  LineAddrs : StdMap LineAddrInfo := []
  deriving DecidableEq, Repr, Inhabited

/-- `ElfFunctionTable` (`elf_parser.h`). -/
structure ElfFunctionTable where
  Path : List Nat := []
  ElfFuncInfos : List ElfFunctionInfo := []
  AddrFuncIdxMap : StdMap Nat := []
  deriving DecidableEq, Repr, Inhabited

/-- `Dwarf::addFuncAddrLineInfo(lineInfoHdr, lnsm, funcAddr, elfFuncInfos)`: the
function table after the call. -/
def addFuncAddrLineInfo (lineInfoHdr : DwarfLineInfoHdr) (lnsm : LineNumberStateMachine)
    (funcAddr : Nat) (elfFuncInfos : ElfFunctionTable) : ElfFunctionTable :=
  let file := lineInfoHdr.Files.getD (sub64 lnsm.File 1) default
  match elfFuncInfos.AddrFuncIdxMap.find funcAddr with
  | none => elfFuncInfos
  | some funcIdx =>
    let elfFuncInfo := elfFuncInfos.ElfFuncInfos.getD funcIdx default
    let elfFuncInfo := { elfFuncInfo with SrcDirName := [], SrcFileName := file.Name }
    let lineAddr : LineAddrInfo :=
      { Line := lnsm.Line, Addr := lnsm.Address, IsStmt := lnsm.IsStmt }
    if 5 ≤ lineInfoHdr.Version then
      let dir := lineInfoHdr.IncludeDirs.getD file.DirIdx []
      let lineAddr := { lineAddr with SrcDirName := dir }
      let elfFuncInfo := { elfFuncInfo with SrcDirName := dir }
      let elfFuncInfo :=
        { elfFuncInfo with LineAddrs := elfFuncInfo.LineAddrs.assign lnsm.Line lineAddr }
      { elfFuncInfos with ElfFuncInfos := elfFuncInfos.ElfFuncInfos.set funcIdx elfFuncInfo }
    else
      let dir := lineInfoHdr.IncludeDirs.getD (sub64 file.DirIdx 1) []
      let lineAddr := if file.DirIdx < 1 then lineAddr else { lineAddr with SrcDirName := dir }
      let elfFuncInfo :=
        if file.DirIdx < 1 then elfFuncInfo else { elfFuncInfo with SrcDirName := dir }
      let elfFuncInfo :=
        { elfFuncInfo with LineAddrs := elfFuncInfo.LineAddrs.assign lnsm.Line lineAddr }
      { elfFuncInfos with ElfFuncInfos := elfFuncInfos.ElfFuncInfos.set funcIdx elfFuncInfo }

/-- The variables of the loop of `Dwarf::readLineNumberProgram`. -/
structure LineState where
  offset : Nat
  curFuncAddr : Nat
  lnsm : LineNumberStateMachine
  endOfSeq : Bool
  elfFuncTable : ElfFunctionTable
  deriving DecidableEq, Repr, Inhabited

/-- The `case 0x00` of the opcode switch (lines 1487-1552): an extended opcode, read at
the cursor `offset` (already past the byte `0x00`). -/
def lnpExtended (bin : List Nat) (lineInfoHdr : DwarfLineInfoHdr) (lnpStart lnpEnd : Nat)
    (st : LineState) : Except DwarfError LineState :=
  let offset := st.offset
  let r := ReaduLEB128 bin (lnpStart + offset) (sub64 lnpEnd offset)
  let tmp := r.1
  let offset := u64 (offset + r.2)
  let extendedOpcode := byteAt bin (lnpStart + offset)
  let offset := u64 (offset + 1)
  if extendedOpcode = 0x01 then
    .ok { st with offset := offset,
                  lnsm := LineNumberStateMachine.init lineInfoHdr.DefaultIsStmt,
                  endOfSeq := true }
  else if extendedOpcode = 0x02 then
    let addrSize := sub64 tmp 1
    let address :=
      if addrSize = 8 then BinUtil.FromLeToUInt64 bin (lnpStart + offset)
      else BinUtil.FromLeToUInt32 bin (lnpStart + offset)
    .ok { st with offset := u64 (offset + sub64 tmp 1),
                  lnsm := { st.lnsm with Address := address }, curFuncAddr := address }
  else if extendedOpcode = 0x03 then
    .ok { st with offset := u64 (offset + sub64 tmp 1) }
  else if extendedOpcode = 0x04 then
    let r := ReaduLEB128 bin (lnpStart + offset) (sub64 lnpEnd offset)
    .ok { st with offset := u64 (offset + r.2),
                  lnsm := { st.lnsm with Discriminator := r.1 } }
  else if extendedOpcode = 0x80 ∨ extendedOpcode = 0xFF then
    .ok { st with offset := u64 (offset + sub64 tmp 1) }
  else .error .unexpectedExtendedOpcode

/-- The `default:` case of the opcode switch (lines 1641-1666): a special opcode. -/
def lnpSpecial (lineInfoHdr : DwarfLineInfoHdr) (opcode : Nat) (st : LineState) :
    Except DwarfError LineState :=
  let adjOpcode := u8 (opcode + (2 ^ 8 - lineInfoHdr.OpcodeBase % 2 ^ 8))
  if lineInfoHdr.LineRange = 0 then .error .divideByZero
  else
    let addrInc := (adjOpcode / lineInfoHdr.LineRange) * lineInfoHdr.MinInstLength
    let lineInc : Int := lineInfoHdr.LineBase + ((adjOpcode % lineInfoHdr.LineRange : Nat) : Int)
    let lnsm := st.lnsm
    let lnsm := { lnsm with Line := ofInt64 ((lnsm.Line : Int) + lineInc) }
    let addr := u64 (lnsm.Address + addrInc)
    let lnsm := { lnsm with Address := addr, BasicBlock := false, PrologueEnd := false,
                            EpilogueBegin := false }
    let curFuncAddr := lnsm.Address
    let elfFuncTable :=
      if lnsm.IsStmt then addFuncAddrLineInfo lineInfoHdr lnsm curFuncAddr st.elfFuncTable
      else st.elfFuncTable
    .ok { st with lnsm := lnsm, curFuncAddr := curFuncAddr, elfFuncTable := elfFuncTable }

/-- One iteration of the loop of `Dwarf::readLineNumberProgram` (lines 1466-1667). -/
def lnpStep (bin : List Nat) (lineInfoHdr : DwarfLineInfoHdr) (lnpStart lnpEnd : Nat)
    (st : LineState) : Except DwarfError LineState :=
  let st := { st with endOfSeq := false }
  let opcode := byteAt bin (lnpStart + st.offset)
  let offset := u64 (st.offset + 1)
  let st := { st with offset := offset }
  let lnsm := st.lnsm
  if opcode = 0x00 then lnpExtended bin lineInfoHdr lnpStart lnpEnd st
  else if opcode = 0x01 then
    let elfFuncTable :=
      if lnsm.IsStmt then addFuncAddrLineInfo lineInfoHdr lnsm st.curFuncAddr st.elfFuncTable
      else st.elfFuncTable
    .ok { st with elfFuncTable := elfFuncTable,
                  lnsm := { lnsm with BasicBlock := false, PrologueEnd := false,
                                      EpilogueBegin := false } }
  else if opcode = 0x02 then
    let r := ReaduLEB128 bin (lnpStart + offset) (sub64 lnpEnd offset)
    .ok { st with offset := u64 (offset + r.2),
                  lnsm := { lnsm with
                    Address := u64 (lnsm.Address + u64 (r.1 * lineInfoHdr.MinInstLength)) } }
  else if opcode = 0x03 then
    let r := ReadsLEB128 bin (lnpStart + offset) (sub64 lnpEnd offset)
    .ok { st with offset := u64 (offset + r.2),
                  lnsm := { lnsm with Line := ofInt64 ((lnsm.Line : Int) + r.1) } }
  else if opcode = 0x04 then
    let r := ReaduLEB128 bin (lnpStart + offset) (sub64 lnpEnd offset)
    .ok { st with offset := u64 (offset + r.2), lnsm := { lnsm with File := r.1 } }
  else if opcode = 0x05 then
    let r := ReaduLEB128 bin (lnpStart + offset) (sub64 lnpEnd offset)
    .ok { st with offset := u64 (offset + r.2), lnsm := { lnsm with Column := r.1 } }
  else if opcode = 0x06 then
    .ok { st with lnsm := { lnsm with IsStmt := !lnsm.IsStmt } }
  else if opcode = 0x07 then
    .ok { st with lnsm := { lnsm with BasicBlock := true } }
  else if opcode = 0x08 then
    let adjOpcode := u8 (opcode + (2 ^ 8 - lineInfoHdr.OpcodeBase % 2 ^ 8))
    if lineInfoHdr.LineRange = 0 then .error .divideByZero
    else
      let addrInc := (adjOpcode / lineInfoHdr.LineRange) * lineInfoHdr.MinInstLength
      .ok { st with lnsm := { lnsm with Address := u64 (lnsm.Address + addrInc) } }
  else if opcode = 0x09 then
    let address := BinUtil.FromLeToUInt16 bin (lnpStart + offset)
    .ok { st with offset := u64 (offset + 2),
                  lnsm := { lnsm with Address := u64 (lnsm.Address + address), OpIndex := 0 } }
  else if opcode = 0x0A then
    .ok { st with lnsm := { lnsm with PrologueEnd := true } }
  else if opcode = 0x0B then
    .ok { st with lnsm := { lnsm with EpilogueBegin := true } }
  else if opcode = 0x0C then
    let r := ReadsLEB128 bin (lnpStart + offset) (sub64 lnpEnd offset)
    .ok { st with offset := u64 (offset + r.2) }
  else lnpSpecial lineInfoHdr opcode st

/-- The loop `while (offset < length)` of `Dwarf::readLineNumberProgram`. -/
def lnpLoop (bin : List Nat) (lineInfoHdr : DwarfLineInfoHdr) (lnpStart lnpEnd : Nat) :
    Nat → LineState → Except DwarfError LineState
  | 0, _ => .error .outOfFuel
  | fuel + 1, st =>
    if st.offset < sub64 lnpEnd lnpStart then
      match lnpStep bin lineInfoHdr lnpStart lnpEnd st with
      | .error e => .error e
      | .ok st => lnpLoop bin lineInfoHdr lnpStart lnpEnd fuel st
    else .ok st

/-- `Dwarf::readLineNumberProgram(bin, size, fileName, lineInfoHdr, lnpStart, lnpEnd,
elfFuncTable)`: the function table after the call. -/
def readLineNumberProgram (fuel : Nat) (bin : List Nat) (lineInfoHdr : DwarfLineInfoHdr)
    (lnpStart lnpEnd : Nat) (elfFuncTable : ElfFunctionTable) :
    Except DwarfError ElfFunctionTable :=
  match lnpLoop bin lineInfoHdr lnpStart lnpEnd fuel
      { offset := 0, curFuncAddr := 0,
        lnsm := LineNumberStateMachine.init lineInfoHdr.DefaultIsStmt,
        endOfSeq := false, elfFuncTable := elfFuncTable } with
  | .error e => .error e
  | .ok st => if st.endOfSeq then .ok st.elfFuncTable else .error .endSequenceNotFound

/-! ## `Dwarf::ReadLineInfo` -/

/-- `DW_LNCT_path`. -/
def DW_LNCT_path : Nat := 0x1

/-- `DW_LNCT_directory_index`. -/
def DW_LNCT_directory_index : Nat := 0x2

/-- The fixed fields of a line-number header (lines 1103-1177), from the initial length
to `standard_opcode_lengths`: the header with these fields set and the cursor after
them.  (`HeaderLength` is read with `FromLeToUInt32` in both formats; the loop of
`standard_opcode_lengths` makes `(uint32_t)OpcodeBase - 1` iterations.) -/
def ReadLineInfo.fixedFields (bin : List Nat) (hdrOffset : Nat) : DwarfLineInfoHdr × Nat :=
  let offset := hdrOffset
  let tmp := BinUtil.FromLeToUInt32 bin offset
  let offset := u64 (offset + 4)
  let UnitLength := if tmp < 0xffffff00 then tmp else BinUtil.FromLeToUInt64 bin offset
  let DwarfFormat := if tmp < 0xffffff00 then DWARF_32BIT_FORMAT else DWARF_64BIT_FORMAT
  let offset := if tmp < 0xffffff00 then offset else u64 (offset + 8)
  let Version := BinUtil.FromLeToUInt16 bin offset
  let offset := u64 (offset + 2)
  let AddressSize := if 5 ≤ Version then byteAt bin offset else 0
  let SegmentSelectorSize := if 5 ≤ Version then byteAt bin (u64 (offset + 1)) else 0
  let offset := if 5 ≤ Version then u64 (u64 (offset + 1) + 1) else offset
  let HeaderLength := BinUtil.FromLeToUInt32 bin offset
  let offset := u64 (offset + 4)
  let MinInstLength := byteAt bin offset
  let offset := u64 (offset + 1)
  let MaxInstLength := if 4 ≤ Version then byteAt bin offset else 0
  let offset := if 4 ≤ Version then u64 (offset + 1) else offset
  let DefaultIsStmt := byteAt bin offset
  let offset := u64 (offset + 1)
  let LineBase := toInt8 (byteAt bin offset)
  let offset := u64 (offset + 1)
  let LineRange := byteAt bin offset
  let offset := u64 (offset + 1)
  let OpcodeBase := byteAt bin offset
  let offset := u64 (offset + 1)
  let count := u32 (OpcodeBase + (2 ^ 32 - 1))
  let StdOpcodeLengths := (List.range count).map (fun i => byteAt bin (u64 (offset + i)))
  let offset := u64 (offset + count)
  ({ UnitLength := UnitLength, DwarfFormat := DwarfFormat, Version := Version,
     HeaderLength := HeaderLength, AddressSize := AddressSize,
     SegmentSelectorSize := SegmentSelectorSize, MinInstLength := MinInstLength,
     MaxInstLength := MaxInstLength, DefaultIsStmt := DefaultIsStmt, LineBase := LineBase,
     LineRange := LineRange, OpcodeBase := OpcodeBase,
     StdOpcodeLengths := StdOpcodeLengths }, offset)

/-- The loops that read the entry formats of a Version 5 header (lines 1190-1198 and
1249-1257): `count` pairs of unsigned LEB128 numbers. -/
def ReadLineInfo.entryFormats (bin : List Nat) (sectionEnd : Nat) :
    Nat → Nat → List EntryFormat → List EntryFormat × Nat
  | 0, offset, formats => (formats, offset)
  | count + 1, offset, formats =>
    let r := ReaduLEB128 bin offset (sub64 sectionEnd offset)
    let typeCode := r.1
    let offset := u64 (offset + r.2)
    let r := ReaduLEB128 bin offset (sub64 sectionEnd offset)
    let formCode := r.1
    let offset := u64 (offset + r.2)
    ReadLineInfo.entryFormats bin sectionEnd count offset
      (formats ++ [{ TypeCode := typeCode, FormCode := formCode }])

/-- The read of a `DW_FORM_line_strp` operand (lines 1217-1233 and 1277-1293): the
offset, of four or eight bytes by the format, goes through the `uint32_t tmp`; the
result is the string found in `.debug_line_str` and the cursor after the operand. -/
def ReadLineInfo.lineStrp (bin : List Nat) (debugLineStrShdr : Elf64_Shdr)
    (dwarfFormat offset : Nat) : List Nat × Nat :=
  let strOffset :=
    if dwarfFormat = DWARF_32BIT_FORMAT then BinUtil.FromLeToUInt32 bin offset
    else u32 (BinUtil.FromLeToUInt64 bin offset)
  let offset := if dwarfFormat = DWARF_32BIT_FORMAT then u64 (offset + 4) else u64 (offset + 8)
  let strSecEndPos := u64 (debugLineStrShdr.sh_offset + debugLineStrShdr.sh_size)
  (BinUtil.GetString bin debugLineStrShdr.sh_offset strSecEndPos strOffset, offset)

/-- The loop over the entry formats for one directory of a Version 5 header (lines
1205-1242); the formats are the `DirectoryEntryFormatCount` elements of
`DirectoryEntryFormats`. -/
def ReadLineInfo.directoryEntry (bin : List Nat) (debugLineStrShdr : Elf64_Shdr)
    (dwarfFormat : Nat) :
    List EntryFormat → Nat → List (List Nat) → Except DwarfError (List (List Nat) × Nat)
  | [], offset, includeDirs => .ok (includeDirs, offset)
  | f :: formats, offset, includeDirs =>
    if f.TypeCode = DW_LNCT_path then
      if f.FormCode = DW_FORM_line_strp then
        let r := ReadLineInfo.lineStrp bin debugLineStrShdr dwarfFormat offset
        ReadLineInfo.directoryEntry bin debugLineStrShdr dwarfFormat formats r.2
          (includeDirs ++ [r.1])
      else
        ReadLineInfo.directoryEntry bin debugLineStrShdr dwarfFormat formats offset
          (includeDirs ++ [[]])
    else .error .unexpectedEntryFormat

/-- The loop over the directories of a Version 5 header (lines 1203-1243); the counter
`i` is a `uint32_t`, the count a `uint64_t`. -/
def ReadLineInfo.directories (bin : List Nat) (debugLineStrShdr : Elf64_Shdr)
    (dwarfFormat : Nat) (formats : List EntryFormat) (directoriesCount : Nat) :
    Nat → Nat → Nat → List (List Nat) → Except DwarfError (List (List Nat) × Nat)
  | 0, _, _, _ => .error .outOfFuel
  | fuel + 1, i, offset, includeDirs =>
    if i < directoriesCount then
      match ReadLineInfo.directoryEntry bin debugLineStrShdr dwarfFormat formats offset
          includeDirs with
      | .error e => .error e
      | .ok (includeDirs, offset) =>
        ReadLineInfo.directories bin debugLineStrShdr dwarfFormat formats directoriesCount
          fuel (u32 (i + 1)) offset includeDirs
    else .ok (includeDirs, offset)

/-- The loop over the entry formats for one file of a Version 5 header (lines
1266-1341); the state is the cursor, `fileNameInfo` and `fileIdx`. -/
def ReadLineInfo.fileEntry (bin : List Nat) (sectionEnd : Nat) (debugLineStrShdr : Elf64_Shdr)
    (dwarfFormat : Nat) :
    List EntryFormat → Nat → FileNameInfo → Nat → Except DwarfError (FileNameInfo × Nat)
  | [], offset, fileNameInfo, _ => .ok (fileNameInfo, offset)
  | f :: formats, offset, fileNameInfo, fileIdx =>
    if f.TypeCode = DW_LNCT_path then
      if f.FormCode = DW_FORM_line_strp then
        let r := ReadLineInfo.lineStrp bin debugLineStrShdr dwarfFormat offset
        ReadLineInfo.fileEntry bin sectionEnd debugLineStrShdr dwarfFormat formats r.2
          { fileNameInfo with Name := r.1 } fileIdx
      else .error .unexpectedEntryFormat
    else if f.TypeCode = DW_LNCT_directory_index then
      if f.FormCode = DW_FORM_data1 then
        let fileIdx := byteAt bin offset
        ReadLineInfo.fileEntry bin sectionEnd debugLineStrShdr dwarfFormat formats
          (u64 (offset + 1)) { fileNameInfo with DirIdx := fileIdx } fileIdx
      else if f.FormCode = DW_FORM_data2 then
        let fileIdx := u64 (fileIdx + BinUtil.FromLeToUInt16 bin offset)
        ReadLineInfo.fileEntry bin sectionEnd debugLineStrShdr dwarfFormat formats
          (u64 (offset + 2)) { fileNameInfo with DirIdx := fileIdx } fileIdx
      else if f.FormCode = DW_FORM_udata then
        let r := ReaduLEB128 bin offset (sub64 sectionEnd offset)
        ReadLineInfo.fileEntry bin sectionEnd debugLineStrShdr dwarfFormat formats
          (u64 (offset + r.2)) { fileNameInfo with DirIdx := r.1 } r.1
      else .error .unexpectedEntryFormat
    else .error .unexpectedEntryFormat

/-- The loop over the files of a Version 5 header (lines 1262-1344); the counter `i` is
a `uint32_t`, the count a `uint64_t`. -/
def ReadLineInfo.fileNames (bin : List Nat) (sectionEnd : Nat) (debugLineStrShdr : Elf64_Shdr)
    (dwarfFormat : Nat) (formats : List EntryFormat) (fileNamesCount : Nat) :
    Nat → Nat → Nat → List FileNameInfo → Except DwarfError (List FileNameInfo × Nat)
  | 0, _, _, _ => .error .outOfFuel
  | fuel + 1, i, offset, files =>
    if i < fileNamesCount then
      match ReadLineInfo.fileEntry bin sectionEnd debugLineStrShdr dwarfFormat formats offset
          {} 0 with
      | .error e => .error e
      | .ok (fileNameInfo, offset) =>
        ReadLineInfo.fileNames bin sectionEnd debugLineStrShdr dwarfFormat formats
          fileNamesCount fuel (u32 (i + 1)) offset (files ++ [fileNameInfo])
    else .ok (files, offset)

/-- The loop `include_directories` of a header of Version 4 or less (lines 1365-1376):
null-terminated strings up to an empty one. -/
def ReadLineInfo.includeDirectories (bin : List Nat) (sectionEnd : Nat) :
    Nat → Nat → List (List Nat) → Except DwarfError (List (List Nat) × Nat)
  | 0, _, _ => .error .outOfFuel
  | fuel + 1, offset, includeDirs =>
    let dirName := BinUtil.GetString bin offset (sub64 sectionEnd offset) 0
    let sLen := u32 dirName.length
    if sLen = 0 then .ok (includeDirs, u64 (offset + 1))
    else
      ReadLineInfo.includeDirectories bin sectionEnd fuel (u64 (offset + u32 (sLen + 1)))
        (includeDirs ++ [dirName])

/-- The loop `file_names` of a header of Version 4 or less (lines 1379-1407): a name,
then three unsigned LEB128 numbers, up to an empty name. -/
def ReadLineInfo.fileNamesV4 (bin : List Nat) (sectionEnd : Nat) :
    Nat → Nat → List FileNameInfo → Except DwarfError (List FileNameInfo × Nat)
  | 0, _, _ => .error .outOfFuel
  | fuel + 1, offset, files =>
    let name := BinUtil.GetString bin offset (sub64 sectionEnd offset) 0
    let sLen := u32 name.length
    if sLen = 0 then .ok (files, u64 (offset + 1))
    else
      let offset := u64 (offset + u32 (sLen + 1))
      let r := ReaduLEB128 bin offset (sub64 sectionEnd offset)
      let dirIdx := r.1
      let offset := u64 (offset + r.2)
      let r := ReaduLEB128 bin offset (sub64 sectionEnd offset)
      let lastModified := r.1
      let offset := u64 (offset + r.2)
      let r := ReaduLEB128 bin offset (sub64 sectionEnd offset)
      let fileSize := r.1
      let offset := u64 (offset + r.2)
      ReadLineInfo.fileNamesV4 bin sectionEnd fuel offset
        (files ++ [{ Name := name, DirIdx := dirIdx, LastModified := lastModified,
                     Size := fileSize }])

/-- The decoding of one line-number header (lines 1103-1344 and 1364-1407): the header
and the cursor after the file table, where the line number program starts. -/
def ReadLineInfo.header (fuel : Nat) (bin : List Nat) (sectionEnd : Nat)
    (debugLineStrShdr : Elf64_Shdr) (hdrOffset : Nat) :
    Except DwarfError (DwarfLineInfoHdr × Nat) :=
  let r := ReadLineInfo.fixedFields bin hdrOffset
  let lineInfoHdr := r.1
  let offset := r.2
  if 5 ≤ lineInfoHdr.Version then
    let directoryEntryFormatCount := byteAt bin offset
    let offset := u64 (offset + 1)
    let r := ReadLineInfo.entryFormats bin sectionEnd directoryEntryFormatCount offset []
    let directoryEntryFormats := r.1
    let offset := r.2
    let r := ReaduLEB128 bin offset (sub64 sectionEnd offset)
    let directoriesCount := r.1
    let offset := u64 (offset + r.2)
    match ReadLineInfo.directories bin debugLineStrShdr lineInfoHdr.DwarfFormat
        directoryEntryFormats directoriesCount fuel 0 offset [] with
    | .error e => .error e
    | .ok (includeDirs, offset) =>
      let fileNameEntryFormatCount := byteAt bin offset
      let offset := u64 (offset + 1)
      let r := ReadLineInfo.entryFormats bin sectionEnd fileNameEntryFormatCount offset []
      let fileNameEntryFormats := r.1
      let offset := r.2
      let r := ReaduLEB128 bin offset (sub64 sectionEnd offset)
      let fileNamesCount := r.1
      let offset := u64 (offset + r.2)
      match ReadLineInfo.fileNames bin sectionEnd debugLineStrShdr lineInfoHdr.DwarfFormat
          fileNameEntryFormats fileNamesCount fuel 0 offset [] with
      | .error e => .error e
      | .ok (files, offset) =>
        .ok ({ lineInfoHdr with
                 DirectoryEntryFormatCount := directoryEntryFormatCount,
                 DirectoryEntryFormats := directoryEntryFormats,
                 DirectoriesCount := directoriesCount,
                 FileNameEntryFormatCount := fileNameEntryFormatCount,
                 FileNameEntryFormats := fileNameEntryFormats,
                 FileNamesCount := fileNamesCount,
                 IncludeDirs := includeDirs, Files := files }, offset)
  else
    match ReadLineInfo.includeDirectories bin sectionEnd fuel offset [] with
    | .error e => .error e
    | .ok (includeDirs, offset) =>
      match ReadLineInfo.fileNamesV4 bin sectionEnd fuel offset [] with
      | .error e => .error e
      | .ok (files, offset) =>
        .ok ({ lineInfoHdr with IncludeDirs := includeDirs, Files := files }, offset)

/-- The end of a line-number unit as `Dwarf::ReadLineInfo` computes it (lines 1346-1354,
1409-1415 and, for the start of the next header, 1426-1434): `hdrOffset + UnitLength`
plus `4` in the 32-bit format, plus `8` otherwise. -/
def ReadLineInfo.endOffset (hdrOffset : Nat) (lineInfoHdr : DwarfLineInfoHdr) : Nat :=
  let endOffset := u64 (hdrOffset + lineInfoHdr.UnitLength)
  if lineInfoHdr.DwarfFormat = DWARF_32BIT_FORMAT then u64 (endOffset + 4)
  else u64 (endOffset + 8)

/-- The loop `while (hdrOffset < sectionEnd)` of `Dwarf::ReadLineInfo`; the state is
`hdrOffset`, the map `offsetLineInfoHdrMap` and the function table; `inner` is the fuel
of the loops of one unit. -/
def ReadLineInfo.loop (bin : List Nat) (debugLineShdr debugLineStrShdr : Elf64_Shdr)
    (inner : Nat) :
    Nat → Nat → StdMap DwarfLineInfoHdr → ElfFunctionTable →
    Except DwarfError (StdMap DwarfLineInfoHdr × ElfFunctionTable)
  | 0, _, _, _ => .error .outOfFuel
  | fuel + 1, hdrOffset, offsetLineInfoHdrMap, elfFuncTable =>
    let sectionEnd := u64 (debugLineShdr.sh_offset + debugLineShdr.sh_size)
    if hdrOffset < sectionEnd then
      match ReadLineInfo.header inner bin sectionEnd debugLineStrShdr hdrOffset with
      | .error e => .error e
      | .ok (lineInfoHdr, offset) =>
        let endOffset := ReadLineInfo.endOffset hdrOffset lineInfoHdr
        let r :=
          if 0 < sub64 endOffset offset then
            readLineNumberProgram inner bin lineInfoHdr offset endOffset elfFuncTable
          else .ok elfFuncTable
        match r with
        | .error e => .error e
        | .ok elfFuncTable =>
          let lineInfoHdrOffset := u32 (sub64 hdrOffset debugLineShdr.sh_offset)
          ReadLineInfo.loop bin debugLineShdr debugLineStrShdr inner fuel
            (ReadLineInfo.endOffset hdrOffset lineInfoHdr)
            (offsetLineInfoHdrMap.assign lineInfoHdrOffset lineInfoHdr) elfFuncTable
    else .ok (offsetLineInfoHdrMap, elfFuncTable)

/-- `Dwarf::ReadLineInfo(bin, size, debugLineShdr, debugLineStrShdr, elfFuncTable)`: the
returned map and the function table after the call. -/
def ReadLineInfo (fuel : Nat) (bin : List Nat) (debugLineShdr debugLineStrShdr : Elf64_Shdr)
    (elfFuncTable : ElfFunctionTable) :
    Except DwarfError (StdMap DwarfLineInfoHdr × ElfFunctionTable) :=
  ReadLineInfo.loop bin debugLineShdr debugLineStrShdr fuel fuel debugLineShdr.sh_offset []
    elfFuncTable

/-! ### The LEB128 encodings (DWARF standard, section 7.6) -/

/-- The canonical (shortest) unsigned LEB128 encoding of `x`: seven bits per byte, low
group first, bit 7 set on every byte but the last. -/
def encodeULEB128 (x : Nat) : List Nat :=
  if x < 128 then [x] else (x % 128 + 128) :: encodeULEB128 (x / 128)
decreasing_by omega

/-- The canonical signed LEB128 encoding of `x`, with `fuel` bounding the number of
bytes (ten bytes hold every 64-bit value): the encoding ends at the first group after
which the remaining value is all sign bits and agrees with bit 6 of the group. -/
def encodeSLEB128.go : Nat → Int → List Nat
  | 0, _ => []
  | fuel + 1, x =>
    let group := (x % 128).toNat
    let more := x / 128
    if (more = 0 ∧ group < 64) ∨ (more = -1 ∧ 64 ≤ group) then [group]
    else (group + 128) :: encodeSLEB128.go fuel more

/-- The canonical signed LEB128 encoding of a 64-bit value. -/
def encodeSLEB128 (x : Int) : List Nat := encodeSLEB128.go 10 x

/-! ### Wire forms used to state the theorems -/

/-- The two bytes of a little-endian `uhalf`. -/
def le16 (v : Nat) : List Nat := [v % 256, v / 256 % 256]

/-- The four bytes of a little-endian 32-bit value. -/
def le32 (v : Nat) : List Nat :=
  [v % 256, v / 2 ^ 8 % 256, v / 2 ^ 16 % 256, v / 2 ^ 24 % 256]

/-- The eight bytes of a little-endian 64-bit value. -/
def le64 (v : Nat) : List Nat :=
  [v % 256, v / 2 ^ 8 % 256, v / 2 ^ 16 % 256, v / 2 ^ 24 % 256,
   v / 2 ^ 32 % 256, v / 2 ^ 40 % 256, v / 2 ^ 48 % 256, v / 2 ^ 56 % 256]

/-- One abbreviation declaration as it is written in `.debug_abbrev`: the code, the
tag, the children byte and the (attribute, form) pairs. -/
structure AbbrevDecl where
  code : Nat
  tag : Nat
  children : Nat
  attrs : List (Nat × Nat)
  deriving DecidableEq, Repr

/-- The wire form of an attribute list: the pairs in unsigned LEB128, closed by the
pair `(0, 0)`. -/
def encodeAbbrevAttrs : List (Nat × Nat) → List Nat
  | [] => [0, 0]
  | p :: ps => encodeULEB128 p.1 ++ encodeULEB128 p.2 ++ encodeAbbrevAttrs ps

/-- The wire form of one abbreviation declaration. -/
def encodeAbbrevDecl (d : AbbrevDecl) : List Nat :=
  encodeULEB128 d.code ++ encodeULEB128 d.tag ++ [d.children] ++ encodeAbbrevAttrs d.attrs

/-- The wire form of the declarations of a table, without the closing code. -/
def encodeAbbrevDecls : List AbbrevDecl → List Nat
  | [] => []
  | d :: ds => encodeAbbrevDecl d ++ encodeAbbrevDecls ds

/-- The wire form of an abbreviation table: the declarations, closed by a zero code. -/
def encodeAbbrevTable (ds : List AbbrevDecl) : List Nat := encodeAbbrevDecls ds ++ [0]

/-- A well-formed declaration without `implicit_const` attribute: a nonzero code, all
values in 64 bits, a children byte, no pair `(0, 0)` among the attributes. -/
def AbbrevDecl.WellFormed (d : AbbrevDecl) : Prop :=
  d.code ≠ 0 ∧ d.code < 2 ^ 64 ∧ d.tag < 2 ^ 64 ∧ d.children < 256
    ∧ ∀ p ∈ d.attrs, p.1 < 2 ^ 64 ∧ p.2 < 2 ^ 64 ∧ ¬ (p.1 = 0 ∧ p.2 = 0)
        ∧ p.2 ≠ DW_FORM_implicit_const

instance (d : AbbrevDecl) : Decidable d.WellFormed := by
  unfold AbbrevDecl.WellFormed
  infer_instance

/-- The entry of the decoded table that a declaration stands for. -/
def AbbrevDecl.toAbbrev (d : AbbrevDecl) : Abbrev :=
  { Id := d.code, Tag := d.tag, HasChildren := decide (d.children = 1),
    Attrs := d.attrs.map (fun p => { Attr := p.1, Form := p.2, Const := 0 }) }

/-- One entry of `.debug_aranges` in the 32-bit format as it is written on the wire:
the header fields after the length, the segment pairs and the bytes (normally none)
that the unit holds after the closing pair of zeros. -/
structure ArangeEntry where
  version : Nat
  debugInfoOffset : Nat
  addressSize : Nat
  segmentSize : Nat
  segments : List (Nat × Nat)
  trailing : List Nat
  deriving DecidableEq, Repr

/-- The little-endian bytes of an address-sized value (8 bytes for address size 8,
4 bytes otherwise). -/
def leAddr (addressSize v : Nat) : List Nat := if addressSize = 8 then le64 v else le32 v

/-- The wire form of a segment list: the pairs, closed by a pair of zeros. -/
def encodeSegments (addressSize : Nat) : List (Nat × Nat) → List Nat
  | [] => leAddr addressSize 0 ++ leAddr addressSize 0
  | s :: segs => leAddr addressSize s.1 ++ leAddr addressSize s.2
      ++ encodeSegments addressSize segs

/-- The bytes of an entry after its length field: version, `debug_info_offset`,
address size, segment size, four bytes of padding (up to offset 16 of the entry), the
segments and the trailing bytes. -/
def ArangeEntry.body (e : ArangeEntry) : List Nat :=
  le16 e.version ++ (le32 e.debugInfoOffset ++ ([e.addressSize, e.segmentSize]
    ++ ([0, 0, 0, 0] ++ (encodeSegments e.addressSize e.segments ++ e.trailing))))

/-- The `unit_length` of an entry: the number of bytes after the length field. -/
def ArangeEntry.unitLength (e : ArangeEntry) : Nat := e.body.length

/-- The wire form of an entry. -/
def encodeArangeEntry (e : ArangeEntry) : List Nat := le32 e.unitLength ++ e.body

/-- The wire form of a `.debug_aranges` section. -/
def encodeAranges : List ArangeEntry → List Nat
  | [] => []
  | e :: es => encodeArangeEntry e ++ encodeAranges es

/-- A well-formed entry of the 32-bit format: fields in range, address size 4 or 8,
segment values of that size, no pair of zeros among the segments, a length below
`0xFFFFFF00`. -/
def ArangeEntry.WellFormed (e : ArangeEntry) : Prop :=
  e.version < 2 ^ 16 ∧ e.debugInfoOffset < 2 ^ 32 ∧ (e.addressSize = 4 ∨ e.addressSize = 8)
    ∧ e.segmentSize < 256
    ∧ (∀ s ∈ e.segments, s.1 < 2 ^ (8 * e.addressSize) ∧ s.2 < 2 ^ (8 * e.addressSize)
        ∧ ¬ (s.1 = 0 ∧ s.2 = 0))
    ∧ (∀ b ∈ e.trailing, b < 256) ∧ e.unitLength < 0xFFFFFF00

instance (e : ArangeEntry) : Decidable e.WellFormed := by
  unfold ArangeEntry.WellFormed
  infer_instance

/-- The decoded form of an entry: its header and its segments without the closing
pair. -/
def ArangeEntry.toInfo (e : ArangeEntry) : DwarfArangeInfo :=
  { Header := { UnitLength := e.unitLength, DwarfFormat := DWARF_32BIT_FORMAT,
                Version := e.version, DebugInfoOffset := e.debugInfoOffset,
                AddressSize := e.addressSize, SegmentSize := e.segmentSize },
    Segments := e.segments.map (fun s => { Address := s.1, Length := s.2 }) }

/-- The abbreviation table of scenario E6: code 1 is a subprogram with a
`DW_AT_name` of form `string` (the declaration), code 2 is a subprogram with a
`DW_AT_specification` of form `ref4` followed by a `DW_AT_low_pc` of form `addr` (the
definition). -/
def specAbbrevDecls : List AbbrevDecl :=
  [{ code := 1, tag := DW_TAG_subprogram, children := 0,
     attrs := [(DW_AT_name, DW_FORM_string)] },
   { code := 2, tag := DW_TAG_subprogram, children := 0,
     attrs := [(DW_AT_specification, DW_FORM_ref4), (DW_AT_low_pc, DW_FORM_addr)] }]

/-- The declaration DIE of scenario E6: abbreviation code 1 and the name `N` with its
terminator. -/
def specDeclDie (N : List Nat) : List Nat := [1] ++ (N ++ [0])

/-- The definition DIE of scenario E6: abbreviation code 2, the CU-relative reference
`D` (4 bytes) and the address `A` (8 bytes). -/
def specDefDie (D A : Nat) : List Nat := [2] ++ (le32 D ++ le64 A)

/-- The CU of scenario E6: a version 4 header in the 32-bit format (abbreviation
offset 0, address size 8), `k` null DIEs, the declaration (which so stands at offset
`11 + k` of the CU) and the definition that refers to it. -/
def specCu (k : Nat) (N : List Nat) (A : Nat) : List Nat :=
  (le32 (7 + k + (N.length + 2) + 13) ++ (le16 4 ++ (le32 0 ++ [8])))
    ++ (List.replicate k 0 ++ (specDeclDie N ++ specDefDie (11 + k) A))

/-- The image of scenario E6: `.debug_abbrev` (17 bytes) followed by `.debug_info`
(the CU `specCu`). -/
def specImage (k : Nat) (N : List Nat) (A : Nat) : List Nat :=
  encodeAbbrevTable specAbbrevDecls ++ specCu k N A

/-- The result of `ReadDebugInfo` on the image of scenario E6 with the name `foo`, 117
null DIEs before the declaration (which so stands at `.debug_info` offset `0x80`) and
the address `0x4000`, in a run whose indeterminate values are `uninit`. -/
def exampleReadE6 (uninit : Nat → Nat × Nat) : Except DwarfError (List DwarfCuDebugInfo) :=
  ReadDebugInfo 200 (specImage 117 [0x66, 0x6f, 0x6f] 0x4000)
    (specImage 117 [0x66, 0x6f, 0x6f] 0x4000).length
    ⟨17, (specCu 117 [0x66, 0x6f, 0x6f] 0x4000).length⟩ ⟨0, 0⟩ ⟨0, 0⟩ ⟨0, 17⟩
    [(0, default)] uninit

/-! ### Iterations of the line number program -/

/-- The iteration of the loop of `Dwarf::readLineNumberProgram` that starts in the state
`st` executes the extended opcode `DW_LNE_end_sequence`: the opcode byte is `0x00` and
the byte after the length is `0x01`. -/
def lnpIsEndSequence (bin : List Nat) (lnpStart lnpEnd : Nat) (st : LineState) : Bool :=
  let offset := u64 (st.offset + 1)
  let r := ReaduLEB128 bin (lnpStart + offset) (sub64 lnpEnd offset)
  decide (byteAt bin (lnpStart + st.offset) = 0x00)
    && decide (byteAt bin (lnpStart + u64 (offset + r.2)) = 0x01)

/-- The state in which the loop of `Dwarf::readLineNumberProgram`, started in the state
`st`, enters its iteration number `n` (counted from `0`); `none` when the loop has
ended or failed before. -/
def lnpIterate (bin : List Nat) (lineInfoHdr : DwarfLineInfoHdr) (lnpStart lnpEnd : Nat) :
    Nat → LineState → Option LineState
  | 0, st => if st.offset < sub64 lnpEnd lnpStart then some st else none
  | n + 1, st =>
    if st.offset < sub64 lnpEnd lnpStart then
      match lnpStep bin lineInfoHdr lnpStart lnpEnd st with
      | .error _ => none
      | .ok st => lnpIterate bin lineInfoHdr lnpStart lnpEnd n st
    else none

/-! ### Example images -/

/-- A `.debug_abbrev` table (10 bytes) followed by a `.debug_info` section with one
Version 5 compile unit in the 32-bit format: unit length 27, version 5, `DW_UT_compile`,
address size 8, abbreviation offset 0, unit ID `0x0100000000000000`; the header fields
end at offset 20 of the unit, where the DIE of a subprogram `f` at `0x1000` stands
(abbreviation 1: `DW_AT_name` of form `string`, `DW_AT_low_pc` of form `addr`). -/
def exampleInfoV5 : List Nat :=
  [1, 0x2e, 0, 3, 8, 0x11, 1, 0, 0, 0]
    ++ (le32 27 ++ (le16 5 ++ ([1, 8] ++ (le32 0 ++ ([0, 0, 0, 0, 0, 0, 0, 1]
      ++ ([1, 0x66, 0] ++ le64 0x1000))))))

/-- The `standard_opcode_lengths` of a header with `opcode_base = 13`. -/
def exampleStdOpcodeLengths : List Nat := [0, 1, 1, 1, 1, 0, 0, 0, 1, 0, 0, 1]

/-- A line-number unit of Version 4 in the 32-bit format with the line number program
`prog`: `minimum_instruction_length = 1`, `maximum_operations_per_instruction = 1`,
`default_is_stmt = 1`, `line_base = -5`, `line_range = 14`, `opcode_base = 13`, the
include directory `d` and the file `a` of directory 1.  The program starts at offset
37 of the unit. -/
def exampleLineUnitV4 (prog : List Nat) : List Nat :=
  le32 (33 + prog.length) ++ (le16 4 ++ (le32 27 ++ ([1, 1, 1, 0xFB, 14, 13]
    ++ (exampleStdOpcodeLengths ++ ([0x64, 0, 0] ++ ([0x61, 0, 1, 0, 0, 0] ++ prog))))))

/-- A line-number unit of Version 5 in the 32-bit format with the line number program
`prog`, followed by the section `.debug_line_str` with the strings `d`, `a` and `b`: one
directory `d`, the files `a` (index 0) and `b` (index 1), both of directory 0, the
entry formats `(DW_LNCT_path, DW_FORM_line_strp)` for directories and the same followed
by `(DW_LNCT_directory_index, DW_FORM_data1)` for files.  The program starts at offset
54 of the unit. -/
def exampleLineUnitV5 (prog : List Nat) : List Nat :=
  le32 (50 + prog.length) ++ (le16 5 ++ ([8, 0] ++ (le32 42 ++ ([1, 1, 1, 0xFB, 14, 13]
    ++ (exampleStdOpcodeLengths ++ ([1, 1, 0x1f, 1] ++ (le32 0 ++ ([2, 1, 0x1f, 2, 0x0b, 2]
    ++ (le32 2 ++ ([0] ++ (le32 4 ++ ([0] ++ prog))))))))))))
    ++ [0x64, 0, 0x61, 0, 0x62, 0]

/-- A line-number unit of Version 4 in the 64-bit format, laid out as the DWARF standard
has it: the escape `0xffffffff`, the unit length in 8 bytes, the version, the header
length in 8 bytes, then the fields of `exampleLineUnitV4` and the program `prog`.  The
unit is `12 + (37 + prog.length)` bytes long. -/
def exampleLineUnit64 (prog : List Nat) : List Nat :=
  le32 0xFFFFFFFF ++ (le64 (37 + prog.length) ++ (le16 4 ++ (le64 27
    ++ ([1, 1, 1, 0xFB, 14, 13] ++ (exampleStdOpcodeLengths
    ++ ([0x64, 0, 0] ++ ([0x61, 0, 1, 0, 0, 0] ++ prog)))))))

/-- A function table with the functions `f` at `0x1000` and `g` at `0x1001`, one byte
long each, and the address map that `main` builds for them. -/
def exampleFuncTable : ElfFunctionTable :=
  { ElfFuncInfos := [{ Name := [0x66], Addr := 0x1000, Size := 1 },
                     { Name := [0x67], Addr := 0x1001, Size := 1 }],
    AddrFuncIdxMap := [(0x1000, 0), (0x1001, 1)] }

/-- The extended opcode `DW_LNE_set_address` with an address of 8 bytes. -/
def lneSetAddress (address : Nat) : List Nat := [0, 9, 2] ++ le64 address

/-- The extended opcode `DW_LNE_end_sequence`. -/
def lneEndSequence : List Nat := [0, 1, 1]

/-- A header with the values of a DWARF 2 line table: `opcode_base = 10`,
`line_range = 14`, `line_base = -1`, `minimum_instruction_length = 1`. -/
def exampleHdrOpcodeBase10 : DwarfLineInfoHdr :=
  { Version := 2, MinInstLength := 1, DefaultIsStmt := 1, LineBase := -1, LineRange := 14,
    OpcodeBase := 10, StdOpcodeLengths := [0, 1, 1, 1, 1, 0, 0, 0, 1],
    Files := [{ Name := [0x61] }] }

/-- A state of the loop of `Dwarf::readLineNumberProgram` at the start of a program,
after a `DW_LNE_set_address` of `0x1000`, with the table `exampleFuncTable`. -/
def exampleLineState : LineState :=
  { offset := 0, curFuncAddr := 0x1000,
    lnsm := { LineNumberStateMachine.init 1 with Address := 0x1000 },
    endOfSeq := false, elfFuncTable := exampleFuncTable }

/-- The header that `ReadLineInfo` decodes from `exampleLineUnitV4 prog`, for a program
of `progLength` bytes. -/
def exampleLineHdrV4 (progLength : Nat) : DwarfLineInfoHdr :=
  { UnitLength := 33 + progLength, DwarfFormat := DWARF_32BIT_FORMAT, Version := 4,
    HeaderLength := 27, MinInstLength := 1, MaxInstLength := 1, DefaultIsStmt := 1,
    LineBase := -5, LineRange := 14, OpcodeBase := 13,
    StdOpcodeLengths := exampleStdOpcodeLengths, IncludeDirs := [[0x64]],
    Files := [{ Name := [0x61], DirIdx := 1 }] }

/-! ### Forms of `dwarf.h` without a case in `ReadDebugInfo` -/

/-- `DW_FORM_ref_addr`. -/
def DW_FORM_ref_addr : Nat := 0x10

/-- `DW_FORM_ref8`. -/
def DW_FORM_ref8 : Nat := 0x14

/-- `DW_FORM_ref_udata`. -/
def DW_FORM_ref_udata : Nat := 0x15

/-- `DW_FORM_data16`. -/
def DW_FORM_data16 : Nat := 0x1e

/-- `DW_FORM_ref_sig8`. -/
def DW_FORM_ref_sig8 : Nat := 0x20

/-- The case labels of the `switch (attr.Form)` of `Dwarf::ReadDebugInfo` (lines
259-1042), in the order of the source. -/
def formSwitchCases : List Nat :=
  [DW_FORM_addr, DW_FORM_block2, DW_FORM_block4, DW_FORM_strp, DW_FORM_data1, DW_FORM_data2,
   DW_FORM_data4, DW_FORM_data8, DW_FORM_string, DW_FORM_block, DW_FORM_block1, DW_FORM_flag,
   DW_FORM_sdata, DW_FORM_udata, DW_FORM_ref1, DW_FORM_ref2, DW_FORM_ref4,
   DW_FORM_sec_offset, DW_FORM_exprloc, DW_FORM_flag_present, DW_FORM_line_strp,
   DW_FORM_implicit_const]

/-! ### Example images of `.debug_info` and `.debug_aranges` -/

/-- A `.debug_abbrev` table of 43 bytes with four abbreviations, none with children:
code 1, a subprogram with `DW_AT_name` (`string`) and `DW_AT_low_pc` (`addr`);
code 2, a subprogram with `DW_AT_low_pc` (`addr`) only;
code 3, a subprogram with `DW_AT_name` (`string`), `DW_AT_linkage_name` (`string`),
`DW_AT_low_pc` (`addr`) and `DW_AT_high_pc` (`data4`);
code 4, a compile unit with `DW_AT_producer` (`strp`), `DW_AT_language` (`data2`),
`DW_AT_name` (`strp`) and `DW_AT_comp_dir` (`strp`). -/
def exampleAbbrevTable : List Nat :=
  [1, 0x2e, 0, 0x03, 0x08, 0x11, 0x01, 0, 0,
   2, 0x2e, 0, 0x11, 0x01, 0, 0,
   3, 0x2e, 0, 0x03, 0x08, 0x6e, 0x08, 0x11, 0x01, 0x12, 0x06, 0, 0,
   4, 0x11, 0, 0x25, 0x0e, 0x13, 0x05, 0x03, 0x0e, 0x1b, 0x0e, 0, 0,
   0]

/-- An image made of `exampleAbbrevTable` (offset 0), a `.debug_info` section (offset
43) with one compile unit of Version 4 in the 32-bit format (abbreviation offset 0,
address size 8) whose DIEs are the bytes `dies`, and a `.debug_str` section with the
strings `p` (offset 0), `a@b` (offset 2) and `d` (offset 6). -/
def exampleInfoImage (dies : List Nat) : List Nat :=
  exampleAbbrevTable ++ (le32 (7 + dies.length) ++ (le16 4 ++ (le32 0 ++ ([8] ++ dies))))
    ++ [0x70, 0, 0x61, 0x40, 0x62, 0, 0x64, 0]

/-- The indeterminate values of a run in which the members `Addr` and `Size` of the
record of every DIE happen to hold `0`. -/
def uninitZero : Nat → Nat × Nat := fun _ => (0, 0)

/-- The indeterminate values of a run in which the members `Addr` and `Size` of the
record of every DIE hold the stale values `0x5000` and `7`. -/
def uninitStale : Nat → Nat × Nat := fun _ => (0x5000, 7)

/-- The result of `ReadDebugInfo` on `exampleInfoImage dies`, with an aranges map that
holds the offset 0 of the unit, in a run whose indeterminate values are `uninitZero`. -/
def exampleReadDebugInfo (dies : List Nat) : Except DwarfError (List DwarfCuDebugInfo) :=
  ReadDebugInfo 40 (exampleInfoImage dies) (exampleInfoImage dies).length
    ⟨43, 11 + dies.length⟩ ⟨54 + dies.length, 8⟩ ⟨0, 0⟩ ⟨0, 43⟩ [(0, default)] uninitZero

/-- The arguments of `ReadDebugInfo` for an image `bin` that is one `.debug_info`
section, the other sections being empty, in a run whose indeterminate values are
`uninitZero`. -/
def exampleInfoEnv (bin : List Nat) : InfoEnv :=
  { bin := bin, size := bin.length, dbgInfoShdr := ⟨0, bin.length⟩, dbgStrShdr := ⟨0, 0⟩,
    dbgLineStrShdr := ⟨0, 0⟩, dbgAbbrevShdr := ⟨0, 0⟩, offsetArangeMap := [],
    uninit := uninitZero }

/-- The state of the attribute loop at offset 0, before any attribute of a DIE, in a
run whose indeterminate values are `uninitZero`. -/
def exampleAttrState : AttrState :=
  { offset := 0, dwarfFuncInfo := {}, cuDbgInfo := {}, cuLineInfoOffset := 0 }

/-- The header of a compile unit of Version 4 with address size 8 in the format
`dwarfFormat`. -/
def exampleCuHdr (dwarfFormat : Nat) : DwarfCuHdr :=
  { UnitLength := 0x100, DwarfFormat := dwarfFormat, Version := 4, DebugAbbrevOffset := 0,
    AddressSize := 8 }

/-- An abbreviation with the tag `DW_TAG_subprogram` (its list of attributes is not
used where it stands). -/
def exampleSubprogramAbbrev : Abbrev :=
  { Id := 1, Tag := DW_TAG_subprogram, HasChildren := false, Attrs := [] }

/-- The abbreviation of code 3 of `exampleAbbrevTable`. -/
def exampleAbbrev3 : Abbrev :=
  { Id := 3, Tag := DW_TAG_subprogram, HasChildren := false,
    Attrs := [⟨DW_AT_name, DW_FORM_string, 0⟩, ⟨DW_AT_linkage_name, DW_FORM_string, 0⟩,
              ⟨DW_AT_low_pc, DW_FORM_addr, 0⟩, ⟨DW_AT_high_pc, DW_FORM_data4, 0⟩] }

/-- The bytes of a DIE of abbreviation 3: the name `f`, the linkage name `_f`, the
address `0x1000` and the size `0x20`. -/
def exampleDie3 : List Nat := [3, 0x66, 0, 0x5f, 0x66, 0] ++ (le64 0x1000 ++ le32 0x20)

/-- The state of the DIE loop at offset 0 of a unit, with nothing decoded yet. -/
def exampleInfoState : InfoState :=
  { offset := 0, cuDbgInfo := {}, cuLineInfoOffset := 0, cppTmpFuncMap := [] }

/-! ### The pending declarations as a per-CU table -/

/-- The CU loop of `Dwarf::ReadDebugInfo` as the specification describes it, with the
pending declarations kept as a per-CU table: the loop `cuLoop` in which every CU starts
its DIE loop with an empty table of pending declarations.  It is compared with
`cuLoop`, the loop of the source, whose table `cppTmpFuncMap` lives across the CUs. -/
def cuLoopPerCU (env : InfoEnv) (inner : Nat) :
    Nat → Nat → Nat → List DwarfCuDebugInfo → Except DwarfError (List DwarfCuDebugInfo)
  | 0, _, _, _ => .error .outOfFuel
  | fuel + 1, offset, cuLineInfoOffset, dbgInfos =>
    if offset < env.dbgInfoEnd then
      let cuTop := offset
      let dbgInfoOffset := sub64 offset env.dbgInfoShdr.sh_offset
      match env.offsetArangeMap.find dbgInfoOffset with
      | none => .error .arangeNotFound
      | some curArrangeInfo =>
        match readCompilationUnitHeader env.bin offset with
        | .error e => .error e
        | .ok cuh =>
          let dbgAbbrevOffset := u64 (cuh.DebugAbbrevOffset + env.dbgAbbrevShdr.sh_offset)
          match ReadAbbrevTbl inner env.bin env.dbgAbbrevShdr dbgAbbrevOffset with
          | .error e => .error e
          | .ok abbrevTbl =>
            let abbrevMap : StdMap Abbrev :=
              abbrevTbl.foldl (fun m a => m.assign a.Id a) []
            let cuEnd := cuEndOf cuh offset cuTop
            let offset := u64 (offset + 11)
            match dieLoop env inner cuh cuTop cuEnd curArrangeInfo abbrevMap inner
                { offset := offset, cuDbgInfo := {}, cuLineInfoOffset := cuLineInfoOffset,
                  cppTmpFuncMap := [] } with
            | .error e => .error e
            | .ok st =>
              cuLoopPerCU env inner fuel st.offset st.cuLineInfoOffset
                (dbgInfos ++ [st.cuDbgInfo])
    else .ok dbgInfos

/-- `ReadDebugInfo` with the pending declarations kept as a per-CU table (the loop
`cuLoopPerCU`). -/
def ReadDebugInfoPerCU (fuel : Nat) (bin : List Nat) (size : Nat)
    (dbgInfoShdr dbgStrShdr dbgLineStrShdr dbgAbbrevShdr : Elf64_Shdr)
    (offsetArangeMap : StdMap DwarfArangeInfo) (uninit : Nat → Nat × Nat) :
    Except DwarfError (List DwarfCuDebugInfo) :=
  cuLoopPerCU { bin := bin, size := size, dbgInfoShdr := dbgInfoShdr, dbgStrShdr := dbgStrShdr,
                dbgLineStrShdr := dbgLineStrShdr, dbgAbbrevShdr := dbgAbbrevShdr,
                offsetArangeMap := offsetArangeMap, uninit := uninit }
    fuel fuel dbgInfoShdr.sh_offset 0 []

/-- Two tables of pending declarations agree from the offset `lo` on: they hold the
same declaration, or none, under every key `k` that is the key of a DIE at an offset
`k + shOffset` of the image with `lo <= k + shOffset < 2 ^ 64` (`shOffset` is the offset
of `.debug_info`, which the keys are relative to). -/
def PendingAgree (shOffset lo : Nat) (m1 m2 : StdMap DwarfFuncInfo) : Prop :=
  ∀ k, lo ≤ k + shOffset → k + shOffset < 2 ^ 64 → m1.find k = m2.find k

/-- The outcomes of two runs of the DIE loop agree: the same error, or final states with
the same cursor, CU record and line-info offset and with tables of pending declarations
that agree from `lo` on. -/
def DieLoopAgree (shOffset lo : Nat) :
    Except DwarfError InfoState → Except DwarfError InfoState → Prop
  | .ok r1, .ok r2 =>
    r1.offset = r2.offset ∧ r1.cuDbgInfo = r2.cuDbgInfo
      ∧ r1.cuLineInfoOffset = r2.cuLineInfoOffset
      ∧ PendingAgree shOffset lo r1.cppTmpFuncMap r2.cppTmpFuncMap
  | .error e1, .error e2 => e1 = e2
  | _, _ => False

/-! ### Invariants of the tables that the decoders fill -/

/-- The functions of a CU are stored under their address, which is not zero. -/
def FuncsKeyed (cu : DwarfCuDebugInfo) : Prop :=
  ∀ k f, cu.Funcs.find k = some f → f.Addr = k ∧ k ≠ 0

/-- A function table all of whose `LineAddrs` entries have `Line` equal to their key
and `IsStmt` true. -/
def LineAddrsKeyed (tbl : ElfFunctionTable) : Prop :=
  ∀ f ∈ tbl.ElfFuncInfos, ∀ k e, f.LineAddrs.find k = some e → e.Line = k ∧ e.IsStmt = true

/-! ### The record of a DIE and the attributes that give its members -/

/-- The attribute assigns the member `Addr` of the record of its DIE: a `DW_AT_low_pc`
of form `addr` (line 288). -/
@[reducible]
def AbbrevAttr.SetsAddr (attr : AbbrevAttr) : Prop :=
  attr.Form = DW_FORM_addr ∧ attr.Attr = DW_AT_low_pc

/-- The attribute assigns the member `Name` of the record of a subprogram DIE: a
`DW_AT_name` of form `strp` or `string`, or a `DW_AT_MIPS_linkage_name` of form `strp`
(lines 349, 358 and 439). -/
@[reducible]
def AbbrevAttr.SetsName (attr : AbbrevAttr) : Prop :=
  (attr.Form = DW_FORM_strp ∧ (attr.Attr = DW_AT_name ∨ attr.Attr = DW_AT_MIPS_linkage_name))
    ∨ (attr.Form = DW_FORM_string ∧ attr.Attr = DW_AT_name)

/-- The attribute assigns the member `LinkageName` of the record of a subprogram DIE: a
`DW_AT_linkage_name` of form `strp` or `string` (lines 353 and 443). -/
@[reducible]
def AbbrevAttr.SetsLinkageName (attr : AbbrevAttr) : Prop :=
  (attr.Form = DW_FORM_strp ∨ attr.Form = DW_FORM_string) ∧ attr.Attr = DW_AT_linkage_name

/-- The attribute assigns the member `Size` of the record of its DIE: a `DW_AT_high_pc`
of a constant form `data2`, `data4` or `data8` (lines 393, 413 and 424). -/
@[reducible]
def AbbrevAttr.SetsSize (attr : AbbrevAttr) : Prop :=
  (attr.Form = DW_FORM_data2 ∨ attr.Form = DW_FORM_data4 ∨ attr.Form = DW_FORM_data8)
    ∧ attr.Attr = DW_AT_high_pc

/-- The attribute is a `DW_AT_specification` of form `ref4`, which assigns the whole
record of its DIE when it resolves to a pending declaration (line 517). -/
@[reducible]
def AbbrevAttr.IsSpecification (attr : AbbrevAttr) : Prop :=
  attr.Form = DW_FORM_ref4 ∧ attr.Attr = DW_AT_specification

/-- The address that the case `DW_FORM_addr` reads at the cursor `offset` (lines
264-282): 2, 4 or 8 bytes as the address size of the CU header says, `0` for another
address size. -/
def attrAddr (cuh : DwarfCuHdr) (bin : List Nat) (offset : Nat) : Nat :=
  if cuh.AddressSize = 2 then BinUtil.FromLeToUInt16 bin offset
  else if cuh.AddressSize = 4 then BinUtil.FromLeToUInt32 bin offset
  else if cuh.AddressSize = 8 then BinUtil.FromLeToUInt64 bin offset
  else 0

/-- The string that the attribute `attr` of form `strp` or `string` holds at the cursor
`offset`: for `strp` the string of `.debug_str` at the 4-byte offset read there, for
`string` the string that stands there. -/
def attrString (env : InfoEnv) (attr : AbbrevAttr) (offset : Nat) : List Nat :=
  if attr.Form = DW_FORM_strp then
    BinUtil.GetString env.bin env.dbgStrShdr.sh_offset env.dbgStrShdr.sh_size
      (BinUtil.FromLeToUInt32 env.bin offset)
  else BinUtil.GetString env.bin 0 env.dbgInfoEnd offset

/-- The size that the attribute `attr` of form `data2`, `data4` or `data8` holds at the
cursor `offset`; the 8 bytes of `data8` are reduced to the `uint32_t` of `Size`. -/
def attrSize (bin : List Nat) (attr : AbbrevAttr) (offset : Nat) : Nat :=
  if attr.Form = DW_FORM_data2 then BinUtil.FromLeToUInt16 bin offset
  else if attr.Form = DW_FORM_data4 then BinUtil.FromLeToUInt32 bin offset
  else u32 (BinUtil.FromLeToUInt64 bin offset)

/-- `DieValue decode attrs sets read init v`: the member of the record of a DIE with
the attributes `attrs` has the value `v` that the attributes of the DIE give it.  When
`attrs` is `pre ++ x :: post`, where `x` sets the member (`sets x`) and no attribute of
`post` sets it or is a `DW_AT_specification` of form `ref4`, the attributes `pre` are
decoded (`decode pre`) to a state `s`, so that the value of `x` stands at the cursor
`s.offset`, and `v` is `read x s.offset`; when no attribute of the DIE sets the member
or is such a specification, `v` is `init`, the value the member has before the
attributes. -/
def DieValue {α : Type} (decode : List AbbrevAttr → Except DwarfError AttrState)
    (attrs : List AbbrevAttr) (sets : AbbrevAttr → Prop) (read : AbbrevAttr → Nat → α)
    (init v : α) : Prop :=
  (∀ (pre : List AbbrevAttr) (x : AbbrevAttr) (post : List AbbrevAttr),
      attrs = pre ++ x :: post → sets x →
      (∀ y ∈ post, ¬ sets y ∧ ¬ y.IsSpecification) →
      ∃ s, decode pre = .ok s ∧ v = read x s.offset)
  ∧ ((∀ y ∈ attrs, ¬ sets y ∧ ¬ y.IsSpecification) → v = init)

/-! ### Example images with a specification, with two units, with a cursor that wraps -/

/-- A `.debug_abbrev` table of 17 bytes: code 1, a subprogram with `DW_AT_name`
(`string`), the declaration; code 2, a subprogram with the two attributes `first` and
`second`, each given as the pair of its attribute code and form code. -/
def exampleSpecAbbrevTable (first second : Nat × Nat) : List Nat :=
  [1, 0x2e, 0, 0x03, 0x08, 0, 0,
   2, 0x2e, 0, first.1, first.2, second.1, second.2, 0, 0,
   0]

/-- An image made of `exampleSpecAbbrevTable first second` (offset 0) and a
`.debug_info` section (offset 17) with one compile unit of Version 4 in the 32-bit
format (address size 8) that holds the declaration DIE of a subprogram `f` (code 1, at
offset 11 of the unit) and a DIE of code 2 with the bytes `body`. -/
def exampleSpecImage (first second : Nat × Nat) (body : List Nat) : List Nat :=
  exampleSpecAbbrevTable first second
    ++ (le32 (11 + body.length) ++ (le16 4 ++ (le32 0 ++ ([8] ++ ([1, 0x66, 0]
      ++ ([2] ++ body))))))

/-- The result of `ReadDebugInfo` on `exampleSpecImage first second body`, with an
aranges map that holds the offset 0 of the unit, in a run whose indeterminate values
are `uninitZero` (the declaration, which has no address of its own, is then a pending
declaration). -/
def exampleReadSpec (first second : Nat × Nat) (body : List Nat) :
    Except DwarfError (List DwarfCuDebugInfo) :=
  ReadDebugInfo 40 (exampleSpecImage first second body)
    (exampleSpecImage first second body).length
    ⟨17, 15 + body.length⟩ ⟨0, 0⟩ ⟨0, 0⟩ ⟨0, 17⟩ [(0, default)] uninitZero

/-- An image of 58 bytes: the table `exampleSpecAbbrevTable` with the definition
abbreviation `DW_AT_specification` (`ref4`), `DW_AT_low_pc` (`addr`), and a `.debug_info`
section (offset 17, 41 bytes) with two compile units of Version 4 in the 32-bit format:
the first (14 bytes) holds the declaration of `f` only, which stays pending in a run
whose indeterminate values are `0`; the second (offset 31 of the image) holds the
declaration of `g` at its offset 11 and a definition at `0x4000` that refers to the
offset 11 of its unit. -/
def exampleTwoCuImage : List Nat :=
  exampleSpecAbbrevTable (DW_AT_specification, DW_FORM_ref4) (DW_AT_low_pc, DW_FORM_addr)
    ++ (le32 10 ++ (le16 4 ++ (le32 0 ++ ([8] ++ [1, 0x66, 0]))))
    ++ (le32 23 ++ (le16 4 ++ (le32 0 ++ ([8] ++ ([1, 0x67, 0]
      ++ ([2] ++ (le32 11 ++ le64 0x4000)))))))

/-- The state in which `readLineNumberProgram` starts the program of a header whose
`default_is_stmt` is 1, with the table `exampleFuncTable`. -/
def exampleLineStart : LineState :=
  { offset := 0, curFuncAddr := 0, lnsm := LineNumberStateMachine.init 1,
    endOfSeq := false, elfFuncTable := exampleFuncTable }

end Dwarf

/-! ## `elf_parser.cpp`: the names of the string tables -/

namespace Elf64

/-- The loop of `Elf64::GetStrFromStrTbl` (`elf_parser.cpp`, lines 261-270) on the table
`&bin[base]`: `rem` is `strTabSize - pos`, the number of iterations the condition
`pos < strTabSize` still admits; the test of the loop body is `pos == 0`. -/
def GetStrFromStrTbl.loop (bin : List Nat) (base : Nat) : Nat → Nat → List Nat → List Nat
  | 0, _, str => str
  | rem + 1, pos, str =>
    if pos = 0 then str
    else GetStrFromStrTbl.loop bin base rem (pos + 1) (str ++ [byteAt bin (base + pos)])

/-- `Elf64::GetStrFromStrTbl(&bin[base], strTabSize, offset)`. -/
def GetStrFromStrTbl (bin : List Nat) (base strTabSize offset : Nat) : List Nat :=
  GetStrFromStrTbl.loop bin base (strTabSize - offset) offset []

/-- The loop of `Elf64::GetSectionName` (`elf_parser.cpp`, lines 176-185): `rem` is
`shEnd - offset`; the bytes are appended up to the first zero byte. -/
def GetSectionName.loop (bin : List Nat) : Nat → Nat → List Nat → List Nat
  | 0, _, secName => secName
  | rem + 1, offset, secName =>
    if byteAt bin offset = 0 then secName
    else GetSectionName.loop bin rem (offset + 1) (secName ++ [byteAt bin offset])

/-- `Elf64::GetSectionName(bin, size, strShdr, sh_name)`. -/
def GetSectionName (bin : List Nat) (strShdr : Dwarf.Elf64_Shdr) (sh_name : Nat) : List Nat :=
  GetSectionName.loop bin
    (u64 (strShdr.sh_offset + strShdr.sh_size) - u64 (strShdr.sh_offset + sh_name))
    (u64 (strShdr.sh_offset + sh_name)) []

end Elf64

/-! # Theorems -/

/-! ## Memory lemmas -/

theorem byteAt_lt (bin : List Nat) (i : Nat) : byteAt bin i < 256 := by
  unfold byteAt; omega

theorem byteAt_append_right (pre xs : List Nat) (i : Nat) :
    byteAt (pre ++ xs) (pre.length + i) = byteAt xs i := by
  unfold byteAt
  simp [List.getD_eq_getElem?_getD, List.getElem?_append_right]

theorem byteAt_cons_zero (x : Nat) (xs : List Nat) : byteAt (x :: xs) 0 = x % 256 := by
  unfold byteAt; simp

theorem bytesAt_nil (bin : List Nat) (off : Nat) : bytesAt bin off [] = True := rfl

theorem bytesAt_cons (bin : List Nat) (off x : Nat) (xs : List Nat) :
    bytesAt bin off (x :: xs) = (byteAt bin off = x ∧ bytesAt bin (off + 1) xs) := rfl

theorem bytesAt_append (bin : List Nat) (off : Nat) (xs ys : List Nat) :
    bytesAt bin off (xs ++ ys) ↔ bytesAt bin off xs ∧ bytesAt bin (off + xs.length) ys := by
  induction xs generalizing off with
  | nil => simp [bytesAt_nil]
  | cons x xs ih =>
    rw [List.cons_append, bytesAt_cons, bytesAt_cons, ih, List.length_cons]
    have : off + 1 + xs.length = off + (xs.length + 1) := by omega
    rw [this]; tauto

theorem bytesAt_embed (pre xs rest : List Nat) (h : ∀ x ∈ xs, x < 256) :
    bytesAt (pre ++ xs ++ rest) pre.length xs := by
  induction xs generalizing pre with
  | nil => trivial
  | cons x xs ih =>
    rw [bytesAt_cons]
    refine ⟨?_, ?_⟩
    · have := byteAt_append_right pre (x :: xs ++ rest) 0
      rw [List.append_assoc]
      simp only [Nat.add_zero] at this
      rw [this, List.cons_append, byteAt_cons_zero]
      exact Nat.mod_eq_of_lt (h x (List.mem_cons_self _ _))
    · have := ih (pre ++ [x]) (fun y hy => h y (List.mem_cons_of_mem _ hy))
      simpa using this

/-! ## Lemmas on bytes -/

theorem and_7F (b : Nat) : b &&& 0x7F = b % 128 := by
  have := Nat.and_pow_two_sub_one_eq_mod b 7
  simpa using this

set_option maxRecDepth 100000 in
theorem and_80_fin : ∀ b : Fin 256, (b.val &&& 0x80 = 0) = (b.val < 128) := by decide

theorem and_80 (b : Nat) (h : b < 256) : (b &&& 0x80 = 0) ↔ b < 128 := by
  have := and_80_fin ⟨b, h⟩
  simpa using this

set_option maxRecDepth 100000 in
theorem and_40_fin : ∀ b : Fin 256, (b.val &&& 0x40 = 0) = (b.val / 64 % 2 = 0) := by decide

namespace Dwarf

/-! ## LEB128 -/

theorem encodeULEB128_lt (x : Nat) (h : x < 128) : encodeULEB128 x = [x] := by
  rw [encodeULEB128]; simp [h]

theorem encodeULEB128_ge (x : Nat) (h : 128 ≤ x) :
    encodeULEB128 x = (x % 128 + 128) :: encodeULEB128 (x / 128) := by
  rw [encodeULEB128]; simp [Nat.not_lt.mpr h]

theorem encodeULEB128_ne_nil (x : Nat) : encodeULEB128 x ≠ [] := by
  by_cases h : x < 128
  · rw [encodeULEB128_lt x h]; simp
  · rw [encodeULEB128_ge x (by omega)]; simp

theorem encodeULEB128_length_pos (x : Nat) : 0 < (encodeULEB128 x).length :=
  List.length_pos.mpr (encodeULEB128_ne_nil x)

theorem encodeULEB128_byte_lt (x : Nat) : ∀ b ∈ encodeULEB128 x, b < 256 := by
  induction x using Nat.strong_induction_on with
  | _ x ih =>
    by_cases h : x < 128
    · rw [encodeULEB128_lt x h]; simp; omega
    · rw [encodeULEB128_ge x (by omega)]
      intro b hb
      rcases List.mem_cons.mp hb with rfl | hb
      · omega
      · exact ih (x / 128) (by omega) b hb

/-- An encoding of `n` bytes holds a value below `2 ^ (7 * n)`. -/
theorem encodeULEB128_length_le (n x : Nat) (h : x < 2 ^ (7 * n)) (hn : 0 < n) :
    (encodeULEB128 x).length ≤ n := by
  induction n generalizing x with
  | zero => omega
  | succ n ih =>
    by_cases hx : x < 128
    · rw [encodeULEB128_lt x hx]; simp
    · rw [encodeULEB128_ge x (by omega)]
      simp only [List.length_cons, Nat.add_le_add_iff_right]
      have hn0 : 0 < n := by
        rcases Nat.eq_zero_or_pos n with h0 | h0
        · subst h0; simp at h; omega
        · exact h0
      apply ih _ _ hn0
      have : 2 ^ (7 * (n + 1)) = 2 ^ (7 * n) * 128 := by
        rw [Nat.mul_add, Nat.pow_add]
      rw [this] at h
      exact Nat.div_lt_of_lt_mul (by rwa [Nat.mul_comm] at h)

theorem encodeULEB128_length_le_ten (x : Nat) (h : x < 2 ^ 64) :
    (encodeULEB128 x).length ≤ 10 :=
  encodeULEB128_length_le 10 x (lt_of_lt_of_le h (by norm_num)) (by norm_num)

theorem shl64_eq (t n : Nat) (h : t * 2 ^ n < 2 ^ 64) (ht : t ≠ 0 ∨ n < 64) :
    shl64 t n = t * 2 ^ n := by
  unfold shl64
  by_cases ht0 : t = 0
  · subst ht0; simp
  · have hn : n < 64 := by
      by_contra hc
      have h1 : 2 ^ 64 ≤ 2 ^ n := Nat.pow_le_pow_right (by norm_num) (by omega)
      have h2 : 2 ^ n ≤ t * 2 ^ n := Nat.le_mul_of_pos_left _ (Nat.pos_of_ne_zero ht0)
      omega
    rw [Nat.mod_eq_of_lt hn, Nat.mod_eq_of_lt h]

/-- The loop of `ReaduLEB128` on the canonical encoding of `y` standing at `off + pos`. -/
theorem ReaduLEB128_loop_encode (bin : List Nat) (off : Nat) :
    ∀ (rem y pos val : Nat), bytesAt bin (off + pos) (encodeULEB128 y) →
      (encodeULEB128 y).length ≤ rem → val + y * 2 ^ (7 * pos) < 2 ^ 64 →
      (y = 0 → pos = 0) →
      ReaduLEB128.loop bin off rem pos val
        = (pos + (encodeULEB128 y).length - 1, val + y * 2 ^ (7 * pos)) := by
  intro rem
  induction rem with
  | zero =>
    intro y pos val _ hlen _ _
    have := encodeULEB128_length_pos y
    omega
  | succ rem ih =>
    intro y pos val hb hlen hval hy
    by_cases hlt : y < 128
    · rw [encodeULEB128_lt y hlt] at hb ⊢
      rw [bytesAt_cons] at hb
      unfold ReaduLEB128.loop
      simp only [hb.1, and_7F, Nat.mod_eq_of_lt hlt]
      have h80 : y &&& 0x80 = 0 := (and_80 y (by omega)).mpr hlt
      rw [if_pos h80]
      have hsh : shl64 y (7 * pos) = y * 2 ^ (7 * pos) := by
        apply shl64_eq
        · omega
        · by_cases h0 : y = 0
          · right; rw [hy h0]; norm_num
          · left; exact h0
      rw [hsh]
      have hu : u64 (val + y * 2 ^ (7 * pos)) = val + y * 2 ^ (7 * pos) := by
        unfold u64; exact Nat.mod_eq_of_lt hval
      rw [hu]
      simp
    · have hge : 128 ≤ y := by omega
      rw [encodeULEB128_ge y hge] at hb hlen ⊢
      rw [bytesAt_cons] at hb
      unfold ReaduLEB128.loop
      simp only [hb.1, and_7F]
      have hm : (y % 128 + 128) % 128 = y % 128 := by omega
      have h80 : ¬ ((y % 128 + 128) &&& 0x80 = 0) := by
        rw [and_80 _ (by omega)]; omega
      rw [if_neg h80, hm]
      have hsplit : y * 2 ^ (7 * pos) = (y % 128) * 2 ^ (7 * pos)
          + (y / 128) * 2 ^ (7 * (pos + 1)) := by
        have h2 : 2 ^ (7 * (pos + 1)) = 128 * 2 ^ (7 * pos) := by
          rw [Nat.mul_add, Nat.pow_add]; ring
        rw [h2]
        have h3 := Nat.div_add_mod y 128
        calc y * 2 ^ (7 * pos) = (128 * (y / 128) + y % 128) * 2 ^ (7 * pos) := by rw [h3]
          _ = _ := by ring
      have hsh : shl64 (y % 128) (7 * pos) = (y % 128) * 2 ^ (7 * pos) := by
        apply shl64_eq
        · have : 0 ≤ (y / 128) * 2 ^ (7 * (pos + 1)) := Nat.zero_le _
          omega
        · right
          by_contra hc
          have h1 : 2 ^ 64 ≤ 2 ^ (7 * pos) := Nat.pow_le_pow_right (by norm_num) (by omega)
          have h2 : 2 ^ (7 * pos) ≤ y * 2 ^ (7 * pos) :=
            Nat.le_mul_of_pos_left _ (by omega)
          omega
      rw [hsh]
      have hu : u64 (val + (y % 128) * 2 ^ (7 * pos)) = val + (y % 128) * 2 ^ (7 * pos) := by
        unfold u64; apply Nat.mod_eq_of_lt; omega
      rw [hu]
      have hrec := ih (y / 128) (pos + 1) (val + (y % 128) * 2 ^ (7 * pos))
        (by have := hb.2; rwa [Nat.add_assoc] at this)
        (by simp only [List.length_cons] at hlen; omega)
        (by omega)
        (by intro h0; omega)
      rw [hrec]
      simp only [List.length_cons]
      have := encodeULEB128_length_pos (y / 128)
      refine Prod.ext ?_ ?_
      · simp only; omega
      · simp only; omega

theorem ReaduLEB128_of_bytesAt (bin : List Nat) (off size x : Nat) (hx : x < 2 ^ 64)
    (hb : bytesAt bin off (encodeULEB128 x)) (hsize : (encodeULEB128 x).length ≤ size) :
    ReaduLEB128 bin off size = (x, (encodeULEB128 x).length) := by
  unfold ReaduLEB128
  have h := ReaduLEB128_loop_encode bin off size x 0 0 (by simpa using hb) hsize
    (by simpa using hx) (by intro; rfl)
  rw [h]
  have h1 := encodeULEB128_length_pos x
  have h2 := encodeULEB128_length_le_ten x hx
  simp only [Nat.zero_add, Nat.mul_zero, Nat.pow_zero, Nat.mul_one]
  refine Prod.ext rfl ?_
  simp only [u32]
  rw [Nat.sub_add_cancel h1]
  exact Nat.mod_eq_of_lt (by omega)

/-- Claim C1.  `ReaduLEB128` inverts the canonical unsigned LEB128 encoding: for every
unsigned 64-bit `x`, on an image that holds the encoding of `x` at the cursor, followed
by arbitrary bytes, and with `size` at least the encoded length, it returns `x` and
leaves the encoded length in `len`. -/
theorem ReaduLEB128_roundtrip (x : Nat) (hx : x < 2 ^ 64) (pre rest : List Nat) (size : Nat)
    (hsize : (encodeULEB128 x).length ≤ size) :
    ReaduLEB128 (pre ++ encodeULEB128 x ++ rest) pre.length size
      = (x, (encodeULEB128 x).length) :=
  ReaduLEB128_of_bytesAt _ _ _ x hx (bytesAt_embed pre _ rest (encodeULEB128_byte_lt x)) hsize

/-- Witness of claim C1 (scenario E1): the bytes `E5 8E 26` are the encoding of
624485 and are read back as 624485 with `len = 3`. -/
theorem ReaduLEB128_roundtrip_witness :
    encodeULEB128 624485 = [0xE5, 0x8E, 0x26]
    ∧ ReaduLEB128 [0xE5, 0x8E, 0x26] 0 3 = (624485, 3)
    ∧ ReaduLEB128 ([0x00] ++ encodeULEB128 624485 ++ [0xFF, 0xFF]) [0x00].length 3
        = (624485, (encodeULEB128 624485).length) :=
  ⟨by simp [encodeULEB128], by decide,
   ReaduLEB128_roundtrip 624485 (by decide) [0x00] [0xFF, 0xFF] 3 (by simp [encodeULEB128])⟩

end Dwarf

namespace Dwarf

/-- Scenario E2: the bytes `C0 BB 78` are read as -123456 with `len = 3`. -/
theorem ReadsLEB128_E2 :
    encodeSLEB128 (-123456) = [0xC0, 0xBB, 0x78]
    ∧ ReadsLEB128 [0xC0, 0xBB, 0x78] 0 3 = (-123456, 3) := by decide

/-- Claim C2, at a failing input.  The canonical signed LEB128 encoding of
-134217729 (`-2^27 - 1`) is the five bytes `FF FF FF BF 7F`; `ReadsLEB128` returns -1
for them (with `len = 5`), not -134217729: the sign-extension mask `~0 << 35` is
computed in 32-bit `int`. -/
theorem ReadsLEB128_five_bytes_negative :
    encodeSLEB128 (-134217729) = [0xFF, 0xFF, 0xFF, 0xBF, 0x7F]
    ∧ ReadsLEB128 [0xFF, 0xFF, 0xFF, 0xBF, 0x7F] 0 5 = (-1, 5)
    ∧ (ReadsLEB128 (encodeSLEB128 (-134217729)) 0 5).1 ≠ -134217729 := by decide

/-- The fields that `readCompilationUnitHeader` takes from the initial length and the
version, in every header it returns. -/
theorem readCompilationUnitHeader_go_fields (bin : List Nat) (offset : Nat)
    (r : DwarfCuHdr × Nat) (h : readCompilationUnitHeader.go bin offset = .ok r) :
    r.1.DwarfFormat = (if BinUtil.FromLeToUInt32 bin offset < 0xFFFFFF00
        then DWARF_32BIT_FORMAT else DWARF_64BIT_FORMAT)
    ∧ r.1.UnitLength = (if BinUtil.FromLeToUInt32 bin offset < 0xFFFFFF00
        then BinUtil.FromLeToUInt32 bin offset
        else BinUtil.FromLeToUInt64 bin (u64 (offset + 4)))
    ∧ r.1.Version = BinUtil.FromLeToUInt16 bin
        (if BinUtil.FromLeToUInt32 bin offset < 0xFFFFFF00 then u64 (offset + 4)
         else u64 (u64 (offset + 4) + 8)) := by
  unfold readCompilationUnitHeader.go at h
  by_cases h32 : BinUtil.FromLeToUInt32 bin offset < 0xFFFFFF00
  · simp only [h32, if_true] at h ⊢
    split at h
    · cases h; exact ⟨rfl, rfl, rfl⟩
    · split at h
      · cases h; exact ⟨rfl, rfl, rfl⟩
      · split at h
        · cases h; exact ⟨rfl, rfl, rfl⟩
        · cases h
  · simp only [h32, if_false] at h ⊢
    split at h
    · cases h; exact ⟨rfl, rfl, rfl⟩
    · split at h
      · cases h; exact ⟨rfl, rfl, rfl⟩
      · split at h
        · cases h; exact ⟨rfl, rfl, rfl⟩
        · cases h

/-- The function `readCompilationUnitHeader` returns a header when the version is below
5 or the unit type is one of the six known ones. -/
theorem readCompilationUnitHeader_go_ok (bin : List Nat) (offset : Nat)
    (hv : BinUtil.FromLeToUInt16 bin
        (if BinUtil.FromLeToUInt32 bin offset < 0xFFFFFF00 then u64 (offset + 4)
         else u64 (u64 (offset + 4) + 8)) < 5
      ∨ (1 ≤ byteAt bin (u64 ((if BinUtil.FromLeToUInt32 bin offset < 0xFFFFFF00
            then u64 (offset + 4) else u64 (u64 (offset + 4) + 8)) + 2))
         ∧ byteAt bin (u64 ((if BinUtil.FromLeToUInt32 bin offset < 0xFFFFFF00
            then u64 (offset + 4) else u64 (u64 (offset + 4) + 8)) + 2)) ≤ 6)) :
    ∃ r, readCompilationUnitHeader.go bin offset = .ok r := by
  unfold readCompilationUnitHeader.go
  by_cases h32 : BinUtil.FromLeToUInt32 bin offset < 0xFFFFFF00
  · simp only [h32, if_true] at hv ⊢
    split
    · exact ⟨_, rfl⟩
    · rename_i hlt
      have hut := hv.resolve_left hlt
      split
      · exact ⟨_, rfl⟩
      · rename_i h1
        split
        · exact ⟨_, rfl⟩
        · rename_i h2
          exfalso
          simp only [DW_UT_compile, DW_UT_partial, DW_UT_skeleton, DW_UT_split_compile,
            DW_UT_type, DW_UT_split_type] at h1 h2
          omega
  · simp only [h32, if_false] at hv ⊢
    split
    · exact ⟨_, rfl⟩
    · rename_i hlt
      have hut := hv.resolve_left hlt
      split
      · exact ⟨_, rfl⟩
      · rename_i h1
        split
        · exact ⟨_, rfl⟩
        · rename_i h2
          exfalso
          simp only [DW_UT_compile, DW_UT_partial, DW_UT_skeleton, DW_UT_split_compile,
            DW_UT_type, DW_UT_split_type] at h1 h2
          omega

/-- Claim C3.  `readCompilationUnitHeader` decodes the initial length: when the first
four bytes (little-endian) are below `0xFFFFFF00` every header it returns has the 32-bit
format, that value as `UnitLength` and the version read right after the 4-byte length
field; when they are `0xFFFFFFFF` it has the 64-bit format, the little-endian value of
the next eight bytes as `UnitLength` and the version read after the 12-byte length
field.  It returns a header whenever the version is below 5 or the unit type is one
of the six known ones. -/
theorem readCompilationUnitHeader_initial_length (bin : List Nat) (offset : Nat)
    (hoff : offset + 16 < 2 ^ 64) :
    (BinUtil.FromLeToUInt32 bin offset < 0xFFFFFF00 →
      (∀ cuh, readCompilationUnitHeader bin offset = .ok cuh →
        cuh.DwarfFormat = DWARF_32BIT_FORMAT
        ∧ cuh.UnitLength = BinUtil.FromLeToUInt32 bin offset
        ∧ cuh.Version = BinUtil.FromLeToUInt16 bin (offset + 4))
      ∧ (BinUtil.FromLeToUInt16 bin (offset + 4) < 5
          ∨ (1 ≤ byteAt bin (offset + 6) ∧ byteAt bin (offset + 6) ≤ 6) →
        ∃ cuh, readCompilationUnitHeader bin offset = .ok cuh))
    ∧ (BinUtil.FromLeToUInt32 bin offset = 0xFFFFFFFF →
      (∀ cuh, readCompilationUnitHeader bin offset = .ok cuh →
        cuh.DwarfFormat = DWARF_64BIT_FORMAT
        ∧ cuh.UnitLength = BinUtil.FromLeToUInt64 bin (offset + 4)
        ∧ cuh.Version = BinUtil.FromLeToUInt16 bin (offset + 12))
      ∧ (BinUtil.FromLeToUInt16 bin (offset + 12) < 5
          ∨ (1 ≤ byteAt bin (offset + 14) ∧ byteAt bin (offset + 14) ≤ 6) →
        ∃ cuh, readCompilationUnitHeader bin offset = .ok cuh)) := by
  have e4 : u64 (offset + 4) = offset + 4 := Nat.mod_eq_of_lt (by omega)
  have e6 : u64 (offset + 4 + 2) = offset + 6 := Nat.mod_eq_of_lt (by omega)
  have e12 : u64 (offset + 4 + 8) = offset + 12 := Nat.mod_eq_of_lt (by omega)
  have e14 : u64 (offset + 12 + 2) = offset + 14 := Nat.mod_eq_of_lt (by omega)
  have hret : ∀ cuh, readCompilationUnitHeader bin offset = .ok cuh →
      ∃ r, readCompilationUnitHeader.go bin offset = .ok r ∧ r.1 = cuh := by
    intro cuh hcuh
    unfold readCompilationUnitHeader at hcuh
    cases hgo : readCompilationUnitHeader.go bin offset with
    | error e => rw [hgo] at hcuh; cases hcuh
    | ok r => rw [hgo] at hcuh; cases hcuh; exact ⟨r, rfl, rfl⟩
  have hex : (∃ r, readCompilationUnitHeader.go bin offset = .ok r) →
      ∃ cuh, readCompilationUnitHeader bin offset = .ok cuh := by
    rintro ⟨r, hr⟩
    exact ⟨r.1, by unfold readCompilationUnitHeader; rw [hr]; rfl⟩
  refine ⟨fun h32 => ⟨?_, ?_⟩, fun h64 => ⟨?_, ?_⟩⟩
  · intro cuh hcuh
    obtain ⟨r, hr, rfl⟩ := hret cuh hcuh
    have := readCompilationUnitHeader_go_fields bin offset r hr
    simpa only [if_pos h32, e4] using this
  · intro hv
    apply hex
    apply readCompilationUnitHeader_go_ok
    simpa only [if_pos h32, e4, e6] using hv
  · intro cuh hcuh
    obtain ⟨r, hr, rfl⟩ := hret cuh hcuh
    have hn : ¬ BinUtil.FromLeToUInt32 bin offset < 0xFFFFFF00 := by rw [h64]; decide
    have := readCompilationUnitHeader_go_fields bin offset r hr
    simpa only [if_neg hn, e4, e12] using this
  · intro hv
    apply hex
    apply readCompilationUnitHeader_go_ok
    have hn : ¬ BinUtil.FromLeToUInt32 bin offset < 0xFFFFFF00 := by rw [h64]; decide
    simpa only [if_neg hn, e4, e12, e14] using hv

/-- Witness of claim C3 (scenarios E3 and E4): a 32-bit header with length 16 and a
64-bit header with length 32. -/
theorem readCompilationUnitHeader_initial_length_witness :
    (∃ cuh, readCompilationUnitHeader [0x10, 0, 0, 0, 4, 0, 0, 0, 0, 0, 8] 0 = .ok cuh
      ∧ cuh.DwarfFormat = DWARF_32BIT_FORMAT ∧ cuh.UnitLength = 16 ∧ cuh.Version = 4)
    ∧ (∃ cuh, readCompilationUnitHeader
          [0xFF, 0xFF, 0xFF, 0xFF, 0x20, 0, 0, 0, 0, 0, 0, 0, 4, 0, 0, 0, 0, 0, 8] 0 = .ok cuh
      ∧ cuh.DwarfFormat = DWARF_64BIT_FORMAT ∧ cuh.UnitLength = 32 ∧ cuh.Version = 4) := by
  have h1 := readCompilationUnitHeader_initial_length
    [0x10, 0, 0, 0, 4, 0, 0, 0, 0, 0, 8] 0 (by decide)
  have h2 := readCompilationUnitHeader_initial_length
    [0xFF, 0xFF, 0xFF, 0xFF, 0x20, 0, 0, 0, 0, 0, 0, 0, 4, 0, 0, 0, 0, 0, 8] 0 (by decide)
  obtain ⟨hf1, ht1⟩ := h1.1 (by decide)
  obtain ⟨hf2, ht2⟩ := h2.2 (by decide)
  obtain ⟨c1, hc1⟩ := ht1 (Or.inl (by decide))
  obtain ⟨c2, hc2⟩ := ht2 (Or.inl (by decide))
  refine ⟨⟨c1, hc1, ?_⟩, ⟨c2, hc2, ?_⟩⟩
  · obtain ⟨a, b, c⟩ := hf1 c1 hc1
    exact ⟨a, b.trans (by decide), c.trans (by decide)⟩
  · obtain ⟨a, b, c⟩ := hf2 c2 hc2
    exact ⟨a, b.trans (by decide), c.trans (by decide)⟩

end Dwarf

namespace Dwarf

/-- Claim C4.  For a line header with `LineRange >= 1` and `OpcodeBase >= 13`, the
iteration of `readLineNumberProgram` that executes an opcode byte `op >= OpcodeBase`
succeeds and changes the registers by exactly
`Address += ((op - OpcodeBase) / LineRange) * MinInstLength` and
`Line += LineBase + ((op - OpcodeBase) mod LineRange)` (in 64-bit arithmetic), clears
`BasicBlock`, `PrologueEnd` and `EpilogueBegin`, leaves every other register as it was
and moves the cursor by one byte. -/
theorem lnpStep_special_opcode (bin : List Nat) (lineInfoHdr : DwarfLineInfoHdr)
    (lnpStart lnpEnd : Nat) (st : LineState) (op : Nat)
    (hLR : 1 ≤ lineInfoHdr.LineRange) (hOB : 13 ≤ lineInfoHdr.OpcodeBase)
    (hop : lineInfoHdr.OpcodeBase ≤ op) (hbyte : byteAt bin (lnpStart + st.offset) = op) :
    ∃ st', lnpStep bin lineInfoHdr lnpStart lnpEnd st = .ok st'
      ∧ st'.lnsm =
        { st.lnsm with
          Address := u64 (st.lnsm.Address
            + ((op - lineInfoHdr.OpcodeBase) / lineInfoHdr.LineRange)
              * lineInfoHdr.MinInstLength)
          Line := ofInt64 ((st.lnsm.Line : Int)
            + (lineInfoHdr.LineBase
              + (((op - lineInfoHdr.OpcodeBase) % lineInfoHdr.LineRange : Nat) : Int)))
          BasicBlock := false
          PrologueEnd := false
          EpilogueBegin := false }
      ∧ st'.offset = u64 (st.offset + 1) := by
  have hop256 : op < 256 := by rw [← hbyte]; exact byteAt_lt _ _
  have hadj : u8 (op + (2 ^ 8 - lineInfoHdr.OpcodeBase % 2 ^ 8)) = op - lineInfoHdr.OpcodeBase := by
    unfold u8
    have h1 : lineInfoHdr.OpcodeBase % 2 ^ 8 = lineInfoHdr.OpcodeBase :=
      Nat.mod_eq_of_lt (by norm_num; omega)
    rw [h1]
    norm_num
    omega
  have hLR0 : ¬ lineInfoHdr.LineRange = 0 := by omega
  unfold lnpStep
  simp only [hbyte]
  have hne : ∀ k, k < 13 → ¬ op = k := by intro k hk; omega
  rw [if_neg (hne 0 (by norm_num)), if_neg (hne 1 (by norm_num)), if_neg (hne 2 (by norm_num)),
    if_neg (hne 3 (by norm_num)), if_neg (hne 4 (by norm_num)), if_neg (hne 5 (by norm_num)),
    if_neg (hne 6 (by norm_num)), if_neg (hne 7 (by norm_num)), if_neg (hne 8 (by norm_num)),
    if_neg (hne 9 (by norm_num)), if_neg (hne 10 (by norm_num)), if_neg (hne 11 (by norm_num)),
    if_neg (hne 12 (by norm_num))]
  unfold lnpSpecial
  simp only [hadj, if_neg hLR0]
  exact ⟨_, rfl, rfl, rfl⟩

/-- Witness of claim C4 (scenario E5): `OpcodeBase = 13`, `LineRange = 14`,
`LineBase = -5`, `MinInstLength = 1` and opcode `0xF3` advance the address by 16 and
the line by 1. -/
theorem lnpStep_special_opcode_witness :
    ∃ st', lnpStep [0xF3]
        { Version := 4, MinInstLength := 1, DefaultIsStmt := 1, LineBase := -5,
          LineRange := 14, OpcodeBase := 13 } 0 1
        { offset := 0, curFuncAddr := 0x1000,
          lnsm := { LineNumberStateMachine.init 1 with Address := 0x1000, Line := 7 },
          endOfSeq := false, elfFuncTable := {} } = .ok st'
      ∧ st'.lnsm.Address = 0x1000 + 16 ∧ st'.lnsm.Line = 7 + 1 := by
  obtain ⟨st', h1, h2, _⟩ := lnpStep_special_opcode [0xF3]
    { Version := 4, MinInstLength := 1, DefaultIsStmt := 1, LineBase := -5,
      LineRange := 14, OpcodeBase := 13 } 0 1
    { offset := 0, curFuncAddr := 0x1000,
      lnsm := { LineNumberStateMachine.init 1 with Address := 0x1000, Line := 7 },
      endOfSeq := false, elfFuncTable := {} } 0xF3
    (by decide) (by decide) (by decide) (by decide)
  refine ⟨st', h1, ?_, ?_⟩
  · rw [h2]; decide
  · rw [h2]; decide

/-- Claim C7, at a failing input.  In the abbreviation table
`01 34 00 1c 21 7f 00 00 00` the attribute `(0x1c, implicit_const)` is followed by the
byte `7F`, whose signed LEB128 value is -1; `ReadAbbrevTbl` stores `Const = 127`, the
unsigned LEB128 value (the cursor does advance by the one byte of the encoding: the
closing pair and the closing code are found right after it). -/
theorem ReadAbbrevTbl_implicit_const_unsigned :
    ReadAbbrevTbl 4 [0x01, 0x34, 0x00, 0x1c, 0x21, 0x7F, 0x00, 0x00, 0x00] ⟨0, 9⟩ 0
      = .ok [{ Id := 1, Tag := 0x34, HasChildren := false,
               Attrs := [{ Attr := 0x1c, Form := DW_FORM_implicit_const, Const := 127 }] }]
    ∧ ReadsLEB128 [0x01, 0x34, 0x00, 0x1c, 0x21, 0x7F, 0x00, 0x00, 0x00] 5 4 = (-1, 1)
    ∧ ofInt64 (-1) ≠ 127 := by
  refine ⟨by rfl, by decide, by decide⟩

/-- The padding of `ReadAranges` in the 32-bit format: for `AddressSize` 4 or 8 the
segments are read from 16 bytes after the start of the entry, a multiple of
`2 * AddressSize`. -/
theorem ReadAranges_header_segment_start_32 (bin : List Nat) (headerTop : Nat)
    (hoff : headerTop + 16 < 2 ^ 64)
    (h32 : BinUtil.FromLeToUInt32 bin headerTop < 0xFFFFFF00)
    (hAS : byteAt bin (headerTop + 10) = 4 ∨ byteAt bin (headerTop + 10) = 8) :
    ∃ hdr next, ReadAranges.header bin headerTop = .ok (hdr, headerTop + 16, next)
      ∧ hdr.AddressSize = byteAt bin (headerTop + 10)
      ∧ 16 % (2 * hdr.AddressSize) = 0 := by
  have e4 : u64 (headerTop + 4) = headerTop + 4 := Nat.mod_eq_of_lt (by omega)
  have e6 : u64 (headerTop + 4 + 2) = headerTop + 6 := Nat.mod_eq_of_lt (by omega)
  have e10 : u64 (headerTop + 6 + 4) = headerTop + 10 := Nat.mod_eq_of_lt (by omega)
  have e11 : u64 (headerTop + 10 + 1) = headerTop + 11 := Nat.mod_eq_of_lt (by omega)
  have e12 : u64 (headerTop + 11 + 1) = headerTop + 12 := Nat.mod_eq_of_lt (by omega)
  have hsub : sub64 (headerTop + 12) headerTop = 12 := by
    unfold sub64 u64
    rw [Nat.mod_eq_of_lt (show headerTop < 2 ^ 64 by omega)]
    have : headerTop + 12 + (2 ^ 64 - headerTop) = 12 + 2 ^ 64 := by omega
    rw [this]; norm_num
  unfold ReadAranges.header
  simp only [h32, if_true, e4, e6, e10, e11, e12, hsub]
  rcases hAS with h | h
  · have hpad : u64 (headerTop + 12 + sub64 4 (12 % 4)) = headerTop + 16 := by
      have h1 : sub64 4 (12 % 4) = 4 := by decide
      rw [h1]; exact Nat.mod_eq_of_lt (by omega)
    have hz : ¬ (4 = 0) := by decide
    simp only [h, hpad, if_neg hz]
    refine ⟨_, _, rfl, ?_, ?_⟩
    · rfl
    · simp
  · have hpad : u64 (headerTop + 12 + sub64 8 (12 % 8)) = headerTop + 16 := by
      have h1 : sub64 8 (12 % 8) = 4 := by decide
      rw [h1]; exact Nat.mod_eq_of_lt (by omega)
    have hz : ¬ (8 = 0) := by decide
    simp only [h, hpad, if_neg hz]
    refine ⟨_, _, rfl, ?_, ?_⟩
    · rfl
    · simp

/-- Claim C8, at a failing input.  For the 64-bit-format entry
`FF FF FF FF | 2C 00 00 00 00 00 00 00 | 02 00 | 00 00 00 00 | 08 | 00` (the layout the
function decodes: `AddressSize = 8`) the segments are read from offset 24 of the entry,
which is not a multiple of `2 * AddressSize = 16`.  For the 64-bit entry laid out as
the DWARF standard has it (8-byte `debug_info_offset`) the function takes
`AddressSize` from inside that field and stops on a division by zero. -/
theorem ReadAranges_header_segment_start_64 :
    (∃ hdr next, ReadAranges.header
        [0xFF, 0xFF, 0xFF, 0xFF, 0x2C, 0, 0, 0, 0, 0, 0, 0, 2, 0, 0, 0, 0, 0, 8, 0] 0
          = .ok (hdr, 24, next)
      ∧ hdr.DwarfFormat = DWARF_64BIT_FORMAT ∧ hdr.AddressSize = 8
      ∧ (24 - 0) % (2 * hdr.AddressSize) ≠ 0)
    ∧ ReadAranges.header
        [0xFF, 0xFF, 0xFF, 0xFF, 0x2C, 0, 0, 0, 0, 0, 0, 0, 2, 0, 0, 0, 0, 0, 0, 0, 0, 0, 8, 0]
        0 = .error .divideByZero := by
  refine ⟨⟨_, _, by rfl, by decide, by decide, by decide⟩, by rfl⟩

/-- The CU end of `ReadDebugInfo` in the 32-bit format is
`cuTop + 4 + UnitLength`. -/
theorem cuEndOf_32 (cuh : DwarfCuHdr) (offset cuTop : Nat)
    (h32 : cuh.DwarfFormat = DWARF_32BIT_FORMAT) (hlt : cuTop + 4 + cuh.UnitLength < 2 ^ 64) :
    cuEndOf cuh offset cuTop = cuTop + 4 + cuh.UnitLength := by
  unfold cuEndOf
  have hne : ¬ cuh.DwarfFormat = DWARF_64BIT_FORMAT := by rw [h32]; decide
  simp only [if_neg hne]
  unfold u64
  rw [Nat.mod_eq_of_lt (by omega), Nat.mod_eq_of_lt (by omega)]
  omega

/-- Claim C10, at a failing input.  For the 64-bit-format CU header
`FF FF FF FF | 20 00 00 00 00 00 00 00 | 04 00 | ...` at `cuTop = 0` (`UnitLength = 32`)
the CU end that `ReadDebugInfo` computes is 40, not `0 + 12 + 32 = 44`; at
`cuTop = 100` a 64-bit header with `UnitLength = 32` gives 240, not 144. -/
theorem cuEndOf_64_failing :
    (∃ cuh, readCompilationUnitHeader
        [0xFF, 0xFF, 0xFF, 0xFF, 0x20, 0, 0, 0, 0, 0, 0, 0, 4, 0, 0, 0, 0, 0, 8] 0 = .ok cuh
      ∧ cuh.DwarfFormat = DWARF_64BIT_FORMAT ∧ cuh.UnitLength = 32
      ∧ cuEndOf cuh 0 0 = 40 ∧ cuEndOf cuh 0 0 ≠ 0 + 12 + cuh.UnitLength)
    ∧ cuEndOf { UnitLength := 32, DwarfFormat := DWARF_64BIT_FORMAT, Version := 4 } 100 100
        = 240 := by
  refine ⟨⟨_, by rfl, by decide, by decide, by decide, by decide⟩, by decide⟩

end Dwarf

theorem sub64_eq (a b : Nat) (hb : b ≤ a) (ha : a < 2 ^ 64) : sub64 a b = a - b := by
  unfold sub64 u64
  rw [Nat.mod_eq_of_lt (show b < 2 ^ 64 by omega)]
  have : a + (2 ^ 64 - b) = (a - b) + 2 ^ 64 := by omega
  rw [this, Nat.add_mod_right]
  exact Nat.mod_eq_of_lt (by omega)

theorem u64_eq (n : Nat) (h : n < 2 ^ 64) : u64 n = n := Nat.mod_eq_of_lt h

namespace Dwarf

/-- A read of `ReaduLEB128` inside a section that holds the canonical encoding of `x`
at the cursor. -/
theorem ReaduLEB128_in_section (bin : List Nat) (off secEnd x : Nat) (hx : x < 2 ^ 64)
    (hb : bytesAt bin off (encodeULEB128 x))
    (hle : off + (encodeULEB128 x).length ≤ secEnd) (hsec : secEnd < 2 ^ 64) :
    ReaduLEB128 bin off (sub64 secEnd off) = (x, (encodeULEB128 x).length) := by
  rw [sub64_eq secEnd off (by omega) hsec]
  exact ReaduLEB128_of_bytesAt bin off _ x hx hb (by omega)

theorem encodeULEB128_zero : encodeULEB128 0 = [0] := encodeULEB128_lt 0 (by norm_num)

theorem encodeAbbrevAttrs_length_pos (ps : List (Nat × Nat)) :
    2 ≤ (encodeAbbrevAttrs ps).length := by
  cases ps with
  | nil => simp [encodeAbbrevAttrs]
  | cons p ps =>
    simp only [encodeAbbrevAttrs, List.length_append]
    have := encodeULEB128_length_pos p.1
    have := encodeULEB128_length_pos p.2
    omega

/-- The attribute loop of `ReadAbbrevTbl` on the wire form of an attribute list. -/
theorem ReadAbbrevTbl_attrs_encode (bin : List Nat) (secEndPos : Nat) (hsec : secEndPos < 2 ^ 64) :
    ∀ (ps : List (Nat × Nat)) (fuel offset : Nat) (acc : List AbbrevAttr),
      (∀ p ∈ ps, p.1 < 2 ^ 64 ∧ p.2 < 2 ^ 64 ∧ ¬ (p.1 = 0 ∧ p.2 = 0)
        ∧ p.2 ≠ DW_FORM_implicit_const) →
      bytesAt bin offset (encodeAbbrevAttrs ps) →
      offset + (encodeAbbrevAttrs ps).length ≤ secEndPos →
      ps.length < fuel →
      ReadAbbrevTbl.attrs bin secEndPos fuel offset acc
        = .ok (acc ++ ps.map (fun p => { Attr := p.1, Form := p.2, Const := 0 }),
            offset + (encodeAbbrevAttrs ps).length) := by
  intro ps
  induction ps with
  | nil =>
    intro fuel offset acc _ hb hle hfuel
    obtain ⟨fuel, rfl⟩ : ∃ f, fuel = f + 1 := ⟨fuel - 1, by simp at hfuel; omega⟩
    simp only [encodeAbbrevAttrs, List.length_cons, List.length_nil] at hle
    simp only [encodeAbbrevAttrs, bytesAt_cons] at hb
    have h1 : ReaduLEB128 bin offset (sub64 secEndPos offset) = (0, 1) := by
      have := ReaduLEB128_in_section bin offset secEndPos 0 (by norm_num)
        (by rw [encodeULEB128_zero, bytesAt_cons]; exact ⟨hb.1, trivial⟩)
        (by rw [encodeULEB128_zero]; simp; omega) hsec
      rwa [encodeULEB128_zero] at this
    have h2 : ReaduLEB128 bin (offset + 1) (sub64 secEndPos (offset + 1)) = (0, 1) := by
      have := ReaduLEB128_in_section bin (offset + 1) secEndPos 0 (by norm_num)
        (by rw [encodeULEB128_zero, bytesAt_cons]; exact ⟨hb.2.1, trivial⟩)
        (by rw [encodeULEB128_zero]; simp; omega) hsec
      rwa [encodeULEB128_zero] at this
    unfold ReadAbbrevTbl.attrs
    simp only [h1, u64_eq (offset + 1) (by omega), h2, u64_eq (offset + 1 + 1) (by omega)]
    simp [encodeAbbrevAttrs]
  | cons p ps ih =>
    intro fuel offset acc hwf hb hle hfuel
    obtain ⟨fuel, rfl⟩ : ∃ f, fuel = f + 1 := ⟨fuel - 1, by simp at hfuel; omega⟩
    obtain ⟨hp1, hp2, hnz, hnic⟩ := hwf p (List.mem_cons_self _ _)
    simp only [encodeAbbrevAttrs, List.length_append] at hle
    simp only [encodeAbbrevAttrs] at hb
    rw [bytesAt_append, bytesAt_append] at hb
    obtain ⟨⟨hb1, hb2⟩, hb3⟩ := hb
    rw [List.length_append] at hb3
    have h1 := ReaduLEB128_in_section bin offset secEndPos p.1 hp1 hb1 (by omega) hsec
    have h2 := ReaduLEB128_in_section bin (offset + (encodeULEB128 p.1).length) secEndPos p.2
      hp2 hb2 (by omega) hsec
    unfold ReadAbbrevTbl.attrs
    simp only [h1, u64_eq (offset + (encodeULEB128 p.1).length) (by omega), h2,
      u64_eq (offset + (encodeULEB128 p.1).length + (encodeULEB128 p.2).length) (by omega)]
    rw [if_neg hnz, if_neg hnic, if_neg hnic]
    have hrec := ih fuel (offset + (encodeULEB128 p.1).length + (encodeULEB128 p.2).length)
      (acc ++ [{ Attr := p.1, Form := p.2, Const := 0 }])
      (fun q hq => hwf q (List.mem_cons_of_mem _ hq))
      (by rwa [Nat.add_assoc])
      (by omega)
      (by simp only [List.length_cons] at hfuel; omega)
    rw [hrec]
    simp only [encodeAbbrevAttrs, List.length_append, List.map_cons, List.append_assoc,
      List.singleton_append]
    congr 2
    omega

theorem encodeAbbrevDecl_length (d : AbbrevDecl) :
    (encodeAbbrevDecl d).length = (encodeULEB128 d.code).length + (encodeULEB128 d.tag).length
      + 1 + (encodeAbbrevAttrs d.attrs).length := by
  simp [encodeAbbrevDecl]
  omega

/-- The outer loop of `ReadAbbrevTbl` on the wire form of a table. -/
theorem ReadAbbrevTbl_loop_encode (bin : List Nat) (secEndPos inner : Nat)
    (hsec : secEndPos < 2 ^ 64) :
    ∀ (ds : List AbbrevDecl) (fuel offset : Nat) (acc : List Abbrev),
      (∀ d ∈ ds, d.WellFormed) →
      (∀ d ∈ ds, d.attrs.length < inner) →
      bytesAt bin offset (encodeAbbrevTable ds) →
      offset + (encodeAbbrevTable ds).length ≤ secEndPos →
      ds.length < fuel →
      ReadAbbrevTbl.loop bin secEndPos inner fuel offset acc
        = .ok (acc ++ ds.map AbbrevDecl.toAbbrev, offset + (encodeAbbrevTable ds).length) := by
  intro ds
  induction ds with
  | nil =>
    intro fuel offset acc _ _ hb hle hfuel
    obtain ⟨fuel, rfl⟩ : ∃ f, fuel = f + 1 := ⟨fuel - 1, by simp at hfuel; omega⟩
    simp only [encodeAbbrevTable, encodeAbbrevDecls, List.nil_append, List.length_cons,
      List.length_nil] at hle hb
    have h1 : ReaduLEB128 bin offset (sub64 secEndPos offset) = (0, 1) := by
      have := ReaduLEB128_in_section bin offset secEndPos 0 (by norm_num)
        (by rw [encodeULEB128_zero]; exact hb)
        (by rw [encodeULEB128_zero]; simp; omega) hsec
      rwa [encodeULEB128_zero] at this
    unfold ReadAbbrevTbl.loop
    rw [if_pos (by omega)]
    simp only [h1, u64_eq (offset + 1) (by omega)]
    simp [encodeAbbrevTable, encodeAbbrevDecls]
  | cons d ds ih =>
    intro fuel offset acc hwf hinner hb hle hfuel
    obtain ⟨fuel, rfl⟩ : ∃ f, fuel = f + 1 := ⟨fuel - 1, by simp at hfuel; omega⟩
    obtain ⟨hc0, hc, ht, hch, hattrs⟩ := hwf d (List.mem_cons_self _ _)
    have hlen : (encodeAbbrevTable (d :: ds)).length
        = (encodeULEB128 d.code).length + (encodeULEB128 d.tag).length + 1
          + (encodeAbbrevAttrs d.attrs).length + (encodeAbbrevTable ds).length := by
      simp [encodeAbbrevTable, encodeAbbrevDecls, encodeAbbrevDecl]
      omega
    rw [hlen] at hle
    have hb' : bytesAt bin offset (encodeULEB128 d.code ++ (encodeULEB128 d.tag
        ++ ([d.children] ++ (encodeAbbrevAttrs d.attrs ++ encodeAbbrevTable ds)))) := by
      have : encodeAbbrevTable (d :: ds) = encodeULEB128 d.code ++ (encodeULEB128 d.tag
          ++ ([d.children] ++ (encodeAbbrevAttrs d.attrs ++ encodeAbbrevTable ds))) := by
        simp [encodeAbbrevTable, encodeAbbrevDecls, encodeAbbrevDecl]
      rwa [this] at hb
    rw [bytesAt_append, bytesAt_append, bytesAt_append, bytesAt_append] at hb'
    obtain ⟨hb1, hb2, hb3, hb4, hb5⟩ := hb'
    simp only [List.length_singleton] at hb4 hb5
    rw [bytesAt_cons] at hb3
    have hpos := encodeULEB128_length_pos d.code
    have h1 := ReaduLEB128_in_section bin offset secEndPos d.code hc hb1 (by omega) hsec
    have h2 := ReaduLEB128_in_section bin (offset + (encodeULEB128 d.code).length) secEndPos
      d.tag ht hb2 (by omega) hsec
    have h3 := ReadAbbrevTbl_attrs_encode bin secEndPos hsec d.attrs inner
      (offset + (encodeULEB128 d.code).length + (encodeULEB128 d.tag).length + 1) []
      hattrs hb4 (by omega) (hinner d (List.mem_cons_self _ _))
    unfold ReadAbbrevTbl.loop
    rw [if_pos (by omega)]
    simp only [h1, u64_eq (offset + (encodeULEB128 d.code).length) (by omega), if_neg hc0, h2,
      u64_eq (offset + (encodeULEB128 d.code).length + (encodeULEB128 d.tag).length) (by omega),
      u64_eq (offset + (encodeULEB128 d.code).length + (encodeULEB128 d.tag).length + 1)
        (by omega), h3, hb3.1]
    have hrec := ih fuel (offset + (encodeULEB128 d.code).length + (encodeULEB128 d.tag).length
        + 1 + (encodeAbbrevAttrs d.attrs).length)
      (acc ++ [d.toAbbrev])
      (fun q hq => hwf q (List.mem_cons_of_mem _ hq))
      (fun q hq => hinner q (List.mem_cons_of_mem _ hq))
      hb5 (by omega)
      (by simp only [List.length_cons] at hfuel; omega)
    simp only [List.nil_append]
    show ReadAbbrevTbl.loop bin secEndPos inner fuel _ (acc ++ [d.toAbbrev]) = _
    rw [hrec, hlen]
    simp only [List.map_cons, List.append_assoc, List.singleton_append]
    congr 2
    omega

end Dwarf

namespace Dwarf

theorem encodeAbbrevAttrs_byte_lt (ps : List (Nat × Nat)) :
    ∀ b ∈ encodeAbbrevAttrs ps, b < 256 := by
  induction ps with
  | nil => intro b hb; simp [encodeAbbrevAttrs] at hb; omega
  | cons p ps ih =>
    intro b hb
    simp only [encodeAbbrevAttrs, List.mem_append] at hb
    rcases hb with (hb | hb) | hb
    · exact encodeULEB128_byte_lt _ b hb
    · exact encodeULEB128_byte_lt _ b hb
    · exact ih b hb

theorem encodeAbbrevDecls_byte_lt (ds : List AbbrevDecl) (h : ∀ d ∈ ds, d.children < 256) :
    ∀ b ∈ encodeAbbrevDecls ds, b < 256 := by
  induction ds with
  | nil => intro b hb; simp [encodeAbbrevDecls] at hb
  | cons d ds ih =>
    intro b hb
    simp only [encodeAbbrevDecls, encodeAbbrevDecl, List.mem_append, List.mem_singleton] at hb
    rcases hb with (((hb | hb) | hb) | hb) | hb
    · exact encodeULEB128_byte_lt _ b hb
    · exact encodeULEB128_byte_lt _ b hb
    · rw [hb]; exact h d (List.mem_cons_self _ _)
    · exact encodeAbbrevAttrs_byte_lt _ b hb
    · exact ih (fun q hq => h q (List.mem_cons_of_mem _ hq)) b hb

theorem encodeAbbrevAttrs_length_gt (ps : List (Nat × Nat)) :
    ps.length < (encodeAbbrevAttrs ps).length := by
  induction ps with
  | nil => simp [encodeAbbrevAttrs]
  | cons p ps ih =>
    simp only [encodeAbbrevAttrs, List.length_append, List.length_cons]
    have := encodeULEB128_length_pos p.1
    omega

theorem encodeAbbrevDecls_length_ge (ds : List AbbrevDecl) :
    ds.length ≤ (encodeAbbrevDecls ds).length
    ∧ ∀ d ∈ ds, d.attrs.length < (encodeAbbrevDecls ds).length := by
  induction ds with
  | nil => simp [encodeAbbrevDecls]
  | cons d ds ih =>
    have h1 := encodeAbbrevDecl_length d
    have h2 := encodeAbbrevAttrs_length_gt d.attrs
    simp only [encodeAbbrevDecls, List.length_append, List.length_cons]
    refine ⟨by omega, ?_⟩
    intro q hq
    rcases List.mem_cons.mp hq with rfl | hq
    · omega
    · have := ih.2 q hq
      omega

/-- `ReadAbbrevTbl` on the wire form of a well-formed table: for a well-formed abbreviation table (declarations with a nonzero code,
a tag, a children byte and (attribute, form) pairs none of which is `(0, 0)` or has
form `implicit_const`, each list closed by `(0, 0)`, the table closed by a zero code)
that lies inside the section, `ReadAbbrevTbl` started at the offset of the table
returns exactly the declarations in wire order, each with its attributes in wire
order and `HasChildren` true exactly when the children byte is 1; its loop ends with
the cursor right after the zero code, whatever bytes `rest` follow the table. -/
theorem ReadAbbrevTbl_table_encode (ds : List AbbrevDecl) (pre rest : List Nat)
    (dbgAbbrevShdr : Elf64_Shdr) (fuel : Nat)
    (hwf : ∀ d ∈ ds, d.WellFormed)
    (hsec : dbgAbbrevShdr.sh_offset + dbgAbbrevShdr.sh_size < 2 ^ 64)
    (hin : pre.length + (encodeAbbrevTable ds).length
      ≤ dbgAbbrevShdr.sh_offset + dbgAbbrevShdr.sh_size)
    (hfuel : (encodeAbbrevTable ds).length ≤ fuel) :
    ReadAbbrevTbl fuel (pre ++ encodeAbbrevTable ds ++ rest) dbgAbbrevShdr pre.length
      = .ok (ds.map AbbrevDecl.toAbbrev)
    ∧ ReadAbbrevTbl.loop (pre ++ encodeAbbrevTable ds ++ rest)
        (u64 (dbgAbbrevShdr.sh_offset + dbgAbbrevShdr.sh_size)) fuel fuel pre.length []
      = .ok (ds.map AbbrevDecl.toAbbrev, pre.length + (encodeAbbrevTable ds).length) := by
  have hlen : (encodeAbbrevTable ds).length = (encodeAbbrevDecls ds).length + 1 := by
    simp [encodeAbbrevTable]
  have hge := encodeAbbrevDecls_length_ge ds
  have hbytes : ∀ b ∈ encodeAbbrevTable ds, b < 256 := by
    intro b hb
    simp only [encodeAbbrevTable, List.mem_append, List.mem_singleton] at hb
    rcases hb with hb | hb
    · exact encodeAbbrevDecls_byte_lt ds (fun d hd => (hwf d hd).2.2.2.1) b hb
    · omega
  have hloop := ReadAbbrevTbl_loop_encode (pre ++ encodeAbbrevTable ds ++ rest)
    (u64 (dbgAbbrevShdr.sh_offset + dbgAbbrevShdr.sh_size)) fuel
    (by unfold u64; exact Nat.mod_lt _ (by norm_num)) ds fuel pre.length [] hwf
    (fun d hd => by have := hge.2 d hd; omega)
    (bytesAt_embed pre _ rest hbytes)
    (by rw [u64_eq _ hsec]; exact hin)
    (by omega)
  rw [List.nil_append] at hloop
  refine ⟨?_, hloop⟩
  unfold ReadAbbrevTbl
  rw [hloop]
  rfl

/-- Claim C6.  For a well-formed abbreviation table (declarations with a nonzero code,
a tag, a children byte and (attribute, form) pairs none of which is `(0, 0)` or has
form `implicit_const`, each list closed by `(0, 0)`, the table closed by a zero code)
that lies inside the section, `ReadAbbrevTbl` started at the offset of the table
returns exactly the declarations in wire order, each with its attributes in wire
order and `HasChildren` true exactly when the children byte is 1; its loop ends with
the cursor right after the zero code, whatever bytes `rest` follow the table. -/
theorem ReadAbbrevTbl_wellFormed (ds : List AbbrevDecl) (pre rest : List Nat)
    (dbgAbbrevShdr : Elf64_Shdr) (fuel : Nat)
    (hwf : ∀ d ∈ ds, d.WellFormed)
    (hsec : dbgAbbrevShdr.sh_offset + dbgAbbrevShdr.sh_size < 2 ^ 64)
    (hin : pre.length + (encodeAbbrevTable ds).length
      ≤ dbgAbbrevShdr.sh_offset + dbgAbbrevShdr.sh_size)
    (hfuel : (encodeAbbrevTable ds).length ≤ fuel) :
    ReadAbbrevTbl fuel (pre ++ encodeAbbrevTable ds ++ rest) dbgAbbrevShdr pre.length
      = .ok (ds.map AbbrevDecl.toAbbrev)
    ∧ ReadAbbrevTbl.loop (pre ++ encodeAbbrevTable ds ++ rest)
        (u64 (dbgAbbrevShdr.sh_offset + dbgAbbrevShdr.sh_size)) fuel fuel pre.length []
      = .ok (ds.map AbbrevDecl.toAbbrev, pre.length + (encodeAbbrevTable ds).length) :=
  ReadAbbrevTbl_table_encode ds pre rest dbgAbbrevShdr fuel hwf hsec hin hfuel

/-- Witness of claim C6: a table of two declarations, preceded by one byte and
followed by two bytes that are not decoded. -/
theorem ReadAbbrevTbl_wellFormed_witness :
    ReadAbbrevTbl 17
      ([0xAA] ++ encodeAbbrevTable
        [{ code := 1, tag := 0x2e, children := 1, attrs := [(0x03, 0x08)] },
         { code := 2, tag := 0x2e, children := 0, attrs := [(0x47, 0x13), (0x11, 0x01)] }]
        ++ [0x05, 0x06]) ⟨1, 17⟩ [0xAA].length
      = .ok [{ Id := 1, Tag := 0x2e, HasChildren := true,
               Attrs := [{ Attr := 0x03, Form := 0x08, Const := 0 }] },
             { Id := 2, Tag := 0x2e, HasChildren := false,
               Attrs := [{ Attr := 0x47, Form := 0x13, Const := 0 },
                         { Attr := 0x11, Form := 0x01, Const := 0 }] }] :=
  (ReadAbbrevTbl_wellFormed
    [{ code := 1, tag := 0x2e, children := 1, attrs := [(0x03, 0x08)] },
     { code := 2, tag := 0x2e, children := 0, attrs := [(0x47, 0x13), (0x11, 0x01)] }]
    [0xAA] [0x05, 0x06] ⟨1, 17⟩ 17
    (by decide)
    (by decide)
    (by simp [encodeAbbrevTable, encodeAbbrevDecls, encodeAbbrevDecl, encodeAbbrevAttrs,
      encodeULEB128])
    (by simp [encodeAbbrevTable, encodeAbbrevDecls, encodeAbbrevDecl, encodeAbbrevAttrs,
      encodeULEB128])).1

end Dwarf

namespace Dwarf

/-! ## Little-endian reads -/

theorem FromLeToUInt16_le16 (bin : List Nat) (off v : Nat) (hv : v < 2 ^ 16)
    (hb : bytesAt bin off (le16 v)) : BinUtil.FromLeToUInt16 bin off = v := by
  simp only [le16, bytesAt_cons] at hb
  obtain ⟨h0, h1, _⟩ := hb
  unfold BinUtil.FromLeToUInt16 u16
  rw [h0, h1]
  norm_num at hv ⊢
  omega

theorem FromLeToUInt32_le32 (bin : List Nat) (off v : Nat) (hv : v < 2 ^ 32)
    (hb : bytesAt bin off (le32 v)) : BinUtil.FromLeToUInt32 bin off = v := by
  simp only [le32, bytesAt_cons] at hb
  obtain ⟨h0, h1, h2, h3, _⟩ := hb
  unfold BinUtil.FromLeToUInt32 u32
  have e2 : off + 2 = off + 1 + 1 := rfl
  have e3 : off + 3 = off + 1 + 1 + 1 := rfl
  rw [e2, e3, h0, h1, h2, h3]
  norm_num at hv ⊢
  omega

theorem FromLeToUInt64_le64 (bin : List Nat) (off v : Nat) (hv : v < 2 ^ 64)
    (hb : bytesAt bin off (le64 v)) : BinUtil.FromLeToUInt64 bin off = v := by
  simp only [le64, bytesAt_cons] at hb
  obtain ⟨h0, h1, h2, h3, h4, h5, h6, h7, _⟩ := hb
  unfold BinUtil.FromLeToUInt64 u64
  have e2 : off + 2 = off + 1 + 1 := rfl
  have e3 : off + 3 = off + 1 + 1 + 1 := rfl
  have e4 : off + 4 = off + 1 + 1 + 1 + 1 := rfl
  have e5 : off + 5 = off + 1 + 1 + 1 + 1 + 1 := rfl
  have e6 : off + 6 = off + 1 + 1 + 1 + 1 + 1 + 1 := rfl
  have e7 : off + 7 = off + 1 + 1 + 1 + 1 + 1 + 1 + 1 := rfl
  rw [e2, e3, e4, e5, e6, e7, h0, h1, h2, h3, h4, h5, h6, h7]
  norm_num at hv ⊢
  omega

theorem le16_length (v : Nat) : (le16 v).length = 2 := rfl
theorem le32_length (v : Nat) : (le32 v).length = 4 := rfl
theorem le64_length (v : Nat) : (le64 v).length = 8 := rfl

theorem le16_byte_lt (v : Nat) : ∀ b ∈ le16 v, b < 256 := by
  intro b hb; simp [le16] at hb; omega

theorem le32_byte_lt (v : Nat) : ∀ b ∈ le32 v, b < 256 := by
  intro b hb; simp [le32] at hb; omega

theorem le64_byte_lt (v : Nat) : ∀ b ∈ le64 v, b < 256 := by
  intro b hb; simp [le64] at hb; omega

end Dwarf

namespace Dwarf

theorem leAddr_length (addressSize v : Nat) :
    (leAddr addressSize v).length = if addressSize = 8 then 8 else 4 := by
  unfold leAddr; split <;> rfl

theorem leAddr_byte_lt (addressSize v : Nat) : ∀ b ∈ leAddr addressSize v, b < 256 := by
  unfold leAddr; split
  · exact le64_byte_lt v
  · exact le32_byte_lt v

theorem encodeSegments_byte_lt (addressSize : Nat) (segs : List (Nat × Nat)) :
    ∀ b ∈ encodeSegments addressSize segs, b < 256 := by
  induction segs with
  | nil =>
    intro b hb
    simp only [encodeSegments, List.mem_append] at hb
    rcases hb with hb | hb <;> exact leAddr_byte_lt _ _ b hb
  | cons s segs ih =>
    intro b hb
    simp only [encodeSegments, List.mem_append] at hb
    rcases hb with (hb | hb) | hb
    · exact leAddr_byte_lt _ _ b hb
    · exact leAddr_byte_lt _ _ b hb
    · exact ih b hb

theorem encodeSegments_length (addressSize : Nat) (segs : List (Nat × Nat)) :
    (encodeSegments addressSize segs).length
      = 2 * (if addressSize = 8 then 8 else 4) * (segs.length + 1) := by
  induction segs with
  | nil => simp only [encodeSegments, List.length_append, leAddr_length, List.length_nil]; omega
  | cons s segs ih =>
    simp only [encodeSegments, List.length_append, leAddr_length, List.length_cons, ih]
    split <;> omega

/-- The segment loop of `ReadAranges` on the wire form of a segment list, address size
8. -/
theorem ReadAranges_segments_encode8 (bin : List Nat) :
    ∀ (segs : List (Nat × Nat)) (fuel offset : Nat) (acc : List DwarfSegmentInfo),
      (∀ s ∈ segs, s.1 < 2 ^ (8 * 8) ∧ s.2 < 2 ^ (8 * 8) ∧ ¬ (s.1 = 0 ∧ s.2 = 0)) →
      bytesAt bin offset (encodeSegments 8 segs) →
      offset + (encodeSegments 8 segs).length < 2 ^ 64 →
      segs.length < fuel →
      ReadAranges.segments bin 8 fuel offset acc
        = .ok (acc ++ segs.map (fun s => { Address := s.1, Length := s.2 }),
            offset + (encodeSegments 8 segs).length) := by
  intro segs
  induction segs with
  | nil =>
    intro fuel offset acc _ hb hlt hfuel
    obtain ⟨fuel, rfl⟩ : ∃ f, fuel = f + 1 := ⟨fuel - 1, by simp at hfuel; omega⟩
    rw [encodeSegments_length] at hlt
    simp only [encodeSegments, leAddr, if_true] at hb
    rw [bytesAt_append, le64_length] at hb
    have h1 := FromLeToUInt64_le64 bin offset 0 (by norm_num) hb.1
    have h2 := FromLeToUInt64_le64 bin (offset + 8) 0 (by norm_num) hb.2
    simp only [List.length_nil, if_true] at hlt
    unfold ReadAranges.segments
    simp only [if_true, h1, u64_eq (offset + 8) (by omega), h2,
      u64_eq (offset + 8 + 8) (by omega)]
    simp [encodeSegments_length]
  | cons s segs ih =>
    intro fuel offset acc hwf hb hlt hfuel
    obtain ⟨fuel, rfl⟩ : ∃ f, fuel = f + 1 := ⟨fuel - 1, by simp at hfuel; omega⟩
    obtain ⟨hs1, hs2, hnz⟩ := hwf s (List.mem_cons_self _ _)
    have hlen : (encodeSegments 8 (s :: segs)).length = 16 + (encodeSegments 8 segs).length := by
      simp only [encodeSegments_length, List.length_cons, if_true]; omega
    rw [hlen] at hlt
    simp only [encodeSegments, leAddr, if_true] at hb
    rw [bytesAt_append, bytesAt_append, List.length_append, le64_length, le64_length] at hb
    obtain ⟨⟨hb1, hb2⟩, hb3⟩ := hb
    have h1 := FromLeToUInt64_le64 bin offset s.1 (by simpa using hs1) hb1
    have h2 := FromLeToUInt64_le64 bin (offset + 8) s.2 (by simpa using hs2) hb2
    unfold ReadAranges.segments
    simp only [if_true, h1, u64_eq (offset + 8) (by omega), h2,
      u64_eq (offset + 8 + 8) (by omega), if_neg hnz]
    have hrec := ih fuel (offset + 8 + 8) (acc ++ [{ Address := s.1, Length := s.2 }])
      (fun q hq => hwf q (List.mem_cons_of_mem _ hq))
      (by have : offset + 8 + 8 = offset + (8 + 8) := by omega
          rw [this]; simpa only [leAddr, if_true] using hb3)
      (by omega)
      (by simp only [List.length_cons] at hfuel; omega)
    rw [hrec, hlen]
    simp only [List.map_cons, List.append_assoc, List.singleton_append]
    congr 2
    omega

/-- The segment loop of `ReadAranges` on the wire form of a segment list, address size
4. -/
theorem ReadAranges_segments_encode4 (bin : List Nat) :
    ∀ (segs : List (Nat × Nat)) (fuel offset : Nat) (acc : List DwarfSegmentInfo),
      (∀ s ∈ segs, s.1 < 2 ^ (8 * 4) ∧ s.2 < 2 ^ (8 * 4) ∧ ¬ (s.1 = 0 ∧ s.2 = 0)) →
      bytesAt bin offset (encodeSegments 4 segs) →
      offset + (encodeSegments 4 segs).length < 2 ^ 64 →
      segs.length < fuel →
      ReadAranges.segments bin 4 fuel offset acc
        = .ok (acc ++ segs.map (fun s => { Address := s.1, Length := s.2 }),
            offset + (encodeSegments 4 segs).length) := by
  have h48 : ¬ (4 = 8) := by decide
  intro segs
  induction segs with
  | nil =>
    intro fuel offset acc _ hb hlt hfuel
    obtain ⟨fuel, rfl⟩ : ∃ f, fuel = f + 1 := ⟨fuel - 1, by simp at hfuel; omega⟩
    rw [encodeSegments_length] at hlt
    simp only [encodeSegments, leAddr, if_neg h48] at hb
    rw [bytesAt_append, le32_length] at hb
    have h1 := FromLeToUInt32_le32 bin offset 0 (by norm_num) hb.1
    have h2 := FromLeToUInt32_le32 bin (offset + 4) 0 (by norm_num) hb.2
    simp only [List.length_nil, if_neg h48] at hlt
    unfold ReadAranges.segments
    simp only [if_neg h48, h1, u64_eq (offset + 4) (by omega), h2,
      u64_eq (offset + 4 + 4) (by omega)]
    simp [encodeSegments_length]
  | cons s segs ih =>
    intro fuel offset acc hwf hb hlt hfuel
    obtain ⟨fuel, rfl⟩ : ∃ f, fuel = f + 1 := ⟨fuel - 1, by simp at hfuel; omega⟩
    obtain ⟨hs1, hs2, hnz⟩ := hwf s (List.mem_cons_self _ _)
    have hlen : (encodeSegments 4 (s :: segs)).length = 8 + (encodeSegments 4 segs).length := by
      simp only [encodeSegments_length, List.length_cons, if_neg h48]; omega
    rw [hlen] at hlt
    simp only [encodeSegments, leAddr, if_neg h48] at hb
    rw [bytesAt_append, bytesAt_append, List.length_append, le32_length, le32_length] at hb
    obtain ⟨⟨hb1, hb2⟩, hb3⟩ := hb
    have h1 := FromLeToUInt32_le32 bin offset s.1 (by simpa using hs1) hb1
    have h2 := FromLeToUInt32_le32 bin (offset + 4) s.2 (by simpa using hs2) hb2
    unfold ReadAranges.segments
    simp only [if_neg h48, h1, u64_eq (offset + 4) (by omega), h2,
      u64_eq (offset + 4 + 4) (by omega), if_neg hnz]
    have hrec := ih fuel (offset + 4 + 4) (acc ++ [{ Address := s.1, Length := s.2 }])
      (fun q hq => hwf q (List.mem_cons_of_mem _ hq))
      (by have : offset + 4 + 4 = offset + (4 + 4) := by omega
          rw [this]; simpa only [leAddr, if_neg h48] using hb3)
      (by omega)
      (by simp only [List.length_cons] at hfuel; omega)
    rw [hrec, hlen]
    simp only [List.map_cons, List.append_assoc, List.singleton_append]
    congr 2
    omega

theorem ReadAranges_segments_encode (bin : List Nat) (addressSize : Nat)
    (has : addressSize = 4 ∨ addressSize = 8)
    (segs : List (Nat × Nat)) (fuel offset : Nat) (acc : List DwarfSegmentInfo)
    (hwf : ∀ s ∈ segs, s.1 < 2 ^ (8 * addressSize) ∧ s.2 < 2 ^ (8 * addressSize)
      ∧ ¬ (s.1 = 0 ∧ s.2 = 0))
    (hb : bytesAt bin offset (encodeSegments addressSize segs))
    (hlt : offset + (encodeSegments addressSize segs).length < 2 ^ 64)
    (hfuel : segs.length < fuel) :
    ReadAranges.segments bin addressSize fuel offset acc
      = .ok (acc ++ segs.map (fun s => { Address := s.1, Length := s.2 }),
          offset + (encodeSegments addressSize segs).length) := by
  rcases has with rfl | rfl
  · exact ReadAranges_segments_encode4 bin segs fuel offset acc hwf hb hlt hfuel
  · exact ReadAranges_segments_encode8 bin segs fuel offset acc hwf hb hlt hfuel

end Dwarf

/-! ## `StdMap` lemmas -/

namespace StdMap

theorem find_assign {V : Type} (m : StdMap V) (k : Nat) (v : V) (k' : Nat) :
    find (assign m k v) k' = if k = k' then some v else find m k' := by
  induction m with
  | nil => simp [assign, find]
  | cons p m ih =>
    obtain ⟨kp, vp⟩ := p
    unfold assign
    by_cases h1 : k = kp
    · subst h1
      simp only [if_true, find]
      by_cases h3 : k = k' <;> simp [h3]
    · simp only [if_neg h1]
      by_cases h2 : k < kp
      · simp only [if_pos h2, find]
      · simp only [if_neg h2, find, ih]
        by_cases h3 : kp = k'
        · subst h3
          simp [h1]
        · simp [h3]

theorem find_assign_self {V : Type} (m : StdMap V) (k : Nat) (v : V) :
    find (assign m k v) k = some v := by
  rw [find_assign]; simp

theorem find_assign_ne {V : Type} (m : StdMap V) (k : Nat) (v : V) (k' : Nat) (h : k ≠ k') :
    find (assign m k v) k' = find m k' := by
  rw [find_assign]; simp [h]

end StdMap

namespace Dwarf

theorem ArangeEntry.body_length (e : ArangeEntry) :
    e.body.length = 12 + (encodeSegments e.addressSize e.segments).length + e.trailing.length := by
  simp [ArangeEntry.body, le16, le32]
  omega

theorem encodeArangeEntry_length (e : ArangeEntry) :
    (encodeArangeEntry e).length = 4 + e.unitLength := by
  simp [encodeArangeEntry, ArangeEntry.unitLength, le32]
  omega

theorem encodeArangeEntry_byte_lt (e : ArangeEntry) (hwf : e.WellFormed) :
    ∀ b ∈ encodeArangeEntry e, b < 256 := by
  obtain ⟨_, _, has, hss, _, htr, _⟩ := hwf
  intro b hb
  simp only [encodeArangeEntry, ArangeEntry.body, List.mem_append, List.mem_cons,
    List.mem_singleton, List.not_mem_nil, or_false] at hb
  rcases hb with hb | hb | hb | (hb | hb) | (hb | hb | hb | hb) | hb | hb
  · exact le32_byte_lt _ b hb
  · exact le16_byte_lt _ b hb
  · exact le32_byte_lt _ b hb
  · rcases has with h | h <;> omega
  · omega
  · omega
  · omega
  · omega
  · omega
  · exact encodeSegments_byte_lt _ _ b hb
  · exact htr b hb

theorem encodeAranges_byte_lt (es : List ArangeEntry) (hwf : ∀ e ∈ es, e.WellFormed) :
    ∀ b ∈ encodeAranges es, b < 256 := by
  induction es with
  | nil => intro b hb; simp [encodeAranges] at hb
  | cons e es ih =>
    intro b hb
    simp only [encodeAranges, List.mem_append] at hb
    rcases hb with hb | hb
    · exact encodeArangeEntry_byte_lt e (hwf e (List.mem_cons_self _ _)) b hb
    · exact ih (fun q hq => hwf q (List.mem_cons_of_mem _ hq)) b hb

/-- The header part of an iteration of `ReadAranges` on the wire form of a well-formed
entry: the header fields, the cursor 16 bytes after the start of the entry, and
`nextHdrTop = headerTop + 4 + UnitLength`. -/
theorem ReadAranges_header_encode (bin : List Nat) (headerTop : Nat) (e : ArangeEntry)
    (hwf : e.WellFormed) (hb : bytesAt bin headerTop (encodeArangeEntry e))
    (hlt : headerTop + 4 + e.unitLength < 2 ^ 64) :
    ReadAranges.header bin headerTop
      = .ok (e.toInfo.Header, headerTop + 16, headerTop + 4 + e.unitLength) := by
  obtain ⟨hv, hdio, has, hss, _, _, hul⟩ := hwf
  have hbl := ArangeEntry.body_length e
  have hul12 : 12 ≤ e.unitLength := by unfold ArangeEntry.unitLength; omega
  simp only [encodeArangeEntry, ArangeEntry.body] at hb
  rw [bytesAt_append, bytesAt_append, bytesAt_append, bytesAt_append] at hb
  simp only [le32_length, le16_length, List.length_cons, List.length_nil] at hb
  obtain ⟨hb1, hb2, hb3, hb4, _⟩ := hb
  simp only [bytesAt_cons] at hb4
  have e4 : u64 (headerTop + 4) = headerTop + 4 := u64_eq _ (by omega)
  have e6 : u64 (headerTop + 4 + 2) = headerTop + 4 + 2 := u64_eq _ (by omega)
  have e10 : u64 (headerTop + 4 + 2 + 4) = headerTop + 4 + 2 + 4 := u64_eq _ (by omega)
  have e11 : u64 (headerTop + 4 + 2 + 4 + 1) = headerTop + 4 + 2 + 4 + 1 := u64_eq _ (by omega)
  have e12 : u64 (headerTop + 4 + 2 + 4 + 1 + 1) = headerTop + 12 := u64_eq _ (by omega)
  have r1 := FromLeToUInt32_le32 bin headerTop e.unitLength
    (lt_trans hul (by norm_num)) hb1
  have r2 := FromLeToUInt16_le16 bin (headerTop + 4) e.version hv hb2
  have r3 := FromLeToUInt32_le32 bin (headerTop + 4 + 2) e.debugInfoOffset hdio hb3
  have hsub : sub64 (headerTop + 12) headerTop = 12 := by
    rw [sub64_eq _ _ (by omega) (by omega)]; omega
  have hnext : u64 (headerTop + u64 (0 + 4) + e.unitLength) = headerTop + 4 + e.unitLength := by
    have : u64 (0 + 4) = 4 := by decide
    rw [this]; exact u64_eq _ hlt
  unfold ReadAranges.header
  simp only [r1, if_pos hul, e4, e6, e10, e11, e12, r2, r3, hb4.1, hb4.2.1, hsub, hnext]
  rcases has with h | h
  · have hpad : u64 (headerTop + 12 + sub64 4 (12 % 4)) = headerTop + 16 := by
      have h1 : sub64 4 (12 % 4) = 4 := by decide
      rw [h1]; exact u64_eq _ (by omega)
    have hz : ¬ (4 = 0) := by decide
    simp only [h, hpad, if_neg hz]
    simp [ArangeEntry.toInfo, h]
  · have hpad : u64 (headerTop + 12 + sub64 8 (12 % 8)) = headerTop + 16 := by
      have h1 : sub64 8 (12 % 8) = 4 := by decide
      rw [h1]; exact u64_eq _ (by omega)
    have hz : ¬ (8 = 0) := by decide
    simp only [h, hpad, if_neg hz]
    simp [ArangeEntry.toInfo, h]

/-- One iteration of the outer loop of `ReadAranges` on a well-formed entry: the entry
is stored under its `DebugInfoOffset` and the loop goes on at
`headerTop + 4 + UnitLength`. -/
theorem ReadAranges_loop_step (bin : List Nat) (sectionEnd inner n headerTop : Nat)
    (m0 : StdMap DwarfArangeInfo) (e : ArangeEntry) (hwf : e.WellFormed)
    (hb : bytesAt bin headerTop (encodeArangeEntry e))
    (hlt : headerTop + 4 + e.unitLength < 2 ^ 64) (hin : headerTop < sectionEnd)
    (hinner : e.segments.length < inner) :
    ReadAranges.loop bin sectionEnd inner (n + 1) headerTop m0
      = ReadAranges.loop bin sectionEnd inner n (headerTop + 4 + e.unitLength)
          (m0.assign e.debugInfoOffset e.toInfo) := by
  have hhdr := ReadAranges_header_encode bin headerTop e hwf hb hlt
  have hbl := ArangeEntry.body_length e
  have hul : e.unitLength = 12 + (encodeSegments e.addressSize e.segments).length
      + e.trailing.length := hbl
  obtain ⟨_, _, has, _, hsegs, _, _⟩ := hwf
  have hb' := hb
  simp only [encodeArangeEntry, ArangeEntry.body] at hb'
  rw [bytesAt_append, bytesAt_append, bytesAt_append, bytesAt_append, bytesAt_append,
    bytesAt_append] at hb'
  simp only [le32_length, le16_length, List.length_cons, List.length_nil] at hb'
  obtain ⟨_, _, _, _, _, hb5, _⟩ := hb'
  have hseg := ReadAranges_segments_encode bin e.addressSize has e.segments inner
    (headerTop + 16) [] hsegs
    (by have : headerTop + 4 + 2 + 4 + (0 + 1 + 1) + (0 + 1 + 1 + 1 + 1) = headerTop + 16 := by
          omega
        rwa [this] at hb5)
    (by omega) hinner
  conv_lhs => rw [ReadAranges.loop]
  rw [if_pos hin, hhdr]
  simp only []
  have hAS : e.toInfo.Header.AddressSize = e.addressSize := rfl
  rw [hAS, hseg]
  simp only [List.nil_append]
  have hoff : (if headerTop + 4 + e.unitLength
        ≠ headerTop + 16 + (encodeSegments e.addressSize e.segments).length
      then u64 (headerTop + 16 + (encodeSegments e.addressSize e.segments).length
        + sub64 (headerTop + 4 + e.unitLength)
            (headerTop + 16 + (encodeSegments e.addressSize e.segments).length))
      else headerTop + 16 + (encodeSegments e.addressSize e.segments).length)
      = headerTop + 4 + e.unitLength := by
    split
    · rw [sub64_eq _ _ (by omega) hlt]
      rw [u64_eq _ (by omega)]
      omega
    · rename_i h
      push_neg at h
      exact h.symm
  rw [hoff]
  rfl

/-- The map that `ReadAranges` builds from a list of entries. -/
theorem ReadAranges_loop_encode (bin : List Nat) (sectionEnd inner : Nat)
    (hsec : sectionEnd < 2 ^ 64) :
    ∀ (es : List ArangeEntry) (fuel offset : Nat) (m0 : StdMap DwarfArangeInfo),
      (∀ e ∈ es, e.WellFormed) →
      (∀ e ∈ es, e.segments.length < inner) →
      bytesAt bin offset (encodeAranges es) →
      offset + (encodeAranges es).length = sectionEnd →
      es.length < fuel →
      ReadAranges.loop bin sectionEnd inner fuel offset m0
        = .ok (es.foldl (fun m e => m.assign e.debugInfoOffset e.toInfo) m0) := by
  intro es
  induction es with
  | nil =>
    intro fuel offset m0 _ _ _ hend hfuel
    obtain ⟨fuel, rfl⟩ : ∃ f, fuel = f + 1 := ⟨fuel - 1, by simp at hfuel; omega⟩
    simp only [encodeAranges, List.length_nil, Nat.add_zero] at hend
    unfold ReadAranges.loop
    rw [if_neg (by omega)]
    rfl
  | cons e es ih =>
    intro fuel offset m0 hwf hinner hb hend hfuel
    obtain ⟨fuel, rfl⟩ : ∃ f, fuel = f + 1 := ⟨fuel - 1, by simp at hfuel; omega⟩
    simp only [encodeAranges] at hb hend
    rw [bytesAt_append] at hb
    rw [List.length_append, encodeArangeEntry_length] at hend
    rw [encodeArangeEntry_length] at hb
    have hstep := ReadAranges_loop_step bin sectionEnd inner fuel offset m0 e
      (hwf e (List.mem_cons_self _ _)) hb.1 (by omega) (by omega)
      (hinner e (List.mem_cons_self _ _))
    rw [hstep]
    have hrec := ih fuel (offset + 4 + e.unitLength)
      (m0.assign e.debugInfoOffset e.toInfo)
      (fun q hq => hwf q (List.mem_cons_of_mem _ hq))
      (fun q hq => hinner q (List.mem_cons_of_mem _ hq))
      (by rw [Nat.add_assoc]; exact hb.2)
      (by omega)
      (by simp only [List.length_cons] at hfuel; omega)
    rw [hrec]
    rfl

theorem foldl_assign_find_of_not_mem (es : List ArangeEntry) (m0 : StdMap DwarfArangeInfo)
    (k : Nat) (h : ∀ e ∈ es, e.debugInfoOffset ≠ k) :
    StdMap.find (es.foldl (fun m e => m.assign e.debugInfoOffset e.toInfo) m0) k
      = StdMap.find m0 k := by
  induction es generalizing m0 with
  | nil => rfl
  | cons e es ih =>
    simp only [List.foldl_cons]
    rw [ih _ (fun q hq => h q (List.mem_cons_of_mem _ hq))]
    exact StdMap.find_assign_ne _ _ _ _ (h e (List.mem_cons_self _ _))

theorem foldl_assign_find_of_mem (es : List ArangeEntry) (m0 : StdMap DwarfArangeInfo)
    (hdist : es.Pairwise (fun a b => a.debugInfoOffset ≠ b.debugInfoOffset))
    (e : ArangeEntry) (he : e ∈ es) :
    StdMap.find (es.foldl (fun m e => m.assign e.debugInfoOffset e.toInfo) m0)
      e.debugInfoOffset = some e.toInfo := by
  induction es generalizing m0 with
  | nil => cases he
  | cons x es ih =>
    simp only [List.foldl_cons]
    rw [List.pairwise_cons] at hdist
    rcases List.mem_cons.mp he with rfl | he
    · rw [foldl_assign_find_of_not_mem es _ _ (fun q hq => (hdist.1 q hq).symm)]
      exact StdMap.find_assign_self _ _ _
    · exact ih _ hdist.2 he

theorem encodeAranges_length_gt (es : List ArangeEntry) :
    es.length ≤ (encodeAranges es).length
    ∧ ∀ e ∈ es, e.segments.length < (encodeAranges es).length := by
  induction es with
  | nil => simp [encodeAranges]
  | cons e es ih =>
    have h1 := encodeArangeEntry_length e
    have h2 : e.unitLength = 12 + (encodeSegments e.addressSize e.segments).length
      + e.trailing.length := ArangeEntry.body_length e
    have h3 := encodeSegments_length e.addressSize e.segments
    have h4 : e.segments.length < (encodeSegments e.addressSize e.segments).length := by
      rw [h3]; split <;> omega
    simp only [encodeAranges, List.length_append, List.length_cons]
    refine ⟨by omega, ?_⟩
    intro q hq
    rcases List.mem_cons.mp hq with rfl | hq
    · omega
    · have := ih.2 q hq
      omega

theorem encodeAranges_append (es1 es2 : List ArangeEntry) :
    encodeAranges (es1 ++ es2) = encodeAranges es1 ++ encodeAranges es2 := by
  induction es1 with
  | nil => rfl
  | cons e es ih => simp [encodeAranges, ih]

end Dwarf

namespace Dwarf

/-- Claim C9.  For a `.debug_aranges` section made of well-formed 32-bit-format
entries with `AddressSize` 4 or 8 and pairwise distinct `DebugInfoOffset` values,
`ReadAranges` returns a map that holds, under each `DebugInfoOffset`, the entry's
header (`UnitLength`, `Version`, `AddressSize`, `SegmentSize`) and its segments in wire
order without the pair of zeros, and that holds no other key; after each entry the
loop goes on at `header_start + 4 + UnitLength`. -/
theorem ReadAranges_wellFormed (es : List ArangeEntry) (pre rest : List Nat) (fuel : Nat)
    (hwf : ∀ e ∈ es, e.WellFormed)
    (hdist : es.Pairwise (fun a b => a.debugInfoOffset ≠ b.debugInfoOffset))
    (hsize : pre.length + (encodeAranges es).length < 2 ^ 64)
    (hfuel : (encodeAranges es).length < fuel) :
    ∃ m, ReadAranges fuel (pre ++ encodeAranges es ++ rest)
          ⟨pre.length, (encodeAranges es).length⟩ = .ok m
      ∧ (∀ e ∈ es, m.find e.debugInfoOffset = some e.toInfo)
      ∧ (∀ k, (∀ e ∈ es, e.debugInfoOffset ≠ k) → m.find k = none)
      ∧ (∀ es1 e es2, es = es1 ++ e :: es2 → ∀ n m0,
          ReadAranges.loop (pre ++ encodeAranges es ++ rest)
              (u64 (pre.length + (encodeAranges es).length)) fuel (n + 1)
              (pre.length + (encodeAranges es1).length) m0
            = ReadAranges.loop (pre ++ encodeAranges es ++ rest)
              (u64 (pre.length + (encodeAranges es).length)) fuel n
              (pre.length + (encodeAranges es1).length + 4 + e.unitLength)
              (m0.assign e.debugInfoOffset e.toInfo)) := by
  have hemb := bytesAt_embed pre (encodeAranges es) rest (encodeAranges_byte_lt es hwf)
  have hge := encodeAranges_length_gt es
  have hinner : ∀ e ∈ es, e.segments.length < fuel := fun e he => by
    have := hge.2 e he; omega
  have hloop := ReadAranges_loop_encode (pre ++ encodeAranges es ++ rest)
    (u64 (pre.length + (encodeAranges es).length)) fuel
    (by unfold u64; exact Nat.mod_lt _ (by norm_num)) es fuel pre.length [] hwf hinner hemb
    (by rw [u64_eq _ hsize]) (by omega)
  refine ⟨_, hloop, ?_, ?_, ?_⟩
  · intro e he
    exact foldl_assign_find_of_mem es [] hdist e he
  · intro k hk
    rw [foldl_assign_find_of_not_mem es [] k hk]
    rfl
  · intro es1 e es2 hes n m0
    have hlen : (encodeAranges es).length
        = (encodeAranges es1).length + (4 + e.unitLength) + (encodeAranges es2).length := by
      rw [hes, encodeAranges_append]
      simp only [encodeAranges, List.length_append, encodeArangeEntry_length]
      omega
    have he : bytesAt (pre ++ encodeAranges es ++ rest)
        (pre.length + (encodeAranges es1).length) (encodeArangeEntry e) := by
      have hsplit : encodeAranges es
          = encodeAranges es1 ++ (encodeArangeEntry e ++ encodeAranges es2) := by
        rw [hes, encodeAranges_append]; rfl
      generalize pre ++ encodeAranges es ++ rest = bin at hemb ⊢
      rw [hsplit, bytesAt_append, bytesAt_append] at hemb
      exact hemb.2.1
    exact ReadAranges_loop_step _ _ fuel n _ m0 e (hwf e (by rw [hes]; simp)) he (by omega)
      (by rw [u64_eq _ hsize]; omega) (hinner e (by rw [hes]; simp))

/-- Witness of claim C9: a section of two entries, with address sizes 8 and 4. -/
theorem ReadAranges_wellFormed_witness :
    ∃ m, ReadAranges 100
        ([0xAA] ++ encodeAranges
          [{ version := 2, debugInfoOffset := 0, addressSize := 8, segmentSize := 0,
             segments := [(0x1000, 0x20)], trailing := [] },
           { version := 2, debugInfoOffset := 0x50, addressSize := 4, segmentSize := 0,
             segments := [(0x2000, 0x10), (0x3000, 4)], trailing := [] }] ++ [0xBB])
        ⟨1, 84⟩ = .ok m
      ∧ m.find 0x50 = some
          { Header := { UnitLength := 36, DwarfFormat := DWARF_32BIT_FORMAT, Version := 2,
                        DebugInfoOffset := 0x50, AddressSize := 4, SegmentSize := 0 },
            Segments := [{ Address := 0x2000, Length := 0x10 }, { Address := 0x3000, Length := 4 }] } := by
  obtain ⟨m, h1, h2, _, _⟩ := ReadAranges_wellFormed
    [{ version := 2, debugInfoOffset := 0, addressSize := 8, segmentSize := 0,
       segments := [(0x1000, 0x20)], trailing := [] },
     { version := 2, debugInfoOffset := 0x50, addressSize := 4, segmentSize := 0,
       segments := [(0x2000, 0x10), (0x3000, 4)], trailing := [] }]
    [0xAA] [0xBB] 100 (by decide) (by decide) (by decide) (by decide)
  refine ⟨m, h1, ?_⟩
  exact h2 { version := 2, debugInfoOffset := 0x50, addressSize := 4, segmentSize := 0,
             segments := [(0x2000, 0x10), (0x3000, 4)], trailing := [] } (by simp)

end Dwarf

namespace BinUtil

/-- The loop of `GetString` on a string without zero byte that is followed by a zero
byte. -/
theorem GetString_loop_of_bytesAt (buf : List Nat) (base : Nat) :
    ∀ (N : List Nat) (rem pos : Nat) (acc : List Nat),
      (∀ b ∈ N, b ≠ 0) → bytesAt buf (base + pos) (N ++ [0]) → N.length < rem →
      GetString.loop buf base rem pos acc = acc ++ N := by
  intro N
  induction N with
  | nil =>
    intro rem pos acc _ hb hrem
    obtain ⟨rem, rfl⟩ : ∃ r, rem = r + 1 := ⟨rem - 1, by simp at hrem; omega⟩
    simp only [List.nil_append, bytesAt_cons] at hb
    unfold GetString.loop
    simp [hb.1]
  | cons x N ih =>
    intro rem pos acc hnz hb hrem
    obtain ⟨rem, rfl⟩ : ∃ r, rem = r + 1 := ⟨rem - 1, by simp at hrem; omega⟩
    simp only [List.cons_append, bytesAt_cons] at hb
    have hx : x ≠ 0 := hnz x (List.mem_cons_self _ _)
    unfold GetString.loop
    rw [hb.1, if_neg hx]
    rw [ih rem (pos + 1) (acc ++ [x]) (fun b hb' => hnz b (List.mem_cons_of_mem _ hb'))
      (by rw [← Nat.add_assoc]; exact hb.2) (by simp only [List.length_cons] at hrem; omega)]
    simp

theorem GetString_of_bytesAt (buf : List Nat) (base size pos : Nat) (N : List Nat)
    (hnz : ∀ b ∈ N, b ≠ 0) (hb : bytesAt buf (base + pos) (N ++ [0]))
    (hsize : pos + N.length < size) : GetString buf base size pos = N := by
  unfold GetString
  rw [GetString_loop_of_bytesAt buf base N (size - pos) pos [] hnz hb (by omega)]
  rfl

end BinUtil

namespace Dwarf

theorem ReaduLEB128_zero_byte (bin : List Nat) (off size : Nat) (h : byteAt bin off = 0) :
    ReaduLEB128 bin off size = (0, 1) := by
  unfold ReaduLEB128
  cases size with
  | zero => rfl
  | succ n =>
    unfold ReaduLEB128.loop
    simp only [Nat.add_zero, h]
    rfl

/-- A CU header of version 2 to 4 in the 32-bit format, read from its bytes. -/
theorem readCompilationUnitHeader_v4 (bin : List Nat) (offset unitLength version
    debugAbbrevOffset addressSize : Nat)
    (hb : bytesAt bin offset (le32 unitLength ++ (le16 version
      ++ (le32 debugAbbrevOffset ++ [addressSize]))))
    (hUL : unitLength < 0xFFFFFF00) (hver : version < 5) (habbr : debugAbbrevOffset < 2 ^ 32)
    (hoff : offset + 11 < 2 ^ 64) :
    readCompilationUnitHeader bin offset
      = .ok { UnitLength := unitLength, DwarfFormat := DWARF_32BIT_FORMAT, Version := version,
              DebugAbbrevOffset := debugAbbrevOffset, AddressSize := addressSize } := by
  rw [bytesAt_append, bytesAt_append, bytesAt_append] at hb
  simp only [le32_length, le16_length, bytesAt_cons] at hb
  obtain ⟨hb1, hb2, hb3, hb4, _⟩ := hb
  have r1 := FromLeToUInt32_le32 bin offset unitLength (lt_trans hUL (by norm_num)) hb1
  have r2 := FromLeToUInt16_le16 bin (offset + 4) version (lt_trans hver (by norm_num)) hb2
  have r3 := FromLeToUInt32_le32 bin (offset + 4 + 2) debugAbbrevOffset habbr hb3
  unfold readCompilationUnitHeader readCompilationUnitHeader.go
  simp only [r1, if_pos hUL, u64_eq (offset + 4) (by omega), r2, if_pos hver,
    u64_eq (offset + 4 + 2) (by omega), r3, u64_eq (offset + 4 + 2 + 4) (by omega), hb4]
  rfl

/-- One iteration of the DIE loop on a null DIE (a zero byte): the cursor moves by one
byte and nothing else changes. -/
theorem dieLoop_null_step (env : InfoEnv) (inner : Nat) (cuh : DwarfCuHdr) (cuTop cuEnd : Nat)
    (curArrangeInfo : DwarfArangeInfo) (abbrevMap : StdMap Abbrev) (fuel : Nat)
    (st : InfoState) (hlt : st.offset < cuEnd) (hbyte : byteAt env.bin st.offset = 0) :
    dieLoop env inner cuh cuTop cuEnd curArrangeInfo abbrevMap (fuel + 1) st
      = dieLoop env inner cuh cuTop cuEnd curArrangeInfo abbrevMap fuel
          { st with offset := u64 (st.offset + 1) } := by
  conv_lhs => rw [dieLoop]
  rw [if_pos hlt]
  simp only [ReaduLEB128_zero_byte env.bin st.offset _ hbyte, if_true]

/-- One iteration of the DIE loop on a DIE with a nonzero abbreviation code whose
attributes decode to the state `a`. -/
theorem dieLoop_die_step (env : InfoEnv) (inner : Nat) (cuh : DwarfCuHdr) (cuTop cuEnd : Nat)
    (curArrangeInfo : DwarfArangeInfo) (abbrevMap : StdMap Abbrev) (fuel : Nat)
    (st : InfoState) (id len : Nat) (a : AttrState) (hlt : st.offset < cuEnd)
    (hid : ReaduLEB128 env.bin st.offset (sub64 env.dbgInfoEnd st.offset) = (id, len))
    (hid0 : id ≠ 0)
    (hattrs : decodeAttrs env inner cuh cuTop curArrangeInfo st.cppTmpFuncMap
        (abbrevMap.getD id) (abbrevMap.getD id).Attrs
        { offset := u64 (st.offset + len), dwarfFuncInfo := env.freshFuncInfo st.offset,
          cuDbgInfo := st.cuDbgInfo, cuLineInfoOffset := st.cuLineInfoOffset } = .ok a) :
    dieLoop env inner cuh cuTop cuEnd curArrangeInfo abbrevMap (fuel + 1) st
      = dieLoop env inner cuh cuTop cuEnd curArrangeInfo abbrevMap fuel
          { offset := a.offset,
            cuDbgInfo := (registerDie (abbrevMap.getD id)
              (sub64 st.offset env.dbgInfoShdr.sh_offset) a.dwarfFuncInfo a.cuDbgInfo
              st.cppTmpFuncMap).1,
            cuLineInfoOffset := a.cuLineInfoOffset,
            cppTmpFuncMap := (registerDie (abbrevMap.getD id)
              (sub64 st.offset env.dbgInfoShdr.sh_offset) a.dwarfFuncInfo a.cuDbgInfo
              st.cppTmpFuncMap).2 } := by
  conv_lhs => rw [dieLoop]
  rw [if_pos hlt]
  simp only [hid, if_neg hid0, hattrs]

/-- The DIE loop stops when the cursor has reached the CU end. -/
theorem dieLoop_done (env : InfoEnv) (inner : Nat) (cuh : DwarfCuHdr) (cuTop cuEnd : Nat)
    (curArrangeInfo : DwarfArangeInfo) (abbrevMap : StdMap Abbrev) (fuel : Nat)
    (st : InfoState) (hge : cuEnd ≤ st.offset) :
    dieLoop env inner cuh cuTop cuEnd curArrangeInfo abbrevMap (fuel + 1) st = .ok st := by
  rw [dieLoop, if_neg (by omega)]

/-- A run of null DIEs: `j` zero bytes at the cursor are skipped one at a time. -/
theorem dieLoop_null_run (env : InfoEnv) (inner : Nat) (cuh : DwarfCuHdr) (cuTop cuEnd : Nat)
    (curArrangeInfo : DwarfArangeInfo) (abbrevMap : StdMap Abbrev) :
    ∀ (j fuel : Nat) (st : InfoState), st.offset + j ≤ cuEnd → cuEnd < 2 ^ 64 →
      bytesAt env.bin st.offset (List.replicate j 0) →
      dieLoop env inner cuh cuTop cuEnd curArrangeInfo abbrevMap (fuel + j) st
        = dieLoop env inner cuh cuTop cuEnd curArrangeInfo abbrevMap fuel
            { st with offset := st.offset + j } := by
  intro j
  induction j with
  | zero => intro fuel st _ _ _; rfl
  | succ j ih =>
    intro fuel st hle hend hb
    rw [List.replicate_succ, bytesAt_cons] at hb
    have : fuel + (j + 1) = (fuel + j) + 1 := by omega
    rw [this, dieLoop_null_step env inner cuh cuTop cuEnd curArrangeInfo abbrevMap (fuel + j) st
      (by omega) hb.1]
    rw [u64_eq _ (by omega)]
    rw [ih fuel { st with offset := st.offset + 1 } (by simp only; omega) hend hb.2]
    simp only [Nat.add_assoc, Nat.add_comm 1 j]

end Dwarf

namespace Dwarf

/-- The case `DW_FORM_string` for the `DW_AT_name` of a subprogram. -/
theorem decodeAttr_string_name (env : InfoEnv) (fuel : Nat) (cuh : DwarfCuHdr) (cuTop : Nat)
    (curArrangeInfo : DwarfArangeInfo) (cppTmpFuncMap : StdMap DwarfFuncInfo)
    (abbrv : Abbrev) (st : AttrState) (hTag : abbrv.Tag = DW_TAG_subprogram) :
    decodeAttr env fuel cuh cuTop curArrangeInfo cppTmpFuncMap abbrv
        { Attr := DW_AT_name, Form := DW_FORM_string, Const := 0 } st
      = .ok { st with
          offset := u64 (st.offset
            + u64 ((BinUtil.GetString env.bin 0 env.dbgInfoEnd st.offset).length + 1))
          dwarfFuncInfo := { st.dwarfFuncInfo with
            Name := BinUtil.GetString env.bin 0 env.dbgInfoEnd st.offset } } := by
  unfold decodeAttr
  simp [hTag, DW_FORM_string, DW_FORM_addr, DW_FORM_block2, DW_FORM_block4, DW_FORM_strp,
    DW_FORM_data1, DW_FORM_data2, DW_FORM_data4, DW_FORM_data8]

/-- The case `DW_FORM_ref4` for a `DW_AT_specification` that resolves to a pending
declaration `f`. -/
theorem decodeAttr_ref4_specification (env : InfoEnv) (fuel : Nat) (cuh : DwarfCuHdr)
    (cuTop : Nat) (curArrangeInfo : DwarfArangeInfo) (cppTmpFuncMap : StdMap DwarfFuncInfo)
    (abbrv : Abbrev) (st : AttrState) (f : DwarfFuncInfo)
    (hfind : cppTmpFuncMap.find (sub64 (u64 (cuTop + BinUtil.FromLeToUInt32 env.bin st.offset))
      env.dbgInfoShdr.sh_offset) = some f) :
    decodeAttr env fuel cuh cuTop curArrangeInfo cppTmpFuncMap abbrv
        { Attr := DW_AT_specification, Form := DW_FORM_ref4, Const := 0 } st
      = .ok { st with offset := u64 (st.offset + 4), dwarfFuncInfo := f } := by
  unfold decodeAttr
  simp [hfind, DW_FORM_ref4, DW_FORM_string, DW_FORM_addr, DW_FORM_block2, DW_FORM_block4,
    DW_FORM_strp, DW_FORM_data1, DW_FORM_data2, DW_FORM_data4, DW_FORM_data8, DW_FORM_block,
    DW_FORM_block1, DW_FORM_flag, DW_FORM_sdata, DW_FORM_udata, DW_FORM_ref1, DW_FORM_ref2]

/-- The case `DW_FORM_addr` for a `DW_AT_low_pc` with address size 8. -/
theorem decodeAttr_addr_low_pc (env : InfoEnv) (fuel : Nat) (cuh : DwarfCuHdr)
    (cuTop : Nat) (curArrangeInfo : DwarfArangeInfo) (cppTmpFuncMap : StdMap DwarfFuncInfo)
    (abbrv : Abbrev) (st : AttrState) (hAS : cuh.AddressSize = 8) :
    decodeAttr env fuel cuh cuTop curArrangeInfo cppTmpFuncMap abbrv
        { Attr := DW_AT_low_pc, Form := DW_FORM_addr, Const := 0 } st
      = .ok { st with
          offset := u64 (st.offset + 8)
          dwarfFuncInfo := { st.dwarfFuncInfo with
            Addr := BinUtil.FromLeToUInt64 env.bin st.offset } } := by
  unfold decodeAttr
  simp [hAS, DW_FORM_addr]

theorem specCu_length (k : Nat) (N : List Nat) (A : Nat) :
    (specCu k N A).length = 26 + k + N.length := by
  simp [specCu, specDeclDie, specDefDie, le32, le16, le64]
  omega

theorem specAbbrevTable_length : (encodeAbbrevTable specAbbrevDecls).length = 17 := by
  simp [encodeAbbrevTable, specAbbrevDecls, encodeAbbrevDecls, encodeAbbrevDecl,
    encodeAbbrevAttrs, encodeULEB128, DW_TAG_subprogram, DW_AT_name, DW_FORM_string,
    DW_AT_specification, DW_FORM_ref4, DW_AT_low_pc, DW_FORM_addr]

theorem specCu_byte_lt (k : Nat) (N : List Nat) (A : Nat) (hN : ∀ b ∈ N, b < 256) :
    ∀ b ∈ specCu k N A, b < 256 := by
  intro b hb
  simp only [specCu, specDeclDie, specDefDie, List.mem_append, List.mem_singleton,
    List.mem_replicate] at hb
  rcases hb with (hb | hb | hb | hb) | hb | (hb | hb | hb) | hb | hb | hb
  · exact le32_byte_lt _ b hb
  · exact le16_byte_lt _ b hb
  · exact le32_byte_lt _ b hb
  · omega
  · omega
  · omega
  · exact hN b hb
  · omega
  · omega
  · exact le32_byte_lt _ b hb
  · exact le64_byte_lt _ b hb

end Dwarf

namespace Dwarf

theorem encodeULEB128_one : encodeULEB128 1 = [1] := encodeULEB128_lt 1 (by norm_num)

theorem encodeULEB128_two : encodeULEB128 2 = [2] := encodeULEB128_lt 2 (by norm_num)

theorem InfoEnv.dbgInfoEnd_lt (env : InfoEnv) : env.dbgInfoEnd < 2 ^ 64 := by
  unfold InfoEnv.dbgInfoEnd u64
  exact Nat.mod_lt _ (by norm_num)

/-- The registration of a named subprogram without address: it becomes a pending
declaration under the offset of its DIE. -/
theorem registerDie_named_no_addr (abbrv : Abbrev) (entryOffset : Nat) (f : DwarfFuncInfo)
    (cu : DwarfCuDebugInfo) (cpp : StdMap DwarfFuncInfo)
    (hTag : abbrv.Tag = DW_TAG_subprogram) (hName : f.Name ≠ []) (hAddr : f.Addr = 0) :
    registerDie abbrv entryOffset f cu cpp = (cu, cpp.assign entryOffset f) := by
  unfold registerDie
  simp [hTag, hName, hAddr]

/-- The registration of a named subprogram with a nonzero address: it goes to `Funcs`
under its address. -/
theorem registerDie_named_addr (abbrv : Abbrev) (entryOffset : Nat) (f : DwarfFuncInfo)
    (cu : DwarfCuDebugInfo) (cpp : StdMap DwarfFuncInfo)
    (hTag : abbrv.Tag = DW_TAG_subprogram) (hName : f.Name ≠ []) (hAddr : f.Addr ≠ 0) :
    registerDie abbrv entryOffset f cu cpp
      = ({ cu with Funcs := cu.Funcs.assign f.Addr f }, cpp) := by
  unfold registerDie
  simp [hTag, hName, hAddr]

/-- The DIE loop on a declaration DIE (a subprogram with name `N` and no address)
immediately followed by a definition DIE (a subprogram with a `ref4`
`DW_AT_specification` that resolves to the declaration, then a `DW_AT_low_pc` `A`)
that ends the CU, from any state the loop has reached at the declaration, in a run in
which the indeterminate `Addr` of the record of the declaration is `0`: the
declaration becomes pending under its offset and the definition is registered in
`Funcs` under `A` with the name `N`. -/
theorem dieLoop_decl_def (env : InfoEnv) (inner : Nat) (cuh : DwarfCuHdr) (cuTop : Nat)
    (curArrangeInfo : DwarfArangeInfo) (abbrevMap : StdMap Abbrev) (r : Nat)
    (st : InfoState) (N : List Nat) (val A : Nat) (a1 a2 : Abbrev)
    (h1 : abbrevMap.getD 1 = a1) (h1t : a1.Tag = DW_TAG_subprogram)
    (h1a : a1.Attrs = [{ Attr := DW_AT_name, Form := DW_FORM_string, Const := 0 }])
    (h2 : abbrevMap.getD 2 = a2) (h2t : a2.Tag = DW_TAG_subprogram)
    (h2a : a2.Attrs = [{ Attr := DW_AT_specification, Form := DW_FORM_ref4, Const := 0 },
                       { Attr := DW_AT_low_pc, Form := DW_FORM_addr, Const := 0 }])
    (hAS : cuh.AddressSize = 8)
    (hN : N ≠ []) (hNb : ∀ b ∈ N, b ≠ 0) (hA0 : A ≠ 0) (hA : A < 2 ^ 64)
    (hval : val < 2 ^ 32) (hu : u64 (env.uninit st.offset).1 = 0)
    (hb : bytesAt env.bin st.offset (specDeclDie N ++ specDefDie val A))
    (hend : st.offset + (N.length + 15) ≤ env.dbgInfoEnd)
    (href : sub64 (u64 (cuTop + val)) env.dbgInfoShdr.sh_offset
      = sub64 st.offset env.dbgInfoShdr.sh_offset) :
    dieLoop env inner cuh cuTop (st.offset + (N.length + 15)) curArrangeInfo abbrevMap
        (r + 3) st
      = .ok { offset := st.offset + (N.length + 15),
              cuDbgInfo := { st.cuDbgInfo with
                Funcs := st.cuDbgInfo.Funcs.assign A
                  { env.freshFuncInfo st.offset with Name := N, Addr := A } },
              cuLineInfoOffset := st.cuLineInfoOffset,
              cppTmpFuncMap := st.cppTmpFuncMap.assign
                (sub64 st.offset env.dbgInfoShdr.sh_offset)
                { env.freshFuncInfo st.offset with Name := N } } := by
  have hE := env.dbgInfoEnd_lt
  -- the bytes
  have hl1 : (specDeclDie N).length = N.length + 2 := by simp [specDeclDie]
  have hsplit := (bytesAt_append env.bin st.offset (specDeclDie N) (specDefDie val A)).mp hb
  rw [hl1] at hsplit
  obtain ⟨hdecl, hdef⟩ := hsplit
  have hdecl' := (bytesAt_append env.bin st.offset [1] (N ++ [0])).mp hdecl
  simp only [List.length_singleton] at hdecl'
  obtain ⟨hc1, hname⟩ := hdecl'
  have hdef' := (bytesAt_append env.bin (st.offset + (N.length + 2)) [2]
    (le32 val ++ le64 A)).mp hdef
  simp only [List.length_singleton] at hdef'
  obtain ⟨hc2, hrest⟩ := hdef'
  have hrest' := (bytesAt_append env.bin (st.offset + (N.length + 2) + 1) (le32 val)
    (le64 A)).mp hrest
  rw [le32_length] at hrest'
  obtain ⟨hval4, haddr⟩ := hrest'
  -- the declaration
  have hid1 : ReaduLEB128 env.bin st.offset (sub64 env.dbgInfoEnd st.offset) = (1, 1) := by
    have := ReaduLEB128_in_section env.bin st.offset env.dbgInfoEnd 1 (by norm_num)
      (by rw [encodeULEB128_one]; exact hc1) (by rw [encodeULEB128_one]; simp; omega) hE
    rwa [encodeULEB128_one] at this
  have hstr : BinUtil.GetString env.bin 0 env.dbgInfoEnd (st.offset + 1) = N :=
    BinUtil.GetString_of_bytesAt env.bin 0 env.dbgInfoEnd (st.offset + 1) N hNb
      (by rw [Nat.zero_add]; exact hname) (by omega)
  have hattrs1 : decodeAttrs env inner cuh cuTop curArrangeInfo st.cppTmpFuncMap
      (abbrevMap.getD 1) (abbrevMap.getD 1).Attrs
      { offset := u64 (st.offset + 1), dwarfFuncInfo := env.freshFuncInfo st.offset,
        cuDbgInfo := st.cuDbgInfo, cuLineInfoOffset := st.cuLineInfoOffset }
      = .ok { offset := st.offset + (N.length + 2),
              dwarfFuncInfo := { env.freshFuncInfo st.offset with Name := N },
              cuDbgInfo := st.cuDbgInfo, cuLineInfoOffset := st.cuLineInfoOffset } := by
    rw [h1, h1a]
    unfold decodeAttrs
    rw [decodeAttr_string_name _ _ _ _ _ _ _ _ h1t]
    simp only [u64_eq (st.offset + 1) (by omega), hstr]
    unfold decodeAttrs
    rw [u64_eq (N.length + 1) (by omega), u64_eq (st.offset + 1 + (N.length + 1)) (by omega)]
    have : st.offset + 1 + (N.length + 1) = st.offset + (N.length + 2) := by omega
    rw [this]
  have hstep1 := dieLoop_die_step env inner cuh cuTop (st.offset + (N.length + 15))
    curArrangeInfo abbrevMap (r + 2) st 1 1 _ (by omega) hid1 (by norm_num) hattrs1
  rw [h1, registerDie_named_no_addr a1 _ _ _ _ h1t (by simpa using hN) hu] at hstep1
  simp only [] at hstep1
  -- the definition
  have hc2' : byteAt env.bin (st.offset + (N.length + 2)) = 2 := by
    rw [bytesAt_cons] at hc2
    exact hc2.1
  have hid2 : ReaduLEB128 env.bin (st.offset + (N.length + 2))
      (sub64 env.dbgInfoEnd (st.offset + (N.length + 2))) = (2, 1) := by
    have := ReaduLEB128_in_section env.bin (st.offset + (N.length + 2)) env.dbgInfoEnd 2
      (by norm_num) (by rw [encodeULEB128_two, bytesAt_cons]; exact ⟨hc2', trivial⟩)
      (by rw [encodeULEB128_two]; simp; omega) hE
    rwa [encodeULEB128_two] at this
  have hval' : BinUtil.FromLeToUInt32 env.bin (st.offset + (N.length + 2) + 1) = val :=
    FromLeToUInt32_le32 _ _ _ hval hval4
  have haddr' : BinUtil.FromLeToUInt64 env.bin (st.offset + (N.length + 2) + 1 + 4) = A :=
    FromLeToUInt64_le64 _ _ _ hA haddr
  have hattrs2 : decodeAttrs env inner cuh cuTop curArrangeInfo
      (st.cppTmpFuncMap.assign (sub64 st.offset env.dbgInfoShdr.sh_offset)
        { env.freshFuncInfo st.offset with Name := N })
      (abbrevMap.getD 2) (abbrevMap.getD 2).Attrs
      { offset := u64 (st.offset + (N.length + 2) + 1),
        dwarfFuncInfo := env.freshFuncInfo (st.offset + (N.length + 2)),
        cuDbgInfo := st.cuDbgInfo, cuLineInfoOffset := st.cuLineInfoOffset }
      = .ok { offset := st.offset + (N.length + 15),
              dwarfFuncInfo := { env.freshFuncInfo st.offset with Name := N, Addr := A },
              cuDbgInfo := st.cuDbgInfo, cuLineInfoOffset := st.cuLineInfoOffset } := by
    rw [h2, h2a]
    unfold decodeAttrs
    rw [decodeAttr_ref4_specification _ _ _ _ _ _ _ _
      { env.freshFuncInfo st.offset with Name := N }
      (by simp only [u64_eq (st.offset + (N.length + 2) + 1) (by omega), hval', href]
          exact StdMap.find_assign_self _ _ _)]
    simp only []
    unfold decodeAttrs
    rw [decodeAttr_addr_low_pc _ _ _ _ _ _ _ _ hAS]
    simp only [u64_eq (st.offset + (N.length + 2) + 1) (by omega),
      u64_eq (st.offset + (N.length + 2) + 1 + 4) (by omega), haddr',
      u64_eq (st.offset + (N.length + 2) + 1 + 4 + 8) (by omega)]
    unfold decodeAttrs
    have : st.offset + (N.length + 2) + 1 + 4 + 8 = st.offset + (N.length + 15) := by omega
    rw [this]
  have hstep2 := dieLoop_die_step env inner cuh cuTop (st.offset + (N.length + 15))
    curArrangeInfo abbrevMap (r + 1)
    { offset := st.offset + (N.length + 2), cuDbgInfo := st.cuDbgInfo,
      cuLineInfoOffset := st.cuLineInfoOffset,
      cppTmpFuncMap := st.cppTmpFuncMap.assign (sub64 st.offset env.dbgInfoShdr.sh_offset)
        { env.freshFuncInfo st.offset with Name := N } }
    2 1 _ (by simp only; omega) hid2 (by norm_num) hattrs2
  rw [h2, registerDie_named_addr a2 _ _ _ _ h2t (by simpa using hN) (by simpa using hA0)]
    at hstep2
  simp only [] at hstep2
  rw [hstep1, hstep2]
  exact dieLoop_done _ _ _ _ _ _ _ _ _ (by simp)

end Dwarf

namespace Dwarf

/-- The CU of scenario E6 (a version 4 CU in the 32-bit format with address size 8
that holds, after `k` null DIEs, a subprogram DIE `decl` at `.debug_info` offset
`D = 11 + k` with the non-empty name `N` and no `low_pc`, followed by a subprogram DIE
`def` whose attributes are a `ref4` `DW_AT_specification` resolving to `D` and then a
`DW_AT_low_pc` `A != 0`) in a run in which the indeterminate `Addr` of the record of
`decl` (the DIE at offset `28 + k` of the image) is `0`: `ReadDebugInfo` returns one
`CuDebugInfo` whose `Funcs[A]` has `Name = N` and `Addr = A`. -/
theorem ReadDebugInfo_specification_of_addr_zero (k : Nat) (N : List Nat) (A fuel : Nat)
    (ar : DwarfArangeInfo) (uninit : Nat → Nat × Nat)
    (hN : N ≠ []) (hNb : ∀ b ∈ N, b ≠ 0 ∧ b < 256) (hA0 : A ≠ 0) (hA : A < 2 ^ 64)
    (hlen : k + N.length + 22 < 0xFFFFFF00) (hfuel : k + 17 ≤ fuel)
    (hu : u64 (uninit (28 + k)).1 = 0) :
    ∃ cu f, ReadDebugInfo fuel (specImage k N A) (specImage k N A).length
          ⟨17, (specCu k N A).length⟩ ⟨0, 0⟩ ⟨0, 0⟩ ⟨0, 17⟩ [(0, ar)] uninit = .ok [cu]
      ∧ cu.Funcs.find A = some f ∧ f.Name = N ∧ f.Addr = A := by
  have hT := specAbbrevTable_length
  have hculen := specCu_length k N A
  -- the bytes of the CU in the image
  have hcu : bytesAt (specImage k N A) 17 (specCu k N A) := by
    have := bytesAt_embed (encodeAbbrevTable specAbbrevDecls) (specCu k N A) []
      (specCu_byte_lt k N A (fun b hb => (hNb b hb).2))
    rw [hT, List.append_nil] at this
    exact this
  have hsplit := (bytesAt_append (specImage k N A) 17
    (le32 (7 + k + (N.length + 2) + 13) ++ (le16 4 ++ (le32 0 ++ [8])))
    (List.replicate k 0 ++ (specDeclDie N ++ specDefDie (11 + k) A))).mp hcu
  have hl1 : (le32 (7 + k + (N.length + 2) + 13) ++ (le16 4 ++ (le32 0 ++ [8]))).length = 11 :=
    rfl
  rw [hl1] at hsplit
  obtain ⟨hhdr, hbody⟩ := hsplit
  have hbody' := (bytesAt_append (specImage k N A) (17 + 11) (List.replicate k 0)
    (specDeclDie N ++ specDefDie (11 + k) A)).mp hbody
  rw [List.length_replicate] at hbody'
  obtain ⟨hnull, hdies⟩ := hbody'
  -- the environment
  obtain ⟨env, henv⟩ : ∃ env : InfoEnv, env =
      { bin := specImage k N A, size := (specImage k N A).length,
        dbgInfoShdr := ⟨17, (specCu k N A).length⟩, dbgStrShdr := ⟨0, 0⟩,
        dbgLineStrShdr := ⟨0, 0⟩, dbgAbbrevShdr := ⟨0, 17⟩,
        offsetArangeMap := [(0, ar)], uninit := uninit } := ⟨_, rfl⟩
  have hbin : env.bin = specImage k N A := by rw [henv]
  have hshdr : env.dbgInfoShdr.sh_offset = 17 := by rw [henv]
  have hend : env.dbgInfoEnd = 43 + k + N.length := by
    rw [henv]
    show u64 (17 + (specCu k N A).length) = _
    rw [hculen, u64_eq _ (by omega)]
    omega
  have hmap : env.offsetArangeMap = [(0, ar)] := by rw [henv]
  have habbr : env.dbgAbbrevShdr = ⟨0, 17⟩ := by rw [henv]
  have hun : env.uninit = uninit := by rw [henv]
  -- the CU header
  have hcuh := readCompilationUnitHeader_v4 (specImage k N A) 17 (7 + k + (N.length + 2) + 13)
    4 0 8 hhdr (by omega) (by norm_num) (by norm_num) (by norm_num)
  -- the abbreviation table
  have htbl := (ReadAbbrevTbl_table_encode specAbbrevDecls [] (specCu k N A) ⟨0, 17⟩ fuel
    (by decide) (by decide) (by rw [hT]; decide) (by rw [hT]; omega)).1
  -- the DIE loop
  obtain ⟨r, hr⟩ : ∃ r, fuel = r + 3 + k := ⟨fuel - 3 - k, by omega⟩
  have hdie : ∀ inner, dieLoop env inner
      { UnitLength := 7 + k + (N.length + 2) + 13, DwarfFormat := DWARF_32BIT_FORMAT,
        Version := 4, DebugAbbrevOffset := 0, AddressSize := 8 }
      17 (43 + k + N.length) ar
      ((specAbbrevDecls.map AbbrevDecl.toAbbrev).foldl (fun m a => m.assign a.Id a) [])
      (r + 3 + k)
      { offset := 28, cuDbgInfo := {}, cuLineInfoOffset := 0, cppTmpFuncMap := [] }
      = .ok { offset := 43 + k + N.length,
              cuDbgInfo :=
                { Funcs := [(A, { env.freshFuncInfo (28 + k) with Name := N, Addr := A })] },
              cuLineInfoOffset := 0,
              cppTmpFuncMap := [(11 + k, { env.freshFuncInfo (28 + k) with Name := N })] } := by
    intro inner
    rw [dieLoop_null_run env inner _ 17 (43 + k + N.length) ar _ k (r + 3)
      { offset := 28, cuDbgInfo := {}, cuLineInfoOffset := 0, cppTmpFuncMap := [] }
      (by simp only; omega) (by omega) (by rw [hbin]; exact hnull)]
    have hst : (43 + k + N.length) = (28 + k) + (N.length + 15) := by omega
    rw [hst]
    have h := dieLoop_decl_def env inner
      { UnitLength := 7 + k + (N.length + 2) + 13, DwarfFormat := DWARF_32BIT_FORMAT,
        Version := 4, DebugAbbrevOffset := 0, AddressSize := 8 }
      17 ar ((specAbbrevDecls.map AbbrevDecl.toAbbrev).foldl (fun m a => m.assign a.Id a) [])
      r { offset := 28 + k, cuDbgInfo := {}, cuLineInfoOffset := 0, cppTmpFuncMap := [] }
      N (11 + k) A _ _ rfl rfl rfl rfl rfl rfl rfl hN (fun b hb => (hNb b hb).1) hA0 hA
      (by omega) (by rw [hun]; exact hu) (by rw [hbin]; exact hdies)
      (by rw [hend]; simp only; omega)
      (by rw [hshdr, u64_eq _ (by omega), sub64_eq _ _ (by omega) (by omega)]
          simp only
          rw [sub64_eq _ _ (by omega) (by omega)]
          omega)
    simp only [hshdr] at h
    rw [sub64_eq (28 + k) 17 (by omega) (by omega)] at h
    have e : 28 + k - 17 = 11 + k := by omega
    rw [e] at h
    exact h
  -- the CU loop
  obtain ⟨f, hf⟩ : ∃ f, fuel = f + 1 + 1 := ⟨fuel - 2, by omega⟩
  refine ⟨{ Funcs := [(A, { env.freshFuncInfo (28 + k) with Name := N, Addr := A })] },
    { env.freshFuncInfo (28 + k) with Name := N, Addr := A }, ?_, ?_, rfl, rfl⟩
  · unfold ReadDebugInfo
    rw [← henv]
    conv_lhs => rw [hf, cuLoop]
    rw [← hf]
    have h17 : (17 : Nat) < env.dbgInfoEnd := by rw [hend]; omega
    have hsub : sub64 17 env.dbgInfoShdr.sh_offset = 0 := by rw [hshdr]; decide
    have hfind : env.offsetArangeMap.find 0 = some ar := by rw [hmap]; rfl
    simp only [hshdr, hbin, habbr] at hsub ⊢
    rw [if_pos h17]
    have hsub' : sub64 17 17 = 0 := by decide
    simp only [hsub', hfind, hcuh]
    have hoff : u64 (0 + 0) = 0 := by decide
    simp only [hoff]
    have htbl' : ReadAbbrevTbl fuel (specImage k N A) ⟨0, 17⟩ 0
        = .ok (specAbbrevDecls.map AbbrevDecl.toAbbrev) := htbl
    simp only [htbl']
    have hcuEnd : cuEndOf
        { UnitLength := 7 + k + (N.length + 2) + 13, DwarfFormat := DWARF_32BIT_FORMAT,
          Version := 4, DebugAbbrevOffset := 0, AddressSize := 8 } 17 17
        = 43 + k + N.length := by
      rw [cuEndOf_32 _ _ _ rfl (by simp only; omega)]
      simp only
      omega
    have h28 : u64 (17 + 11) = 28 := by decide
    have hdie' := hdie fuel
    rw [← hr] at hdie'
    simp only [hcuEnd, h28, hdie']
    rw [hf, cuLoop, if_neg (by rw [hend]; simp)]
    rfl
  · exact StdMap.find_assign_self [] A _

/-- The bytes of the abbreviation table of scenario E6. -/
theorem specAbbrevTable_bytes :
    encodeAbbrevTable specAbbrevDecls
      = [1, 0x2e, 0, 0x03, 0x08, 0, 0, 2, 0x2e, 0, 0x47, 0x13, 0x11, 0x01, 0, 0, 0] := by
  simp [encodeAbbrevTable, specAbbrevDecls, encodeAbbrevDecls, encodeAbbrevDecl,
    encodeAbbrevAttrs, encodeULEB128, DW_TAG_subprogram, DW_AT_name, DW_FORM_string,
    DW_AT_specification, DW_FORM_ref4, DW_AT_low_pc, DW_FORM_addr]

set_option maxRecDepth 1000000 in
/-- Scenario E6 in a run whose records start with the stale address `0x5000`. -/
theorem exampleReadE6_stale :
    exampleReadE6 uninitStale
      = .ok [{ Funcs := [(0x5000, { Name := [0x66, 0x6f, 0x6f], Addr := 0x5000,
                                    Size := 7 })] }] := by
  unfold exampleReadE6 specImage
  rw [specAbbrevTable_bytes]
  rfl

set_option maxRecDepth 1000000 in
/-- Scenario E6 in a run whose records start with the address `0`. -/
theorem exampleReadE6_zero :
    exampleReadE6 uninitZero
      = .ok [{ Funcs := [(0x4000, { Name := [0x66, 0x6f, 0x6f], Addr := 0x4000 })] }] := by
  unfold exampleReadE6 specImage
  rw [specAbbrevTable_bytes]
  rfl

/-- Claim C5 (`DwarfFuncInfo dwarfFuncInfo;`, line 253), scenario E6: `N = "foo"`,
`D = 0x80` (117 null DIEs before the declaration), `A = 0x4000`.  The record of a DIE is
declared without initializer and its member `Addr` is indeterminate until a
`DW_AT_low_pc` is decoded; the registration takes `Addr != 0` for an address that is set.
In a run in which the record of every DIE starts with the stale address `0x5000` and
the stale size `7`, the declaration, which has no `DW_AT_low_pc`, is stored in `Funcs`
under `0x5000` and not among the pending declarations; the `DW_AT_specification` of the
definition resolves to nothing, the definition, left without name, becomes a pending
declaration, and `ReadDebugInfo` returns a `CuDebugInfo` whose `Funcs` has no entry
under `0x4000`.  In the run in which the indeterminate values are `0` it returns
`Funcs[0x4000]` with the name `foo` and the address `0x4000`. -/
theorem ReadDebugInfo_specification_stale_addr :
    11 + 117 = 0x80
    ∧ exampleReadE6 uninitStale
      = .ok [{ Funcs := [(0x5000, { Name := [0x66, 0x6f, 0x6f], Addr := 0x5000,
                                    Size := 7 })] }]
    ∧ (exampleReadE6 uninitStale).map
        (fun dbgInfos => dbgInfos.map (fun cu => cu.Funcs.find 0x4000)) = .ok [none]
    ∧ exampleReadE6 uninitZero
      = .ok [{ Funcs := [(0x4000, { Name := [0x66, 0x6f, 0x6f], Addr := 0x4000 })] }] :=
  ⟨by decide, exampleReadE6_stale, by rw [exampleReadE6_stale]; rfl, exampleReadE6_zero⟩

end Dwarf

namespace Dwarf

theorem encodeULEB128_implicit_const :
    encodeULEB128 DW_FORM_implicit_const = [DW_FORM_implicit_const] :=
  encodeULEB128_lt _ (by decide)

/-- Claim C7 (amended).  For an abbreviation attribute whose form is `implicit_const`,
the constant stored on the attribute descriptor is the unsigned LEB128 value `c` of the
bytes that follow the (attribute, form) pair, and the cursor advances by the encoded
length of that value: the iteration of the attribute loop appends
`{Attr, implicit_const, c}` and goes on right after the constant. -/
theorem ReadAbbrevTbl_attrs_implicit_const (bin : List Nat) (secEndPos fuel offset : Nat)
    (acc : List AbbrevAttr) (a c : Nat) (ha : a < 2 ^ 64) (hc : c < 2 ^ 64)
    (hsec : secEndPos < 2 ^ 64)
    (hb : bytesAt bin offset (encodeULEB128 a
      ++ (encodeULEB128 DW_FORM_implicit_const ++ encodeULEB128 c)))
    (hle : offset + ((encodeULEB128 a).length + 1 + (encodeULEB128 c).length) ≤ secEndPos) :
    ReadAbbrevTbl.attrs bin secEndPos (fuel + 1) offset acc
      = ReadAbbrevTbl.attrs bin secEndPos fuel
          (offset + ((encodeULEB128 a).length + 1 + (encodeULEB128 c).length))
          (acc ++ [{ Attr := a, Form := DW_FORM_implicit_const, Const := c }]) := by
  rw [encodeULEB128_implicit_const] at hb
  obtain ⟨hb1, hb23⟩ := (bytesAt_append _ _ _ _).mp hb
  obtain ⟨hb2, hb3⟩ := (bytesAt_append _ _ _ _).mp hb23
  simp only [List.length_singleton] at hb3
  have h1 := ReaduLEB128_in_section bin offset secEndPos a ha hb1 (by omega) hsec
  have h2 : ReaduLEB128 bin (offset + (encodeULEB128 a).length)
      (sub64 secEndPos (offset + (encodeULEB128 a).length)) = (DW_FORM_implicit_const, 1) := by
    have := ReaduLEB128_in_section bin (offset + (encodeULEB128 a).length) secEndPos
      DW_FORM_implicit_const (by decide)
      (by rw [encodeULEB128_implicit_const]; exact hb2)
      (by rw [encodeULEB128_implicit_const]; simp; omega) hsec
    rwa [encodeULEB128_implicit_const] at this
  have h3 := ReaduLEB128_in_section bin (offset + (encodeULEB128 a).length + 1) secEndPos c hc
    hb3 (by omega) hsec
  have hne : ¬ (a = 0 ∧ DW_FORM_implicit_const = 0) := by
    intro h; exact absurd h.2 (by decide)
  conv_lhs => rw [ReadAbbrevTbl.attrs]
  simp only [h1, u64_eq (offset + (encodeULEB128 a).length) (by omega), h2,
    u64_eq (offset + (encodeULEB128 a).length + 1) (by omega), if_neg hne, h3, if_true,
    u64_eq (offset + (encodeULEB128 a).length + 1 + (encodeULEB128 c).length) (by omega)]
  congr 1
  omega

/-- Witness of claim C7 (amended): after the pair `(0x1c, implicit_const)` the byte
`7F` is stored as 127 and the loop goes on one byte later, at the closing pair. -/
theorem ReadAbbrevTbl_attrs_implicit_const_witness :
    ReadAbbrevTbl.attrs [0x1c, 0x21, 0x7F, 0x00, 0x00] 5 2 0 []
      = .ok ([{ Attr := 0x1c, Form := DW_FORM_implicit_const, Const := 127 }], 5) := by
  rw [ReadAbbrevTbl_attrs_implicit_const [0x1c, 0x21, 0x7F, 0x00, 0x00] 5 1 0 [] 0x1c 127
    (by decide) (by decide) (by decide)
    (by simp [encodeULEB128, DW_FORM_implicit_const, bytesAt, byteAt])
    (by simp [encodeULEB128])]
  rw [encodeULEB128_lt 0x1c (by norm_num), encodeULEB128_lt 127 (by norm_num)]
  rfl

end Dwarf

namespace Dwarf

/-! ## The start of the DIEs of a unit -/

/-- Claim C11 (`Dwarf::ReadDebugInfo`, `offset += 11`) at a Version 5 compile unit: the
header fields of the unit of `exampleInfoV5` (which starts at offset 10 of the image)
end at offset 30, 20 bytes after the start of the unit, where the DIE of the subprogram
`f` stands; `ReadDebugInfo` reads the first abbreviation code at offset 21, 11 bytes
after the start of the unit, so that it takes the bytes of the abbreviation offset and
of the unit ID for DIEs and reports the subprogram at `0x1000` under the name made of
the bytes `0x01 0x66` instead of `f`. -/
theorem ReadDebugInfo_v5_first_die :
    (readCompilationUnitHeader.go exampleInfoV5 10).map Prod.snd = .ok 30
    ∧ (ReadDebugInfo 20 exampleInfoV5 41 ⟨10, 31⟩ ⟨0, 0⟩ ⟨0, 0⟩ ⟨0, 10⟩ [(0, default)]
        uninitZero).map
        (fun dbgInfos => dbgInfos.map (fun cu => cu.Funcs.map (fun f => (f.1, f.2.Name))))
      = .ok [[(0x1000, [0x01, 0x66])]] := by
  constructor
  · rfl
  · rfl

/-! ## The end of a line number program -/

/-- An iteration of `readLineNumberProgram` leaves `endOfSeq` set only if it executes
`DW_LNE_end_sequence`. -/
theorem lnpStep_endOfSeq (bin : List Nat) (lineInfoHdr : DwarfLineInfoHdr)
    (lnpStart lnpEnd : Nat) (st st' : LineState)
    (h : lnpStep bin lineInfoHdr lnpStart lnpEnd st = .ok st') (he : st'.endOfSeq = true) :
    lnpIsEndSequence bin lnpStart lnpEnd st = true := by
  have close : ∀ x : LineState, Except.ok (ε := DwarfError) x = Except.ok st' →
      x.endOfSeq = false → False := by
    intro x hx hf
    rw [Except.ok.inj hx, he] at hf
    exact Bool.noConfusion hf
  unfold lnpStep at h
  simp only at h
  by_cases h0 : byteAt bin (lnpStart + st.offset) = 0x00
  · rw [if_pos h0] at h
    unfold lnpExtended at h
    simp only at h
    by_cases h1 : byteAt bin (lnpStart + u64 (u64 (st.offset + 1)
        + (ReaduLEB128 bin (lnpStart + u64 (st.offset + 1))
            (sub64 lnpEnd (u64 (st.offset + 1)))).2)) = 0x01
    · unfold lnpIsEndSequence
      simp only [h0, h1, decide_True, Bool.and_self]
    · rw [if_neg h1] at h
      exfalso
      repeat' first
        | exact close _ h rfl
        | exact Except.noConfusion h
        | split at h
  · rw [if_neg h0] at h
    exfalso
    by_cases h1 : byteAt bin (lnpStart + st.offset) = 0x01
    · rw [if_pos h1] at h; exact close _ h rfl
    rw [if_neg h1] at h
    by_cases h2 : byteAt bin (lnpStart + st.offset) = 0x02
    · rw [if_pos h2] at h; exact close _ h rfl
    rw [if_neg h2] at h
    by_cases h3 : byteAt bin (lnpStart + st.offset) = 0x03
    · rw [if_pos h3] at h; exact close _ h rfl
    rw [if_neg h3] at h
    by_cases h4 : byteAt bin (lnpStart + st.offset) = 0x04
    · rw [if_pos h4] at h; exact close _ h rfl
    rw [if_neg h4] at h
    by_cases h5 : byteAt bin (lnpStart + st.offset) = 0x05
    · rw [if_pos h5] at h; exact close _ h rfl
    rw [if_neg h5] at h
    by_cases h6 : byteAt bin (lnpStart + st.offset) = 0x06
    · rw [if_pos h6] at h; exact close _ h rfl
    rw [if_neg h6] at h
    by_cases h7 : byteAt bin (lnpStart + st.offset) = 0x07
    · rw [if_pos h7] at h; exact close _ h rfl
    rw [if_neg h7] at h
    by_cases h8 : byteAt bin (lnpStart + st.offset) = 0x08
    · rw [if_pos h8] at h
      by_cases hLR : lineInfoHdr.LineRange = 0
      · rw [if_pos hLR] at h; exact Except.noConfusion h
      · rw [if_neg hLR] at h; exact close _ h rfl
    rw [if_neg h8] at h
    by_cases h9 : byteAt bin (lnpStart + st.offset) = 0x09
    · rw [if_pos h9] at h; exact close _ h rfl
    rw [if_neg h9] at h
    by_cases hA : byteAt bin (lnpStart + st.offset) = 0x0A
    · rw [if_pos hA] at h; exact close _ h rfl
    rw [if_neg hA] at h
    by_cases hB : byteAt bin (lnpStart + st.offset) = 0x0B
    · rw [if_pos hB] at h; exact close _ h rfl
    rw [if_neg hB] at h
    by_cases hC : byteAt bin (lnpStart + st.offset) = 0x0C
    · rw [if_pos hC] at h; exact close _ h rfl
    rw [if_neg hC] at h
    unfold lnpSpecial at h
    by_cases hLR : lineInfoHdr.LineRange = 0
    · rw [if_pos hLR] at h; exact Except.noConfusion h
    · rw [if_neg hLR] at h; exact close _ h rfl

/-- A run of the loop of `readLineNumberProgram` none of whose iterations executes
`DW_LNE_end_sequence` ends with `endOfSeq` as it was at the start, or false. -/
theorem lnpLoop_no_end_sequence (bin : List Nat) (lineInfoHdr : DwarfLineInfoHdr)
    (lnpStart lnpEnd : Nat) :
    ∀ (fuel : Nat) (st st' : LineState),
      (∀ n s, lnpIterate bin lineInfoHdr lnpStart lnpEnd n st = some s →
        lnpIsEndSequence bin lnpStart lnpEnd s = false) →
      lnpLoop bin lineInfoHdr lnpStart lnpEnd fuel st = .ok st' →
      st'.endOfSeq = false ∨ st' = st := by
  intro fuel
  induction fuel with
  | zero => intro st st' _ h; exact Except.noConfusion h
  | succ fuel ih =>
    intro st st' hno h
    rw [lnpLoop] at h
    by_cases hlt : st.offset < sub64 lnpEnd lnpStart
    · rw [if_pos hlt] at h
      cases hs : lnpStep bin lineInfoHdr lnpStart lnpEnd st with
      | error e => rw [hs] at h; exact Except.noConfusion h
      | ok st1 =>
        rw [hs] at h
        have h0 : lnpIsEndSequence bin lnpStart lnpEnd st = false :=
          hno 0 st (by rw [lnpIterate, if_pos hlt])
        have h1 : st1.endOfSeq = false := by
          cases hb : st1.endOfSeq with
          | false => rfl
          | true =>
            have := lnpStep_endOfSeq bin lineInfoHdr lnpStart lnpEnd st st1 hs hb
            rw [h0] at this
            exact Bool.noConfusion this
        have hno1 : ∀ n s, lnpIterate bin lineInfoHdr lnpStart lnpEnd n st1 = some s →
            lnpIsEndSequence bin lnpStart lnpEnd s = false := by
          intro n s hn
          apply hno (n + 1) s
          rw [lnpIterate, if_pos hlt, hs]
          exact hn
        rcases ih st1 st' hno1 h with h2 | h2
        · exact Or.inl h2
        · rw [h2]; exact Or.inl h1
    · rw [if_neg hlt] at h
      exact Or.inr (Except.ok.inj h).symm

/-- Claim C12, counterexample: the unit `exampleLineUnitV4` with the empty program,
whose header ends at the end of the unit (offset 37), holds no `end_sequence`, and
`ReadLineInfo` returns without an error: it does not run a program of length zero. -/
theorem ReadLineInfo_empty_program :
    (ReadLineInfo.header 20 (exampleLineUnitV4 []) 37 ⟨0, 0⟩ 0).map
        (fun r => (r.2, ReadLineInfo.endOffset 0 r.1)) = .ok (37, 37)
    ∧ (ReadLineInfo 20 (exampleLineUnitV4 []) ⟨0, 37⟩ ⟨0, 0⟩ exampleFuncTable).map
        (fun r => r.2) = .ok exampleFuncTable := by
  refine ⟨?_, ?_⟩ <;> rfl

/-- Claim C12 (amended).  For a line-number unit at `hdrOffset` whose header decodes,
whose line number program is not empty (`0 < endOffset - offset`, the test that
`ReadLineInfo` makes before it runs the program) and none of whose iterations executes
`DW_LNE_end_sequence`, `ReadLineInfo` fails: with the error of the iteration that
fails, or with `endSequenceNotFound` when the run reaches the end of the unit (the error
is `outOfFuel` only when the run of the program is longer than the fuel). -/
theorem ReadLineInfo_loop_no_end_sequence (bin : List Nat)
    (debugLineShdr debugLineStrShdr : Elf64_Shdr) (inner fuel hdrOffset : Nat)
    (offsetLineInfoHdrMap : StdMap DwarfLineInfoHdr) (elfFuncTable : ElfFunctionTable)
    (lineInfoHdr : DwarfLineInfoHdr) (offset : Nat)
    (hsec : hdrOffset < u64 (debugLineShdr.sh_offset + debugLineShdr.sh_size))
    (hhdr : ReadLineInfo.header inner bin
        (u64 (debugLineShdr.sh_offset + debugLineShdr.sh_size)) debugLineStrShdr hdrOffset
      = .ok (lineInfoHdr, offset))
    (hne : 0 < sub64 (ReadLineInfo.endOffset hdrOffset lineInfoHdr) offset)
    (hno : ∀ n s, lnpIterate bin lineInfoHdr offset
        (ReadLineInfo.endOffset hdrOffset lineInfoHdr) n
        { offset := 0, curFuncAddr := 0,
          lnsm := LineNumberStateMachine.init lineInfoHdr.DefaultIsStmt,
          endOfSeq := false, elfFuncTable := elfFuncTable } = some s →
      lnpIsEndSequence bin offset (ReadLineInfo.endOffset hdrOffset lineInfoHdr) s = false) :
    ∃ e, ReadLineInfo.loop bin debugLineShdr debugLineStrShdr inner (fuel + 1) hdrOffset
        offsetLineInfoHdrMap elfFuncTable = .error e
      ∧ (e = .outOfFuel →
          lnpLoop bin lineInfoHdr offset (ReadLineInfo.endOffset hdrOffset lineInfoHdr) inner
            { offset := 0, curFuncAddr := 0,
              lnsm := LineNumberStateMachine.init lineInfoHdr.DefaultIsStmt,
              endOfSeq := false, elfFuncTable := elfFuncTable } = .error .outOfFuel) := by
  rw [ReadLineInfo.loop]
  simp only [if_pos hsec, hhdr, if_pos hne]
  unfold readLineNumberProgram
  cases hl : lnpLoop bin lineInfoHdr offset (ReadLineInfo.endOffset hdrOffset lineInfoHdr) inner
      { offset := 0, curFuncAddr := 0,
        lnsm := LineNumberStateMachine.init lineInfoHdr.DefaultIsStmt,
        endOfSeq := false, elfFuncTable := elfFuncTable } with
  | error e =>
    refine ⟨e, rfl, ?_⟩
    intro he
    rw [he]
  | ok st =>
    have hf : st.endOfSeq = false := by
      rcases lnpLoop_no_end_sequence bin lineInfoHdr offset _ inner _ st hno hl with h | h
      · exact h
      · rw [h]
    refine ⟨.endSequenceNotFound, ?_, ?_⟩
    · simp only [hf]
      rfl
    · intro he
      exact DwarfError.noConfusion he

/-- Witness of claim C12 (amended): the unit `exampleLineUnitV4` with the program
`set_basic_block` (one byte, no `end_sequence`) makes `ReadLineInfo` fail. -/
theorem ReadLineInfo_loop_no_end_sequence_witness :
    ∃ e, ReadLineInfo.loop (exampleLineUnitV4 [7]) ⟨0, 38⟩ ⟨0, 0⟩ 20 1 0 [] exampleFuncTable
      = .error e :=
  (ReadLineInfo_loop_no_end_sequence (exampleLineUnitV4 [7]) ⟨0, 38⟩ ⟨0, 0⟩ 20 0 0 []
    exampleFuncTable (exampleLineHdrV4 1) 37 (by decide) rfl (by decide)
    (fun n s h =>
      match n, h with
      | 0, h => (Option.some.inj h) ▸ rfl
      | 1, h => Option.noConfusion h
      | _ + 2, h => Option.noConfusion h)).imp (fun _ h => h.1)

/-! ## Rows of the line number program -/

/-- Claim C13 (`DW_LNS_copy` after `DW_LNS_advance_pc`): in the unit
`exampleLineUnitV4` with the program `set_address 0x1000; advance_pc 1; copy;
end_sequence` the row appended by `copy` has the address `0x1001`, which the address
map assigns to the function `g` (index 1); `ReadLineInfo` looks `curFuncAddr = 0x1000`
up instead and stores the row in the `LineAddrs` of `f` (index 0), and `g` receives
nothing. -/
theorem ReadLineInfo_copy_after_advance_pc :
    (ReadLineInfo 20 (exampleLineUnitV4 (lneSetAddress 0x1000 ++ ([2, 1] ++ ([1]
        ++ lneEndSequence)))) ⟨0, 54⟩ ⟨0, 0⟩ exampleFuncTable).map
      (fun r => r.2.ElfFuncInfos.map
        (fun f => (f.Name, f.LineAddrs.map (fun l => (l.1, l.2.Addr)))))
      = .ok [([0x66], [(1, 0x1001)]), ([0x67], [])]
    ∧ exampleFuncTable.AddrFuncIdxMap.find 0x1001 = some 1 := by
  constructor
  · rfl
  · rfl

/-- Claim C14 (`Files[lnsm.File-1]` for a header of Version 5): in the unit
`exampleLineUnitV5`, whose file table is `a` (index 0), `b` (index 1), the program
`set_address 0x1000; copy; end_sequence` emits a row with the file register `1`;
`ReadLineInfo` decodes the two files and names the source file of the function after
`Files[0]`, the file `a`, where `Files[1]` is the file `b`. -/
theorem ReadLineInfo_v5_file_index :
    (ReadLineInfo.header 20 (exampleLineUnitV5 (lneSetAddress 0x1000 ++ ([1]
        ++ lneEndSequence))) 69 ⟨69, 6⟩ 0).map
      (fun r => (r.1.Version, r.1.Files.map (fun f => f.Name))) = .ok (5, [[0x61], [0x62]])
    ∧ (ReadLineInfo 20 (exampleLineUnitV5 (lneSetAddress 0x1000 ++ ([1]
        ++ lneEndSequence))) ⟨0, 69⟩ ⟨69, 6⟩ exampleFuncTable).map
      (fun r => r.2.ElfFuncInfos.map
        (fun f => (f.Name, f.SrcFileName, f.LineAddrs.map (fun l => (l.1, l.2.Addr)))))
      = .ok [([0x66], [0x61], [(1, 0x1000)]), ([0x67], [], [])] := by
  constructor
  · rfl
  · rfl

/-- Claim C15 (`lineAddr.SrcFileName`): in the unit `exampleLineUnitV4` (include
directory `d`, file `a` of directory 1) the program `set_address 0x1000; copy;
end_sequence` emits one row; the entry that `ReadLineInfo` stores at `LineAddrs[1]` of
the function `f` has the address of the row, `IsStmt = true` and the directory `d`, and
an empty `SrcFileName`: the name `a` of the file goes to the function record only. -/
theorem ReadLineInfo_lineAddr_SrcFileName :
    (ReadLineInfo 20 (exampleLineUnitV4 (lneSetAddress 0x1000 ++ ([1] ++ lneEndSequence)))
        ⟨0, 52⟩ ⟨0, 0⟩ exampleFuncTable).map
      (fun r => r.2.ElfFuncInfos.map (fun f => (f.SrcFileName, f.LineAddrs)))
      = .ok [([0x61], [(1, { Line := 1, Addr := 0x1000, IsStmt := true,
                              SrcDirName := [0x64], SrcFileName := [] })]), ([], [])] := by
  rfl

/-- An address that is not a key of `AddrFuncIdxMap`: `addFuncAddrLineInfo` returns
before it writes anything. -/
theorem addFuncAddrLineInfo_not_found (lineInfoHdr : DwarfLineInfoHdr)
    (lnsm : LineNumberStateMachine) (funcAddr : Nat) (elfFuncInfos : ElfFunctionTable)
    (h : elfFuncInfos.AddrFuncIdxMap.find funcAddr = none) :
    addFuncAddrLineInfo lineInfoHdr lnsm funcAddr elfFuncInfos = elfFuncInfos := by
  unfold addFuncAddrLineInfo
  simp only [h]

/-- Claim C16.  An iteration of `readLineNumberProgram` that appends a row (`op = 1`,
`DW_LNS_copy`, or a byte `op >= 13` run as a special opcode, with `LineRange >= 1`) but
does not emit it, because `IsStmt` is false or because the address that is looked up
(`curFuncAddr` for `copy`, the new `Address` for a special opcode) is not a key of
`AddrFuncIdxMap`, succeeds and leaves the function table as it was: the records with
their `LineAddrs`, `SrcDirName` and `SrcFileName`, and `AddrFuncIdxMap`. -/
theorem lnpStep_row_not_emitted (bin : List Nat) (lineInfoHdr : DwarfLineInfoHdr)
    (lnpStart lnpEnd : Nat) (st : LineState) (op : Nat)
    (hbyte : byteAt bin (lnpStart + st.offset) = op)
    (hrow : op = 1 ∨ (13 ≤ op ∧ 1 ≤ lineInfoHdr.LineRange))
    (hnot : st.lnsm.IsStmt = false
      ∨ (op = 1 ∧ st.elfFuncTable.AddrFuncIdxMap.find st.curFuncAddr = none)
      ∨ (13 ≤ op ∧ st.elfFuncTable.AddrFuncIdxMap.find
            (u64 (st.lnsm.Address + u8 (op + (2 ^ 8 - lineInfoHdr.OpcodeBase % 2 ^ 8))
              / lineInfoHdr.LineRange * lineInfoHdr.MinInstLength)) = none)) :
    ∃ st', lnpStep bin lineInfoHdr lnpStart lnpEnd st = .ok st'
      ∧ st'.elfFuncTable = st.elfFuncTable := by
  rcases hrow with h1 | ⟨h13, hLR⟩
  · have h0 : ¬ op = 0 := by omega
    unfold lnpStep
    simp only [hbyte]
    rw [if_neg h0, if_pos h1]
    refine ⟨_, rfl, ?_⟩
    rcases hnot with hs | ⟨_, hf⟩ | ⟨h13, _⟩
    · simp [hs]
    · by_cases hs : st.lnsm.IsStmt = true
      · simp only [hs, if_true]
        exact addFuncAddrLineInfo_not_found _ _ _ _ hf
      · simp [hs]
    · omega
  · have hLR0 : ¬ lineInfoHdr.LineRange = 0 := by omega
    unfold lnpStep
    simp only [hbyte]
    have hne : ∀ k, k < 13 → ¬ op = k := by intro k hk; omega
    rw [if_neg (hne 0 (by norm_num)), if_neg (hne 1 (by norm_num)),
      if_neg (hne 2 (by norm_num)), if_neg (hne 3 (by norm_num)),
      if_neg (hne 4 (by norm_num)), if_neg (hne 5 (by norm_num)),
      if_neg (hne 6 (by norm_num)), if_neg (hne 7 (by norm_num)),
      if_neg (hne 8 (by norm_num)), if_neg (hne 9 (by norm_num)),
      if_neg (hne 10 (by norm_num)), if_neg (hne 11 (by norm_num)),
      if_neg (hne 12 (by norm_num))]
    unfold lnpSpecial
    simp only [if_neg hLR0]
    refine ⟨_, rfl, ?_⟩
    rcases hnot with hs | ⟨h1, _⟩ | ⟨_, hf⟩
    · simp [hs]
    · omega
    · by_cases hs : st.lnsm.IsStmt = true
      · simp only [hs, if_true]
        exact addFuncAddrLineInfo_not_found _ _ _ _ hf
      · simp [hs]

/-- Witness of claim C16: a `DW_LNS_copy` whose lookup address `0x2000` is not a key of
the address map of `exampleFuncTable`. -/
theorem lnpStep_row_not_emitted_witness :
    ∃ st', lnpStep [1] exampleHdrOpcodeBase10 0 1
        { exampleLineState with curFuncAddr := 0x2000 } = .ok st'
      ∧ st'.elfFuncTable = exampleFuncTable :=
  lnpStep_row_not_emitted [1] exampleHdrOpcodeBase10 0 1
    { exampleLineState with curFuncAddr := 0x2000 } 1 (by decide) (Or.inl rfl)
    (Or.inr (Or.inl ⟨rfl, by decide⟩))

/-! ## Registers and opcodes of the line number program -/

/-- Claim C17, counterexample: for a header whose `DefaultIsStmt` byte is `2`, a nonzero
value, the state machine starts with `IsStmt = false`. -/
theorem LineNumberStateMachine_init_default_is_stmt_two :
    (LineNumberStateMachine.init 2).IsStmt = false := by
  rfl

/-- Claim C17 (amended).  The state machine that the constructor
`LineNumberStateMachine(DefaultIsStmt)` builds, at the start of `readLineNumberProgram`
and again in the iteration that executes `DW_LNE_end_sequence` (opcode byte `0x00`, the
byte after the length `0x01`), has `Address = 0`, `OpIndex = 0`, `File = 1`,
`Line = 1`, `Column = 0`, `IsStmt` true exactly when the `DefaultIsStmt` byte of the
header is `1`, `BasicBlock = false`, `EndSequence = false`, `PrologueEnd = false` and
`Isa = 0`. -/
theorem LineNumberStateMachine_init_registers (bin : List Nat)
    (lineInfoHdr : DwarfLineInfoHdr) (lnpStart lnpEnd : Nat) (st : LineState)
    (h0 : byteAt bin (lnpStart + st.offset) = 0x00)
    (h1 : byteAt bin (lnpStart + u64 (u64 (st.offset + 1)
        + (ReaduLEB128 bin (lnpStart + u64 (st.offset + 1))
            (sub64 lnpEnd (u64 (st.offset + 1)))).2)) = 0x01) :
    ∃ st', lnpStep bin lineInfoHdr lnpStart lnpEnd st = .ok st'
      ∧ st'.lnsm = LineNumberStateMachine.init lineInfoHdr.DefaultIsStmt
      ∧ st'.lnsm.Address = 0 ∧ st'.lnsm.OpIndex = 0 ∧ st'.lnsm.File = 1
      ∧ st'.lnsm.Line = 1 ∧ st'.lnsm.Column = 0
      ∧ (st'.lnsm.IsStmt = true ↔ lineInfoHdr.DefaultIsStmt = 1)
      ∧ st'.lnsm.BasicBlock = false ∧ st'.lnsm.EndSequence = false
      ∧ st'.lnsm.PrologueEnd = false ∧ st'.lnsm.Isa = 0 := by
  unfold lnpStep
  simp only
  rw [if_pos h0]
  unfold lnpExtended
  simp only
  rw [if_pos h1]
  refine ⟨_, rfl, rfl, rfl, rfl, rfl, rfl, rfl, ?_, rfl, rfl, rfl, rfl⟩
  simp [LineNumberStateMachine.init]

/-- Witness of claim C17 (amended): `DW_LNE_end_sequence` under a header with
`DefaultIsStmt = 1`. -/
theorem LineNumberStateMachine_init_registers_witness :
    ∃ st', lnpStep lneEndSequence exampleHdrOpcodeBase10 0 3 exampleLineState = .ok st'
      ∧ st'.lnsm.Address = 0 ∧ st'.lnsm.Line = 1 ∧ st'.lnsm.IsStmt = true := by
  obtain ⟨st', h, _, hA, _, _, hL, _, hS, _⟩ :=
    LineNumberStateMachine_init_registers lneEndSequence exampleHdrOpcodeBase10 0 3
      exampleLineState (by decide) (by decide)
  exact ⟨st', h, hA, hL, hS.mpr rfl⟩

/-- Claim C18 (`DW_LNS_const_add_pc`): with `opcode_base = 10`, `line_range = 14` and
`minimum_instruction_length = 1` the opcode byte `0x08` adds `18` to the address, the
increment of the opcode `0x08` taken as a special opcode
(`(uint8_t)(8 - 10) / 14 = 254 / 14`), where the increment of the special opcode 255 is
`(255 - 10) / 14 * 1 = 17`. -/
theorem lnpStep_const_add_pc_opcode_base_10 :
    (lnpStep [8] exampleHdrOpcodeBase10 0 1 exampleLineState).map
      (fun st => st.lnsm.Address) = .ok (0x1000 + 18)
    ∧ (255 - exampleHdrOpcodeBase10.OpcodeBase) / exampleHdrOpcodeBase10.LineRange
        * exampleHdrOpcodeBase10.MinInstLength = 17 := by
  constructor
  · rfl
  · rfl

/-- Claim C19 (opcode dispatch with `opcode_base = 10`): with the header
`exampleHdrOpcodeBase10` the bytes `10`, `11` and `12` run the cases
`DW_LNS_set_prologue_end`, `DW_LNS_set_epilogue_begin` and `DW_LNS_set_isa` (which
consumes an operand byte): no row is appended (the function table is unchanged) and
`Address` and `Line` keep their values, where the special-opcode formulas give the line
increments `-1`, `0` and `1`; the byte `13` is the first one that is run as a special
opcode. -/
theorem lnpStep_opcode_base_10 :
    (lnpStep [10] exampleHdrOpcodeBase10 0 1 exampleLineState).map
        (fun st => (st.offset, st.lnsm.Line, st.lnsm.PrologueEnd, st.lnsm.EpilogueBegin,
          decide (st.elfFuncTable = exampleFuncTable))) = .ok (1, 1, true, false, true)
    ∧ (lnpStep [11] exampleHdrOpcodeBase10 0 1 exampleLineState).map
        (fun st => (st.offset, st.lnsm.Line, st.lnsm.PrologueEnd, st.lnsm.EpilogueBegin,
          decide (st.elfFuncTable = exampleFuncTable))) = .ok (1, 1, false, true, true)
    ∧ (lnpStep [12, 5] exampleHdrOpcodeBase10 0 2 exampleLineState).map
        (fun st => (st.offset, st.lnsm.Line, st.lnsm.PrologueEnd, st.lnsm.EpilogueBegin,
          decide (st.elfFuncTable = exampleFuncTable))) = .ok (2, 1, false, false, true)
    ∧ (lnpStep [13] exampleHdrOpcodeBase10 0 1 exampleLineState).map
        (fun st => (st.offset, st.lnsm.Line, st.lnsm.PrologueEnd, st.lnsm.EpilogueBegin,
          decide (st.elfFuncTable = exampleFuncTable))) = .ok (1, 3, false, false, false) := by
  refine ⟨?_, ?_, ?_, ?_⟩ <;> rfl

/-! ## Line-number units in the 64-bit format -/

/-- Claim C20 (a unit in the 64-bit format): for the unit `exampleLineUnit64` with the
program `end_sequence`, 52 bytes long, `ReadLineInfo` reads `HeaderLength` from the 4
bytes at offset 14 (the header length field has 8 bytes there), takes the next bytes
for the following fields (`MinInstLength = 0`, `LineRange = 1`, `OpcodeBase = 1` where
the unit has `1`, `14`, `13`), places the end of the unit, and the start of the next
header, at offset `40 + 8 = 48` and fails in the program it runs from offset 36. -/
theorem ReadLineInfo_unit_64bit :
    (exampleLineUnit64 lneEndSequence).length = 12 + 40
    ∧ (ReadLineInfo.header 20 (exampleLineUnit64 lneEndSequence) 52 ⟨0, 0⟩ 0).map
        (fun r => (r.1.DwarfFormat, r.1.UnitLength, r.1.HeaderLength, r.1.MinInstLength,
          r.1.LineRange, r.1.OpcodeBase, r.2, ReadLineInfo.endOffset 0 r.1))
      = .ok (DWARF_64BIT_FORMAT, 40, 27, 0, 1, 1, 36, 48)
    ∧ (ReadLineInfo 20 (exampleLineUnit64 lneEndSequence) ⟨0, 52⟩ ⟨0, 0⟩
        exampleFuncTable).map (fun r => r.2) = .error .unexpectedExtendedOpcode := by
  refine ⟨?_, ?_, ?_⟩ <;> rfl

end Dwarf

namespace Dwarf

/-! ## The fields of a CU header -/

/-- The value `FromLeToUInt16` reads, in terms of the two bytes. -/
theorem FromLeToUInt16_bytes (bin : List Nat) (off : Nat) :
    BinUtil.FromLeToUInt16 bin off = byteAt bin off + 2 ^ 8 * byteAt bin (off + 1) := by
  have h0 := byteAt_lt bin off
  have h1 := byteAt_lt bin (off + 1)
  unfold BinUtil.FromLeToUInt16 u16
  rw [Nat.mod_eq_of_lt (by omega)]
  omega

/-- The value `FromLeToUInt32` reads, in terms of the four bytes. -/
theorem FromLeToUInt32_bytes (bin : List Nat) (off : Nat) :
    BinUtil.FromLeToUInt32 bin off
      = byteAt bin off + 2 ^ 8 * byteAt bin (off + 1) + 2 ^ 16 * byteAt bin (off + 2)
        + 2 ^ 24 * byteAt bin (off + 3) := by
  have h0 := byteAt_lt bin off
  have h1 := byteAt_lt bin (off + 1)
  have h2 := byteAt_lt bin (off + 2)
  have h3 := byteAt_lt bin (off + 3)
  unfold BinUtil.FromLeToUInt32 u32
  rw [Nat.mod_eq_of_lt (by omega)]
  omega

/-- Claim C21.  For a CU header in the 32-bit format (first four bytes below
`0xFFFFFF00`), `readCompilationUnitHeader` returns a header whose `Version` is the
little-endian value of the bytes 4-5; when `Version <= 4`, `DebugAbbrevOffset` is the
little-endian value of the bytes 6-9 and `AddressSize` the byte 10; when
`Version >= 5` (and the unit type, the byte 6, is one of the six known types, `1` to
`6`), `UnitType` is the byte 6, `AddressSize` the byte 7 and `DebugAbbrevOffset` the
little-endian value of the bytes 8-11. -/
theorem readCompilationUnitHeader_fields_32 (bin : List Nat) (offset : Nat)
    (hoff : offset + 12 < 2 ^ 64)
    (h32 : BinUtil.FromLeToUInt32 bin offset < 0xFFFFFF00)
    (hut : 5 ≤ byteAt bin (offset + 4) + 2 ^ 8 * byteAt bin (offset + 5) →
      1 ≤ byteAt bin (offset + 6) ∧ byteAt bin (offset + 6) ≤ 6) :
    ∃ cuh, readCompilationUnitHeader bin offset = .ok cuh
      ∧ cuh.DwarfFormat = DWARF_32BIT_FORMAT
      ∧ cuh.Version = byteAt bin (offset + 4) + 2 ^ 8 * byteAt bin (offset + 5)
      ∧ (cuh.Version ≤ 4 →
          cuh.DebugAbbrevOffset
              = byteAt bin (offset + 6) + 2 ^ 8 * byteAt bin (offset + 7)
                + 2 ^ 16 * byteAt bin (offset + 8) + 2 ^ 24 * byteAt bin (offset + 9)
            ∧ cuh.AddressSize = byteAt bin (offset + 10))
      ∧ (5 ≤ cuh.Version →
          cuh.UnitType = byteAt bin (offset + 6)
            ∧ cuh.AddressSize = byteAt bin (offset + 7)
            ∧ cuh.DebugAbbrevOffset
              = byteAt bin (offset + 8) + 2 ^ 8 * byteAt bin (offset + 9)
                + 2 ^ 16 * byteAt bin (offset + 10) + 2 ^ 24 * byteAt bin (offset + 11)) := by
  have e4 : u64 (offset + 4) = offset + 4 := u64_eq _ (by omega)
  have e6 : u64 (offset + 4 + 2) = offset + 6 := u64_eq _ (by omega)
  have e7 : u64 (offset + 6 + 1) = offset + 7 := u64_eq _ (by omega)
  have e8 : u64 (offset + 7 + 1) = offset + 8 := u64_eq _ (by omega)
  have e10 : u64 (offset + 6 + 4) = offset + 10 := u64_eq _ (by omega)
  have e12 : u64 (offset + 8 + 4) = offset + 12 := u64_eq _ (by omega)
  have hv := FromLeToUInt16_bytes bin (offset + 4)
  have hd6 := FromLeToUInt32_bytes bin (offset + 6)
  have hd8 := FromLeToUInt32_bytes bin (offset + 8)
  unfold readCompilationUnitHeader readCompilationUnitHeader.go
  simp only [if_pos h32, e4, e6, e7, e8, e10, e12]
  by_cases hlt : BinUtil.FromLeToUInt16 bin (offset + 4) < 5
  · rw [if_pos hlt]
    refine ⟨_, rfl, rfl, hv, ?_, ?_⟩
    · intro _
      exact ⟨hd6, rfl⟩
    · intro h5
      exfalso
      simp only at h5
      omega
  · rw [if_neg hlt]
    have hu := hut (by rw [← hv]; omega)
    by_cases hc : byteAt bin (offset + 6) = DW_UT_compile
        ∨ byteAt bin (offset + 6) = DW_UT_partial
        ∨ byteAt bin (offset + 6) = DW_UT_skeleton
        ∨ byteAt bin (offset + 6) = DW_UT_split_compile
    · rw [if_pos hc]
      refine ⟨_, rfl, rfl, hv, ?_, ?_⟩
      · intro h4
        exfalso
        simp only at h4
        omega
      · intro _
        exact ⟨rfl, rfl, hd8⟩
    · rw [if_neg hc]
      have ht : byteAt bin (offset + 6) = DW_UT_type
          ∨ byteAt bin (offset + 6) = DW_UT_split_type := by
        simp only [DW_UT_compile, DW_UT_partial, DW_UT_skeleton, DW_UT_split_compile,
          DW_UT_type, DW_UT_split_type] at hc ⊢
        omega
      rw [if_pos ht]
      rw [if_pos True.intro]
      refine ⟨_, rfl, rfl, hv, ?_, ?_⟩
      · intro h4
        exfalso
        simp only at h4
        omega
      · intro _
        exact ⟨rfl, rfl, hd8⟩

/-- Witness of claim C21: the Version 5 header of `exampleInfoV5` (at offset 10 of the
image) and the Version 4 header of `exampleInfoImage` (at offset 43). -/
theorem readCompilationUnitHeader_fields_32_witness :
    (∃ cuh, readCompilationUnitHeader exampleInfoV5 10 = .ok cuh ∧ cuh.Version = 5
      ∧ cuh.UnitType = DW_UT_compile ∧ cuh.AddressSize = 8 ∧ cuh.DebugAbbrevOffset = 0)
    ∧ (∃ cuh, readCompilationUnitHeader (exampleInfoImage []) 43 = .ok cuh ∧ cuh.Version = 4
      ∧ cuh.AddressSize = 8 ∧ cuh.DebugAbbrevOffset = 0) := by
  constructor
  · obtain ⟨cuh, h, _, hv, _, h5⟩ :=
      readCompilationUnitHeader_fields_32 exampleInfoV5 10 (by decide) (by decide) (by decide)
    have hv5 : cuh.Version = 5 := hv.trans (by decide)
    obtain ⟨h1, h2, h3⟩ := h5 (by omega)
    exact ⟨cuh, h, hv5, h1.trans (by decide), h2.trans (by decide), h3.trans (by decide)⟩
  · obtain ⟨cuh, h, _, hv, h4, _⟩ :=
      readCompilationUnitHeader_fields_32 (exampleInfoImage []) 43 (by decide) (by decide)
        (by decide)
    have hv4 : cuh.Version = 4 := hv.trans (by decide)
    obtain ⟨h1, h2⟩ := h4 (by omega)
    exact ⟨cuh, h, hv4, h2.trans (by decide), h1.trans (by decide)⟩

/-! ## DIEs and their registration -/

/-- Claim C22, counterexample: in the unit of `exampleInfoImage` the first DIE has the
abbreviation code 5, which the abbreviation table (codes 1 to 4) does not hold, and is
followed by the DIE of the subprogram `f` at `0x1000` (code 1); `ReadDebugInfo` raises
no error, passes over the code 5 and returns the function `f`. -/
theorem ReadDebugInfo_absent_abbrev_code :
    (ReadAbbrevTbl 40 (exampleInfoImage ([5] ++ ([1, 0x66, 0] ++ le64 0x1000))) ⟨0, 43⟩ 0).map
        (fun t => t.map (fun a => a.Id)) = .ok [1, 2, 3, 4]
    ∧ exampleReadDebugInfo ([5] ++ ([1, 0x66, 0] ++ le64 0x1000))
      = .ok [{ Funcs := [(0x1000, { Name := [0x66], Addr := 0x1000 })] }] := by
  constructor
  · rfl
  · rfl

/-- Claim C22 (amended).  When the nonzero abbreviation code of a DIE is not a key of
the abbreviation map of its CU, the iteration of the DIE loop raises no error: the DIE is
taken as one without tag and attributes, the cursor moves past the code and the loop
goes on with the next DIE; the functions of the CU, the pending declarations and the
line-info offset stay as they were. -/
theorem dieLoop_absent_code (env : InfoEnv) (inner : Nat) (cuh : DwarfCuHdr)
    (cuTop cuEnd : Nat) (curArrangeInfo : DwarfArangeInfo) (abbrevMap : StdMap Abbrev)
    (fuel : Nat) (st : InfoState) (id len : Nat) (hlt : st.offset < cuEnd)
    (hid : ReaduLEB128 env.bin st.offset (sub64 env.dbgInfoEnd st.offset) = (id, len))
    (hid0 : id ≠ 0) (habs : abbrevMap.find id = none) :
    dieLoop env inner cuh cuTop cuEnd curArrangeInfo abbrevMap (fuel + 1) st
      = dieLoop env inner cuh cuTop cuEnd curArrangeInfo abbrevMap fuel
          { st with offset := u64 (st.offset + len) } := by
  have hd : abbrevMap.getD id = {} := by
    unfold StdMap.getD
    rw [habs]
    rfl
  rw [dieLoop_die_step env inner cuh cuTop cuEnd curArrangeInfo abbrevMap fuel st id len
    { offset := u64 (st.offset + len), dwarfFuncInfo := env.freshFuncInfo st.offset,
      cuDbgInfo := st.cuDbgInfo, cuLineInfoOffset := st.cuLineInfoOffset } hlt hid hid0
    (by rw [hd]; rfl)]
  rw [hd]
  rfl

/-- Witness of claim C22 (amended): the DIE bytes `05 00` with an empty abbreviation
map; the loop passes over the code 5 and over the null DIE and ends at offset 2. -/
theorem dieLoop_absent_code_witness :
    dieLoop (exampleInfoEnv [5, 0]) 10 (exampleCuHdr DWARF_32BIT_FORMAT) 0 2 default [] 3
        exampleInfoState
      = .ok { exampleInfoState with offset := 2 } :=
  (dieLoop_absent_code (exampleInfoEnv [5, 0]) 10 (exampleCuHdr DWARF_32BIT_FORMAT) 0 2
    default [] 2 exampleInfoState 5 1 (by decide) (by decide) (by decide) (by rfl)).trans
    (by rfl)

/-- Claim C23, counterexample: three subprogram DIEs that carry a `DW_AT_low_pc` and
leave `Funcs` empty.  A DIE with the address `0x1000` and no name (abbreviation 2 of
`exampleAbbrevTable`): `ReadDebugInfo` stores a subprogram without name whose address is
not yet a key of `Funcs` among the pending declarations.  A DIE with the name `f` and
the address `0` (abbreviation 1): the address `0` is taken for no address.  A DIE whose
address `0x4000` is followed by a `DW_AT_specification` that resolves to the pending
declaration of `f` (`exampleSpecImage`): the specification assigns the whole record, and
with it the address `0` of the declaration. -/
theorem ReadDebugInfo_unnamed_subprogram :
    exampleReadDebugInfo ([2] ++ le64 0x1000) = .ok [{ Funcs := [] }]
    ∧ exampleReadDebugInfo ([1, 0x66, 0] ++ le64 0) = .ok [{ Funcs := [] }]
    ∧ exampleReadSpec (DW_AT_low_pc, DW_FORM_addr) (DW_AT_specification, DW_FORM_ref4)
        (le64 0x4000 ++ le32 11) = .ok [{ Funcs := [] }] := by
  refine ⟨?_, ?_, ?_⟩ <;> rfl

/-- Claim C24 (`cuDbgInfo.Language`): the compile-unit DIE of the example (abbreviation
4) has the producer `p`, the language code `0x1c` in form `data2`, the name `a@b` and
the compilation directory `d`; `ReadDebugInfo` captures the three strings and leaves
`Language` empty, so that `IsRust()` is false (and the name keeps its part after
`@`). -/
theorem ReadDebugInfo_language_not_captured :
    exampleReadDebugInfo ([4] ++ (le32 0 ++ (le16 0x1c ++ (le32 2 ++ le32 6))))
      = .ok [{ FileName := [0x61, 0x40, 0x62], Producer := [0x70], Language := [],
               CompileDir := [0x64], Funcs := [] }]
    ∧ (exampleReadDebugInfo ([4] ++ (le32 0 ++ (le16 0x1c ++ (le32 2 ++ le32 6))))).map
        (fun l => l.map (fun cu => cu.IsRust)) = .ok [false] := by
  constructor
  · rfl
  · rfl

/-! ## The forms of the attributes -/

/-- Claim C25 (forms sized by the format, in a unit of the 64-bit format): the cursor
advances by 4 bytes for a `strp` attribute and for a `sec_offset` attribute
`DW_AT_stmt_list`, and by 8 bytes for a `sec_offset` attribute `DW_AT_ranges` or
`DW_AT_location` and for a `line_strp` attribute. -/
theorem decodeAttr_width_64bit :
    (decodeAttr (exampleInfoEnv [1, 0, 0, 0, 0, 0, 0, 0]) 10 (exampleCuHdr DWARF_64BIT_FORMAT)
        0 default [] default ⟨DW_AT_name, DW_FORM_strp, 0⟩ exampleAttrState).map
      (fun a => a.offset) = .ok 4
    ∧ (decodeAttr (exampleInfoEnv [1, 0, 0, 0, 0, 0, 0, 0]) 10
        (exampleCuHdr DWARF_64BIT_FORMAT) 0 default [] default
        ⟨DW_AT_stmt_list, DW_FORM_sec_offset, 0⟩ exampleAttrState).map
      (fun a => a.offset) = .ok 4
    ∧ (decodeAttr (exampleInfoEnv [1, 0, 0, 0, 0, 0, 0, 0]) 10
        (exampleCuHdr DWARF_64BIT_FORMAT) 0 default [] default
        ⟨DW_AT_ranges, DW_FORM_sec_offset, 0⟩ exampleAttrState).map
      (fun a => a.offset) = .ok 8
    ∧ (decodeAttr (exampleInfoEnv [1, 0, 0, 0, 0, 0, 0, 0]) 10
        (exampleCuHdr DWARF_64BIT_FORMAT) 0 default [] default
        ⟨DW_AT_location, DW_FORM_sec_offset, 0⟩ exampleAttrState).map
      (fun a => a.offset) = .ok 8
    ∧ (decodeAttr (exampleInfoEnv [1, 0, 0, 0, 0, 0, 0, 0]) 10
        (exampleCuHdr DWARF_64BIT_FORMAT) 0 default [] default
        ⟨DW_AT_name, DW_FORM_line_strp, 0⟩ exampleAttrState).map
      (fun a => a.offset) = .ok 8 := by
  refine ⟨?_, ?_, ?_, ?_, ?_⟩ <;> rfl

/-- Claim C26 (`DW_FORM_block`): on the bytes `02 aa bb`, a block of length 2 with its
length in one byte, the form `block` advances the cursor by 1, the size of the length
alone, where the form `block1` advances it by `1 + 2`; the forms `block2` and `block4`
advance it by `2 + 2` and `4 + 2` on the same block with a length of 2 and 4 bytes. -/
theorem decodeAttr_block_length_only :
    (decodeAttr (exampleInfoEnv [2, 0xaa, 0xbb]) 10 (exampleCuHdr DWARF_32BIT_FORMAT) 0
        default [] default ⟨DW_AT_location, DW_FORM_block, 0⟩ exampleAttrState).map
      (fun a => a.offset) = .ok 1
    ∧ (decodeAttr (exampleInfoEnv [2, 0xaa, 0xbb]) 10 (exampleCuHdr DWARF_32BIT_FORMAT) 0
        default [] default ⟨DW_AT_location, DW_FORM_block1, 0⟩ exampleAttrState).map
      (fun a => a.offset) = .ok 3
    ∧ (decodeAttr (exampleInfoEnv [2, 0, 0xaa, 0xbb]) 10 (exampleCuHdr DWARF_32BIT_FORMAT) 0
        default [] default ⟨DW_AT_location, DW_FORM_block2, 0⟩ exampleAttrState).map
      (fun a => a.offset) = .ok 4
    ∧ (decodeAttr (exampleInfoEnv [2, 0, 0, 0, 0xaa, 0xbb]) 10
        (exampleCuHdr DWARF_32BIT_FORMAT) 0 default [] default
        ⟨DW_AT_location, DW_FORM_block4, 0⟩ exampleAttrState).map
      (fun a => a.offset) = .ok 6 := by
  refine ⟨?_, ?_, ?_, ?_⟩ <;> rfl

/-- Claim C27, counterexample: a `DW_AT_high_pc` of form `data8` whose 8 bytes hold
`2 ^ 32` records the size `0`. -/
theorem decodeAttr_data8_high_pc_truncated :
    BinUtil.FromLeToUInt64 [0, 0, 0, 0, 1, 0, 0, 0] 0 = 2 ^ 32
    ∧ (decodeAttr (exampleInfoEnv [0, 0, 0, 0, 1, 0, 0, 0]) 10
        (exampleCuHdr DWARF_32BIT_FORMAT) 0 default [] exampleSubprogramAbbrev
        ⟨DW_AT_high_pc, DW_FORM_data8, 0⟩ exampleAttrState).map
      (fun a => (a.offset, a.dwarfFuncInfo.Size)) = .ok (8, 0) := by
  constructor
  · rfl
  · rfl

/-- Claim C27 (amended).  For a `DW_AT_high_pc` of form `data8` the size recorded for a
function is the unsigned 64-bit little-endian value of the 8 bytes reduced modulo
`2 ^ 32` (the field `Size` and the local that receives the value are `uint32_t`), hence
the value itself when it is below `2 ^ 32`; the cursor advances by 8 bytes and nothing
else changes. -/
theorem decodeAttr_data8_high_pc (env : InfoEnv) (fuel : Nat) (cuh : DwarfCuHdr)
    (cuTop : Nat) (curArrangeInfo : DwarfArangeInfo) (cppTmpFuncMap : StdMap DwarfFuncInfo)
    (abbrv : Abbrev) (attr : AbbrevAttr) (st : AttrState)
    (hform : attr.Form = DW_FORM_data8) (hattr : attr.Attr = DW_AT_high_pc) :
    decodeAttr env fuel cuh cuTop curArrangeInfo cppTmpFuncMap abbrv attr st
        = .ok { st with
                offset := u64 (st.offset + 8)
                dwarfFuncInfo := { st.dwarfFuncInfo with
                  Size := BinUtil.FromLeToUInt64 env.bin st.offset % 2 ^ 32 } }
      ∧ (BinUtil.FromLeToUInt64 env.bin st.offset < 2 ^ 32 →
          BinUtil.FromLeToUInt64 env.bin st.offset % 2 ^ 32
            = BinUtil.FromLeToUInt64 env.bin st.offset) := by
  constructor
  · unfold decodeAttr
    simp [hform, hattr, DW_FORM_data8, DW_FORM_addr, DW_FORM_block2, DW_FORM_block4,
      DW_FORM_strp, DW_FORM_data1, DW_FORM_data2, DW_FORM_data4, u32]
  · intro h
    exact Nat.mod_eq_of_lt h

/-- Witness of claim C27 (amended): the 8 bytes `20 00 00 00 00 00 00 00` record the
size `0x20`. -/
theorem decodeAttr_data8_high_pc_witness :
    decodeAttr (exampleInfoEnv (le64 0x20)) 10 (exampleCuHdr DWARF_32BIT_FORMAT) 0 default []
        exampleSubprogramAbbrev ⟨DW_AT_high_pc, DW_FORM_data8, 0⟩ exampleAttrState
      = .ok { exampleAttrState with offset := 8, dwarfFuncInfo := { Size := 0x20 } } :=
  (decodeAttr_data8_high_pc (exampleInfoEnv (le64 0x20)) 10 (exampleCuHdr DWARF_32BIT_FORMAT)
    0 default [] exampleSubprogramAbbrev ⟨DW_AT_high_pc, DW_FORM_data8, 0⟩ exampleAttrState
    rfl rfl).1.trans (by rfl)

/-- Claim C28, counterexample: the forms `data16`, `ref8`, `ref_sig8`, `ref_udata` and
`ref_addr` have no case in the switch of `ReadDebugInfo`: an attribute of one of these
forms is rejected as an unknown form. -/
theorem decodeAttr_data16_unknown_form :
    [DW_FORM_data16, DW_FORM_ref8, DW_FORM_ref_sig8, DW_FORM_ref_udata, DW_FORM_ref_addr].map
      (fun form => (decodeAttr (exampleInfoEnv (List.replicate 16 0)) 10
        (exampleCuHdr DWARF_32BIT_FORMAT) 0 default [] default
        ⟨DW_AT_type, form, 0⟩ exampleAttrState).map (fun a => a.offset))
      = List.replicate 5 (.error .unknownForm) := by
  rfl

/-- The loop of the `DW_FORM_exprloc` case never raises the error of an unknown form. -/
theorem exprlocLoop_ne_unknownForm (env : InfoEnv) (addressSize length : Nat) :
    ∀ (fuel i offset : Nat),
      exprlocLoop env addressSize length fuel i offset ≠ .error .unknownForm := by
  intro fuel
  induction fuel with
  | zero =>
    intro i offset h
    rw [exprlocLoop] at h
    exact DwarfError.noConfusion (Except.error.inj h)
  | succ fuel ih =>
    intro i offset h
    rw [exprlocLoop] at h
    simp only at h
    repeat' first
      | exact ih _ _ h
      | exact DwarfError.noConfusion (Except.error.inj h)
      | exact Except.noConfusion h
      | (rcases ite_eq_iff.mp h with ⟨_, h⟩ | ⟨_, h⟩)

/-- A form among the case labels of the switch of `ReadDebugInfo` is never rejected as
an unknown form. -/
theorem decodeAttr_ne_unknownForm (env : InfoEnv) (fuel : Nat) (cuh : DwarfCuHdr)
    (cuTop : Nat) (curArrangeInfo : DwarfArangeInfo) (cppTmpFuncMap : StdMap DwarfFuncInfo)
    (abbrv : Abbrev) (attr : AbbrevAttr) (st : AttrState)
    (hmem : attr.Form ∈ formSwitchCases) :
    decodeAttr env fuel cuh cuTop curArrangeInfo cppTmpFuncMap abbrv attr st
      ≠ .error .unknownForm := by
  intro hh
  simp only [formSwitchCases, List.mem_cons, List.mem_singleton, List.not_mem_nil,
    or_false] at hmem
  unfold decodeAttr at hh
  rcases hmem with h | h | h | h | h | h | h | h | h | h | h | h | h | h | h | h | h | h
    | h | h | h | h
  all_goals
    simp [h, DW_FORM_addr, DW_FORM_block2, DW_FORM_block4, DW_FORM_strp, DW_FORM_data1,
      DW_FORM_data2, DW_FORM_data4, DW_FORM_data8, DW_FORM_string, DW_FORM_block,
      DW_FORM_block1, DW_FORM_flag, DW_FORM_sdata, DW_FORM_udata, DW_FORM_ref1, DW_FORM_ref2,
      DW_FORM_ref4, DW_FORM_sec_offset, DW_FORM_exprloc, DW_FORM_flag_present,
      DW_FORM_line_strp, DW_FORM_implicit_const] at hh
  · split at hh
    · rename_i cuPart e heq
      rw [Except.error.inj hh] at heq
      repeat' first
        | exact DwarfError.noConfusion (Except.error.inj heq)
        | exact Except.noConfusion heq
        | (rcases ite_eq_iff.mp heq with ⟨_, heq⟩ | ⟨_, heq⟩)
    · repeat' first
        | exact DwarfError.noConfusion (Except.error.inj hh)
        | exact Except.noConfusion hh
        | (rcases ite_eq_iff.mp hh with ⟨_, hh⟩ | ⟨_, hh⟩)
  · repeat' first
      | exact DwarfError.noConfusion (Except.error.inj hh)
      | exact Except.noConfusion hh
      | (rcases ite_eq_iff.mp hh with ⟨_, hh⟩ | ⟨_, hh⟩)
  · repeat' first
      | exact DwarfError.noConfusion (Except.error.inj hh)
      | exact Except.noConfusion hh
      | (rcases ite_eq_iff.mp hh with ⟨_, hh⟩ | ⟨_, hh⟩)
  · split at hh
    · rename_i x e heq
      rw [Except.error.inj hh] at heq
      exact exprlocLoop_ne_unknownForm _ _ _ _ _ _ heq
    · exact Except.noConfusion hh
  · repeat' first
      | exact DwarfError.noConfusion (Except.error.inj hh)
      | exact Except.noConfusion hh
      | (rcases ite_eq_iff.mp hh with ⟨_, hh⟩ | ⟨_, hh⟩)

/-- Claim C28 (amended).  The switch of `ReadDebugInfo` on the form of an attribute
rejects a form as unknown exactly when it is none of its 22 case labels
(`formSwitchCases`: addr, block2, block4, strp, data1, data2, data4, data8, string,
block, block1, flag, sdata, udata, ref1, ref2, ref4, sec_offset, exprloc, flag_present,
line_strp, implicit_const); so are rejected data16, ref8, ref_sig8, ref_udata and
ref_addr, and no form among the case labels is. -/
theorem decodeAttr_unknownForm_iff (env : InfoEnv) (fuel : Nat) (cuh : DwarfCuHdr)
    (cuTop : Nat) (curArrangeInfo : DwarfArangeInfo) (cppTmpFuncMap : StdMap DwarfFuncInfo)
    (abbrv : Abbrev) (attr : AbbrevAttr) (st : AttrState) :
    decodeAttr env fuel cuh cuTop curArrangeInfo cppTmpFuncMap abbrv attr st
        = .error .unknownForm
      ↔ attr.Form ∉ formSwitchCases := by
  constructor
  · intro h hmem
    exact decodeAttr_ne_unknownForm env fuel cuh cuTop curArrangeInfo cppTmpFuncMap abbrv attr
      st hmem h
  · intro hmem
    simp only [formSwitchCases, List.mem_cons, List.mem_singleton, List.not_mem_nil,
      or_false, not_or] at hmem
    obtain ⟨h1, h2, h3, h4, h5, h6, h7, h8, h9, h10, h11, h12, h13, h14, h15, h16, h17, h18,
      h19, h20, h21, h22⟩ := hmem
    unfold decodeAttr
    simp only
    rw [if_neg h1, if_neg h2, if_neg h3, if_neg h4, if_neg h5, if_neg h6, if_neg h7,
      if_neg h8, if_neg h9, if_neg h10, if_neg h11, if_neg h12,
      if_neg (not_or.mpr ⟨h13, h14⟩), if_neg h15, if_neg h16, if_neg h17, if_neg h18,
      if_neg h19, if_neg h20, if_neg h21, if_neg h22]

/-- Witness of claim C28 (amended): an attribute of form `data16`. -/
theorem decodeAttr_unknownForm_iff_witness :
    decodeAttr (exampleInfoEnv (List.replicate 16 0)) 10 (exampleCuHdr DWARF_32BIT_FORMAT) 0
        default [] default ⟨DW_AT_type, DW_FORM_data16, 0⟩ exampleAttrState
      = .error .unknownForm :=
  (decodeAttr_unknownForm_iff (exampleInfoEnv (List.replicate 16 0)) 10
    (exampleCuHdr DWARF_32BIT_FORMAT) 0 default [] default ⟨DW_AT_type, DW_FORM_data16, 0⟩
    exampleAttrState).mpr (by decide)

/-- Claim C29 (`DW_FORM_exprloc`, the counter `i`): on the bytes `02 30 9f`, an
expression of length 2 made of `DW_OP_lit0` and `DW_OP_stack_value`, the cursor advances
by 2, the length prefix and one opcode: the loop counts two bytes for each opcode (the
`i++` of the body and the `i++` of the `for`) and ends after the first one.  An
expression of one opcode with its operands (`09 03` and 8 bytes, `DW_OP_addr`) is
passed over as a whole. -/
theorem decodeAttr_exprloc_two_opcodes :
    (decodeAttr (exampleInfoEnv [2, 0x30, 0x9f]) 10 (exampleCuHdr DWARF_32BIT_FORMAT) 0
        default [] default ⟨DW_AT_location, DW_FORM_exprloc, 0⟩ exampleAttrState).map
      (fun a => a.offset) = .ok 2
    ∧ (decodeAttr (exampleInfoEnv [9, 0x03, 0, 0, 0, 0, 0, 0, 0, 0]) 10
        (exampleCuHdr DWARF_32BIT_FORMAT) 0 { Header := { AddressSize := 8 } } [] default
        ⟨DW_AT_location, DW_FORM_exprloc, 0⟩ exampleAttrState).map
      (fun a => a.offset) = .ok 10 := by
  constructor
  · rfl
  · rfl

/-! ## The address size of an aranges entry -/

end Dwarf

namespace Dwarf

/-! ## The length that the LEB128 readers report -/

/-- Claim C31 (`len = pos + 1`): on a buffer of one byte `0x80`, whose bit 7 is set, read
with `size = 1`, the loops of `ReaduLEB128` and `ReadsLEB128` end on the test
`pos < size` with `pos = 1`, and both readers leave `len = 2`, one more than the `size`
they were given; on three such bytes with `size = 3` they leave `len = 4`. -/
theorem ReaduLEB128_len_exceeds_size :
    (ReaduLEB128 [0x80] 0 1).2 = 2 ∧ (ReadsLEB128 [0x80] 0 1).2 = 2
    ∧ (ReaduLEB128 [0x80, 0x80, 0x80] 0 3).2 = 4
    ∧ (ReadsLEB128 [0x80, 0x80, 0x80] 0 3).2 = 4 := by
  refine ⟨?_, ?_, ?_, ?_⟩ <;> rfl

/-! ## A `.debug_abbrev` section that ends before the table does -/

/-- Claim C32, counterexample: the section of 4 bytes `01 2e 00 03` ends in the middle
of the attribute list of its first entry (after an attribute code, before its form) and
is followed by zero bytes in the image; `ReadAbbrevTbl` reads on past the section end
and returns a table with the entry, whose attribute has the form `0`.  A section that
ends in the middle of its second entry, right after the children byte, and a section
that ends right after a complete entry yield a table as well. -/
theorem ReadAbbrevTbl_truncated_section :
    ReadAbbrevTbl 10 [1, 0x2e, 0, 3, 0, 0, 0, 0] ⟨0, 4⟩ 0
      = .ok [{ Id := 1, Tag := 0x2e, HasChildren := false,
               Attrs := [{ Attr := 3, Form := 0, Const := 0 }] }]
    ∧ ReadAbbrevTbl 10 [1, 0x2e, 0, 3, 8, 0, 0, 2, 0x2e, 1] ⟨0, 10⟩ 0
      = .ok [{ Id := 1, Tag := 0x2e, HasChildren := false,
               Attrs := [{ Attr := 3, Form := 8, Const := 0 }] },
             { Id := 2, Tag := 0x2e, HasChildren := true, Attrs := [] }]
    ∧ ReadAbbrevTbl 10 [1, 0x2e, 0, 3, 8, 0, 0] ⟨0, 7⟩ 0
      = .ok [{ Id := 1, Tag := 0x2e, HasChildren := false,
               Attrs := [{ Attr := 3, Form := 8, Const := 0 }] }] := by
  refine ⟨?_, ?_, ?_⟩ <;> rfl

/-- The attribute loop of `ReadAbbrevTbl` has no error exit but the end of the fuel. -/
theorem ReadAbbrevTbl_attrs_error (bin : List Nat) (secEndPos : Nat) :
    ∀ (fuel offset : Nat) (attrs : List AbbrevAttr) (e : DwarfError),
      ReadAbbrevTbl.attrs bin secEndPos fuel offset attrs = .error e → e = .outOfFuel := by
  intro fuel
  induction fuel with
  | zero =>
    intro offset attrs e h
    rw [ReadAbbrevTbl.attrs] at h
    exact (Except.error.inj h).symm
  | succ fuel ih =>
    intro offset attrs e h
    rw [ReadAbbrevTbl.attrs] at h
    simp only at h
    split at h
    · exact Except.noConfusion h
    · exact ih _ _ e h

/-- The outer loop of `ReadAbbrevTbl` has no error exit but the end of the fuel. -/
theorem ReadAbbrevTbl_loop_error (bin : List Nat) (secEndPos inner : Nat) :
    ∀ (fuel offset : Nat) (abbrevTbl : List Abbrev) (e : DwarfError),
      ReadAbbrevTbl.loop bin secEndPos inner fuel offset abbrevTbl = .error e →
      e = .outOfFuel := by
  intro fuel
  induction fuel with
  | zero =>
    intro offset abbrevTbl e h
    rw [ReadAbbrevTbl.loop] at h
    exact (Except.error.inj h).symm
  | succ fuel ih =>
    intro offset abbrevTbl e h
    rw [ReadAbbrevTbl.loop] at h
    simp only at h
    split at h
    · split at h
      · exact Except.noConfusion h
      · split at h
        · rename_i e' heq
          rw [← Except.error.inj h]
          exact ReadAbbrevTbl_attrs_error bin secEndPos _ _ _ e' heq
        · exact ih _ _ e h
    · exact Except.noConfusion h

/-- The outer loop of `ReadAbbrevTbl` on the wire form of declarations that end, without
a closing zero code, where the section ends. -/
theorem ReadAbbrevTbl_loop_decls (bin : List Nat) (secEndPos inner : Nat)
    (hsec : secEndPos < 2 ^ 64) :
    ∀ (ds : List AbbrevDecl) (fuel offset : Nat) (acc : List Abbrev),
      (∀ d ∈ ds, d.WellFormed) →
      (∀ d ∈ ds, d.attrs.length < inner) →
      bytesAt bin offset (encodeAbbrevDecls ds) →
      offset + (encodeAbbrevDecls ds).length = secEndPos →
      ds.length < fuel →
      ReadAbbrevTbl.loop bin secEndPos inner fuel offset acc
        = .ok (acc ++ ds.map AbbrevDecl.toAbbrev, secEndPos) := by
  intro ds
  induction ds with
  | nil =>
    intro fuel offset acc _ _ hb hle hfuel
    obtain ⟨fuel, rfl⟩ : ∃ f, fuel = f + 1 := ⟨fuel - 1, by simp at hfuel; omega⟩
    simp only [encodeAbbrevDecls, List.length_nil, Nat.add_zero] at hle
    unfold ReadAbbrevTbl.loop
    rw [if_neg (by omega), hle]
    simp
  | cons d ds ih =>
    intro fuel offset acc hwf hinner hb hle hfuel
    obtain ⟨fuel, rfl⟩ : ∃ f, fuel = f + 1 := ⟨fuel - 1, by simp at hfuel; omega⟩
    obtain ⟨hc0, hc, ht, hch, hattrs⟩ := hwf d (List.mem_cons_self _ _)
    have hlen : (encodeAbbrevDecls (d :: ds)).length
        = (encodeULEB128 d.code).length + (encodeULEB128 d.tag).length + 1
          + (encodeAbbrevAttrs d.attrs).length + (encodeAbbrevDecls ds).length := by
      simp [encodeAbbrevDecls, encodeAbbrevDecl]
      omega
    rw [hlen] at hle
    have hb' : bytesAt bin offset (encodeULEB128 d.code ++ (encodeULEB128 d.tag
        ++ ([d.children] ++ (encodeAbbrevAttrs d.attrs ++ encodeAbbrevDecls ds)))) := by
      have : encodeAbbrevDecls (d :: ds) = encodeULEB128 d.code ++ (encodeULEB128 d.tag
          ++ ([d.children] ++ (encodeAbbrevAttrs d.attrs ++ encodeAbbrevDecls ds))) := by
        simp [encodeAbbrevDecls, encodeAbbrevDecl]
      rwa [this] at hb
    rw [bytesAt_append, bytesAt_append, bytesAt_append, bytesAt_append] at hb'
    obtain ⟨hb1, hb2, hb3, hb4, hb5⟩ := hb'
    simp only [List.length_singleton] at hb4 hb5
    rw [bytesAt_cons] at hb3
    have hpos := encodeULEB128_length_pos d.code
    have h1 := ReaduLEB128_in_section bin offset secEndPos d.code hc hb1 (by omega) hsec
    have h2 := ReaduLEB128_in_section bin (offset + (encodeULEB128 d.code).length) secEndPos
      d.tag ht hb2 (by omega) hsec
    have h3 := ReadAbbrevTbl_attrs_encode bin secEndPos hsec d.attrs inner
      (offset + (encodeULEB128 d.code).length + (encodeULEB128 d.tag).length + 1) []
      hattrs hb4 (by omega) (hinner d (List.mem_cons_self _ _))
    unfold ReadAbbrevTbl.loop
    rw [if_pos (by omega)]
    simp only [h1, u64_eq (offset + (encodeULEB128 d.code).length) (by omega), if_neg hc0, h2,
      u64_eq (offset + (encodeULEB128 d.code).length + (encodeULEB128 d.tag).length) (by omega),
      u64_eq (offset + (encodeULEB128 d.code).length + (encodeULEB128 d.tag).length + 1)
        (by omega), h3, hb3.1]
    have hrec := ih fuel (offset + (encodeULEB128 d.code).length + (encodeULEB128 d.tag).length
        + 1 + (encodeAbbrevAttrs d.attrs).length)
      (acc ++ [d.toAbbrev])
      (fun q hq => hwf q (List.mem_cons_of_mem _ hq))
      (fun q hq => hinner q (List.mem_cons_of_mem _ hq))
      hb5 (by omega)
      (by simp only [List.length_cons] at hfuel; omega)
    simp only [List.nil_append]
    show ReadAbbrevTbl.loop bin secEndPos inner fuel _ (acc ++ [d.toAbbrev]) = _
    rw [hrec]
    simp only [List.map_cons, List.append_assoc, List.singleton_append]

/-- Claim C32 (amended).  `ReadAbbrevTbl` has no truncated-section error and no error
exit at all: the only failure of the model is the end of the fuel, which stands for a
run that does not stop.  When the section ends before the terminating zero code, right
after a complete entry (well-formed declarations `ds` that end where the section ends),
the outer loop stops on `offset < secEndPos` and `ReadAbbrevTbl` returns the entries read
so far as the table, whatever bytes `rest` follow the section. -/
theorem ReadAbbrevTbl_no_truncation_error :
    (∀ (fuel : Nat) (bin : List Nat) (dbgAbbrevShdr : Elf64_Shdr) (dbgAbbrevOffset : Nat)
        (e : DwarfError),
        ReadAbbrevTbl fuel bin dbgAbbrevShdr dbgAbbrevOffset = .error e → e = .outOfFuel)
    ∧ (∀ (ds : List AbbrevDecl) (pre rest : List Nat) (dbgAbbrevShdr : Elf64_Shdr)
        (fuel : Nat),
        (∀ d ∈ ds, d.WellFormed) →
        dbgAbbrevShdr.sh_offset + dbgAbbrevShdr.sh_size < 2 ^ 64 →
        pre.length + (encodeAbbrevDecls ds).length
          = dbgAbbrevShdr.sh_offset + dbgAbbrevShdr.sh_size →
        (encodeAbbrevDecls ds).length < fuel →
        ReadAbbrevTbl fuel (pre ++ encodeAbbrevDecls ds ++ rest) dbgAbbrevShdr pre.length
          = .ok (ds.map AbbrevDecl.toAbbrev)) := by
  constructor
  · intro fuel bin dbgAbbrevShdr dbgAbbrevOffset e h
    unfold ReadAbbrevTbl at h
    cases hl : ReadAbbrevTbl.loop bin (u64 (dbgAbbrevShdr.sh_offset + dbgAbbrevShdr.sh_size))
        fuel fuel dbgAbbrevOffset [] with
    | error e' =>
      rw [hl] at h
      rw [← Except.error.inj h]
      exact ReadAbbrevTbl_loop_error bin _ fuel fuel dbgAbbrevOffset [] e' hl
    | ok r => rw [hl] at h; exact Except.noConfusion h
  · intro ds pre rest dbgAbbrevShdr fuel hwf hsec hin hfuel
    have hge := encodeAbbrevDecls_length_ge ds
    have hbytes : ∀ b ∈ encodeAbbrevDecls ds, b < 256 :=
      encodeAbbrevDecls_byte_lt ds (fun d hd => (hwf d hd).2.2.2.1)
    have hloop := ReadAbbrevTbl_loop_decls (pre ++ encodeAbbrevDecls ds ++ rest)
      (u64 (dbgAbbrevShdr.sh_offset + dbgAbbrevShdr.sh_size)) fuel
      (by unfold u64; exact Nat.mod_lt _ (by norm_num)) ds fuel pre.length [] hwf
      (fun d hd => by have := hge.2 d hd; omega)
      (bytesAt_embed pre _ rest hbytes)
      (by rw [u64_eq _ hsec]; exact hin)
      (by omega)
    unfold ReadAbbrevTbl
    rw [hloop]
    rfl

/-- Witness of claim C32 (amended): without fuel the run of `ReadAbbrevTbl` ends with
`outOfFuel`, the only error there is; a section of 7 bytes that holds one complete
declaration and no zero code, followed by the byte `0xaa`, yields the table with that
declaration. -/
theorem ReadAbbrevTbl_no_truncation_error_witness :
    ReadAbbrevTbl 0 [1, 0x2e, 0, 3] ⟨0, 4⟩ 0 = .error .outOfFuel
    ∧ ReadAbbrevTbl 8
        ([] ++ encodeAbbrevDecls [{ code := 1, tag := 0x2e, children := 0,
                                    attrs := [(0x03, 0x08)] }] ++ [0xAA]) ⟨0, 7⟩ 0
      = .ok [{ Id := 1, Tag := 0x2e, HasChildren := false,
               Attrs := [{ Attr := 0x03, Form := 0x08, Const := 0 }] }] :=
  ⟨(ReadAbbrevTbl_no_truncation_error.1 0 [1, 0x2e, 0, 3] ⟨0, 4⟩ 0 .outOfFuel (by rfl)) ▸ rfl,
   ReadAbbrevTbl_no_truncation_error.2
    [{ code := 1, tag := 0x2e, children := 0, attrs := [(0x03, 0x08)] }] [] [0xAA] ⟨0, 7⟩ 8
    (by decide) (by decide)
    (by simp [encodeAbbrevDecls, encodeAbbrevDecl, encodeAbbrevAttrs, encodeULEB128])
    (by simp [encodeAbbrevDecls, encodeAbbrevDecl, encodeAbbrevAttrs, encodeULEB128])⟩

/-! ## A specification decoded after the address -/

/-- Claim C33 (`dwarfFuncInfo = cppTmpFuncMap[funcOffset]`): in the unit of
`exampleSpecImage` the declaration of `f` stands at offset 11 and the DIE of code 2 has
`DW_AT_low_pc = 0x4000` and a `DW_AT_specification` that refers to the declaration
(`exampleReadSpec` takes the run whose indeterminate values are `0`, in which the
declaration is a pending declaration).
With the abbreviation (low_pc, specification) the address decoded first is replaced by
the address `0` of the declaration, the DIE goes to the pending declarations and `Funcs`
stays empty; with the abbreviation (specification, low_pc) and the same values the
function `f` is stored under `0x4000`.  The case `DW_FORM_ref4` assigns the whole record
of the declaration: a record with the address `0x4000` and the size `0x20` becomes the
record of the declaration, with the address `0` and the size `0`. -/
theorem ReadDebugInfo_low_pc_before_specification :
    exampleReadSpec (DW_AT_low_pc, DW_FORM_addr) (DW_AT_specification, DW_FORM_ref4)
        (le64 0x4000 ++ le32 11) = .ok [{ Funcs := [] }]
    ∧ exampleReadSpec (DW_AT_specification, DW_FORM_ref4) (DW_AT_low_pc, DW_FORM_addr)
        (le32 11 ++ le64 0x4000)
      = .ok [{ Funcs := [(0x4000, { Name := [0x66], Addr := 0x4000 })] }]
    ∧ decodeAttr (exampleInfoEnv (le32 0x80)) 10 (exampleCuHdr DWARF_32BIT_FORMAT) 0 default
        [(0x80, { Name := [0x66], Addr := 0, Size := 0 })] exampleSubprogramAbbrev
        ⟨DW_AT_specification, DW_FORM_ref4, 0⟩
        { exampleAttrState with dwarfFuncInfo := { Addr := 0x4000, Size := 0x20 } }
      = .ok { exampleAttrState with
              offset := 4, dwarfFuncInfo := { Name := [0x66], Addr := 0, Size := 0 } } := by
  refine ⟨?_, ?_, ?_⟩ <;> rfl

/-! ## Opcodes after `end_sequence` -/

/-- Claim C34, counterexample: the program `00 01 01 07`, an `end_sequence` followed by
`set_basic_block`, is rejected with the error that `end_sequence` was not found, where
the program `00 01 01` is accepted; so is rejected, through `ReadLineInfo`, the unit
`exampleLineUnitV4` with the program `set_address 0x1000; copy; end_sequence;
set_basic_block`. -/
theorem readLineNumberProgram_opcode_after_end_sequence :
    readLineNumberProgram 20 [0, 1, 1, 7] (exampleLineHdrV4 4) 0 4 exampleFuncTable
      = .error .endSequenceNotFound
    ∧ readLineNumberProgram 20 [0, 1, 1] (exampleLineHdrV4 3) 0 3 exampleFuncTable
      = .ok exampleFuncTable
    ∧ (ReadLineInfo 20 (exampleLineUnitV4 (lneSetAddress 0x1000 ++ ([1] ++ (lneEndSequence
          ++ [7])))) ⟨0, 53⟩ ⟨0, 0⟩ exampleFuncTable).map (fun r => r.2)
      = .error .endSequenceNotFound := by
  refine ⟨?_, ?_, ?_⟩ <;> rfl

/-- An iteration of `readLineNumberProgram` that executes `DW_LNE_end_sequence` leaves
`endOfSeq` set. -/
theorem lnpStep_endOfSeq_of_end_sequence (bin : List Nat) (lineInfoHdr : DwarfLineInfoHdr)
    (lnpStart lnpEnd : Nat) (st st' : LineState)
    (h : lnpStep bin lineInfoHdr lnpStart lnpEnd st = .ok st')
    (he : lnpIsEndSequence bin lnpStart lnpEnd st = true) : st'.endOfSeq = true := by
  unfold lnpIsEndSequence at he
  simp only [Bool.and_eq_true, decide_eq_true_eq] at he
  obtain ⟨h0, h1⟩ := he
  unfold lnpStep at h
  simp only at h
  rw [if_pos h0] at h
  unfold lnpExtended at h
  simp only at h
  rw [if_pos h1] at h
  rw [← Except.ok.inj h]

/-- The iterations of `readLineNumberProgram` do not read `endOfSeq`. -/
theorem lnpStep_endOfSeq_irrelevant (bin : List Nat) (lineInfoHdr : DwarfLineInfoHdr)
    (lnpStart lnpEnd : Nat) (st : LineState) (b : Bool) :
    lnpStep bin lineInfoHdr lnpStart lnpEnd { st with endOfSeq := b }
      = lnpStep bin lineInfoHdr lnpStart lnpEnd st := rfl

/-- A run of the loop of `readLineNumberProgram` that makes at least one iteration and
ends with `endOfSeq` set: its last iteration executes `DW_LNE_end_sequence`. -/
theorem lnpLoop_endOfSeq_last (bin : List Nat) (lineInfoHdr : DwarfLineInfoHdr)
    (lnpStart lnpEnd : Nat) :
    ∀ (fuel : Nat) (st st' : LineState), st.offset < sub64 lnpEnd lnpStart →
      lnpLoop bin lineInfoHdr lnpStart lnpEnd fuel st = .ok st' → st'.endOfSeq = true →
      ∃ n s, lnpIterate bin lineInfoHdr lnpStart lnpEnd n st = some s
        ∧ lnpIsEndSequence bin lnpStart lnpEnd s = true
        ∧ lnpIterate bin lineInfoHdr lnpStart lnpEnd (n + 1) st = none := by
  intro fuel
  induction fuel with
  | zero => intro st st' _ h; exact Except.noConfusion h
  | succ fuel ih =>
    intro st st' hlt h he
    rw [lnpLoop, if_pos hlt] at h
    cases hs : lnpStep bin lineInfoHdr lnpStart lnpEnd st with
    | error e => rw [hs] at h; exact Except.noConfusion h
    | ok st1 =>
      rw [hs] at h
      simp only at h
      by_cases hlt1 : st1.offset < sub64 lnpEnd lnpStart
      · obtain ⟨n, s, h1, h2, h3⟩ := ih st1 st' hlt1 h he
        refine ⟨n + 1, s, ?_, h2, ?_⟩
        · rw [lnpIterate, if_pos hlt, hs]; exact h1
        · rw [lnpIterate, if_pos hlt, hs]; exact h3
      · have hst : st' = st1 := by
          cases fuel with
          | zero => exact Except.noConfusion h
          | succ fuel =>
            rw [lnpLoop, if_neg hlt1] at h
            exact (Except.ok.inj h).symm
        rw [hst] at he
        refine ⟨0, st, ?_, lnpStep_endOfSeq bin lineInfoHdr lnpStart lnpEnd st st1 hs he, ?_⟩
        · rw [lnpIterate, if_pos hlt]
        · rw [lnpIterate, if_pos hlt, hs]
          simp only
          rw [lnpIterate, if_neg hlt1]

/-- A run of the loop of `readLineNumberProgram` whose last iteration executes
`DW_LNE_end_sequence` ends with `endOfSeq` set. -/
theorem lnpLoop_last_endOfSeq (bin : List Nat) (lineInfoHdr : DwarfLineInfoHdr)
    (lnpStart lnpEnd : Nat) :
    ∀ (n fuel : Nat) (st st' s : LineState),
      lnpLoop bin lineInfoHdr lnpStart lnpEnd fuel st = .ok st' →
      lnpIterate bin lineInfoHdr lnpStart lnpEnd n st = some s →
      lnpIsEndSequence bin lnpStart lnpEnd s = true →
      lnpIterate bin lineInfoHdr lnpStart lnpEnd (n + 1) st = none →
      st'.endOfSeq = true := by
  intro n
  induction n with
  | zero =>
    intro fuel st st' s h h1 h2 h3
    cases fuel with
    | zero => exact Except.noConfusion h
    | succ fuel =>
      rw [lnpIterate] at h1
      by_cases hlt : st.offset < sub64 lnpEnd lnpStart
      · rw [if_pos hlt] at h1
        have hs0 : s = st := (Option.some.inj h1).symm
        rw [hs0] at h2
        rw [lnpLoop, if_pos hlt] at h
        rw [lnpIterate, if_pos hlt] at h3
        cases hs : lnpStep bin lineInfoHdr lnpStart lnpEnd st with
        | error e => rw [hs] at h; exact Except.noConfusion h
        | ok st1 =>
          rw [hs] at h h3
          simp only at h h3
          have hlt1 : ¬ st1.offset < sub64 lnpEnd lnpStart := by
            intro hc
            rw [lnpIterate, if_pos hc] at h3
            exact Option.noConfusion h3
          cases fuel with
          | zero => exact Except.noConfusion h
          | succ fuel =>
            rw [lnpLoop, if_neg hlt1] at h
            rw [← Except.ok.inj h]
            exact lnpStep_endOfSeq_of_end_sequence bin lineInfoHdr lnpStart lnpEnd st st1 hs h2
      · rw [if_neg hlt] at h1
        exact Option.noConfusion h1
  | succ n ih =>
    intro fuel st st' s h h1 h2 h3
    cases fuel with
    | zero => exact Except.noConfusion h
    | succ fuel =>
      rw [lnpIterate] at h1
      by_cases hlt : st.offset < sub64 lnpEnd lnpStart
      · rw [if_pos hlt] at h1
        rw [lnpLoop, if_pos hlt] at h
        rw [lnpIterate, if_pos hlt] at h3
        cases hs : lnpStep bin lineInfoHdr lnpStart lnpEnd st with
        | error e => rw [hs] at h; exact Except.noConfusion h
        | ok st1 =>
          rw [hs] at h h1 h3
          exact ih fuel st1 st' s h h1 h2 h3
      · rw [if_neg hlt] at h1
        exact Option.noConfusion h1

/-- The loop of `readLineNumberProgram` enters no iteration from a state whose cursor has
reached the end of the program. -/
theorem lnpIterate_of_not_lt (bin : List Nat) (lineInfoHdr : DwarfLineInfoHdr)
    (lnpStart lnpEnd : Nat) (n : Nat) (st : LineState)
    (h : ¬ st.offset < sub64 lnpEnd lnpStart) :
    lnpIterate bin lineInfoHdr lnpStart lnpEnd n st = none := by
  cases n with
  | zero => rw [lnpIterate, if_neg h]
  | succ n => rw [lnpIterate, if_neg h]

/-- The last iteration of a run of the loop of `readLineNumberProgram` is unique. -/
theorem lnpIterate_last_unique (bin : List Nat) (lineInfoHdr : DwarfLineInfoHdr)
    (lnpStart lnpEnd : Nat) :
    ∀ (n m : Nat) (st s s' : LineState),
      lnpIterate bin lineInfoHdr lnpStart lnpEnd n st = some s →
      lnpIterate bin lineInfoHdr lnpStart lnpEnd (n + 1) st = none →
      lnpIterate bin lineInfoHdr lnpStart lnpEnd m st = some s' →
      lnpIterate bin lineInfoHdr lnpStart lnpEnd (m + 1) st = none →
      (∃ st', lnpStep bin lineInfoHdr lnpStart lnpEnd s = .ok st') → s = s' := by
  intro n
  induction n with
  | zero =>
    intro m st s s' h1 h2 h3 h4 hok
    by_cases hlt : st.offset < sub64 lnpEnd lnpStart
    · rw [lnpIterate, if_pos hlt] at h1
      have hs : s = st := (Option.some.inj h1).symm
      cases m with
      | zero =>
        rw [lnpIterate, if_pos hlt] at h3
        rw [hs]
        exact Option.some.inj h3
      | succ m =>
        exfalso
        rw [lnpIterate, if_pos hlt] at h2 h3
        obtain ⟨st1, hst1⟩ := hok
        rw [hs] at hst1
        rw [hst1] at h2 h3
        simp only at h2 h3
        have hge : ¬ st1.offset < sub64 lnpEnd lnpStart := by
          intro hc
          rw [lnpIterate, if_pos hc] at h2
          exact Option.noConfusion h2
        rw [lnpIterate_of_not_lt bin lineInfoHdr lnpStart lnpEnd m st1 hge] at h3
        exact Option.noConfusion h3
    · rw [lnpIterate, if_neg hlt] at h1
      exact Option.noConfusion h1
  | succ n ih =>
    intro m st s s' h1 h2 h3 h4 hok
    by_cases hlt : st.offset < sub64 lnpEnd lnpStart
    · rw [lnpIterate, if_pos hlt] at h1 h2
      cases hs : lnpStep bin lineInfoHdr lnpStart lnpEnd st with
      | error e => rw [hs] at h1; exact Option.noConfusion h1
      | ok st1 =>
        rw [hs] at h1 h2
        simp only at h1 h2
        cases m with
        | zero =>
          exfalso
          rw [lnpIterate, if_pos hlt, hs] at h4
          simp only at h4
          have hge : ¬ st1.offset < sub64 lnpEnd lnpStart := by
            intro hc
            rw [lnpIterate, if_pos hc] at h4
            exact Option.noConfusion h4
          rw [lnpIterate_of_not_lt bin lineInfoHdr lnpStart lnpEnd n st1 hge] at h1
          exact Option.noConfusion h1
        | succ m =>
          rw [lnpIterate, if_pos hlt, hs] at h3 h4
          exact ih m st1 s s' h1 h2 h3 h4 hok
    · rw [lnpIterate, if_neg hlt] at h1
      exact Option.noConfusion h1

/-- Claim C34 (amended).  After executing `end_sequence` the line decoder keeps
executing opcodes up to the declared end of the unit: the loop tests the cursor only, and
its iterations clear `endOfSeq` before they read the opcode, so that a run goes on from a
state with the flag set as from the same state with the flag clear.  A program is
accepted, not rejected as missing `end_sequence`, only if the last iteration of its run
executes `end_sequence`; for a run that reaches the end of the unit and whose last
iteration starts in the state `s`, the program is accepted when that iteration executes
`end_sequence` and rejected with `endSequenceNotFound` when it executes another opcode,
whatever was executed before. -/
theorem readLineNumberProgram_last_opcode (bin : List Nat) (lineInfoHdr : DwarfLineInfoHdr)
    (lnpStart lnpEnd : Nat) :
    (∀ (fuel : Nat) (st : LineState), st.offset < sub64 lnpEnd lnpStart →
      lnpLoop bin lineInfoHdr lnpStart lnpEnd fuel { st with endOfSeq := true }
        = lnpLoop bin lineInfoHdr lnpStart lnpEnd fuel { st with endOfSeq := false })
    ∧ (∀ (fuel : Nat) (elfFuncTable elfFuncTable' : ElfFunctionTable),
        readLineNumberProgram fuel bin lineInfoHdr lnpStart lnpEnd elfFuncTable
          = .ok elfFuncTable' →
        ∃ n s, lnpIterate bin lineInfoHdr lnpStart lnpEnd n
              { offset := 0, curFuncAddr := 0,
                lnsm := LineNumberStateMachine.init lineInfoHdr.DefaultIsStmt,
                endOfSeq := false, elfFuncTable := elfFuncTable } = some s
          ∧ lnpIsEndSequence bin lnpStart lnpEnd s = true
          ∧ lnpIterate bin lineInfoHdr lnpStart lnpEnd (n + 1)
              { offset := 0, curFuncAddr := 0,
                lnsm := LineNumberStateMachine.init lineInfoHdr.DefaultIsStmt,
                endOfSeq := false, elfFuncTable := elfFuncTable } = none)
    ∧ (∀ (fuel n : Nat) (elfFuncTable : ElfFunctionTable) (st' s : LineState),
        lnpLoop bin lineInfoHdr lnpStart lnpEnd fuel
            { offset := 0, curFuncAddr := 0,
              lnsm := LineNumberStateMachine.init lineInfoHdr.DefaultIsStmt,
              endOfSeq := false, elfFuncTable := elfFuncTable } = .ok st' →
        lnpIterate bin lineInfoHdr lnpStart lnpEnd n
            { offset := 0, curFuncAddr := 0,
              lnsm := LineNumberStateMachine.init lineInfoHdr.DefaultIsStmt,
              endOfSeq := false, elfFuncTable := elfFuncTable } = some s →
        lnpIterate bin lineInfoHdr lnpStart lnpEnd (n + 1)
            { offset := 0, curFuncAddr := 0,
              lnsm := LineNumberStateMachine.init lineInfoHdr.DefaultIsStmt,
              endOfSeq := false, elfFuncTable := elfFuncTable } = none →
        (lnpIsEndSequence bin lnpStart lnpEnd s = true →
          readLineNumberProgram fuel bin lineInfoHdr lnpStart lnpEnd elfFuncTable
            = .ok st'.elfFuncTable)
        ∧ (lnpIsEndSequence bin lnpStart lnpEnd s = false →
          readLineNumberProgram fuel bin lineInfoHdr lnpStart lnpEnd elfFuncTable
            = .error .endSequenceNotFound)) := by
  refine ⟨?_, ?_, ?_⟩
  · intro fuel st hlt
    cases fuel with
    | zero => rfl
    | succ fuel =>
      rw [lnpLoop, lnpLoop]
      simp only [if_pos hlt, lnpStep_endOfSeq_irrelevant]
  · intro fuel elfFuncTable elfFuncTable' h
    unfold readLineNumberProgram at h
    cases hl : lnpLoop bin lineInfoHdr lnpStart lnpEnd fuel
        { offset := 0, curFuncAddr := 0,
          lnsm := LineNumberStateMachine.init lineInfoHdr.DefaultIsStmt,
          endOfSeq := false, elfFuncTable := elfFuncTable } with
    | error e => rw [hl] at h; exact Except.noConfusion h
    | ok st' =>
      rw [hl] at h
      simp only at h
      cases he : st'.endOfSeq with
      | false => rw [he] at h; exact Except.noConfusion h
      | true =>
        by_cases hlt : (0 : Nat) < sub64 lnpEnd lnpStart
        · exact lnpLoop_endOfSeq_last bin lineInfoHdr lnpStart lnpEnd fuel _ st' hlt hl he
        · exfalso
          cases fuel with
          | zero => exact Except.noConfusion hl
          | succ fuel =>
            rw [lnpLoop, if_neg hlt] at hl
            rw [← Except.ok.inj hl] at he
            exact Bool.noConfusion he
  · intro fuel n elfFuncTable st' s hl h1 h3
    constructor
    · intro h2
      have he := lnpLoop_last_endOfSeq bin lineInfoHdr lnpStart lnpEnd n fuel _ st' s hl h1 h2 h3
      unfold readLineNumberProgram
      rw [hl]
      simp only [he, if_true]
    · intro h2
      have he : st'.endOfSeq = false := by
        cases hb : st'.endOfSeq with
        | false => rfl
        | true =>
          exfalso
          have hlt : (0 : Nat) < sub64 lnpEnd lnpStart := by
            by_contra hc
            rw [lnpIterate] at h3
            rw [if_neg hc] at h3
            cases n with
            | zero => rw [lnpIterate, if_neg hc] at h1; exact Option.noConfusion h1
            | succ n => rw [lnpIterate, if_neg hc] at h1; exact Option.noConfusion h1
          obtain ⟨m, s', g1, g2, g3⟩ :=
            lnpLoop_endOfSeq_last bin lineInfoHdr lnpStart lnpEnd fuel _ st' hlt hl hb
          have hok : ∃ st1, lnpStep bin lineInfoHdr lnpStart lnpEnd s' = .ok st1 := by
            have g := g2
            unfold lnpIsEndSequence at g
            simp only [Bool.and_eq_true, decide_eq_true_eq] at g
            unfold lnpStep lnpExtended
            simp only
            rw [if_pos g.1, if_pos g.2]
            exact ⟨_, rfl⟩
          have hss := lnpIterate_last_unique bin lineInfoHdr lnpStart lnpEnd m n _ s' s g1 g3
            h1 h3 hok
          rw [hss, h2] at g2
          exact Bool.noConfusion g2
      unfold readLineNumberProgram
      rw [hl]
      simp only [he]
      rfl

/-- Witness of claim C34 (amended): on the program `00 01 01 07` the run goes on alike
from the initial state with the flag set or clear; the accepted program `00 01 01` has a
last iteration that executes `end_sequence`; the program `00 01 01 07`, whose last
iteration (number 1, started at offset 3) executes `set_basic_block`, is rejected. -/
theorem readLineNumberProgram_last_opcode_witness :
    lnpLoop [0, 1, 1, 7] (exampleLineHdrV4 4) 0 4 20 { exampleLineStart with endOfSeq := true }
      = lnpLoop [0, 1, 1, 7] (exampleLineHdrV4 4) 0 4 20
          { exampleLineStart with endOfSeq := false }
    ∧ (∃ n s, lnpIterate [0, 1, 1] (exampleLineHdrV4 3) 0 3 n exampleLineStart = some s
        ∧ lnpIsEndSequence [0, 1, 1] 0 3 s = true
        ∧ lnpIterate [0, 1, 1] (exampleLineHdrV4 3) 0 3 (n + 1) exampleLineStart = none)
    ∧ readLineNumberProgram 20 [0, 1, 1, 7] (exampleLineHdrV4 4) 0 4 exampleFuncTable
      = .error .endSequenceNotFound :=
  ⟨(readLineNumberProgram_last_opcode [0, 1, 1, 7] (exampleLineHdrV4 4) 0 4).1 20
      exampleLineStart (by decide),
   (readLineNumberProgram_last_opcode [0, 1, 1] (exampleLineHdrV4 3) 0 3).2.1 20
      exampleFuncTable exampleFuncTable (by rfl),
   ((readLineNumberProgram_last_opcode [0, 1, 1, 7] (exampleLineHdrV4 4) 0 4).2.2 20 1
      exampleFuncTable
      { exampleLineStart with
        offset := 4, lnsm := { LineNumberStateMachine.init 1 with BasicBlock := true } }
      { exampleLineStart with offset := 3, endOfSeq := true }
      (by rfl) (by rfl) (by rfl)).2 (by rfl)⟩

/-! ## The source directory of a row -/

/-- The effect of `addFuncAddrLineInfo` for a row whose lookup address is a key of
`AddrFuncIdxMap`, on the record `f0` of the function found. -/
theorem addFuncAddrLineInfo_found (lineInfoHdr : DwarfLineInfoHdr)
    (lnsm : LineNumberStateMachine) (funcAddr : Nat) (elfFuncInfos : ElfFunctionTable)
    (funcIdx : Nat) (f0 : ElfFunctionInfo)
    (hfind : elfFuncInfos.AddrFuncIdxMap.find funcAddr = some funcIdx)
    (hidx : elfFuncInfos.ElfFuncInfos[funcIdx]? = some f0) :
    ∃ dir,
      addFuncAddrLineInfo lineInfoHdr lnsm funcAddr elfFuncInfos
        = { elfFuncInfos with
            ElfFuncInfos := elfFuncInfos.ElfFuncInfos.set funcIdx
              { f0 with
                SrcDirName := dir
                SrcFileName := (lineInfoHdr.Files.getD (sub64 lnsm.File 1) default).Name
                LineAddrs := f0.LineAddrs.assign lnsm.Line
                  { Line := lnsm.Line, Addr := lnsm.Address, IsStmt := lnsm.IsStmt,
                    SrcDirName := dir } } }
      ∧ dir = (if 5 ≤ lineInfoHdr.Version then
            lineInfoHdr.IncludeDirs.getD
              (lineInfoHdr.Files.getD (sub64 lnsm.File 1) default).DirIdx []
          else if (lineInfoHdr.Files.getD (sub64 lnsm.File 1) default).DirIdx < 1 then []
          else lineInfoHdr.IncludeDirs.getD
            (sub64 (lineInfoHdr.Files.getD (sub64 lnsm.File 1) default).DirIdx 1) []) := by
  have hget : elfFuncInfos.ElfFuncInfos.getD funcIdx default = f0 := by
    rw [List.getD_eq_getElem?_getD, hidx]
    rfl
  refine ⟨_, ?_, rfl⟩
  unfold addFuncAddrLineInfo
  simp only [hfind, hget]
  by_cases hv : 5 ≤ lineInfoHdr.Version
  · simp only [if_pos hv]
  · simp only [if_neg hv]
    by_cases hd : (lineInfoHdr.Files.getD (sub64 lnsm.File 1) default).DirIdx < 1
    · simp only [if_pos hd]
    · simp only [if_neg hd]

/-- A call of `addFuncAddrLineInfo` for a row with `IsStmt` keeps the entries of
`LineAddrs` keyed by their line. -/
theorem addFuncAddrLineInfo_keyed (lineInfoHdr : DwarfLineInfoHdr)
    (lnsm : LineNumberStateMachine) (funcAddr : Nat) (elfFuncInfos : ElfFunctionTable)
    (hstmt : lnsm.IsStmt = true) (h : LineAddrsKeyed elfFuncInfos) :
    LineAddrsKeyed (addFuncAddrLineInfo lineInfoHdr lnsm funcAddr elfFuncInfos) := by
  cases hfind : elfFuncInfos.AddrFuncIdxMap.find funcAddr with
  | none => rw [addFuncAddrLineInfo_not_found _ _ _ _ hfind]; exact h
  | some funcIdx =>
    cases hidx : elfFuncInfos.ElfFuncInfos[funcIdx]? with
    | none =>
      have hge : elfFuncInfos.ElfFuncInfos.length ≤ funcIdx := List.getElem?_eq_none_iff.mp hidx
      have : addFuncAddrLineInfo lineInfoHdr lnsm funcAddr elfFuncInfos = elfFuncInfos := by
        unfold addFuncAddrLineInfo
        simp only [hfind]
        by_cases hv : 5 ≤ lineInfoHdr.Version
        · simp only [if_pos hv, List.set_eq_of_length_le hge]
        · simp only [if_neg hv, List.set_eq_of_length_le hge]
      rw [this]; exact h
    | some f0 =>
      obtain ⟨dir, heq, _⟩ := addFuncAddrLineInfo_found lineInfoHdr lnsm funcAddr elfFuncInfos
        funcIdx f0 hfind hidx
      rw [heq]
      intro f hf k e he
      simp only at hf
      rcases List.mem_or_eq_of_mem_set hf with hf | hf
      · exact h f hf k e he
      · rw [hf] at he
        simp only [StdMap.find_assign] at he
        by_cases hk : lnsm.Line = k
        · rw [if_pos hk] at he
          rw [← Option.some.inj he]
          exact ⟨hk, hstmt⟩
        · rw [if_neg hk] at he
          have hmem : f0 ∈ elfFuncInfos.ElfFuncInfos := List.getElem?_mem hidx
          exact h f0 hmem k e he

/-- An iteration of `readLineNumberProgram` leaves the function table as it was or
passes it through one call of `addFuncAddrLineInfo`, made for a row with `IsStmt`. -/
theorem lnpStep_elfFuncTable (bin : List Nat) (lineInfoHdr : DwarfLineInfoHdr)
    (lnpStart lnpEnd : Nat) (st st' : LineState)
    (h : lnpStep bin lineInfoHdr lnpStart lnpEnd st = .ok st') :
    st'.elfFuncTable = st.elfFuncTable
      ∨ ∃ lnsm funcAddr, lnsm.IsStmt = true
        ∧ st'.elfFuncTable = addFuncAddrLineInfo lineInfoHdr lnsm funcAddr st.elfFuncTable := by
  have close : ∀ x : LineState, Except.ok (ε := DwarfError) x = Except.ok st' →
      x.elfFuncTable = st.elfFuncTable → st'.elfFuncTable = st.elfFuncTable := by
    intro x hx hf
    rw [← Except.ok.inj hx, hf]
  unfold lnpStep at h
  simp only at h
  by_cases h0 : byteAt bin (lnpStart + st.offset) = 0x00
  · rw [if_pos h0] at h
    unfold lnpExtended at h
    simp only at h
    left
    repeat' first
      | exact close _ h rfl
      | exact Except.noConfusion h
      | split at h
  · rw [if_neg h0] at h
    by_cases h1 : byteAt bin (lnpStart + st.offset) = 0x01
    · rw [if_pos h1] at h
      by_cases hs : st.lnsm.IsStmt = true
      · right
        refine ⟨st.lnsm, st.curFuncAddr, hs, ?_⟩
        rw [← Except.ok.inj h]
        simp only [hs, if_true]
      · left
        rw [← Except.ok.inj h]
        simp only [hs]
        rfl
    rw [if_neg h1] at h
    by_cases h2 : byteAt bin (lnpStart + st.offset) = 0x02
    · rw [if_pos h2] at h; exact Or.inl (close _ h rfl)
    rw [if_neg h2] at h
    by_cases h3 : byteAt bin (lnpStart + st.offset) = 0x03
    · rw [if_pos h3] at h; exact Or.inl (close _ h rfl)
    rw [if_neg h3] at h
    by_cases h4 : byteAt bin (lnpStart + st.offset) = 0x04
    · rw [if_pos h4] at h; exact Or.inl (close _ h rfl)
    rw [if_neg h4] at h
    by_cases h5 : byteAt bin (lnpStart + st.offset) = 0x05
    · rw [if_pos h5] at h; exact Or.inl (close _ h rfl)
    rw [if_neg h5] at h
    by_cases h6 : byteAt bin (lnpStart + st.offset) = 0x06
    · rw [if_pos h6] at h; exact Or.inl (close _ h rfl)
    rw [if_neg h6] at h
    by_cases h7 : byteAt bin (lnpStart + st.offset) = 0x07
    · rw [if_pos h7] at h; exact Or.inl (close _ h rfl)
    rw [if_neg h7] at h
    by_cases h8 : byteAt bin (lnpStart + st.offset) = 0x08
    · rw [if_pos h8] at h
      by_cases hLR : lineInfoHdr.LineRange = 0
      · rw [if_pos hLR] at h; exact Except.noConfusion h
      · rw [if_neg hLR] at h; exact Or.inl (close _ h rfl)
    rw [if_neg h8] at h
    by_cases h9 : byteAt bin (lnpStart + st.offset) = 0x09
    · rw [if_pos h9] at h; exact Or.inl (close _ h rfl)
    rw [if_neg h9] at h
    by_cases hA : byteAt bin (lnpStart + st.offset) = 0x0A
    · rw [if_pos hA] at h; exact Or.inl (close _ h rfl)
    rw [if_neg hA] at h
    by_cases hB : byteAt bin (lnpStart + st.offset) = 0x0B
    · rw [if_pos hB] at h; exact Or.inl (close _ h rfl)
    rw [if_neg hB] at h
    by_cases hC : byteAt bin (lnpStart + st.offset) = 0x0C
    · rw [if_pos hC] at h; exact Or.inl (close _ h rfl)
    rw [if_neg hC] at h
    unfold lnpSpecial at h
    by_cases hLR : lineInfoHdr.LineRange = 0
    · rw [if_pos hLR] at h; exact Except.noConfusion h
    · rw [if_neg hLR] at h
      simp only at h
      by_cases hs : st.lnsm.IsStmt = true
      · right
        rw [← Except.ok.inj h]
        simp only [hs, if_true]
        refine ⟨_, _, ?_, rfl⟩
        rfl
      · left
        rw [← Except.ok.inj h]
        simp only [hs]
        rfl

/-- The loop of `readLineNumberProgram` keeps the entries of `LineAddrs` keyed by their
line. -/
theorem lnpLoop_keyed (bin : List Nat) (lineInfoHdr : DwarfLineInfoHdr)
    (lnpStart lnpEnd : Nat) :
    ∀ (fuel : Nat) (st st' : LineState), LineAddrsKeyed st.elfFuncTable →
      lnpLoop bin lineInfoHdr lnpStart lnpEnd fuel st = .ok st' →
      LineAddrsKeyed st'.elfFuncTable := by
  intro fuel
  induction fuel with
  | zero => intro st st' _ h; exact Except.noConfusion h
  | succ fuel ih =>
    intro st st' hk h
    rw [lnpLoop] at h
    by_cases hlt : st.offset < sub64 lnpEnd lnpStart
    · rw [if_pos hlt] at h
      cases hs : lnpStep bin lineInfoHdr lnpStart lnpEnd st with
      | error e => rw [hs] at h; exact Except.noConfusion h
      | ok st1 =>
        rw [hs] at h
        refine ih st1 st' ?_ h
        rcases lnpStep_elfFuncTable bin lineInfoHdr lnpStart lnpEnd st st1 hs with h1 | h1
        · rw [h1]; exact hk
        · obtain ⟨lnsm, funcAddr, hstmt, h1⟩ := h1
          rw [h1]
          exact addFuncAddrLineInfo_keyed _ _ _ _ hstmt hk
    · rw [if_neg hlt] at h
      rw [← Except.ok.inj h]
      exact hk

/-- The loop of `ReadLineInfo` over the units keeps the entries of `LineAddrs` keyed by
their line. -/
theorem ReadLineInfo_loop_keyed (bin : List Nat) (debugLineShdr debugLineStrShdr : Elf64_Shdr)
    (inner : Nat) :
    ∀ (fuel hdrOffset : Nat) (offsetLineInfoHdrMap : StdMap DwarfLineInfoHdr)
      (elfFuncTable : ElfFunctionTable) (r : StdMap DwarfLineInfoHdr × ElfFunctionTable),
      LineAddrsKeyed elfFuncTable →
      ReadLineInfo.loop bin debugLineShdr debugLineStrShdr inner fuel hdrOffset
        offsetLineInfoHdrMap elfFuncTable = .ok r →
      LineAddrsKeyed r.2 := by
  intro fuel
  induction fuel with
  | zero => intro _ _ _ _ _ h; exact Except.noConfusion h
  | succ fuel ih =>
    intro hdrOffset offsetLineInfoHdrMap elfFuncTable r hk h
    rw [ReadLineInfo.loop] at h
    simp only at h
    split at h
    · split at h
      · exact Except.noConfusion h
      · rename_i lineInfoHdr offset hhdr
        split at h
        · exact Except.noConfusion h
        · rename_i x tbl1 hr
          refine ih _ _ tbl1 r ?_ h
          by_cases hne : 0 < sub64 (ReadLineInfo.endOffset hdrOffset lineInfoHdr) offset
          · rw [if_pos hne] at hr
            unfold readLineNumberProgram at hr
            split at hr
            · exact Except.noConfusion hr
            · rename_i st hst
              by_cases he : st.endOfSeq = true
              · rw [if_pos he] at hr
                rw [← Except.ok.inj hr]
                exact lnpLoop_keyed bin lineInfoHdr offset _ inner _ st hk hst
              · rw [if_neg he] at hr
                exact Except.noConfusion hr
          · rw [if_neg hne] at hr
            rw [← Except.ok.inj hr]
            exact hk
    · rw [← Except.ok.inj h]
      exact hk

/-- Claim C38.  When the function table that `ReadLineInfo` is given has all its
`LineAddrs` entries keyed by their line, with `IsStmt` true (as has the table with empty
`LineAddrs` that `GetElfFuncInfos` builds), so has the table it returns: every entry
written by the line decoder has `Line` equal to its key and `IsStmt` true.  A map holds
one entry per key, and a row that is emitted for the function of index `funcIdx` assigns
the entry of its line: after the call the entry under `Line` is that of the row (its
`Line`, `Addr`, `IsStmt` and the directory that is also stored in the function record),
the entries of the other lines and the records of the other functions are as before,
and `SrcFileName` of the function is the name of the file of the row; so the entry that
remains for a line, and the `SrcFileName` and `SrcDirName` that remain for a function,
are those of the row emitted last. -/
theorem ReadLineInfo_LineAddrs_keyed :
    (∀ (fuel : Nat) (bin : List Nat) (debugLineShdr debugLineStrShdr : Elf64_Shdr)
        (elfFuncTable : ElfFunctionTable) (r : StdMap DwarfLineInfoHdr × ElfFunctionTable),
        LineAddrsKeyed elfFuncTable →
        ReadLineInfo fuel bin debugLineShdr debugLineStrShdr elfFuncTable = .ok r →
        ∀ f ∈ r.2.ElfFuncInfos, ∀ (k : Nat) (e : LineAddrInfo),
          f.LineAddrs.find k = some e → e.Line = k ∧ e.IsStmt = true)
    ∧ (∀ (lineInfoHdr : DwarfLineInfoHdr) (lnsm : LineNumberStateMachine) (funcAddr : Nat)
        (elfFuncInfos : ElfFunctionTable) (funcIdx : Nat) (f0 : ElfFunctionInfo),
        elfFuncInfos.AddrFuncIdxMap.find funcAddr = some funcIdx →
        elfFuncInfos.ElfFuncInfos[funcIdx]? = some f0 →
        ∃ f e,
          (addFuncAddrLineInfo lineInfoHdr lnsm funcAddr elfFuncInfos).ElfFuncInfos[funcIdx]?
            = some f
          ∧ f.LineAddrs.find lnsm.Line = some e
          ∧ e.Line = lnsm.Line ∧ e.Addr = lnsm.Address ∧ e.IsStmt = lnsm.IsStmt
          ∧ e.SrcDirName = f.SrcDirName
          ∧ f.SrcFileName = (lineInfoHdr.Files.getD (sub64 lnsm.File 1) default).Name
          ∧ (∀ k, k ≠ lnsm.Line → f.LineAddrs.find k = f0.LineAddrs.find k)
          ∧ (∀ j, j ≠ funcIdx →
              (addFuncAddrLineInfo lineInfoHdr lnsm funcAddr elfFuncInfos).ElfFuncInfos[j]?
                = elfFuncInfos.ElfFuncInfos[j]?)) := by
  constructor
  · intro fuel bin debugLineShdr debugLineStrShdr elfFuncTable r hk h
    unfold ReadLineInfo at h
    exact ReadLineInfo_loop_keyed bin debugLineShdr debugLineStrShdr fuel fuel _ _
      elfFuncTable r hk h
  · intro lineInfoHdr lnsm funcAddr elfFuncInfos funcIdx f0 hfind hidx
    obtain ⟨dir, heq, _⟩ := addFuncAddrLineInfo_found lineInfoHdr lnsm funcAddr elfFuncInfos
      funcIdx f0 hfind hidx
    have hlt : funcIdx < elfFuncInfos.ElfFuncInfos.length := (List.getElem?_eq_some.mp hidx).1
    rw [heq]
    refine ⟨_, _, List.getElem?_set_self hlt, StdMap.find_assign_self _ _ _, rfl, rfl, rfl, rfl,
      rfl, ?_, ?_⟩
    · intro k hk
      exact StdMap.find_assign_ne _ _ _ _ (Ne.symm hk)
    · intro j hj
      exact List.getElem?_set_ne (Ne.symm hj)

/-- The table `exampleFuncTable`, whose functions have no `LineAddrs` entry yet, has its
entries keyed by their line. -/
theorem exampleFuncTable_keyed : LineAddrsKeyed exampleFuncTable := by
  intro f hf k e he
  simp only [exampleFuncTable, List.mem_cons, List.mem_singleton, List.not_mem_nil,
    or_false] at hf
  rcases hf with rfl | rfl <;> exact Option.noConfusion he

/-- Witness of claim C38: `ReadLineInfo` on the unit `exampleLineUnitV4` with the program
`set_address 0x1000; copy; end_sequence` and the table `exampleFuncTable` returns a table
whose entries (the entry of line 1 of `f`) have `Line` equal to their key and `IsStmt`
true; a second row of line 1 at `0x1004` for `f`, emitted after a row at `0x1000`,
leaves the address `0x1004` under the key 1. -/
theorem ReadLineInfo_LineAddrs_keyed_witness :
    (∃ r, ReadLineInfo 20 (exampleLineUnitV4 (lneSetAddress 0x1000 ++ ([1] ++ lneEndSequence)))
          ⟨0, 52⟩ ⟨0, 0⟩ exampleFuncTable = .ok r
        ∧ r.2.ElfFuncInfos.map (fun f => f.LineAddrs.map (fun l => (l.1, l.2.Addr)))
          = [[(1, 0x1000)], []]
        ∧ ∀ f ∈ r.2.ElfFuncInfos, ∀ (k : Nat) (e : LineAddrInfo),
            f.LineAddrs.find k = some e → e.Line = k ∧ e.IsStmt = true)
    ∧ ∃ f e,
        (addFuncAddrLineInfo (exampleLineHdrV4 0)
          { exampleLineState.lnsm with Address := 0x1004 } 0x1000
          (addFuncAddrLineInfo (exampleLineHdrV4 0) exampleLineState.lnsm 0x1000
            exampleFuncTable)).ElfFuncInfos[0]? = some f
        ∧ f.LineAddrs.find 1 = some e ∧ e.Addr = 0x1004 := by
  refine ⟨?_, ?_⟩
  · refine ⟨([(0, exampleLineHdrV4 15)],
        { exampleFuncTable with
          ElfFuncInfos :=
            [{ Name := [0x66], SrcFileName := [0x61], SrcDirName := [0x64], Addr := 0x1000,
               Size := 1,
               LineAddrs := [(1, { Line := 1, Addr := 0x1000, IsStmt := true,
                                    SrcDirName := [0x64] })] },
             { Name := [0x67], Addr := 0x1001, Size := 1 }] }), by rfl, by rfl, ?_⟩
    exact ReadLineInfo_LineAddrs_keyed.1 20
      (exampleLineUnitV4 (lneSetAddress 0x1000 ++ ([1] ++ lneEndSequence))) ⟨0, 52⟩ ⟨0, 0⟩
      exampleFuncTable _ exampleFuncTable_keyed (by rfl)
  · obtain ⟨f, e, h1, h2, _, h4, _⟩ :=
      ReadLineInfo_LineAddrs_keyed.2 (exampleLineHdrV4 0)
        { exampleLineState.lnsm with Address := 0x1004 } 0x1000
        (addFuncAddrLineInfo (exampleLineHdrV4 0) exampleLineState.lnsm 0x1000
          exampleFuncTable) 0
        { Name := [0x66], SrcFileName := [0x61], SrcDirName := [0x64], Addr := 0x1000,
          Size := 1,
          LineAddrs := [(1, { Line := 1, Addr := 0x1000, IsStmt := true,
                               SrcDirName := [0x64] })] }
        (by rfl) (by rfl)
    exact ⟨f, e, h1, h2, h4⟩

/-! ## The functions of a CU -/

/-- No attribute of a DIE changes the functions of the CU. -/
theorem decodeAttr_Funcs (env : InfoEnv) (fuel : Nat) (cuh : DwarfCuHdr)
    (cuTop : Nat) (curArrangeInfo : DwarfArangeInfo) (cppTmpFuncMap : StdMap DwarfFuncInfo)
    (abbrv : Abbrev) (attr : AbbrevAttr) (st st' : AttrState)
    (h : decodeAttr env fuel cuh cuTop curArrangeInfo cppTmpFuncMap abbrv attr st = .ok st') :
    st'.cuDbgInfo.Funcs = st.cuDbgInfo.Funcs := by
  unfold decodeAttr at h
  simp only at h
  by_cases h1 : attr.Form = DW_FORM_addr
  · rw [if_pos h1] at h; exact (Except.ok.inj h) ▸ rfl
  rw [if_neg h1] at h
  by_cases h2 : attr.Form = DW_FORM_block2
  · rw [if_pos h2] at h; exact (Except.ok.inj h) ▸ rfl
  rw [if_neg h2] at h
  by_cases h3 : attr.Form = DW_FORM_block4
  · rw [if_pos h3] at h; exact (Except.ok.inj h) ▸ rfl
  rw [if_neg h3] at h
  by_cases h4 : attr.Form = DW_FORM_strp
  · rw [if_pos h4] at h
    split at h
    · exact Except.noConfusion h
    · rename_i cuPart cuDbgInfo heq
      have hcu : cuDbgInfo.Funcs = st.cuDbgInfo.Funcs := by
        repeat' first
          | exact Except.noConfusion heq
          | exact (Except.ok.inj heq) ▸ rfl
          | (rcases ite_eq_iff.mp heq with ⟨_, heq⟩ | ⟨_, heq⟩)
      rw [← hcu]
      repeat' first
        | exact Except.noConfusion h
        | exact (Except.ok.inj h) ▸ rfl
        | (rcases ite_eq_iff.mp h with ⟨_, h⟩ | ⟨_, h⟩)
  rw [if_neg h4] at h
  by_cases h5 : attr.Form = DW_FORM_data1
  · rw [if_pos h5] at h; exact (Except.ok.inj h) ▸ rfl
  rw [if_neg h5] at h
  by_cases h6 : attr.Form = DW_FORM_data2
  · rw [if_pos h6] at h; exact (Except.ok.inj h) ▸ rfl
  rw [if_neg h6] at h
  by_cases h7 : attr.Form = DW_FORM_data4
  · rw [if_pos h7] at h; exact (Except.ok.inj h) ▸ rfl
  rw [if_neg h7] at h
  by_cases h8 : attr.Form = DW_FORM_data8
  · rw [if_pos h8] at h; exact (Except.ok.inj h) ▸ rfl
  rw [if_neg h8] at h
  by_cases h9 : attr.Form = DW_FORM_string
  · rw [if_pos h9] at h
    repeat' first
      | exact Except.noConfusion h
      | exact (Except.ok.inj h) ▸ rfl
      | (rcases ite_eq_iff.mp h with ⟨_, h⟩ | ⟨_, h⟩)
  rw [if_neg h9] at h
  by_cases h10 : attr.Form = DW_FORM_block
  · rw [if_pos h10] at h; exact (Except.ok.inj h) ▸ rfl
  rw [if_neg h10] at h
  by_cases h11 : attr.Form = DW_FORM_block1
  · rw [if_pos h11] at h; exact (Except.ok.inj h) ▸ rfl
  rw [if_neg h11] at h
  by_cases h12 : attr.Form = DW_FORM_flag
  · rw [if_pos h12] at h; exact (Except.ok.inj h) ▸ rfl
  rw [if_neg h12] at h
  by_cases h13 : attr.Form = DW_FORM_sdata ∨ attr.Form = DW_FORM_udata
  · rw [if_pos h13] at h; exact (Except.ok.inj h) ▸ rfl
  rw [if_neg h13] at h
  by_cases h14 : attr.Form = DW_FORM_ref1
  · rw [if_pos h14] at h; exact (Except.ok.inj h) ▸ rfl
  rw [if_neg h14] at h
  by_cases h15 : attr.Form = DW_FORM_ref2
  · rw [if_pos h15] at h; exact (Except.ok.inj h) ▸ rfl
  rw [if_neg h15] at h
  by_cases h16 : attr.Form = DW_FORM_ref4
  · rw [if_pos h16] at h; exact (Except.ok.inj h) ▸ rfl
  rw [if_neg h16] at h
  by_cases h17 : attr.Form = DW_FORM_sec_offset
  · rw [if_pos h17] at h
    repeat' first
      | exact Except.noConfusion h
      | exact (Except.ok.inj h) ▸ rfl
      | (rcases ite_eq_iff.mp h with ⟨_, h⟩ | ⟨_, h⟩)
  rw [if_neg h17] at h
  by_cases h18 : attr.Form = DW_FORM_exprloc
  · rw [if_pos h18] at h
    split at h
    · exact Except.noConfusion h
    · exact (Except.ok.inj h) ▸ rfl
  rw [if_neg h18] at h
  by_cases h19 : attr.Form = DW_FORM_flag_present
  · rw [if_pos h19] at h; exact (Except.ok.inj h) ▸ rfl
  rw [if_neg h19] at h
  by_cases h20 : attr.Form = DW_FORM_line_strp
  · rw [if_pos h20] at h
    repeat' first
      | exact Except.noConfusion h
      | exact (Except.ok.inj h) ▸ rfl
      | (rcases ite_eq_iff.mp h with ⟨_, h⟩ | ⟨_, h⟩)
  rw [if_neg h20] at h
  by_cases h21 : attr.Form = DW_FORM_implicit_const
  · rw [if_pos h21] at h; exact (Except.ok.inj h) ▸ rfl
  rw [if_neg h21] at h
  exact Except.noConfusion h

/-- The attributes of a DIE do not change the functions of the CU. -/
theorem decodeAttrs_Funcs (env : InfoEnv) (fuel : Nat) (cuh : DwarfCuHdr)
    (cuTop : Nat) (curArrangeInfo : DwarfArangeInfo) (cppTmpFuncMap : StdMap DwarfFuncInfo)
    (abbrv : Abbrev) :
    ∀ (attrs : List AbbrevAttr) (st st' : AttrState),
      decodeAttrs env fuel cuh cuTop curArrangeInfo cppTmpFuncMap abbrv attrs st = .ok st' →
      st'.cuDbgInfo.Funcs = st.cuDbgInfo.Funcs := by
  intro attrs
  induction attrs with
  | nil =>
    intro st st' h
    rw [decodeAttrs] at h
    rw [Except.ok.inj h]
  | cons attr attrs ih =>
    intro st st' h
    rw [decodeAttrs] at h
    cases hd : decodeAttr env fuel cuh cuTop curArrangeInfo cppTmpFuncMap abbrv attr st with
    | error e => rw [hd] at h; exact Except.noConfusion h
    | ok st1 =>
      rw [hd] at h
      rw [ih st1 st' h]
      exact decodeAttr_Funcs env fuel cuh cuTop curArrangeInfo cppTmpFuncMap abbrv attr st st1 hd

/-- The registration of a DIE keeps the functions of the CU stored under their nonzero
address. -/
theorem registerDie_FuncsKeyed (abbrv : Abbrev) (entryOffset : Nat)
    (dwarfFuncInfo : DwarfFuncInfo) (cuDbgInfo : DwarfCuDebugInfo)
    (cppTmpFuncMap : StdMap DwarfFuncInfo) (h : FuncsKeyed cuDbgInfo) :
    FuncsKeyed (registerDie abbrv entryOffset dwarfFuncInfo cuDbgInfo cppTmpFuncMap).1 := by
  unfold registerDie
  by_cases htag : abbrv.Tag = DW_TAG_subprogram
  · rw [if_pos htag]
    by_cases hname : dwarfFuncInfo.Name = [] ∧ cuDbgInfo.Funcs.find dwarfFuncInfo.Addr = none
    · rw [if_pos hname]; exact h
    · rw [if_neg hname]
      by_cases haddr : dwarfFuncInfo.Addr ≠ 0
      · rw [if_pos haddr]
        intro k f hf
        simp only [StdMap.find_assign] at hf
        by_cases hk : dwarfFuncInfo.Addr = k
        · rw [if_pos hk] at hf
          rw [← Option.some.inj hf, ← hk]
          exact ⟨rfl, haddr⟩
        · rw [if_neg hk] at hf
          exact h k f hf
      · rw [if_neg haddr]; exact h
  · rw [if_neg htag]; exact h

/-- A subprogram whose decoded address is `0` goes to the pending declarations. -/
theorem registerDie_addr_zero (abbrv : Abbrev) (entryOffset : Nat)
    (dwarfFuncInfo : DwarfFuncInfo) (cuDbgInfo : DwarfCuDebugInfo)
    (cppTmpFuncMap : StdMap DwarfFuncInfo) (htag : abbrv.Tag = DW_TAG_subprogram)
    (haddr : dwarfFuncInfo.Addr = 0) :
    registerDie abbrv entryOffset dwarfFuncInfo cuDbgInfo cppTmpFuncMap
      = (cuDbgInfo, cppTmpFuncMap.assign entryOffset dwarfFuncInfo) := by
  unfold registerDie
  rw [if_pos htag]
  by_cases hname : dwarfFuncInfo.Name = [] ∧ cuDbgInfo.Funcs.find dwarfFuncInfo.Addr = none
  · rw [if_pos hname]
  · rw [if_neg hname, if_neg (not_not.mpr haddr)]

/-- The DIE loop keeps the functions of the CU stored under their nonzero address. -/
theorem dieLoop_FuncsKeyed (env : InfoEnv) (inner : Nat) (cuh : DwarfCuHdr)
    (cuTop cuEnd : Nat) (curArrangeInfo : DwarfArangeInfo) (abbrevMap : StdMap Abbrev) :
    ∀ (fuel : Nat) (st st' : InfoState), FuncsKeyed st.cuDbgInfo →
      dieLoop env inner cuh cuTop cuEnd curArrangeInfo abbrevMap fuel st = .ok st' →
      FuncsKeyed st'.cuDbgInfo := by
  intro fuel
  induction fuel with
  | zero => intro st st' _ h; exact Except.noConfusion h
  | succ fuel ih =>
    intro st st' hk h
    rw [dieLoop] at h
    by_cases hlt : st.offset < cuEnd
    · rw [if_pos hlt] at h
      simp only at h
      by_cases hid : (ReaduLEB128 env.bin st.offset (sub64 env.dbgInfoEnd st.offset)).1 = 0
      · rw [if_pos hid] at h
        exact ih { st with offset := u64 (st.offset + 1) } st' hk h
      · rw [if_neg hid] at h
        split at h
        · exact Except.noConfusion h
        · rename_i a ha
          refine ih _ st' ?_ h
          apply registerDie_FuncsKeyed
          intro k f hf
          rw [decodeAttrs_Funcs env inner cuh cuTop curArrangeInfo _ _ _ _ a ha] at hf
          exact hk k f hf
    · rw [if_neg hlt] at h
      rw [← Except.ok.inj h]
      exact hk

/-- The CU loop returns CUs whose functions are stored under their nonzero address. -/
theorem cuLoop_FuncsKeyed (env : InfoEnv) (inner : Nat) :
    ∀ (fuel offset cuLineInfoOffset : Nat) (cppTmpFuncMap : StdMap DwarfFuncInfo)
      (dbgInfos dbgInfos' : List DwarfCuDebugInfo),
      (∀ cu ∈ dbgInfos, FuncsKeyed cu) →
      cuLoop env inner fuel offset cuLineInfoOffset cppTmpFuncMap dbgInfos = .ok dbgInfos' →
      ∀ cu ∈ dbgInfos', FuncsKeyed cu := by
  intro fuel
  induction fuel with
  | zero => intro _ _ _ _ _ _ h; exact Except.noConfusion h
  | succ fuel ih =>
    intro offset cuLineInfoOffset cppTmpFuncMap dbgInfos dbgInfos' hk h
    rw [cuLoop] at h
    by_cases hlt : offset < env.dbgInfoEnd
    · rw [if_pos hlt] at h
      simp only at h
      split at h
      · exact Except.noConfusion h
      · split at h
        · exact Except.noConfusion h
        · split at h
          · exact Except.noConfusion h
          · split at h
            · exact Except.noConfusion h
            · rename_i st hst
              refine ih _ _ _ _ dbgInfos' ?_ h
              intro cu hcu
              rcases List.mem_append.mp hcu with hcu | hcu
              · exact hk cu hcu
              · rw [List.mem_singleton.mp hcu]
                refine dieLoop_FuncsKeyed env inner _ _ _ _ _ inner _ st ?_ hst
                intro k f hf
                exact Option.noConfusion hf
    · rw [if_neg hlt] at h
      rw [← Except.ok.inj h]
      exact hk

/-- Claim C37.  In every `DwarfCuDebugInfo` that `ReadDebugInfo` returns, each entry of
`Funcs` has `Addr` equal to its key, and the key is not `0`: the registration of a DIE
assigns `Funcs[Addr]` under the test `Addr != 0` only.  A subprogram whose decoded
address is `0` is stored in the pending declarations, under the offset of its DIE, and
`Funcs` is left as it was. -/
theorem ReadDebugInfo_Funcs_keyed :
    (∀ (fuel : Nat) (bin : List Nat) (size : Nat)
        (dbgInfoShdr dbgStrShdr dbgLineStrShdr dbgAbbrevShdr : Elf64_Shdr)
        (offsetArangeMap : StdMap DwarfArangeInfo) (uninit : Nat → Nat × Nat)
        (dbgInfos : List DwarfCuDebugInfo),
        ReadDebugInfo fuel bin size dbgInfoShdr dbgStrShdr dbgLineStrShdr dbgAbbrevShdr
            offsetArangeMap uninit = .ok dbgInfos →
        ∀ cu ∈ dbgInfos, ∀ (k : Nat) (f : DwarfFuncInfo),
          cu.Funcs.find k = some f → f.Addr = k ∧ k ≠ 0)
    ∧ (∀ (abbrv : Abbrev) (entryOffset : Nat) (dwarfFuncInfo : DwarfFuncInfo)
        (cuDbgInfo : DwarfCuDebugInfo) (cppTmpFuncMap : StdMap DwarfFuncInfo),
        abbrv.Tag = DW_TAG_subprogram → dwarfFuncInfo.Addr = 0 →
        registerDie abbrv entryOffset dwarfFuncInfo cuDbgInfo cppTmpFuncMap
          = (cuDbgInfo, cppTmpFuncMap.assign entryOffset dwarfFuncInfo)) := by
  constructor
  · intro fuel bin size dbgInfoShdr dbgStrShdr dbgLineStrShdr dbgAbbrevShdr offsetArangeMap
      uninit dbgInfos h cu hcu
    unfold ReadDebugInfo at h
    exact cuLoop_FuncsKeyed _ fuel fuel _ _ _ [] dbgInfos
      (fun cu hcu => absurd hcu (List.not_mem_nil cu)) h cu hcu
  · intro abbrv entryOffset dwarfFuncInfo cuDbgInfo cppTmpFuncMap htag haddr
    exact registerDie_addr_zero abbrv entryOffset dwarfFuncInfo cuDbgInfo cppTmpFuncMap htag
      haddr

/-- Witness of claim C37: `ReadDebugInfo` on the unit of `exampleInfoImage` with the DIE
of the subprogram `f` at `0x1000` returns a CU whose `Funcs` holds `f` under the key
`0x1000`, its address; the registration of a subprogram `f` without address stores it
under the offset 11 of its DIE among the pending declarations. -/
theorem ReadDebugInfo_Funcs_keyed_witness :
    (∃ dbgInfos, exampleReadDebugInfo ([1, 0x66, 0] ++ le64 0x1000) = .ok dbgInfos
        ∧ dbgInfos.map (fun cu => cu.Funcs.map (fun p => (p.1, p.2.Addr))) = [[(0x1000, 0x1000)]]
        ∧ ∀ cu ∈ dbgInfos, ∀ (k : Nat) (f : DwarfFuncInfo),
            cu.Funcs.find k = some f → f.Addr = k ∧ k ≠ 0)
    ∧ registerDie exampleSubprogramAbbrev 11 { Name := [0x66] } {} []
      = ({}, [(11, { Name := [0x66] })]) :=
  ⟨⟨[{ Funcs := [(0x1000, { Name := [0x66], Addr := 0x1000 })] }], by rfl, by rfl,
      ReadDebugInfo_Funcs_keyed.1 40 (exampleInfoImage ([1, 0x66, 0] ++ le64 0x1000))
        (exampleInfoImage ([1, 0x66, 0] ++ le64 0x1000)).length ⟨43, 22⟩ ⟨65, 8⟩ ⟨0, 0⟩
        ⟨0, 43⟩ [(0, default)] uninitZero _ (by rfl)⟩,
    ReadDebugInfo_Funcs_keyed.2 exampleSubprogramAbbrev 11 { Name := [0x66] } {} [] (by rfl)
      (by rfl)⟩

/-! ## The pending declarations across CUs -/

/-- The switch of `ReadDebugInfo` reads the pending declarations under one key only,
the target of a `ref4` attribute. -/
theorem decodeAttr_pending_congr (env : InfoEnv) (fuel : Nat) (cuh : DwarfCuHdr)
    (cuTop : Nat) (curArrangeInfo : DwarfArangeInfo) (m1 m2 : StdMap DwarfFuncInfo)
    (abbrv : Abbrev) (attr : AbbrevAttr) (st : AttrState)
    (h : m1.find (sub64 (u64 (cuTop + BinUtil.FromLeToUInt32 env.bin st.offset))
          env.dbgInfoShdr.sh_offset)
        = m2.find (sub64 (u64 (cuTop + BinUtil.FromLeToUInt32 env.bin st.offset))
          env.dbgInfoShdr.sh_offset)) :
    decodeAttr env fuel cuh cuTop curArrangeInfo m1 abbrv attr st
      = decodeAttr env fuel cuh cuTop curArrangeInfo m2 abbrv attr st := by
  unfold decodeAttr
  simp only [h]

/-- A value read by `FromLeToUInt32` fits 32 bits. -/
theorem FromLeToUInt32_lt (bin : List Nat) (off : Nat) :
    BinUtil.FromLeToUInt32 bin off < 2 ^ 32 := by
  unfold BinUtil.FromLeToUInt32 u32
  exact Nat.mod_lt _ (by norm_num)

/-- A weaker agreement follows from a stronger one. -/
theorem PendingAgree.mono {shOffset lo lo' : Nat} {m1 m2 : StdMap DwarfFuncInfo}
    (h : PendingAgree shOffset lo m1 m2) (hle : lo ≤ lo') :
    PendingAgree shOffset lo' m1 m2 := by
  intro k h1 h2
  exact h k (by omega) h2

/-- The key that a `ref4` attribute of the CU at `cuTop` looks up is the key of a DIE at
an offset from `cuTop` on. -/
theorem PendingAgree.find_ref4 {shOffset cuTop : Nat} {m1 m2 : StdMap DwarfFuncInfo}
    (h : PendingAgree shOffset cuTop m1 m2) (hsh : shOffset ≤ cuTop)
    (htop : cuTop + 2 ^ 32 ≤ 2 ^ 64) (v : Nat) (hv : v < 2 ^ 32) :
    m1.find (sub64 (u64 (cuTop + v)) shOffset) = m2.find (sub64 (u64 (cuTop + v)) shOffset) := by
  rw [u64_eq _ (by omega), sub64_eq _ _ (by omega) (by omega)]
  exact h _ (by omega) (by omega)

/-- The attributes of a DIE decode alike with two tables of pending declarations that
agree from the top of the CU on. -/
theorem decodeAttrs_pending_congr (env : InfoEnv) (fuel : Nat) (cuh : DwarfCuHdr)
    (cuTop : Nat) (curArrangeInfo : DwarfArangeInfo) (m1 m2 : StdMap DwarfFuncInfo)
    (abbrv : Abbrev) (hagree : PendingAgree env.dbgInfoShdr.sh_offset cuTop m1 m2)
    (hsh : env.dbgInfoShdr.sh_offset ≤ cuTop) (htop : cuTop + 2 ^ 32 ≤ 2 ^ 64) :
    ∀ (attrs : List AbbrevAttr) (st : AttrState),
      decodeAttrs env fuel cuh cuTop curArrangeInfo m1 abbrv attrs st
        = decodeAttrs env fuel cuh cuTop curArrangeInfo m2 abbrv attrs st := by
  intro attrs
  induction attrs with
  | nil => intro st; rw [decodeAttrs, decodeAttrs]
  | cons attr attrs ih =>
    intro st
    rw [decodeAttrs, decodeAttrs]
    rw [decodeAttr_pending_congr env fuel cuh cuTop curArrangeInfo m1 m2 abbrv attr st
      (hagree.find_ref4 hsh htop _ (FromLeToUInt32_lt _ _))]
    cases decodeAttr env fuel cuh cuTop curArrangeInfo m2 abbrv attr st with
    | error e => rfl
    | ok st1 => exact ih st1

/-- The registration of a DIE does not read the pending declarations: it leaves the
table as it was or assigns the record under the offset of the DIE. -/
theorem registerDie_pending (abbrv : Abbrev) (entryOffset : Nat)
    (dwarfFuncInfo : DwarfFuncInfo) (cuDbgInfo : DwarfCuDebugInfo) :
    ∃ (cu : DwarfCuDebugInfo) (b : Bool), ∀ m : StdMap DwarfFuncInfo,
      registerDie abbrv entryOffset dwarfFuncInfo cuDbgInfo m
        = (cu, if b then m.assign entryOffset dwarfFuncInfo else m) := by
  unfold registerDie
  by_cases htag : abbrv.Tag = DW_TAG_subprogram
  · simp only [if_pos htag]
    by_cases hname : dwarfFuncInfo.Name = [] ∧ cuDbgInfo.Funcs.find dwarfFuncInfo.Addr = none
    · simp only [if_pos hname]
      exact ⟨_, true, fun m => rfl⟩
    · simp only [if_neg hname]
      by_cases haddr : dwarfFuncInfo.Addr ≠ 0
      · simp only [if_pos haddr]
        exact ⟨_, false, fun m => rfl⟩
      · simp only [if_neg haddr]
        exact ⟨_, true, fun m => rfl⟩
  · simp only [if_neg htag]
    exact ⟨_, false, fun m => rfl⟩

/-- An assignment under the same key keeps two tables in agreement. -/
theorem PendingAgree.assign {shOffset lo : Nat} {m1 m2 : StdMap DwarfFuncInfo}
    (h : PendingAgree shOffset lo m1 m2) (key : Nat) (f : DwarfFuncInfo) :
    PendingAgree shOffset lo (m1.assign key f) (m2.assign key f) := by
  intro k h1 h2
  rw [StdMap.find_assign, StdMap.find_assign, h k h1 h2]

/-- The DIE loop of a CU runs alike with two tables of pending declarations that agree
from the top of the CU on. -/
theorem dieLoop_pending_congr (env : InfoEnv) (inner : Nat) (cuh : DwarfCuHdr)
    (cuTop cuEnd : Nat) (curArrangeInfo : DwarfArangeInfo) (abbrevMap : StdMap Abbrev)
    (hsh : env.dbgInfoShdr.sh_offset ≤ cuTop) (htop : cuTop + 2 ^ 32 ≤ 2 ^ 64) :
    ∀ (fuel offset : Nat) (cuDbgInfo : DwarfCuDebugInfo) (cuLineInfoOffset : Nat)
      (m1 m2 : StdMap DwarfFuncInfo),
      PendingAgree env.dbgInfoShdr.sh_offset cuTop m1 m2 →
      DieLoopAgree env.dbgInfoShdr.sh_offset cuTop
        (dieLoop env inner cuh cuTop cuEnd curArrangeInfo abbrevMap fuel
          { offset := offset, cuDbgInfo := cuDbgInfo, cuLineInfoOffset := cuLineInfoOffset,
            cppTmpFuncMap := m1 })
        (dieLoop env inner cuh cuTop cuEnd curArrangeInfo abbrevMap fuel
          { offset := offset, cuDbgInfo := cuDbgInfo, cuLineInfoOffset := cuLineInfoOffset,
            cppTmpFuncMap := m2 }) := by
  intro fuel
  induction fuel with
  | zero =>
    intro offset cuDbgInfo cuLineInfoOffset m1 m2 _
    rw [dieLoop, dieLoop]
    exact rfl
  | succ fuel ih =>
    intro offset cuDbgInfo cuLineInfoOffset m1 m2 hagree
    rw [dieLoop, dieLoop]
    by_cases hlt : offset < cuEnd
    · simp only [if_pos hlt]
      by_cases hid : (ReaduLEB128 env.bin offset (sub64 env.dbgInfoEnd offset)).1 = 0
      · simp only [if_pos hid]
        exact ih _ _ _ m1 m2 hagree
      · simp only [if_neg hid]
        rw [decodeAttrs_pending_congr env inner cuh cuTop curArrangeInfo m1 m2 _ hagree hsh
          htop]
        cases decodeAttrs env inner cuh cuTop curArrangeInfo m2
            (abbrevMap.getD (ReaduLEB128 env.bin offset (sub64 env.dbgInfoEnd offset)).1)
            (abbrevMap.getD (ReaduLEB128 env.bin offset (sub64 env.dbgInfoEnd offset)).1).Attrs
            { offset := u64 (offset
                + (ReaduLEB128 env.bin offset (sub64 env.dbgInfoEnd offset)).2),
              dwarfFuncInfo := env.freshFuncInfo offset, cuDbgInfo := cuDbgInfo,
              cuLineInfoOffset := cuLineInfoOffset } with
        | error e => exact rfl
        | ok a =>
          simp only
          obtain ⟨cu, b, hreg⟩ := registerDie_pending
            (abbrevMap.getD (ReaduLEB128 env.bin offset (sub64 env.dbgInfoEnd offset)).1)
            (sub64 offset env.dbgInfoShdr.sh_offset) a.dwarfFuncInfo a.cuDbgInfo
          rw [hreg m1, hreg m2]
          simp only
          cases b with
          | true => exact ih _ _ _ _ _ (hagree.assign _ _)
          | false => exact ih _ _ _ _ _ hagree
    · simp only [if_neg hlt]
      exact ⟨rfl, rfl, rfl, hagree⟩

/-- The DIE loop ends with the cursor at or past the end of the CU, and records pending
declarations under the keys of DIEs below the end of the CU only. -/
theorem dieLoop_pending_keys (env : InfoEnv) (inner : Nat) (cuh : DwarfCuHdr)
    (cuTop cuEnd : Nat) (curArrangeInfo : DwarfArangeInfo) (abbrevMap : StdMap Abbrev)
    (hsh : env.dbgInfoShdr.sh_offset < 2 ^ 64) (hend : cuEnd < 2 ^ 64) :
    ∀ (fuel : Nat) (st st' : InfoState),
      PendingAgree env.dbgInfoShdr.sh_offset cuEnd st.cppTmpFuncMap [] →
      dieLoop env inner cuh cuTop cuEnd curArrangeInfo abbrevMap fuel st = .ok st' →
      cuEnd ≤ st'.offset
        ∧ PendingAgree env.dbgInfoShdr.sh_offset cuEnd st'.cppTmpFuncMap [] := by
  intro fuel
  induction fuel with
  | zero => intro st st' _ h; exact Except.noConfusion h
  | succ fuel ih =>
    intro st st' hk h
    rw [dieLoop] at h
    by_cases hlt : st.offset < cuEnd
    · rw [if_pos hlt] at h
      simp only at h
      by_cases hid : (ReaduLEB128 env.bin st.offset (sub64 env.dbgInfoEnd st.offset)).1 = 0
      · rw [if_pos hid] at h
        exact ih { st with offset := u64 (st.offset + 1) } st' hk h
      · rw [if_neg hid] at h
        split at h
        · exact Except.noConfusion h
        · rename_i a ha
          refine ih _ st' ?_ h
          obtain ⟨cu, b, hreg⟩ := registerDie_pending
            (abbrevMap.getD (ReaduLEB128 env.bin st.offset (sub64 env.dbgInfoEnd st.offset)).1)
            (sub64 st.offset env.dbgInfoShdr.sh_offset) a.dwarfFuncInfo a.cuDbgInfo
          simp only [hreg]
          cases b with
          | false => exact hk
          | true =>
            intro k h1 h2
            simp only [if_true]
            rw [StdMap.find_assign, if_neg, hk k h1 h2]
            intro hkey
            rw [← hkey] at h1 h2
            unfold sub64 u64 at h1 h2
            rw [Nat.mod_eq_of_lt hsh] at h1 h2
            by_cases hge : env.dbgInfoShdr.sh_offset ≤ st.offset
            · have : (st.offset + (2 ^ 64 - env.dbgInfoShdr.sh_offset)) % 2 ^ 64
                  = st.offset - env.dbgInfoShdr.sh_offset := by
                rw [show st.offset + (2 ^ 64 - env.dbgInfoShdr.sh_offset)
                    = (st.offset - env.dbgInfoShdr.sh_offset) + 2 ^ 64 by omega,
                  Nat.add_mod_right, Nat.mod_eq_of_lt (by omega)]
              rw [this] at h1 h2
              omega
            · have : (st.offset + (2 ^ 64 - env.dbgInfoShdr.sh_offset)) % 2 ^ 64
                  = st.offset + (2 ^ 64 - env.dbgInfoShdr.sh_offset) := by
                rw [Nat.mod_eq_of_lt (by omega)]
              rw [this] at h1 h2
              omega
    · rw [if_neg hlt] at h
      rw [← Except.ok.inj h]
      exact ⟨by omega, hk⟩

/-- The end of a CU is a 64-bit value. -/
theorem cuEndOf_lt (cuh : DwarfCuHdr) (offset cuTop : Nat) : cuEndOf cuh offset cuTop < 2 ^ 64 := by
  unfold cuEndOf u64
  exact Nat.mod_lt _ (by norm_num)

/-- The CU loop of the source, started at a CU with a table of pending declarations
that holds no key of a DIE from that CU on, runs as the loop with a per-CU table. -/
theorem cuLoop_eq_cuLoopPerCU (env : InfoEnv) (inner : Nat)
    (H : env.dbgInfoShdr.sh_offset + env.dbgInfoShdr.sh_size + 2 ^ 32 ≤ 2 ^ 64) :
    ∀ (fuel offset cuLineInfoOffset : Nat) (cppTmpFuncMap : StdMap DwarfFuncInfo)
      (dbgInfos : List DwarfCuDebugInfo),
      env.dbgInfoShdr.sh_offset ≤ offset →
      PendingAgree env.dbgInfoShdr.sh_offset offset cppTmpFuncMap [] →
      cuLoop env inner fuel offset cuLineInfoOffset cppTmpFuncMap dbgInfos
        = cuLoopPerCU env inner fuel offset cuLineInfoOffset dbgInfos := by
  have hend : env.dbgInfoEnd = env.dbgInfoShdr.sh_offset + env.dbgInfoShdr.sh_size := by
    unfold InfoEnv.dbgInfoEnd
    exact u64_eq _ (by omega)
  intro fuel
  induction fuel with
  | zero => intro _ _ _ _ _ _; rfl
  | succ fuel ih =>
    intro offset cuLineInfoOffset m dbgInfos hsh hagree
    rw [cuLoop, cuLoopPerCU]
    by_cases hlt : offset < env.dbgInfoEnd
    · simp only [if_pos hlt]
      rw [hend] at hlt
      cases env.offsetArangeMap.find (sub64 offset env.dbgInfoShdr.sh_offset) with
      | none => rfl
      | some curArrangeInfo =>
        simp only
        cases readCompilationUnitHeader env.bin offset with
        | error e => rfl
        | ok cuh =>
          simp only
          cases ReadAbbrevTbl inner env.bin env.dbgAbbrevShdr
              (u64 (cuh.DebugAbbrevOffset + env.dbgAbbrevShdr.sh_offset)) with
          | error e => rfl
          | ok abbrevTbl =>
            simp only
            have D := dieLoop_pending_congr env inner cuh offset (cuEndOf cuh offset offset)
              curArrangeInfo (abbrevTbl.foldl (fun m a => m.assign a.Id a) []) hsh (by omega)
              inner (u64 (offset + 11)) {} cuLineInfoOffset m [] hagree
            cases hd1 : dieLoop env inner cuh offset (cuEndOf cuh offset offset) curArrangeInfo
                (abbrevTbl.foldl (fun m a => m.assign a.Id a) []) inner
                { offset := u64 (offset + 11), cuDbgInfo := {},
                  cuLineInfoOffset := cuLineInfoOffset, cppTmpFuncMap := m } with
            | error e1 =>
              cases hd2 : dieLoop env inner cuh offset (cuEndOf cuh offset offset)
                  curArrangeInfo (abbrevTbl.foldl (fun m a => m.assign a.Id a) []) inner
                  { offset := u64 (offset + 11), cuDbgInfo := {},
                    cuLineInfoOffset := cuLineInfoOffset, cppTmpFuncMap := [] } with
              | error e2 =>
                rw [hd1, hd2] at D
                simp only [DieLoopAgree] at D
                simp only [D]
              | ok r2 =>
                rw [hd1, hd2] at D
                exact False.elim D
            | ok r1 =>
              cases hd2 : dieLoop env inner cuh offset (cuEndOf cuh offset offset)
                  curArrangeInfo (abbrevTbl.foldl (fun m a => m.assign a.Id a) []) inner
                  { offset := u64 (offset + 11), cuDbgInfo := {},
                    cuLineInfoOffset := cuLineInfoOffset, cppTmpFuncMap := [] } with
              | error e2 =>
                rw [hd1, hd2] at D
                exact False.elim D
              | ok r2 =>
                rw [hd1, hd2] at D
                obtain ⟨D1, D2, D3, _⟩ := D
                simp only
                rw [← D1, ← D2, ← D3]
                have h11 : u64 (offset + 11) = offset + 11 := u64_eq _ (by omega)
                rw [h11] at hd1
                have key : env.dbgInfoShdr.sh_offset ≤ r1.offset
                    ∧ PendingAgree env.dbgInfoShdr.sh_offset r1.offset r1.cppTmpFuncMap [] := by
                  by_cases hrun : offset + 11 < cuEndOf cuh offset offset
                  · have hk := dieLoop_pending_keys env inner cuh offset
                      (cuEndOf cuh offset offset) curArrangeInfo _ (by omega)
                      (cuEndOf_lt cuh offset offset) inner _ r1
                      (hagree.mono (by omega)) hd1
                    exact ⟨by omega, hk.2.mono hk.1⟩
                  · cases inner with
                    | zero => rw [dieLoop] at hd1; exact Except.noConfusion hd1
                    | succ inner =>
                      rw [dieLoop, if_neg hrun] at hd1
                      rw [← Except.ok.inj hd1]
                      exact ⟨by simp only; omega, hagree.mono (by simp only; omega)⟩
                exact ih r1.offset r1.cuLineInfoOffset r1.cppTmpFuncMap _ key.1 key.2
    · simp only [if_neg hlt]

/-- Claim C36.  When the section `.debug_info` ends at least `2 ^ 32` bytes below
`2 ^ 64` (so that neither the top of a CU plus 11 nor the target of a `ref4` reference
wraps around), `ReadDebugInfo`, whose table of pending declarations lives across the
CUs, returns what `ReadDebugInfoPerCU` returns, the decoder in which every CU starts with
an empty table: the pending declarations behave as a per-CU table.  A declaration is
recorded under the offset of its DIE, which lies below the end of its CU, and a `ref4`
reference of a later CU looks up an offset from the top of that CU on; so no
`DW_AT_specification` resolves to a declaration recorded while decoding an earlier CU,
and the declarations left at the end of a CU have no effect on the record of a later
one. -/
theorem ReadDebugInfo_pending_per_CU (fuel : Nat) (bin : List Nat) (size : Nat)
    (dbgInfoShdr dbgStrShdr dbgLineStrShdr dbgAbbrevShdr : Elf64_Shdr)
    (offsetArangeMap : StdMap DwarfArangeInfo) (uninit : Nat → Nat × Nat)
    (H : dbgInfoShdr.sh_offset + dbgInfoShdr.sh_size + 2 ^ 32 ≤ 2 ^ 64) :
    ReadDebugInfo fuel bin size dbgInfoShdr dbgStrShdr dbgLineStrShdr dbgAbbrevShdr
        offsetArangeMap uninit
      = ReadDebugInfoPerCU fuel bin size dbgInfoShdr dbgStrShdr dbgLineStrShdr dbgAbbrevShdr
        offsetArangeMap uninit := by
  unfold ReadDebugInfo ReadDebugInfoPerCU
  exact cuLoop_eq_cuLoopPerCU _ fuel H fuel _ 0 [] [] (le_refl _) (fun k _ _ => rfl)

/-- Witness of claim C36: on `exampleTwoCuImage`, whose first CU leaves the declaration
of `f` pending and whose second CU resolves a specification to its own declaration of
`g`, the decoder with a per-CU table returns what `ReadDebugInfo` returns: no function
for the first CU, the function `g` at `0x4000` for the second. -/
theorem ReadDebugInfo_pending_per_CU_witness :
    ReadDebugInfoPerCU 40 exampleTwoCuImage 58 ⟨17, 41⟩ ⟨0, 0⟩ ⟨0, 0⟩ ⟨0, 17⟩
        [(0, default), (14, default)] uninitZero
      = .ok [{ Funcs := [] },
             { Funcs := [(0x4000, { Name := [0x67], Addr := 0x4000 })] }] :=
  (ReadDebugInfo_pending_per_CU 40 exampleTwoCuImage 58 ⟨17, 41⟩ ⟨0, 0⟩ ⟨0, 0⟩ ⟨0, 17⟩
    [(0, default), (14, default)] uninitZero (by decide)).symm.trans (by rfl)

/-! ## Progress of `ReadDebugInfo` -/

/-- The attribute loop on a list of attributes in two parts. -/
theorem decodeAttrs_append (env : InfoEnv) (fuel : Nat) (cuh : DwarfCuHdr)
    (cuTop : Nat) (curArrangeInfo : DwarfArangeInfo) (cppTmpFuncMap : StdMap DwarfFuncInfo)
    (abbrv : Abbrev) (post : List AbbrevAttr) :
    ∀ (pre : List AbbrevAttr) (st a : AttrState),
      decodeAttrs env fuel cuh cuTop curArrangeInfo cppTmpFuncMap abbrv (pre ++ post) st
          = .ok a →
      ∃ s, decodeAttrs env fuel cuh cuTop curArrangeInfo cppTmpFuncMap abbrv pre st = .ok s
        ∧ decodeAttrs env fuel cuh cuTop curArrangeInfo cppTmpFuncMap abbrv post s = .ok a := by
  intro pre
  induction pre with
  | nil =>
    intro st a h
    exact ⟨st, by rw [decodeAttrs], h⟩
  | cons x pre ih =>
    intro st a h
    rw [List.cons_append, decodeAttrs] at h
    rw [decodeAttrs]
    cases hd : decodeAttr env fuel cuh cuTop curArrangeInfo cppTmpFuncMap abbrv x st with
    | error e => rw [hd] at h; exact Except.noConfusion h
    | ok st1 =>
      rw [hd] at h
      exact ih st1 a h

/-- The record of a subprogram DIE after one attribute that is no `DW_AT_specification`
of form `ref4`: the attribute assigns the member it sets the value it holds at the
cursor and leaves the other members as they were. -/
theorem decodeAttr_record (env : InfoEnv) (fuel : Nat) (cuh : DwarfCuHdr)
    (cuTop : Nat) (curArrangeInfo : DwarfArangeInfo) (cppTmpFuncMap : StdMap DwarfFuncInfo)
    (abbrv : Abbrev) (attr : AbbrevAttr) (st st' : AttrState)
    (htag : abbrv.Tag = DW_TAG_subprogram) (hspec : ¬ attr.IsSpecification)
    (h : decodeAttr env fuel cuh cuTop curArrangeInfo cppTmpFuncMap abbrv attr st = .ok st') :
    st'.dwarfFuncInfo
      = { SrcFilePath := st.dwarfFuncInfo.SrcFilePath,
          Name := if attr.SetsName then attrString env attr st.offset
                  else st.dwarfFuncInfo.Name,
          LinkageName := if attr.SetsLinkageName then attrString env attr st.offset
                         else st.dwarfFuncInfo.LinkageName,
          Addr := if attr.SetsAddr then attrAddr cuh env.bin st.offset
                  else st.dwarfFuncInfo.Addr,
          Size := if attr.SetsSize then attrSize env.bin attr st.offset
                  else st.dwarfFuncInfo.Size } := by
  have hne : ¬ abbrv.Tag = DW_TAG_compile_unit := by rw [htag]; decide
  unfold decodeAttr at h
  simp only at h
  by_cases h1 : attr.Form = DW_FORM_addr
  · rw [if_pos h1] at h
    rw [← Except.ok.inj h]
    by_cases ha : attr.Attr = DW_AT_low_pc
    · simp [h1, ha, AbbrevAttr.SetsName, AbbrevAttr.SetsLinkageName, AbbrevAttr.SetsAddr,
        AbbrevAttr.SetsSize, AbbrevAttr.IsSpecification, attrAddr, attrString, attrSize,
        DW_FORM_addr, DW_FORM_block2, DW_FORM_block4, DW_FORM_strp, DW_FORM_data1,
        DW_FORM_data2, DW_FORM_data4, DW_FORM_data8, DW_FORM_string, DW_FORM_block,
        DW_FORM_block1, DW_FORM_flag, DW_FORM_sdata, DW_FORM_udata, DW_FORM_ref1,
        DW_FORM_ref2, DW_FORM_ref4, DW_FORM_sec_offset, DW_FORM_exprloc,
        DW_FORM_flag_present, DW_FORM_line_strp, DW_FORM_implicit_const, DW_AT_name,
        DW_AT_low_pc, DW_AT_high_pc, DW_AT_linkage_name, DW_AT_MIPS_linkage_name,
        DW_AT_specification]
    · simp [h1, (show ¬ attr.Attr = 0x11 from ha), AbbrevAttr.SetsName, AbbrevAttr.SetsLinkageName, AbbrevAttr.SetsAddr,
        AbbrevAttr.SetsSize, AbbrevAttr.IsSpecification, attrAddr, attrString, attrSize,
        DW_FORM_addr, DW_FORM_block2, DW_FORM_block4, DW_FORM_strp, DW_FORM_data1,
        DW_FORM_data2, DW_FORM_data4, DW_FORM_data8, DW_FORM_string, DW_FORM_block,
        DW_FORM_block1, DW_FORM_flag, DW_FORM_sdata, DW_FORM_udata, DW_FORM_ref1,
        DW_FORM_ref2, DW_FORM_ref4, DW_FORM_sec_offset, DW_FORM_exprloc,
        DW_FORM_flag_present, DW_FORM_line_strp, DW_FORM_implicit_const, DW_AT_name,
        DW_AT_low_pc, DW_AT_high_pc, DW_AT_linkage_name, DW_AT_MIPS_linkage_name,
        DW_AT_specification]
  rw [if_neg h1] at h
  by_cases h2 : attr.Form = DW_FORM_block2
  · rw [if_pos h2] at h
    rw [← Except.ok.inj h]
    simp [h2, AbbrevAttr.SetsName, AbbrevAttr.SetsLinkageName, AbbrevAttr.SetsAddr,
        AbbrevAttr.SetsSize, AbbrevAttr.IsSpecification, attrAddr, attrString, attrSize,
        DW_FORM_addr, DW_FORM_block2, DW_FORM_block4, DW_FORM_strp, DW_FORM_data1,
        DW_FORM_data2, DW_FORM_data4, DW_FORM_data8, DW_FORM_string, DW_FORM_block,
        DW_FORM_block1, DW_FORM_flag, DW_FORM_sdata, DW_FORM_udata, DW_FORM_ref1,
        DW_FORM_ref2, DW_FORM_ref4, DW_FORM_sec_offset, DW_FORM_exprloc,
        DW_FORM_flag_present, DW_FORM_line_strp, DW_FORM_implicit_const, DW_AT_name,
        DW_AT_low_pc, DW_AT_high_pc, DW_AT_linkage_name, DW_AT_MIPS_linkage_name,
        DW_AT_specification]
  rw [if_neg h2] at h
  by_cases h3 : attr.Form = DW_FORM_block4
  · rw [if_pos h3] at h
    rw [← Except.ok.inj h]
    simp [h3, AbbrevAttr.SetsName, AbbrevAttr.SetsLinkageName, AbbrevAttr.SetsAddr,
        AbbrevAttr.SetsSize, AbbrevAttr.IsSpecification, attrAddr, attrString, attrSize,
        DW_FORM_addr, DW_FORM_block2, DW_FORM_block4, DW_FORM_strp, DW_FORM_data1,
        DW_FORM_data2, DW_FORM_data4, DW_FORM_data8, DW_FORM_string, DW_FORM_block,
        DW_FORM_block1, DW_FORM_flag, DW_FORM_sdata, DW_FORM_udata, DW_FORM_ref1,
        DW_FORM_ref2, DW_FORM_ref4, DW_FORM_sec_offset, DW_FORM_exprloc,
        DW_FORM_flag_present, DW_FORM_line_strp, DW_FORM_implicit_const, DW_AT_name,
        DW_AT_low_pc, DW_AT_high_pc, DW_AT_linkage_name, DW_AT_MIPS_linkage_name,
        DW_AT_specification]
  rw [if_neg h3] at h
  by_cases h4 : attr.Form = DW_FORM_strp
  · rw [if_pos h4] at h
    simp only [if_neg hne, if_pos htag] at h
    by_cases ha : attr.Attr = DW_AT_name
    · rw [if_pos ha] at h; rw [← Except.ok.inj h]; simp [h4, ha, AbbrevAttr.SetsName, AbbrevAttr.SetsLinkageName, AbbrevAttr.SetsAddr,
        AbbrevAttr.SetsSize, AbbrevAttr.IsSpecification, attrAddr, attrString, attrSize,
        DW_FORM_addr, DW_FORM_block2, DW_FORM_block4, DW_FORM_strp, DW_FORM_data1,
        DW_FORM_data2, DW_FORM_data4, DW_FORM_data8, DW_FORM_string, DW_FORM_block,
        DW_FORM_block1, DW_FORM_flag, DW_FORM_sdata, DW_FORM_udata, DW_FORM_ref1,
        DW_FORM_ref2, DW_FORM_ref4, DW_FORM_sec_offset, DW_FORM_exprloc,
        DW_FORM_flag_present, DW_FORM_line_strp, DW_FORM_implicit_const, DW_AT_name,
        DW_AT_low_pc, DW_AT_high_pc, DW_AT_linkage_name, DW_AT_MIPS_linkage_name,
        DW_AT_specification]
    rw [if_neg ha] at h
    by_cases hb : attr.Attr = DW_AT_linkage_name
    · rw [if_pos hb] at h; rw [← Except.ok.inj h]; simp [h4, hb, AbbrevAttr.SetsName, AbbrevAttr.SetsLinkageName, AbbrevAttr.SetsAddr,
        AbbrevAttr.SetsSize, AbbrevAttr.IsSpecification, attrAddr, attrString, attrSize,
        DW_FORM_addr, DW_FORM_block2, DW_FORM_block4, DW_FORM_strp, DW_FORM_data1,
        DW_FORM_data2, DW_FORM_data4, DW_FORM_data8, DW_FORM_string, DW_FORM_block,
        DW_FORM_block1, DW_FORM_flag, DW_FORM_sdata, DW_FORM_udata, DW_FORM_ref1,
        DW_FORM_ref2, DW_FORM_ref4, DW_FORM_sec_offset, DW_FORM_exprloc,
        DW_FORM_flag_present, DW_FORM_line_strp, DW_FORM_implicit_const, DW_AT_name,
        DW_AT_low_pc, DW_AT_high_pc, DW_AT_linkage_name, DW_AT_MIPS_linkage_name,
        DW_AT_specification]
    rw [if_neg hb] at h
    by_cases hc : attr.Attr = DW_AT_MIPS_linkage_name
    · rw [if_pos hc] at h; rw [← Except.ok.inj h]; simp [h4, hc, AbbrevAttr.SetsName, AbbrevAttr.SetsLinkageName, AbbrevAttr.SetsAddr,
        AbbrevAttr.SetsSize, AbbrevAttr.IsSpecification, attrAddr, attrString, attrSize,
        DW_FORM_addr, DW_FORM_block2, DW_FORM_block4, DW_FORM_strp, DW_FORM_data1,
        DW_FORM_data2, DW_FORM_data4, DW_FORM_data8, DW_FORM_string, DW_FORM_block,
        DW_FORM_block1, DW_FORM_flag, DW_FORM_sdata, DW_FORM_udata, DW_FORM_ref1,
        DW_FORM_ref2, DW_FORM_ref4, DW_FORM_sec_offset, DW_FORM_exprloc,
        DW_FORM_flag_present, DW_FORM_line_strp, DW_FORM_implicit_const, DW_AT_name,
        DW_AT_low_pc, DW_AT_high_pc, DW_AT_linkage_name, DW_AT_MIPS_linkage_name,
        DW_AT_specification]
    rw [if_neg hc] at h
    exact Except.noConfusion h
  rw [if_neg h4] at h
  by_cases h5 : attr.Form = DW_FORM_data1
  · rw [if_pos h5] at h
    rw [← Except.ok.inj h]
    simp [h5, AbbrevAttr.SetsName, AbbrevAttr.SetsLinkageName, AbbrevAttr.SetsAddr,
        AbbrevAttr.SetsSize, AbbrevAttr.IsSpecification, attrAddr, attrString, attrSize,
        DW_FORM_addr, DW_FORM_block2, DW_FORM_block4, DW_FORM_strp, DW_FORM_data1,
        DW_FORM_data2, DW_FORM_data4, DW_FORM_data8, DW_FORM_string, DW_FORM_block,
        DW_FORM_block1, DW_FORM_flag, DW_FORM_sdata, DW_FORM_udata, DW_FORM_ref1,
        DW_FORM_ref2, DW_FORM_ref4, DW_FORM_sec_offset, DW_FORM_exprloc,
        DW_FORM_flag_present, DW_FORM_line_strp, DW_FORM_implicit_const, DW_AT_name,
        DW_AT_low_pc, DW_AT_high_pc, DW_AT_linkage_name, DW_AT_MIPS_linkage_name,
        DW_AT_specification]
  rw [if_neg h5] at h
  by_cases h6 : attr.Form = DW_FORM_data2
  · rw [if_pos h6] at h
    rw [← Except.ok.inj h]
    by_cases ha : attr.Attr = DW_AT_high_pc
    · simp [h6, ha, AbbrevAttr.SetsName, AbbrevAttr.SetsLinkageName, AbbrevAttr.SetsAddr,
        AbbrevAttr.SetsSize, AbbrevAttr.IsSpecification, attrAddr, attrString, attrSize,
        DW_FORM_addr, DW_FORM_block2, DW_FORM_block4, DW_FORM_strp, DW_FORM_data1,
        DW_FORM_data2, DW_FORM_data4, DW_FORM_data8, DW_FORM_string, DW_FORM_block,
        DW_FORM_block1, DW_FORM_flag, DW_FORM_sdata, DW_FORM_udata, DW_FORM_ref1,
        DW_FORM_ref2, DW_FORM_ref4, DW_FORM_sec_offset, DW_FORM_exprloc,
        DW_FORM_flag_present, DW_FORM_line_strp, DW_FORM_implicit_const, DW_AT_name,
        DW_AT_low_pc, DW_AT_high_pc, DW_AT_linkage_name, DW_AT_MIPS_linkage_name,
        DW_AT_specification]
    · simp [h6, (show ¬ attr.Attr = 0x12 from ha), AbbrevAttr.SetsName, AbbrevAttr.SetsLinkageName, AbbrevAttr.SetsAddr,
        AbbrevAttr.SetsSize, AbbrevAttr.IsSpecification, attrAddr, attrString, attrSize,
        DW_FORM_addr, DW_FORM_block2, DW_FORM_block4, DW_FORM_strp, DW_FORM_data1,
        DW_FORM_data2, DW_FORM_data4, DW_FORM_data8, DW_FORM_string, DW_FORM_block,
        DW_FORM_block1, DW_FORM_flag, DW_FORM_sdata, DW_FORM_udata, DW_FORM_ref1,
        DW_FORM_ref2, DW_FORM_ref4, DW_FORM_sec_offset, DW_FORM_exprloc,
        DW_FORM_flag_present, DW_FORM_line_strp, DW_FORM_implicit_const, DW_AT_name,
        DW_AT_low_pc, DW_AT_high_pc, DW_AT_linkage_name, DW_AT_MIPS_linkage_name,
        DW_AT_specification]
  rw [if_neg h6] at h
  by_cases h7 : attr.Form = DW_FORM_data4
  · rw [if_pos h7] at h
    rw [← Except.ok.inj h]
    by_cases ha : attr.Attr = DW_AT_high_pc
    · simp [h7, ha, AbbrevAttr.SetsName, AbbrevAttr.SetsLinkageName, AbbrevAttr.SetsAddr,
        AbbrevAttr.SetsSize, AbbrevAttr.IsSpecification, attrAddr, attrString, attrSize,
        DW_FORM_addr, DW_FORM_block2, DW_FORM_block4, DW_FORM_strp, DW_FORM_data1,
        DW_FORM_data2, DW_FORM_data4, DW_FORM_data8, DW_FORM_string, DW_FORM_block,
        DW_FORM_block1, DW_FORM_flag, DW_FORM_sdata, DW_FORM_udata, DW_FORM_ref1,
        DW_FORM_ref2, DW_FORM_ref4, DW_FORM_sec_offset, DW_FORM_exprloc,
        DW_FORM_flag_present, DW_FORM_line_strp, DW_FORM_implicit_const, DW_AT_name,
        DW_AT_low_pc, DW_AT_high_pc, DW_AT_linkage_name, DW_AT_MIPS_linkage_name,
        DW_AT_specification]
    · simp [h7, (show ¬ attr.Attr = 0x12 from ha), AbbrevAttr.SetsName, AbbrevAttr.SetsLinkageName, AbbrevAttr.SetsAddr,
        AbbrevAttr.SetsSize, AbbrevAttr.IsSpecification, attrAddr, attrString, attrSize,
        DW_FORM_addr, DW_FORM_block2, DW_FORM_block4, DW_FORM_strp, DW_FORM_data1,
        DW_FORM_data2, DW_FORM_data4, DW_FORM_data8, DW_FORM_string, DW_FORM_block,
        DW_FORM_block1, DW_FORM_flag, DW_FORM_sdata, DW_FORM_udata, DW_FORM_ref1,
        DW_FORM_ref2, DW_FORM_ref4, DW_FORM_sec_offset, DW_FORM_exprloc,
        DW_FORM_flag_present, DW_FORM_line_strp, DW_FORM_implicit_const, DW_AT_name,
        DW_AT_low_pc, DW_AT_high_pc, DW_AT_linkage_name, DW_AT_MIPS_linkage_name,
        DW_AT_specification]
  rw [if_neg h7] at h
  by_cases h8 : attr.Form = DW_FORM_data8
  · rw [if_pos h8] at h
    rw [← Except.ok.inj h]
    by_cases ha : attr.Attr = DW_AT_high_pc
    · simp [h8, ha, AbbrevAttr.SetsName, AbbrevAttr.SetsLinkageName, AbbrevAttr.SetsAddr,
        AbbrevAttr.SetsSize, AbbrevAttr.IsSpecification, attrAddr, attrString, attrSize,
        DW_FORM_addr, DW_FORM_block2, DW_FORM_block4, DW_FORM_strp, DW_FORM_data1,
        DW_FORM_data2, DW_FORM_data4, DW_FORM_data8, DW_FORM_string, DW_FORM_block,
        DW_FORM_block1, DW_FORM_flag, DW_FORM_sdata, DW_FORM_udata, DW_FORM_ref1,
        DW_FORM_ref2, DW_FORM_ref4, DW_FORM_sec_offset, DW_FORM_exprloc,
        DW_FORM_flag_present, DW_FORM_line_strp, DW_FORM_implicit_const, DW_AT_name,
        DW_AT_low_pc, DW_AT_high_pc, DW_AT_linkage_name, DW_AT_MIPS_linkage_name,
        DW_AT_specification]
    · simp [h8, (show ¬ attr.Attr = 0x12 from ha), AbbrevAttr.SetsName, AbbrevAttr.SetsLinkageName, AbbrevAttr.SetsAddr,
        AbbrevAttr.SetsSize, AbbrevAttr.IsSpecification, attrAddr, attrString, attrSize,
        DW_FORM_addr, DW_FORM_block2, DW_FORM_block4, DW_FORM_strp, DW_FORM_data1,
        DW_FORM_data2, DW_FORM_data4, DW_FORM_data8, DW_FORM_string, DW_FORM_block,
        DW_FORM_block1, DW_FORM_flag, DW_FORM_sdata, DW_FORM_udata, DW_FORM_ref1,
        DW_FORM_ref2, DW_FORM_ref4, DW_FORM_sec_offset, DW_FORM_exprloc,
        DW_FORM_flag_present, DW_FORM_line_strp, DW_FORM_implicit_const, DW_AT_name,
        DW_AT_low_pc, DW_AT_high_pc, DW_AT_linkage_name, DW_AT_MIPS_linkage_name,
        DW_AT_specification]
  rw [if_neg h8] at h
  by_cases h9 : attr.Form = DW_FORM_string
  · rw [if_pos h9] at h
    rw [if_pos htag] at h
    by_cases ha : attr.Attr = DW_AT_name
    · rw [if_pos ha] at h; rw [← Except.ok.inj h]; simp [h9, ha, AbbrevAttr.SetsName, AbbrevAttr.SetsLinkageName, AbbrevAttr.SetsAddr,
        AbbrevAttr.SetsSize, AbbrevAttr.IsSpecification, attrAddr, attrString, attrSize,
        DW_FORM_addr, DW_FORM_block2, DW_FORM_block4, DW_FORM_strp, DW_FORM_data1,
        DW_FORM_data2, DW_FORM_data4, DW_FORM_data8, DW_FORM_string, DW_FORM_block,
        DW_FORM_block1, DW_FORM_flag, DW_FORM_sdata, DW_FORM_udata, DW_FORM_ref1,
        DW_FORM_ref2, DW_FORM_ref4, DW_FORM_sec_offset, DW_FORM_exprloc,
        DW_FORM_flag_present, DW_FORM_line_strp, DW_FORM_implicit_const, DW_AT_name,
        DW_AT_low_pc, DW_AT_high_pc, DW_AT_linkage_name, DW_AT_MIPS_linkage_name,
        DW_AT_specification]
    rw [if_neg ha] at h
    by_cases hb : attr.Attr = DW_AT_linkage_name
    · rw [if_pos hb] at h; rw [← Except.ok.inj h]; simp [h9, hb, AbbrevAttr.SetsName, AbbrevAttr.SetsLinkageName, AbbrevAttr.SetsAddr,
        AbbrevAttr.SetsSize, AbbrevAttr.IsSpecification, attrAddr, attrString, attrSize,
        DW_FORM_addr, DW_FORM_block2, DW_FORM_block4, DW_FORM_strp, DW_FORM_data1,
        DW_FORM_data2, DW_FORM_data4, DW_FORM_data8, DW_FORM_string, DW_FORM_block,
        DW_FORM_block1, DW_FORM_flag, DW_FORM_sdata, DW_FORM_udata, DW_FORM_ref1,
        DW_FORM_ref2, DW_FORM_ref4, DW_FORM_sec_offset, DW_FORM_exprloc,
        DW_FORM_flag_present, DW_FORM_line_strp, DW_FORM_implicit_const, DW_AT_name,
        DW_AT_low_pc, DW_AT_high_pc, DW_AT_linkage_name, DW_AT_MIPS_linkage_name,
        DW_AT_specification]
    rw [if_neg hb] at h
    exact Except.noConfusion h
  rw [if_neg h9] at h
  by_cases h10 : attr.Form = DW_FORM_block
  · rw [if_pos h10] at h
    rw [← Except.ok.inj h]
    simp [h10, AbbrevAttr.SetsName, AbbrevAttr.SetsLinkageName, AbbrevAttr.SetsAddr,
        AbbrevAttr.SetsSize, AbbrevAttr.IsSpecification, attrAddr, attrString, attrSize,
        DW_FORM_addr, DW_FORM_block2, DW_FORM_block4, DW_FORM_strp, DW_FORM_data1,
        DW_FORM_data2, DW_FORM_data4, DW_FORM_data8, DW_FORM_string, DW_FORM_block,
        DW_FORM_block1, DW_FORM_flag, DW_FORM_sdata, DW_FORM_udata, DW_FORM_ref1,
        DW_FORM_ref2, DW_FORM_ref4, DW_FORM_sec_offset, DW_FORM_exprloc,
        DW_FORM_flag_present, DW_FORM_line_strp, DW_FORM_implicit_const, DW_AT_name,
        DW_AT_low_pc, DW_AT_high_pc, DW_AT_linkage_name, DW_AT_MIPS_linkage_name,
        DW_AT_specification]
  rw [if_neg h10] at h
  by_cases h11 : attr.Form = DW_FORM_block1
  · rw [if_pos h11] at h
    rw [← Except.ok.inj h]
    simp [h11, AbbrevAttr.SetsName, AbbrevAttr.SetsLinkageName, AbbrevAttr.SetsAddr,
        AbbrevAttr.SetsSize, AbbrevAttr.IsSpecification, attrAddr, attrString, attrSize,
        DW_FORM_addr, DW_FORM_block2, DW_FORM_block4, DW_FORM_strp, DW_FORM_data1,
        DW_FORM_data2, DW_FORM_data4, DW_FORM_data8, DW_FORM_string, DW_FORM_block,
        DW_FORM_block1, DW_FORM_flag, DW_FORM_sdata, DW_FORM_udata, DW_FORM_ref1,
        DW_FORM_ref2, DW_FORM_ref4, DW_FORM_sec_offset, DW_FORM_exprloc,
        DW_FORM_flag_present, DW_FORM_line_strp, DW_FORM_implicit_const, DW_AT_name,
        DW_AT_low_pc, DW_AT_high_pc, DW_AT_linkage_name, DW_AT_MIPS_linkage_name,
        DW_AT_specification]
  rw [if_neg h11] at h
  by_cases h12 : attr.Form = DW_FORM_flag
  · rw [if_pos h12] at h
    rw [← Except.ok.inj h]
    simp [h12, AbbrevAttr.SetsName, AbbrevAttr.SetsLinkageName, AbbrevAttr.SetsAddr,
        AbbrevAttr.SetsSize, AbbrevAttr.IsSpecification, attrAddr, attrString, attrSize,
        DW_FORM_addr, DW_FORM_block2, DW_FORM_block4, DW_FORM_strp, DW_FORM_data1,
        DW_FORM_data2, DW_FORM_data4, DW_FORM_data8, DW_FORM_string, DW_FORM_block,
        DW_FORM_block1, DW_FORM_flag, DW_FORM_sdata, DW_FORM_udata, DW_FORM_ref1,
        DW_FORM_ref2, DW_FORM_ref4, DW_FORM_sec_offset, DW_FORM_exprloc,
        DW_FORM_flag_present, DW_FORM_line_strp, DW_FORM_implicit_const, DW_AT_name,
        DW_AT_low_pc, DW_AT_high_pc, DW_AT_linkage_name, DW_AT_MIPS_linkage_name,
        DW_AT_specification]
  rw [if_neg h12] at h
  by_cases h13 : attr.Form = DW_FORM_sdata ∨ attr.Form = DW_FORM_udata
  · rw [if_pos h13] at h
    rw [← Except.ok.inj h]
    rcases h13 with hf | hf <;> simp [hf, AbbrevAttr.SetsName, AbbrevAttr.SetsLinkageName, AbbrevAttr.SetsAddr,
        AbbrevAttr.SetsSize, AbbrevAttr.IsSpecification, attrAddr, attrString, attrSize,
        DW_FORM_addr, DW_FORM_block2, DW_FORM_block4, DW_FORM_strp, DW_FORM_data1,
        DW_FORM_data2, DW_FORM_data4, DW_FORM_data8, DW_FORM_string, DW_FORM_block,
        DW_FORM_block1, DW_FORM_flag, DW_FORM_sdata, DW_FORM_udata, DW_FORM_ref1,
        DW_FORM_ref2, DW_FORM_ref4, DW_FORM_sec_offset, DW_FORM_exprloc,
        DW_FORM_flag_present, DW_FORM_line_strp, DW_FORM_implicit_const, DW_AT_name,
        DW_AT_low_pc, DW_AT_high_pc, DW_AT_linkage_name, DW_AT_MIPS_linkage_name,
        DW_AT_specification]
  rw [if_neg h13] at h
  by_cases h14 : attr.Form = DW_FORM_ref1
  · rw [if_pos h14] at h
    rw [← Except.ok.inj h]
    simp [h14, AbbrevAttr.SetsName, AbbrevAttr.SetsLinkageName, AbbrevAttr.SetsAddr,
        AbbrevAttr.SetsSize, AbbrevAttr.IsSpecification, attrAddr, attrString, attrSize,
        DW_FORM_addr, DW_FORM_block2, DW_FORM_block4, DW_FORM_strp, DW_FORM_data1,
        DW_FORM_data2, DW_FORM_data4, DW_FORM_data8, DW_FORM_string, DW_FORM_block,
        DW_FORM_block1, DW_FORM_flag, DW_FORM_sdata, DW_FORM_udata, DW_FORM_ref1,
        DW_FORM_ref2, DW_FORM_ref4, DW_FORM_sec_offset, DW_FORM_exprloc,
        DW_FORM_flag_present, DW_FORM_line_strp, DW_FORM_implicit_const, DW_AT_name,
        DW_AT_low_pc, DW_AT_high_pc, DW_AT_linkage_name, DW_AT_MIPS_linkage_name,
        DW_AT_specification]
  rw [if_neg h14] at h
  by_cases h15 : attr.Form = DW_FORM_ref2
  · rw [if_pos h15] at h
    rw [← Except.ok.inj h]
    simp [h15, AbbrevAttr.SetsName, AbbrevAttr.SetsLinkageName, AbbrevAttr.SetsAddr,
        AbbrevAttr.SetsSize, AbbrevAttr.IsSpecification, attrAddr, attrString, attrSize,
        DW_FORM_addr, DW_FORM_block2, DW_FORM_block4, DW_FORM_strp, DW_FORM_data1,
        DW_FORM_data2, DW_FORM_data4, DW_FORM_data8, DW_FORM_string, DW_FORM_block,
        DW_FORM_block1, DW_FORM_flag, DW_FORM_sdata, DW_FORM_udata, DW_FORM_ref1,
        DW_FORM_ref2, DW_FORM_ref4, DW_FORM_sec_offset, DW_FORM_exprloc,
        DW_FORM_flag_present, DW_FORM_line_strp, DW_FORM_implicit_const, DW_AT_name,
        DW_AT_low_pc, DW_AT_high_pc, DW_AT_linkage_name, DW_AT_MIPS_linkage_name,
        DW_AT_specification]
  rw [if_neg h15] at h
  by_cases h16 : attr.Form = DW_FORM_ref4
  · rw [if_pos h16] at h
    have hs : ¬ attr.Attr = DW_AT_specification := fun hs => hspec ⟨h16, hs⟩
    rw [if_neg hs] at h
    rw [← Except.ok.inj h]; simp [h16, AbbrevAttr.SetsName, AbbrevAttr.SetsLinkageName, AbbrevAttr.SetsAddr,
        AbbrevAttr.SetsSize, AbbrevAttr.IsSpecification, attrAddr, attrString, attrSize,
        DW_FORM_addr, DW_FORM_block2, DW_FORM_block4, DW_FORM_strp, DW_FORM_data1,
        DW_FORM_data2, DW_FORM_data4, DW_FORM_data8, DW_FORM_string, DW_FORM_block,
        DW_FORM_block1, DW_FORM_flag, DW_FORM_sdata, DW_FORM_udata, DW_FORM_ref1,
        DW_FORM_ref2, DW_FORM_ref4, DW_FORM_sec_offset, DW_FORM_exprloc,
        DW_FORM_flag_present, DW_FORM_line_strp, DW_FORM_implicit_const, DW_AT_name,
        DW_AT_low_pc, DW_AT_high_pc, DW_AT_linkage_name, DW_AT_MIPS_linkage_name,
        DW_AT_specification]
  rw [if_neg h16] at h
  by_cases h17 : attr.Form = DW_FORM_sec_offset
  · rw [if_pos h17] at h
    by_cases ha : attr.Attr = DW_AT_stmt_list
    · rw [if_pos ha] at h; rw [← Except.ok.inj h]; simp [h17, AbbrevAttr.SetsName, AbbrevAttr.SetsLinkageName, AbbrevAttr.SetsAddr,
        AbbrevAttr.SetsSize, AbbrevAttr.IsSpecification, attrAddr, attrString, attrSize,
        DW_FORM_addr, DW_FORM_block2, DW_FORM_block4, DW_FORM_strp, DW_FORM_data1,
        DW_FORM_data2, DW_FORM_data4, DW_FORM_data8, DW_FORM_string, DW_FORM_block,
        DW_FORM_block1, DW_FORM_flag, DW_FORM_sdata, DW_FORM_udata, DW_FORM_ref1,
        DW_FORM_ref2, DW_FORM_ref4, DW_FORM_sec_offset, DW_FORM_exprloc,
        DW_FORM_flag_present, DW_FORM_line_strp, DW_FORM_implicit_const, DW_AT_name,
        DW_AT_low_pc, DW_AT_high_pc, DW_AT_linkage_name, DW_AT_MIPS_linkage_name,
        DW_AT_specification]
    rw [if_neg ha] at h
    by_cases hb : attr.Attr = DW_AT_ranges ∨ attr.Attr = DW_AT_location ∨ attr.Attr = GNU_locviews
    · rw [if_pos hb] at h
      by_cases hc : cuh.DwarfFormat = DWARF_32BIT_FORMAT
      · rw [if_pos hc] at h; rw [← Except.ok.inj h]; simp [h17, AbbrevAttr.SetsName, AbbrevAttr.SetsLinkageName, AbbrevAttr.SetsAddr,
        AbbrevAttr.SetsSize, AbbrevAttr.IsSpecification, attrAddr, attrString, attrSize,
        DW_FORM_addr, DW_FORM_block2, DW_FORM_block4, DW_FORM_strp, DW_FORM_data1,
        DW_FORM_data2, DW_FORM_data4, DW_FORM_data8, DW_FORM_string, DW_FORM_block,
        DW_FORM_block1, DW_FORM_flag, DW_FORM_sdata, DW_FORM_udata, DW_FORM_ref1,
        DW_FORM_ref2, DW_FORM_ref4, DW_FORM_sec_offset, DW_FORM_exprloc,
        DW_FORM_flag_present, DW_FORM_line_strp, DW_FORM_implicit_const, DW_AT_name,
        DW_AT_low_pc, DW_AT_high_pc, DW_AT_linkage_name, DW_AT_MIPS_linkage_name,
        DW_AT_specification]
      · rw [if_neg hc] at h; rw [← Except.ok.inj h]; simp [h17, AbbrevAttr.SetsName, AbbrevAttr.SetsLinkageName, AbbrevAttr.SetsAddr,
        AbbrevAttr.SetsSize, AbbrevAttr.IsSpecification, attrAddr, attrString, attrSize,
        DW_FORM_addr, DW_FORM_block2, DW_FORM_block4, DW_FORM_strp, DW_FORM_data1,
        DW_FORM_data2, DW_FORM_data4, DW_FORM_data8, DW_FORM_string, DW_FORM_block,
        DW_FORM_block1, DW_FORM_flag, DW_FORM_sdata, DW_FORM_udata, DW_FORM_ref1,
        DW_FORM_ref2, DW_FORM_ref4, DW_FORM_sec_offset, DW_FORM_exprloc,
        DW_FORM_flag_present, DW_FORM_line_strp, DW_FORM_implicit_const, DW_AT_name,
        DW_AT_low_pc, DW_AT_high_pc, DW_AT_linkage_name, DW_AT_MIPS_linkage_name,
        DW_AT_specification]
    rw [if_neg hb] at h
    exact Except.noConfusion h
  rw [if_neg h17] at h
  by_cases h18 : attr.Form = DW_FORM_exprloc
  · rw [if_pos h18] at h
    split at h
    · exact Except.noConfusion h
    · rw [← Except.ok.inj h]; simp [h18, AbbrevAttr.SetsName, AbbrevAttr.SetsLinkageName, AbbrevAttr.SetsAddr,
        AbbrevAttr.SetsSize, AbbrevAttr.IsSpecification, attrAddr, attrString, attrSize,
        DW_FORM_addr, DW_FORM_block2, DW_FORM_block4, DW_FORM_strp, DW_FORM_data1,
        DW_FORM_data2, DW_FORM_data4, DW_FORM_data8, DW_FORM_string, DW_FORM_block,
        DW_FORM_block1, DW_FORM_flag, DW_FORM_sdata, DW_FORM_udata, DW_FORM_ref1,
        DW_FORM_ref2, DW_FORM_ref4, DW_FORM_sec_offset, DW_FORM_exprloc,
        DW_FORM_flag_present, DW_FORM_line_strp, DW_FORM_implicit_const, DW_AT_name,
        DW_AT_low_pc, DW_AT_high_pc, DW_AT_linkage_name, DW_AT_MIPS_linkage_name,
        DW_AT_specification]
  rw [if_neg h18] at h
  by_cases h19 : attr.Form = DW_FORM_flag_present
  · rw [if_pos h19] at h
    rw [← Except.ok.inj h]
    simp [h19, AbbrevAttr.SetsName, AbbrevAttr.SetsLinkageName, AbbrevAttr.SetsAddr,
        AbbrevAttr.SetsSize, AbbrevAttr.IsSpecification, attrAddr, attrString, attrSize,
        DW_FORM_addr, DW_FORM_block2, DW_FORM_block4, DW_FORM_strp, DW_FORM_data1,
        DW_FORM_data2, DW_FORM_data4, DW_FORM_data8, DW_FORM_string, DW_FORM_block,
        DW_FORM_block1, DW_FORM_flag, DW_FORM_sdata, DW_FORM_udata, DW_FORM_ref1,
        DW_FORM_ref2, DW_FORM_ref4, DW_FORM_sec_offset, DW_FORM_exprloc,
        DW_FORM_flag_present, DW_FORM_line_strp, DW_FORM_implicit_const, DW_AT_name,
        DW_AT_low_pc, DW_AT_high_pc, DW_AT_linkage_name, DW_AT_MIPS_linkage_name,
        DW_AT_specification]
  rw [if_neg h19] at h
  by_cases h20 : attr.Form = DW_FORM_line_strp
  · rw [if_pos h20] at h
    rw [if_neg hne] at h
    rw [← Except.ok.inj h]; simp [h20, AbbrevAttr.SetsName, AbbrevAttr.SetsLinkageName, AbbrevAttr.SetsAddr,
        AbbrevAttr.SetsSize, AbbrevAttr.IsSpecification, attrAddr, attrString, attrSize,
        DW_FORM_addr, DW_FORM_block2, DW_FORM_block4, DW_FORM_strp, DW_FORM_data1,
        DW_FORM_data2, DW_FORM_data4, DW_FORM_data8, DW_FORM_string, DW_FORM_block,
        DW_FORM_block1, DW_FORM_flag, DW_FORM_sdata, DW_FORM_udata, DW_FORM_ref1,
        DW_FORM_ref2, DW_FORM_ref4, DW_FORM_sec_offset, DW_FORM_exprloc,
        DW_FORM_flag_present, DW_FORM_line_strp, DW_FORM_implicit_const, DW_AT_name,
        DW_AT_low_pc, DW_AT_high_pc, DW_AT_linkage_name, DW_AT_MIPS_linkage_name,
        DW_AT_specification]
  rw [if_neg h20] at h
  by_cases h21 : attr.Form = DW_FORM_implicit_const
  · rw [if_pos h21] at h
    rw [← Except.ok.inj h]
    simp [h21, AbbrevAttr.SetsName, AbbrevAttr.SetsLinkageName, AbbrevAttr.SetsAddr,
        AbbrevAttr.SetsSize, AbbrevAttr.IsSpecification, attrAddr, attrString, attrSize,
        DW_FORM_addr, DW_FORM_block2, DW_FORM_block4, DW_FORM_strp, DW_FORM_data1,
        DW_FORM_data2, DW_FORM_data4, DW_FORM_data8, DW_FORM_string, DW_FORM_block,
        DW_FORM_block1, DW_FORM_flag, DW_FORM_sdata, DW_FORM_udata, DW_FORM_ref1,
        DW_FORM_ref2, DW_FORM_ref4, DW_FORM_sec_offset, DW_FORM_exprloc,
        DW_FORM_flag_present, DW_FORM_line_strp, DW_FORM_implicit_const, DW_AT_name,
        DW_AT_low_pc, DW_AT_high_pc, DW_AT_linkage_name, DW_AT_MIPS_linkage_name,
        DW_AT_specification]
  rw [if_neg h21] at h
  exact Except.noConfusion h


/-- Attributes that neither set a member of the record nor are a `DW_AT_specification`
of form `ref4` leave the member as it was. -/
theorem decodeAttrs_member_kept {α : Type} (env : InfoEnv) (fuel : Nat) (cuh : DwarfCuHdr)
    (cuTop : Nat) (curArrangeInfo : DwarfArangeInfo) (cppTmpFuncMap : StdMap DwarfFuncInfo)
    (abbrv : Abbrev) (member : DwarfFuncInfo → α) (sets : AbbrevAttr → Prop)
    (hkept : ∀ (attr : AbbrevAttr) (st st' : AttrState), ¬ attr.IsSpecification →
      ¬ sets attr →
      decodeAttr env fuel cuh cuTop curArrangeInfo cppTmpFuncMap abbrv attr st = .ok st' →
      member st'.dwarfFuncInfo = member st.dwarfFuncInfo) :
    ∀ (attrs : List AbbrevAttr) (st a : AttrState),
      (∀ y ∈ attrs, ¬ sets y ∧ ¬ y.IsSpecification) →
      decodeAttrs env fuel cuh cuTop curArrangeInfo cppTmpFuncMap abbrv attrs st = .ok a →
      member a.dwarfFuncInfo = member st.dwarfFuncInfo := by
  intro attrs
  induction attrs with
  | nil =>
    intro st a _ h
    rw [decodeAttrs] at h
    rw [Except.ok.inj h]
  | cons x attrs ih =>
    intro st a hno h
    rw [decodeAttrs] at h
    cases hd : decodeAttr env fuel cuh cuTop curArrangeInfo cppTmpFuncMap abbrv x st with
    | error e => rw [hd] at h; exact Except.noConfusion h
    | ok st1 =>
      rw [hd] at h
      rw [ih st1 a (fun y hy => hno y (List.mem_cons_of_mem x hy)) h]
      exact hkept x st st1 (hno x (List.mem_cons_self x attrs)).2
        (hno x (List.mem_cons_self x attrs)).1 hd

/-- The value that the attributes of a DIE give to a member of its record: the value
of the last attribute that sets the member, read at the cursor the attribute loop has
reached before it. -/
theorem decodeAttrs_DieValue {α : Type} (env : InfoEnv) (fuel : Nat) (cuh : DwarfCuHdr)
    (cuTop : Nat) (curArrangeInfo : DwarfArangeInfo) (cppTmpFuncMap : StdMap DwarfFuncInfo)
    (abbrv : Abbrev) (member : DwarfFuncInfo → α) (sets : AbbrevAttr → Prop)
    (read : AbbrevAttr → Nat → α)
    (hset : ∀ (attr : AbbrevAttr) (st st' : AttrState), sets attr →
      decodeAttr env fuel cuh cuTop curArrangeInfo cppTmpFuncMap abbrv attr st = .ok st' →
      member st'.dwarfFuncInfo = read attr st.offset)
    (hkept : ∀ (attr : AbbrevAttr) (st st' : AttrState), ¬ attr.IsSpecification →
      ¬ sets attr →
      decodeAttr env fuel cuh cuTop curArrangeInfo cppTmpFuncMap abbrv attr st = .ok st' →
      member st'.dwarfFuncInfo = member st.dwarfFuncInfo)
    (attrs : List AbbrevAttr) (st a : AttrState)
    (h : decodeAttrs env fuel cuh cuTop curArrangeInfo cppTmpFuncMap abbrv attrs st = .ok a) :
    DieValue (fun l => decodeAttrs env fuel cuh cuTop curArrangeInfo cppTmpFuncMap abbrv l st)
      attrs sets read (member st.dwarfFuncInfo) (member a.dwarfFuncInfo) := by
  constructor
  · intro pre x post hsplit hx hpost
    rw [hsplit] at h
    obtain ⟨s, hs, h2⟩ := decodeAttrs_append env fuel cuh cuTop curArrangeInfo cppTmpFuncMap
      abbrv (x :: post) pre st a h
    refine ⟨s, hs, ?_⟩
    rw [decodeAttrs] at h2
    cases hd : decodeAttr env fuel cuh cuTop curArrangeInfo cppTmpFuncMap abbrv x s with
    | error e => rw [hd] at h2; exact Except.noConfusion h2
    | ok s1 =>
      rw [hd] at h2
      rw [decodeAttrs_member_kept env fuel cuh cuTop curArrangeInfo cppTmpFuncMap abbrv member
        sets hkept post s1 a hpost h2]
      exact hset x s s1 hx hd
  · intro hno
    exact decodeAttrs_member_kept env fuel cuh cuTop curArrangeInfo cppTmpFuncMap abbrv member
      sets hkept attrs st a hno h

/-- Claim C23 (amended).  A subprogram DIE that carries a low_pc address `A`: its
abbreviation has a `DW_AT_low_pc` of form `addr` after the attributes `pre`, and no
later attribute of the DIE is a second one or a `DW_AT_specification` of form `ref4`
(which assigns the whole record).  When the attribute loop of the DIE ends, in the
state `a`, the attributes `pre` have been decoded to a state `s`, the address `A` is the
one read at the cursor `s.offset`, and the record `f` of the DIE has `Addr = A` and the
`Name`, `LinkageName` and `Size` that the name, linkage-name and constant-form high_pc
attributes of the DIE give (`DieValue`: the value of the last attribute that sets the
member, read from the bytes at its cursor; an empty string without a name or
linkage-name attribute, the indeterminate size of the record as declared without a
high_pc attribute).  When `A` is not `0` and the name is not empty (or `A` is already a
key of `Funcs`), the iteration of the DIE loop stores `f` in `Funcs` under the key `A`
and leaves the pending declarations as they were; when `A` is `0`, or the name is empty
and `A` is not yet a key of `Funcs`, it leaves `Funcs` as it was and stores `f` among
the pending declarations under the offset of the DIE. -/
theorem dieLoop_subprogram_registered (env : InfoEnv) (inner : Nat) (cuh : DwarfCuHdr)
    (cuTop cuEnd : Nat) (curArrangeInfo : DwarfArangeInfo) (abbrevMap : StdMap Abbrev)
    (fuel : Nat) (st : InfoState) (id len : Nat) (a : AttrState)
    (pre post : List AbbrevAttr) (c : Nat)
    (hlt : st.offset < cuEnd)
    (hid : ReaduLEB128 env.bin st.offset (sub64 env.dbgInfoEnd st.offset) = (id, len))
    (hid0 : id ≠ 0) (htag : (abbrevMap.getD id).Tag = DW_TAG_subprogram)
    (hlow : (abbrevMap.getD id).Attrs
      = pre ++ { Attr := DW_AT_low_pc, Form := DW_FORM_addr, Const := c } :: post)
    (hpost : ∀ y ∈ post, ¬ y.SetsAddr ∧ ¬ y.IsSpecification)
    (hattrs : decodeAttrs env inner cuh cuTop curArrangeInfo st.cppTmpFuncMap
        (abbrevMap.getD id) (abbrevMap.getD id).Attrs
        { offset := u64 (st.offset + len), dwarfFuncInfo := env.freshFuncInfo st.offset,
          cuDbgInfo := st.cuDbgInfo, cuLineInfoOffset := st.cuLineInfoOffset } = .ok a) :
    ∃ (s : AttrState) (f : DwarfFuncInfo) (st' : InfoState),
      decodeAttrs env inner cuh cuTop curArrangeInfo st.cppTmpFuncMap (abbrevMap.getD id) pre
          { offset := u64 (st.offset + len), dwarfFuncInfo := env.freshFuncInfo st.offset,
            cuDbgInfo := st.cuDbgInfo, cuLineInfoOffset := st.cuLineInfoOffset } = .ok s
      ∧ dieLoop env inner cuh cuTop cuEnd curArrangeInfo abbrevMap (fuel + 1) st
        = dieLoop env inner cuh cuTop cuEnd curArrangeInfo abbrevMap fuel st'
      ∧ st'.offset = a.offset
      ∧ f.Addr = attrAddr cuh env.bin s.offset
      ∧ DieValue (fun l => decodeAttrs env inner cuh cuTop curArrangeInfo st.cppTmpFuncMap
            (abbrevMap.getD id) l
            { offset := u64 (st.offset + len), dwarfFuncInfo := env.freshFuncInfo st.offset,
              cuDbgInfo := st.cuDbgInfo, cuLineInfoOffset := st.cuLineInfoOffset })
          (abbrevMap.getD id).Attrs AbbrevAttr.SetsName (attrString env) [] f.Name
      ∧ DieValue (fun l => decodeAttrs env inner cuh cuTop curArrangeInfo st.cppTmpFuncMap
            (abbrevMap.getD id) l
            { offset := u64 (st.offset + len), dwarfFuncInfo := env.freshFuncInfo st.offset,
              cuDbgInfo := st.cuDbgInfo, cuLineInfoOffset := st.cuLineInfoOffset })
          (abbrevMap.getD id).Attrs AbbrevAttr.SetsLinkageName (attrString env) []
          f.LinkageName
      ∧ DieValue (fun l => decodeAttrs env inner cuh cuTop curArrangeInfo st.cppTmpFuncMap
            (abbrevMap.getD id) l
            { offset := u64 (st.offset + len), dwarfFuncInfo := env.freshFuncInfo st.offset,
              cuDbgInfo := st.cuDbgInfo, cuLineInfoOffset := st.cuLineInfoOffset })
          (abbrevMap.getD id).Attrs AbbrevAttr.SetsSize (attrSize env.bin)
          (u32 (env.uninit st.offset).2) f.Size
      ∧ (f.Addr ≠ 0 → (f.Name ≠ [] ∨ st.cuDbgInfo.Funcs.find f.Addr ≠ none) →
          st'.cuDbgInfo.Funcs.find f.Addr = some f
            ∧ st'.cppTmpFuncMap = st.cppTmpFuncMap)
      ∧ (f.Addr = 0 ∨ (f.Name = [] ∧ st.cuDbgInfo.Funcs.find f.Addr = none) →
          st'.cuDbgInfo.Funcs = st.cuDbgInfo.Funcs
            ∧ st'.cppTmpFuncMap
              = st.cppTmpFuncMap.assign (sub64 st.offset env.dbgInfoShdr.sh_offset) f) := by
  have hrec := fun (attr : AbbrevAttr) (s s' : AttrState) (hs : ¬ attr.IsSpecification)
      (hd : decodeAttr env inner cuh cuTop curArrangeInfo st.cppTmpFuncMap (abbrevMap.getD id)
        attr s = .ok s') =>
    decodeAttr_record env inner cuh cuTop curArrangeInfo st.cppTmpFuncMap (abbrevMap.getD id)
      attr s s' htag hs hd
  have hfuncs := decodeAttrs_Funcs env inner cuh cuTop curArrangeInfo st.cppTmpFuncMap
    (abbrevMap.getD id) _ _ a hattrs
  simp only at hfuncs
  -- the address
  have haddr := (decodeAttrs_DieValue env inner cuh cuTop curArrangeInfo st.cppTmpFuncMap
    (abbrevMap.getD id) (fun f => f.Addr) AbbrevAttr.SetsAddr
    (fun _ off => attrAddr cuh env.bin off)
    (fun attr s s' hx hd => by
      rw [hrec attr s s' (fun hsp => by
        have h1 := hx.1; rw [hsp.1] at h1; exact absurd h1 (by decide)) hd]
      simp only [if_pos hx])
    (fun attr s s' hs hx hd => by
      rw [hrec attr s s' hs hd]
      simp only [if_neg hx])
    _ _ a hattrs).1 pre _ post hlow ⟨rfl, rfl⟩ hpost
  obtain ⟨s, hs, hA⟩ := haddr
  have hname := decodeAttrs_DieValue env inner cuh cuTop curArrangeInfo st.cppTmpFuncMap
    (abbrevMap.getD id) (fun f => f.Name) AbbrevAttr.SetsName (attrString env)
    (fun attr s s' hx hd => by
      rw [hrec attr s s' (fun hsp => by
        rcases hx with hx | hx
        · have h1 := hx.1; rw [hsp.1] at h1; exact absurd h1 (by decide)
        · have h1 := hx.1; rw [hsp.1] at h1; exact absurd h1 (by decide)) hd]
      simp only [if_pos hx])
    (fun attr s s' hs hx hd => by
      rw [hrec attr s s' hs hd]
      simp only [if_neg hx])
    _ _ a hattrs
  have hlink := decodeAttrs_DieValue env inner cuh cuTop curArrangeInfo st.cppTmpFuncMap
    (abbrevMap.getD id) (fun f => f.LinkageName) AbbrevAttr.SetsLinkageName (attrString env)
    (fun attr s s' hx hd => by
      rw [hrec attr s s' (fun hsp => by
        rcases hx.1 with h1 | h1
        · rw [hsp.1] at h1; exact absurd h1 (by decide)
        · rw [hsp.1] at h1; exact absurd h1 (by decide)) hd]
      simp only [if_pos hx])
    (fun attr s s' hs hx hd => by
      rw [hrec attr s s' hs hd]
      simp only [if_neg hx])
    _ _ a hattrs
  have hsize := decodeAttrs_DieValue env inner cuh cuTop curArrangeInfo st.cppTmpFuncMap
    (abbrevMap.getD id) (fun f => f.Size) AbbrevAttr.SetsSize
    (fun attr off => attrSize env.bin attr off)
    (fun attr s s' hx hd => by
      rw [hrec attr s s' (fun hsp => by
        rcases hx.1 with h1 | h1 | h1
        · rw [hsp.1] at h1; exact absurd h1 (by decide)
        · rw [hsp.1] at h1; exact absurd h1 (by decide)
        · rw [hsp.1] at h1; exact absurd h1 (by decide)) hd]
      simp only [if_pos hx])
    (fun attr s s' hs hx hd => by
      rw [hrec attr s s' hs hd]
      simp only [if_neg hx])
    _ _ a hattrs
  refine ⟨s, a.dwarfFuncInfo, _, hs, dieLoop_die_step env inner cuh cuTop cuEnd curArrangeInfo
    abbrevMap fuel st id len a hlt hid hid0 hattrs, rfl, hA, hname, hlink, hsize, ?_, ?_⟩
  · intro hne hnm
    have hreg : registerDie (abbrevMap.getD id) (sub64 st.offset env.dbgInfoShdr.sh_offset)
        a.dwarfFuncInfo a.cuDbgInfo st.cppTmpFuncMap
        = ({ a.cuDbgInfo with
             Funcs := a.cuDbgInfo.Funcs.assign a.dwarfFuncInfo.Addr a.dwarfFuncInfo },
           st.cppTmpFuncMap) := by
      unfold registerDie
      rw [if_pos htag, if_neg (by
        intro hc
        rcases hnm with h | h
        · exact h hc.1
        · rw [← hfuncs] at h; exact h hc.2), if_pos hne]
    simp only [hreg]
    exact ⟨StdMap.find_assign_self _ _ _, trivial⟩
  · intro hcase
    have hreg : registerDie (abbrevMap.getD id) (sub64 st.offset env.dbgInfoShdr.sh_offset)
        a.dwarfFuncInfo a.cuDbgInfo st.cppTmpFuncMap
        = (a.cuDbgInfo, st.cppTmpFuncMap.assign (sub64 st.offset env.dbgInfoShdr.sh_offset)
            a.dwarfFuncInfo) := by
      unfold registerDie
      rw [if_pos htag]
      by_cases hc : a.dwarfFuncInfo.Name = []
          ∧ a.cuDbgInfo.Funcs.find a.dwarfFuncInfo.Addr = none
      · rw [if_pos hc]
      · rw [if_neg hc]
        have h0 : a.dwarfFuncInfo.Addr = 0 := by
          rcases hcase with h | h
          · exact h
          · rw [← hfuncs] at h; exact absurd h hc
        rw [if_neg (not_not.mpr h0)]
    simp only [hreg]
    exact ⟨hfuncs, trivial⟩

/-- Witness of claim C23 (amended): the DIE `exampleDie3` of a subprogram with the
attributes name, linkage name, low_pc and high_pc (`data4`), whose low_pc stands after
the two strings at offset 6, is stored in `Funcs` under `0x1000` with the name `f`, the
linkage name `_f` and the size `0x20`, each read from the bytes of the DIE. -/
theorem dieLoop_subprogram_registered_witness :
    ∃ (f : DwarfFuncInfo) (st' : InfoState),
      dieLoop (exampleInfoEnv exampleDie3) 10 (exampleCuHdr DWARF_32BIT_FORMAT) 0 18
          default [(3, exampleAbbrev3)] 2 exampleInfoState = .ok st'
      ∧ f.Addr = 0x1000 ∧ f.Name = [0x66] ∧ f.LinkageName = [0x5f, 0x66] ∧ f.Size = 0x20
      ∧ st'.cuDbgInfo.Funcs.find 0x1000 = some f := by
  obtain ⟨s, f, st', hs, h1, h2, hA, hN, hL, hS, hreg, _⟩ :=
    dieLoop_subprogram_registered (exampleInfoEnv exampleDie3) 10
      (exampleCuHdr DWARF_32BIT_FORMAT) 0 18 default [(3, exampleAbbrev3)] 1
      exampleInfoState 3 1
      { exampleAttrState with
        offset := 18,
        dwarfFuncInfo := { Name := [0x66], LinkageName := [0x5f, 0x66], Addr := 0x1000,
                           Size := 0x20 } }
      [⟨DW_AT_name, DW_FORM_string, 0⟩, ⟨DW_AT_linkage_name, DW_FORM_string, 0⟩]
      [⟨DW_AT_high_pc, DW_FORM_data4, 0⟩] 0
      (by decide) (by decide) (by decide) (by rfl) (by rfl) (by decide) (by rfl)
  have hs6 : s.offset = 6 := by
    rw [Except.ok.inj (hs.symm.trans (show _ = Except.ok
      { exampleAttrState with
        offset := 6, dwarfFuncInfo := { Name := [0x66], LinkageName := [0x5f, 0x66] } }
      from by rfl))]
  have hA' : f.Addr = 0x1000 := by rw [hA, hs6]; rfl
  obtain ⟨sN, hsN, hvN⟩ := hN.1 [] ⟨DW_AT_name, DW_FORM_string, 0⟩
    [⟨DW_AT_linkage_name, DW_FORM_string, 0⟩, ⟨DW_AT_low_pc, DW_FORM_addr, 0⟩,
     ⟨DW_AT_high_pc, DW_FORM_data4, 0⟩] (by rfl) (Or.inr ⟨rfl, rfl⟩) (by decide)
  have hsN1 : sN.offset = 1 := by
    rw [Except.ok.inj (hsN.symm.trans (show _ = Except.ok
      { exampleAttrState with offset := 1 } from by rfl))]
  obtain ⟨sL, hsL, hvL⟩ := hL.1 [⟨DW_AT_name, DW_FORM_string, 0⟩]
    ⟨DW_AT_linkage_name, DW_FORM_string, 0⟩
    [⟨DW_AT_low_pc, DW_FORM_addr, 0⟩, ⟨DW_AT_high_pc, DW_FORM_data4, 0⟩] (by rfl)
    ⟨Or.inr rfl, rfl⟩ (by decide)
  have hsL3 : sL.offset = 3 := by
    rw [Except.ok.inj (hsL.symm.trans (show _ = Except.ok
      { exampleAttrState with offset := 3, dwarfFuncInfo := { Name := [0x66] } }
      from by rfl))]
  obtain ⟨sS, hsS, hvS⟩ := hS.1
    [⟨DW_AT_name, DW_FORM_string, 0⟩, ⟨DW_AT_linkage_name, DW_FORM_string, 0⟩,
     ⟨DW_AT_low_pc, DW_FORM_addr, 0⟩]
    ⟨DW_AT_high_pc, DW_FORM_data4, 0⟩ [] (by rfl) ⟨Or.inr (Or.inl rfl), rfl⟩ (by decide)
  have hsS14 : sS.offset = 14 := by
    rw [Except.ok.inj (hsS.symm.trans (show _ = Except.ok
      { exampleAttrState with
        offset := 14,
        dwarfFuncInfo := { Name := [0x66], LinkageName := [0x5f, 0x66], Addr := 0x1000 } }
      from by rfl))]
  have hN' : f.Name = [0x66] := by rw [hvN, hsN1]; rfl
  have hreg' := hreg (by rw [hA']; decide) (Or.inl (by rw [hN']; decide))
  rw [hA'] at hreg'
  refine ⟨f, st', ?_, hA', hN', ?_, ?_, hreg'.1⟩
  · rw [h1, dieLoop_done _ _ _ _ _ _ _ _ _ (le_of_eq h2.symm)]
  · rw [hvL, hsL3]; rfl
  · rw [hvS, hsS14]; rfl

end Dwarf

namespace Elf64

/-! ## The names read from the string table -/

/-- Claim C39 (`if (pos == 0)`): on the string table `00 66 00 67 00`, which holds the
names `f` at offset 1 and `g` at offset 3, `GetStrFromStrTbl` returns for the offset 1
the four bytes `66 00 67 00`, every byte from the offset to the end of the table, zero
bytes included, and for the offset 3 the bytes `67 00`: the loop tests the position
`pos` against `0` where the sibling `GetSectionName`, which returns `f` for the same
table and offset, tests the byte `bin[offset]`.  For the offset 0 it returns the empty
string.  `GetElfFuncInfos` stores the result as the name of a function. -/
theorem GetStrFromStrTbl_reads_to_table_end :
    GetStrFromStrTbl [0, 0x66, 0, 0x67, 0] 0 5 1 = [0x66, 0, 0x67, 0]
    ∧ GetStrFromStrTbl [0, 0x66, 0, 0x67, 0] 0 5 3 = [0x67, 0]
    ∧ GetStrFromStrTbl [0, 0x66, 0, 0x67, 0] 0 5 0 = []
    ∧ GetSectionName [0, 0x66, 0, 0x67, 0] ⟨0, 5⟩ 1 = [0x66] := by
  refine ⟨?_, ?_, ?_, ?_⟩ <;> rfl

end Elf64
